import Mathlib

/-!
# Gatekeeper: IP-in-IP codec, interfaces, IPv6 ACLs and the CPS block

A shallow embedding of `lib/ipip.c` and of parts of `lib/net.c`, `lib/acl.c`
and `cps/main.c`.

Packet memory is a map from buffer offsets to bytes.  Multi-byte header
fields are stored the way the C code stores them on the little-endian hosts
Gatekeeper runs on: a `uint16_t`/`uint32_t` store writes the least
significant byte first, and `rte_cpu_to_be_16/32/64` are byte swaps.
-/

namespace Gatekeeper

/-! ## Memory and byte order -/

/-- Memory of one packet buffer: the byte stored at every buffer offset. -/
abbrev Mem := Nat → Nat

/-- Store of a `uint8_t`. -/
def store8 (m : Mem) (a v : Nat) : Mem :=
  fun i => if i = a then v % 256 else m i

/-- Store of a `uint16_t` in host (little-endian) order. -/
def store16 (m : Mem) (a v : Nat) : Mem :=
  store8 (store8 m a v) (a + 1) (v / 256)

/-- Store of a `uint32_t` in host (little-endian) order. -/
def store32 (m : Mem) (a v : Nat) : Mem :=
  store16 (store16 m a v) (a + 2) (v / 65536)

/-- The function `rte_memcpy(dst, src, n)` with `src` outside the buffer. -/
def rte_memcpy (m : Mem) (dst : Nat) (src : List Nat) (n : Nat) : Mem :=
  fun i => if dst ≤ i ∧ i < dst + n then src.getD (i - dst) 0 else m i

/-- Load of a `uint8_t`. -/
def load8 (m : Mem) (a : Nat) : Nat := m a

/-- Load of a `uint16_t` in host (little-endian) order. -/
def load16 (m : Mem) (a : Nat) : Nat := m a + 256 * m (a + 1)

/-- Load of a `uint32_t` in host (little-endian) order. -/
def load32 (m : Mem) (a : Nat) : Nat := load16 m a + 65536 * load16 m (a + 2)

/-- The `n` bytes of memory starting at `a`. -/
def loadBytes (m : Mem) (a n : Nat) : List Nat :=
  (List.range n).map (fun i => m (a + i))

/-- Byte swap of a 16-bit value: `rte_cpu_to_be_16` and `rte_be_to_cpu_16`
on a little-endian host. -/
def rte_cpu_to_be_16 (x : Nat) : Nat := (x % 256) * 256 + (x / 256) % 256

/-- The same swap, under its other name. -/
def rte_be_to_cpu_16 (x : Nat) : Nat := rte_cpu_to_be_16 x

/-- Byte swap of a 32-bit value: `rte_cpu_to_be_32` on a little-endian host. -/
def rte_cpu_to_be_32 (x : Nat) : Nat :=
  (x % 256) * 16777216 + (x / 256 % 256) * 65536 + (x / 65536 % 256) * 256
    + (x / 16777216) % 256

/-! ## Constants -/

def ETHER_TYPE_IPv4 : Nat := 0x0800
def ETHER_TYPE_IPv6 : Nat := 0x86DD
def IPPROTO_IPIP : Nat := 4

def IP_VERSION : Nat := 0x40
def IP_HDRLEN : Nat := 0x05
def IP_DEFTTL : Nat := 64
def IP_VHL_DEF : Nat := IP_VERSION ||| IP_HDRLEN
def IP_DN_FRAGMENT_FLAG : Nat := 0x0040
def IPv6_DEFAULT_VTC_FLOW : Nat := 0x60000000
def IPv6_DEFAULT_HOP_LIMITS : Nat := 0xFF

/-- Transmit offload flags of DPDK's `rte_mbuf.h`. -/
def PKT_TX_IPV4 : Nat := 2 ^ 55
def PKT_TX_IP_CKSUM : Nat := 2 ^ 54
def PKT_TX_OUTER_IPV4 : Nat := 2 ^ 59

def sizeof_ether_hdr : Nat := 14
def sizeof_ipv4_hdr : Nat := 20
def sizeof_ipv6_hdr : Nat := 40

/-! ## Packet buffers and tunnel descriptors -/

/-- The fields of DPDK's `struct rte_mbuf` that the codec touches, for a
packet of one segment. -/
structure rte_mbuf where
  buf : Mem
  buf_len : Nat
  data_off : Nat
  data_len : Nat
  pkt_len : Nat
  ol_flags : Nat
  outer_l2_len : Nat
  outer_l3_len : Nat

/-- The data region `[data_off, data_off + data_len)` of a packet. -/
def rte_mbuf.data (m : rte_mbuf) : List Nat :=
  loadBytes m.buf m.data_off m.data_len

/-- Well-formed packet buffer: the data region lies inside the buffer, whose
length is a `uint16_t`. -/
def rte_mbuf.wf (m : rte_mbuf) : Prop :=
  m.data_off + m.data_len ≤ m.buf_len ∧ m.buf_len ≤ 65535

instance (m : rte_mbuf) : Decidable m.wf := by
  unfold rte_mbuf.wf; infer_instance

/-- DPDK's `rte_pktmbuf_prepend`: `none` is the NULL it returns when the
headroom is too small. -/
def rte_pktmbuf_prepend (m : rte_mbuf) (len : Nat) : Option rte_mbuf :=
  if len > m.data_off then none
  else some { m with
    data_off := m.data_off - len
    data_len := (m.data_len + len) % 65536
    pkt_len := (m.pkt_len + len) % 4294967296 }

/-- DPDK's `rte_pktmbuf_adj`: `none` is the NULL it returns when the data
region is shorter than `len`. -/
def rte_pktmbuf_adj (m : rte_mbuf) (len : Nat) : Option rte_mbuf :=
  if len > m.data_len then none
  else some { m with
    data_len := m.data_len - len
    data_off := m.data_off + len
    pkt_len := (m.pkt_len + 4294967296 - len) % 4294967296 }

structure ether_addr where
  addr_bytes : List Nat

/-- Modelled from the spec: `struct ip_flow` of `gatekeeper_flow.h`, which is
not among the sources; a flow is `(proto, src, dst)` with IPv4 addresses as
32-bit words and IPv6 addresses as 16 bytes. -/
structure ip_flow where
  proto : Nat
  v4_src : Nat
  v4_dst : Nat
  v6_src : List Nat
  v6_dst : List Nat

structure ipip_tunnel_info where
  flow : ip_flow
  source_mac : ether_addr
  nexthop_mac : ether_addr

/-- A tunnel descriptor whose arrays have their C sizes. -/
def ipip_tunnel_info.wf (info : ipip_tunnel_info) : Prop :=
  info.source_mac.addr_bytes.length = 6 ∧ info.nexthop_mac.addr_bytes.length = 6 ∧
  info.flow.v6_src.length = 16 ∧ info.flow.v6_dst.length = 16

instance (info : ipip_tunnel_info) : Decidable info.wf := by
  unfold ipip_tunnel_info.wf; infer_instance

/-! ## `lib/ipip.c` -/

/-- The function `encapsulate`; the result is the return value and the packet
afterwards. -/
def encapsulate (pkt : rte_mbuf) (priority : Nat) (info : ipip_tunnel_info) :
    Int × rte_mbuf :=
  if info.flow.proto = ETHER_TYPE_IPv4 then
    match rte_pktmbuf_prepend pkt sizeof_ipv4_hdr with
    | none => (-1, pkt)
    | some pkt =>
      let new_eth := pkt.data_off
      let outer_ip4hdr := new_eth + sizeof_ether_hdr
      let b := pkt.buf
      let b := rte_memcpy b (new_eth + 6) info.source_mac.addr_bytes 6
      let b := rte_memcpy b new_eth info.nexthop_mac.addr_bytes 6
      let b := store16 b (new_eth + 12) (rte_cpu_to_be_16 ETHER_TYPE_IPv4)
      let b := store8 b outer_ip4hdr IP_VHL_DEF
      let b := store8 b (outer_ip4hdr + 1) (priority <<< 2)
      let b := store16 b (outer_ip4hdr + 4) 0
      let b := store16 b (outer_ip4hdr + 6) IP_DN_FRAGMENT_FLAG
      let b := store8 b (outer_ip4hdr + 8) IP_DEFTTL
      let b := store8 b (outer_ip4hdr + 9) IPPROTO_IPIP
      let b := store32 b (outer_ip4hdr + 12) info.flow.v4_src
      let b := store32 b (outer_ip4hdr + 16) info.flow.v4_dst
      let b := store16 b (outer_ip4hdr + 2)
        (rte_cpu_to_be_16 ((pkt.data_len + 18446744073709551616 - sizeof_ether_hdr)
          % 18446744073709551616 % 65536))
      let b := store16 b (outer_ip4hdr + 10) 0
      (0, { pkt with
        buf := b
        outer_l2_len := sizeof_ether_hdr
        outer_l3_len := sizeof_ipv4_hdr
        ol_flags := pkt.ol_flags ||| (PKT_TX_IPV4 ||| PKT_TX_IP_CKSUM ||| PKT_TX_OUTER_IPV4) })
  else if info.flow.proto = ETHER_TYPE_IPv6 then
    match rte_pktmbuf_prepend pkt sizeof_ipv6_hdr with
    | none => (-1, pkt)
    | some pkt =>
      let new_eth := pkt.data_off
      let outer_ip6hdr := new_eth + sizeof_ether_hdr
      let b := pkt.buf
      let b := rte_memcpy b (new_eth + 6) info.source_mac.addr_bytes 6
      let b := rte_memcpy b new_eth info.nexthop_mac.addr_bytes 6
      let b := store16 b (new_eth + 12) (rte_cpu_to_be_16 ETHER_TYPE_IPv6)
      let b := store32 b outer_ip6hdr
        (rte_cpu_to_be_32 (IPv6_DEFAULT_VTC_FLOW ||| (priority <<< 22)))
      let b := store8 b (outer_ip6hdr + 6) IPPROTO_IPIP
      let b := store8 b (outer_ip6hdr + 7) IPv6_DEFAULT_HOP_LIMITS
      let b := rte_memcpy b (outer_ip6hdr + 8) info.flow.v6_src 16
      let b := rte_memcpy b (outer_ip6hdr + 24) info.flow.v6_dst 16
      let b := store16 b (outer_ip6hdr + 4)
        (rte_cpu_to_be_16 ((pkt.data_len + 2 * 18446744073709551616 - sizeof_ether_hdr
          - sizeof_ipv6_hdr) % 18446744073709551616 % 65536))
      (0, { pkt with
        buf := b
        outer_l2_len := sizeof_ether_hdr
        outer_l3_len := sizeof_ipv6_hdr })
  else
    (-1, pkt)

/-- What `decapsulate` leaves behind: its return value, the packet, the byte
written through `priority`, and the tunnel descriptor. -/
structure decap_result where
  ret : Int
  pkt : rte_mbuf
  priority : Nat
  info : ipip_tunnel_info

/-- The function `decapsulate`. -/
def decapsulate (pkt : rte_mbuf) (info : ipip_tunnel_info) : decap_result :=
  let eth_hdr := pkt.data_off
  let outer_header_len := 0
  let outer_header_len := outer_header_len + sizeof_ether_hdr
  let ethertype := rte_be_to_cpu_16 (load16 pkt.buf (eth_hdr + 12))
  let (l4_proto, priority, outer_header_len, info) :=
    if ethertype = ETHER_TYPE_IPv4 then
      let ipv4_hdr := eth_hdr + outer_header_len
      let outer_header_len := outer_header_len + sizeof_ipv4_hdr
      let priority := load8 pkt.buf (ipv4_hdr + 1) >>> 2
      let l4_proto := load8 pkt.buf (ipv4_hdr + 9)
      let info :=
        if priority ≥ 2 then
          { info with flow := { info.flow with
              proto := ETHER_TYPE_IPv4
              v4_src := load32 pkt.buf (ipv4_hdr + 12)
              v4_dst := load32 pkt.buf (ipv4_hdr + 16) } }
        else info
      (l4_proto, priority, outer_header_len, info)
    else if ethertype = ETHER_TYPE_IPv6 then
      let ipv6_hdr := eth_hdr + outer_header_len
      let priority := ((load32 pkt.buf ipv6_hdr >>> 20) &&& 0xFF) >>> 2
      let outer_header_len := outer_header_len + sizeof_ipv6_hdr
      let l4_proto := load8 pkt.buf (ipv6_hdr + 6)
      let info :=
        if priority ≥ 2 then
          { info with flow := { info.flow with
              proto := ETHER_TYPE_IPv6
              v6_src := loadBytes pkt.buf (ipv6_hdr + 8) 16
              v6_dst := loadBytes pkt.buf (ipv6_hdr + 24) 16 } }
        else info
      (l4_proto, priority, outer_header_len, info)
    else
      (0, 0, outer_header_len + sizeof_ipv6_hdr,
        { info with flow := { info.flow with proto := ethertype } })
  if l4_proto ≠ IPPROTO_IPIP then
    { ret := -1, pkt := pkt, priority := priority, info := info }
  else
    let info :=
      if priority ≥ 2 then
        { info with
          source_mac := ⟨loadBytes pkt.buf (eth_hdr + 6) 6⟩
          nexthop_mac := ⟨loadBytes pkt.buf eth_hdr 6⟩ }
      else info
    let pkt := (rte_pktmbuf_adj pkt outer_header_len).getD pkt
    { ret := 0, pkt := pkt, priority := priority, info := info }


/-! ## Header layouts used to state the codec's results -/

/-- Memory `m` with the bytes `l` written at offset `a`. -/
def writeList (m : Mem) (a : Nat) (l : List Nat) : Mem :=
  fun i => if a ≤ i ∧ i < a + l.length then l.getD (i - a) 0 else m i

/-- Big-endian (network order) bytes of a 16-bit value. -/
def be16_bytes (x : Nat) : List Nat := [x / 256 % 256, x % 256]

/-- Big-endian (network order) bytes of a 32-bit value. -/
def be32_bytes (x : Nat) : List Nat :=
  [x / 16777216 % 256, x / 65536 % 256, x / 256 % 256, x % 256]

/-- Bytes of a 32-bit value as a host-order store lays them out in memory. -/
def host32_bytes (x : Nat) : List Nat :=
  [x % 256, x / 256 % 256, x / 65536 % 256, x / 16777216 % 256]

/-- Ethernet header bytes: destination, source, EtherType in network order. -/
def ether_hdr_bytes (dst src : ether_addr) (ether_type : Nat) : List Nat :=
  dst.addr_bytes ++ src.addr_bytes ++ be16_bytes ether_type

/-- IPv4 header bytes (no options) from its fields; `src` and `dst` are the
32-bit words as held in memory by the host. -/
def ipv4_hdr_bytes (version_ihl tos total_length packet_id : Nat) (flags_frag : List Nat)
    (ttl proto hdr_checksum src dst : Nat) : List Nat :=
  [version_ihl, tos] ++ be16_bytes total_length ++ be16_bytes packet_id ++ flags_frag ++
  [ttl, proto] ++ be16_bytes hdr_checksum ++ host32_bytes src ++ host32_bytes dst

/-- IPv6 header bytes from its fields. -/
def ipv6_hdr_bytes (vtc_flow payload_len proto hop_limits : Nat) (src dst : List Nat) :
    List Nat :=
  be32_bytes vtc_flow ++ be16_bytes payload_len ++ [proto, hop_limits] ++ src ++ dst

/-- The 34 bytes at the front of a packet of length `len` encapsulated in
IPv4, byte by byte. -/
def outer_ipv4_hdr (pri : Nat) (info : ipip_tunnel_info) (len : Nat) : List Nat :=
  let s := info.source_mac.addr_bytes
  let h := info.nexthop_mac.addr_bytes
  [h.getD 0 0, h.getD 1 0, h.getD 2 0, h.getD 3 0, h.getD 4 0, h.getD 5 0,
   s.getD 0 0, s.getD 1 0, s.getD 2 0, s.getD 3 0, s.getD 4 0, s.getD 5 0,
   0x08, 0x00,
   0x45, pri * 4, (len - 14) / 256, (len - 14) % 256, 0, 0, 0x40, 0x00, 64, 4, 0, 0,
   info.flow.v4_src % 256, info.flow.v4_src / 256 % 256, info.flow.v4_src / 65536 % 256,
   info.flow.v4_src / 16777216 % 256,
   info.flow.v4_dst % 256, info.flow.v4_dst / 256 % 256, info.flow.v4_dst / 65536 % 256,
   info.flow.v4_dst / 16777216 % 256]

/-- The 54 bytes at the front of a packet of length `len` encapsulated in
IPv6, byte by byte. -/
def outer_ipv6_hdr (pri : Nat) (info : ipip_tunnel_info) (len : Nat) : List Nat :=
  let s := info.source_mac.addr_bytes
  let h := info.nexthop_mac.addr_bytes
  let w := IPv6_DEFAULT_VTC_FLOW ||| (pri <<< 22)
  let a := info.flow.v6_src
  let b := info.flow.v6_dst
  [h.getD 0 0, h.getD 1 0, h.getD 2 0, h.getD 3 0, h.getD 4 0, h.getD 5 0,
   s.getD 0 0, s.getD 1 0, s.getD 2 0, s.getD 3 0, s.getD 4 0, s.getD 5 0,
   0x86, 0xDD,
   w / 16777216 % 256, w / 65536 % 256, w / 256 % 256, w % 256,
   (len - 54) / 256, (len - 54) % 256, 4, 255,
   a.getD 0 0, a.getD 1 0, a.getD 2 0, a.getD 3 0, a.getD 4 0, a.getD 5 0, a.getD 6 0,
   a.getD 7 0, a.getD 8 0, a.getD 9 0, a.getD 10 0, a.getD 11 0, a.getD 12 0, a.getD 13 0,
   a.getD 14 0, a.getD 15 0,
   b.getD 0 0, b.getD 1 0, b.getD 2 0, b.getD 3 0, b.getD 4 0, b.getD 5 0, b.getD 6 0,
   b.getD 7 0, b.getD 8 0, b.getD 9 0, b.getD 10 0, b.getD 11 0, b.getD 12 0, b.getD 13 0,
   b.getD 14 0, b.getD 15 0]


/-! ## What `decapsulate` reads from the front of a packet -/

/-- The outer EtherType `decapsulate` switches on. -/
def outer_ether_type (pkt : rte_mbuf) : Nat :=
  rte_be_to_cpu_16 (load16 pkt.buf (pkt.data_off + 12))

/-- The protocol / next-header byte of the outer IP header, at the offset of
the family that the outer EtherType names. -/
def outer_l4_proto (pkt : rte_mbuf) : Nat :=
  if outer_ether_type pkt = ETHER_TYPE_IPv4 then load8 pkt.buf (pkt.data_off + 14 + 9)
  else load8 pkt.buf (pkt.data_off + 14 + 6)

/-- Length of the outer Ethernet + IP header: 34 bytes for IPv4, 54 for IPv6. -/
def outer_hdr_len (pkt : rte_mbuf) : Nat :=
  if outer_ether_type pkt = ETHER_TYPE_IPv4 then 34 else 54

/-! ## Sample inputs -/

/-- An inner frame: Ethernet, then an IPv4 header 10.0.0.1 → 10.0.0.2. -/
def sample_inner : List Nat :=
  [0x02, 0x00, 0x00, 0x00, 0x00, 0x0b, 0x02, 0x00, 0x00, 0x00, 0x00, 0x0a, 0x08, 0x00,
   0x45, 0x00, 0x00, 0x14, 0x00, 0x00, 0x00, 0x00, 0x40, 0x06, 0x66, 0xe2,
   0x0a, 0x00, 0x00, 0x01, 0x0a, 0x00, 0x00, 0x02]

/-- A packet buffer holding `sample_inner` behind 128 bytes of headroom. -/
def sample_pkt : rte_mbuf where
  buf := fun i => if 128 ≤ i then sample_inner.getD (i - 128) 0 else 0
  buf_len := 2176
  data_off := 128
  data_len := 34
  pkt_len := 34
  ol_flags := 0
  outer_l2_len := 0
  outer_l3_len := 0

/-- A tunnel 192.0.2.1 → 192.0.2.2 over IPv4. -/
def sample_info4 : ipip_tunnel_info where
  flow := { proto := 0x0800, v4_src := 0x010200c0, v4_dst := 0x020200c0,
            v6_src := List.replicate 16 0, v6_dst := List.replicate 16 0 }
  source_mac := ⟨[0x02, 0x00, 0x00, 0x00, 0x00, 0x01]⟩
  nexthop_mac := ⟨[0x02, 0x00, 0x00, 0x00, 0x00, 0x02]⟩

/-- A tunnel 2001:db8::1 → 2001:db8::2 over IPv6. -/
def sample_info6 : ipip_tunnel_info where
  flow := { proto := 0x86DD, v4_src := 0, v4_dst := 0,
            v6_src := [0x20, 0x01, 0x0d, 0xb8, 0, 0, 0, 0, 0, 0, 0, 0, 0, 0, 0, 1],
            v6_dst := [0x20, 0x01, 0x0d, 0xb8, 0, 0, 0, 0, 0, 0, 0, 0, 0, 0, 0, 2] }
  source_mac := ⟨[0x02, 0x00, 0x00, 0x00, 0x00, 0x01]⟩
  nexthop_mac := ⟨[0x02, 0x00, 0x00, 0x00, 0x00, 0x02]⟩

/-- A tunnel descriptor for `decapsulate` to fill in. -/
def blank_info : ipip_tunnel_info where
  flow := { proto := 0, v4_src := 0, v4_dst := 0,
            v6_src := List.replicate 16 0, v6_dst := List.replicate 16 0 }
  source_mac := ⟨List.replicate 6 0⟩
  nexthop_mac := ⟨List.replicate 6 0⟩

/-- An IP-in-IP packet with an outer IPv4 header (priority 5) around a 20-byte
inner IPv4 header. -/
def sample_outer4 : rte_mbuf where
  buf := fun i =>
    ([0x02, 0x00, 0x00, 0x00, 0x00, 0x02, 0x02, 0x00, 0x00, 0x00, 0x00, 0x01, 0x08, 0x00,
      0x45, 0x14, 0x00, 0x28, 0x00, 0x00, 0x40, 0x00, 0x40, 0x04, 0x00, 0x00,
      0xc0, 0x00, 0x02, 0x01, 0xc0, 0x00, 0x02, 0x02] ++ sample_inner.drop 14).getD i 0
  buf_len := 2176
  data_off := 0
  data_len := 54
  pkt_len := 54
  ol_flags := 0
  outer_l2_len := 0
  outer_l3_len := 0

/-- A 30-byte runt: Ethernet with EtherType IPv4 and the first 16 bytes of an
IPv4 header whose protocol is 4. -/
def short_pkt : rte_mbuf where
  buf := fun i =>
    [0x02, 0x00, 0x00, 0x00, 0x00, 0x02, 0x02, 0x00, 0x00, 0x00, 0x00, 0x01, 0x08, 0x00,
     0x45, 0x14, 0x00, 0x28, 0x00, 0x00, 0x40, 0x00, 0x40, 0x04, 0x00, 0x00,
     0xc0, 0x00, 0x02, 0x01].getD i 0
  buf_len := 2176
  data_off := 0
  data_len := 30
  pkt_len := 30
  ol_flags := 0
  outer_l2_len := 0
  outer_l3_len := 0

/-! ## `lib/net.c`: interfaces -/

/-- Store of a `uint64_t` in host (little-endian) order. -/
def store64 (m : Mem) (a v : Nat) : Mem :=
  store32 (store32 m a v) (a + 4) (v / 4294967296)

/-- Byte swap of a 64-bit value: `rte_cpu_to_be_64` on a little-endian host. -/
def rte_cpu_to_be_64 (x : Nat) : Nat :=
  rte_cpu_to_be_32 (x % 4294967296) * 4294967296 + rte_cpu_to_be_32 (x / 4294967296 % 4294967296)

def GK_CONFIGURED_IPV4 : Nat := 1
def GK_CONFIGURED_IPV6 : Nat := 2

/-- Value of `BONDING_MODE_8023AD` in DPDK's `rte_eth_bond.h`. -/
def BONDING_MODE_8023AD : Nat := 4

def GATEKEEPER_QUEUE_UNALLOCATED : Int := -32768

inductive queue_type where
  | QUEUE_TYPE_RX
  | QUEUE_TYPE_TX
  | QUEUE_TYPE_MAX
  deriving DecidableEq, Repr

open queue_type

def GATEKEEPER_IPV6_ACL_MAX : Nat := 8

/-- DPDK's `struct rte_acl_rule_data`. -/
structure rte_acl_rule_data where
  category_mask : Nat
  priority : Int
  userdata : Nat
  deriving DecidableEq, Repr

/-- DPDK's `struct rte_acl_field`: a value and its mask or range. -/
structure rte_acl_field where
  value : Nat
  mask_range : Nat
  deriving DecidableEq, Repr

/-- Modelled from the spec: `struct ipv6_acl_rule` of `gatekeeper_acl.h`, which
is not among the sources; an ACL rule is its metadata (category mask,
priority, userdata = category id) and its fields. -/
structure ipv6_acl_rule where
  data : rte_acl_rule_data
  field : List rte_acl_field
  deriving DecidableEq, Repr

/-- DPDK's `struct rte_acl_ctx`, as far as Gatekeeper sees it: the rules added
to the context, in the order they were added, and whether it has been
built. -/
structure rte_acl_ctx where
  rules : List ipv6_acl_rule
  built : Bool
  deriving DecidableEq, Repr

/-- A function pointer of type `acl_cb_func`: the functions of the sources that
are registered as match callbacks, or a function of another block. -/
inductive acl_cb_func where
  | drop_unmatched_ipv6_pkts
  | submit_bgp
  | other (id : Nat)
  deriving DecidableEq, Repr

/-- A function pointer of type `ext_cb_func`: `match_bgp`, or a function of
another block. -/
inductive ext_cb_func where
  | match_bgp
  | other (id : Nat)
  deriving DecidableEq, Repr

/-- The fields of `struct gatekeeper_if` used below.  A `struct in6_addr` is
the memory of its 16 bytes `s6_addr`; a `struct in_addr` is its 32-bit word
`s_addr`; C strings are lists of characters and `none` is a NULL pointer. -/
structure gatekeeper_if where
  pci_addrs : Option (List (List Char))
  num_ports : Nat
  name : Option (List Char)
  num_rx_queues : Nat
  num_tx_queues : Nat
  bonding_mode : Nat
  eth_addr : ether_addr
  ports : List Nat
  id : Nat
  rx_queues : Nat → Int
  tx_queues : Nat → Int
  rx_queue_id : Int
  tx_queue_id : Int
  configured_proto : Nat
  ip4_addr : Nat
  ip4_mask : Nat
  ip4_addr_plen : Nat
  ip6_addr : Mem
  ip6_mask : Mem
  ip6_addr_plen : Nat
  ll_ip6_addr : Mem
  ll_ip6_mask : Mem
  ip6_mc_addr : Mem
  ll_ip6_mc_addr : Mem
  eth_mc_addr : ether_addr
  ll_eth_mc_addr : ether_addr
  ipv6_acls : Nat → Option rte_acl_ctx
  acl_funcs : Nat → Option acl_cb_func
  ext_funcs : Nat → Option ext_cb_func
  acl_func_count : Nat

/-- The function `gen_ipv6_link_local`. -/
def gen_ipv6_link_local (iface : gatekeeper_if) : gatekeeper_if :=
  let addr := iface.ll_ip6_addr
  let pmask := iface.ll_ip6_mask
  let addr := store8 addr 0 0xFE
  let addr := store8 addr 1 0x80
  let addr := rte_memcpy addr 2 (List.replicate 6 0) 6
  let addr := rte_memcpy addr 8 iface.eth_addr.addr_bytes 3
  let addr := store8 addr 11 0xFF
  let addr := store8 addr 12 0xFE
  let addr := rte_memcpy addr 13 (iface.eth_addr.addr_bytes.drop 3) 3
  let addr := store8 addr 8 (addr 8 ^^^ 2)
  let pmask := store64 pmask 0 18446744073709551615
  let pmask := store64 pmask 8 0
  { iface with ll_ip6_addr := addr, ll_ip6_mask := pmask }

/-- The macro `IPV6_SN_MC_ADDR`: initialiser of a 16-byte array. -/
def IPV6_SN_MC_ADDR (ipv6 : Mem) : List Nat :=
  [0xFF, 0x02, 0x00, 0x00,
   0x00, 0x00, 0x00, 0x00,
   0x00, 0x00, 0x00, 0x01,
   0xFF, ipv6 13, ipv6 14, ipv6 15]

/-- The function `setup_ipv6_addrs`; the second component is the list of
multicast MAC addresses handed to `rte_eth_dev_set_mc_addr_list`. -/
def setup_ipv6_addrs (iface : gatekeeper_if) : gatekeeper_if × List ether_addr :=
  let ip6_mc_addr := IPV6_SN_MC_ADDR iface.ip6_addr
  let eth_mc_addr : ether_addr :=
    ⟨[0x33, 0x33, ip6_mc_addr.getD 12 0, ip6_mc_addr.getD 13 0,
      ip6_mc_addr.getD 14 0, ip6_mc_addr.getD 15 0]⟩
  let iface := { iface with ip6_mc_addr := rte_memcpy iface.ip6_mc_addr 0 ip6_mc_addr 16 }
  let iface := { iface with eth_mc_addr := eth_mc_addr }
  let iface := gen_ipv6_link_local iface
  let ll_ip6_mc_addr := IPV6_SN_MC_ADDR iface.ll_ip6_addr
  let ll_eth_mc_addr : ether_addr :=
    ⟨[0x33, 0x33, ll_ip6_mc_addr.getD 12 0, ll_ip6_mc_addr.getD 13 0,
      ll_ip6_mc_addr.getD 14 0, ll_ip6_mc_addr.getD 15 0]⟩
  let mc_addrs := [eth_mc_addr, ll_eth_mc_addr]
  let iface :=
    { iface with ll_ip6_mc_addr := rte_memcpy iface.ll_ip6_mc_addr 0 ll_ip6_mc_addr 16 }
  let iface := { iface with ll_eth_mc_addr := ll_eth_mc_addr }
  (iface, mc_addrs)

/-- An interface with nothing configured, MAC 02:00:00:00:00:02. -/
def sample_iface : gatekeeper_if where
  pci_addrs := none
  num_ports := 1
  name := none
  num_rx_queues := 1
  num_tx_queues := 1
  bonding_mode := 0
  eth_addr := ⟨[0x02, 0x00, 0x00, 0x00, 0x00, 0x02]⟩
  ports := [0]
  id := 0
  rx_queues := fun _ => 0
  tx_queues := fun _ => 0
  rx_queue_id := 0
  tx_queue_id := 0
  configured_proto := 0
  ip4_addr := 0
  ip4_mask := 0
  ip4_addr_plen := 0
  ip6_addr := fun _ => 0
  ip6_mask := fun _ => 0
  ip6_addr_plen := 0
  ll_ip6_addr := fun _ => 0
  ll_ip6_mask := fun _ => 0
  ip6_mc_addr := fun _ => 0
  ll_ip6_mc_addr := fun _ => 0
  eth_mc_addr := ⟨List.replicate 6 0⟩
  ll_eth_mc_addr := ⟨List.replicate 6 0⟩
  ipv6_acls := fun _ => none
  acl_funcs := fun _ => none
  ext_funcs := fun _ => none
  acl_func_count := 0

/-! ## `lib/net.c`: `lua_init_iface` -/

/-- Linux values of the address families. -/
def AF_UNSPEC : Int := 0
def AF_INET : Int := 2
def AF_INET6 : Int := 10

def ERANGE : Int := 34
def LONG_MAX : Int := 9223372036854775807
def LONG_MIN : Int := -9223372036854775808

/-- The C library, as far as `lua_init_iface` calls it: which family
`getaddrinfo` with `AI_NUMERICHOST` reports for a string (`none` when it
fails), what `inet_pton` parses (`none` when it does not return 1), the value
of `errno` on entry, and which allocations succeed. -/
structure libc_env where
  getaddrinfo : List Char → Option Int
  inet_pton4 : List Char → Option Nat
  inet_pton6 : List Char → Option Mem
  errno : Int
  malloc_name_ok : Bool
  calloc_pci_addrs_ok : Bool
  malloc_pci_addr_ok : Nat → Bool

/-- The function `get_ip_type`. -/
def get_ip_type (env : libc_env) (ip_addr : List Char) : Int :=
  match env.getaddrinfo ip_addr with
  | none => AF_UNSPEC
  | some ai_family => ai_family

/-- The function `max_prefix_len`; `none` is the abort of `RTE_VERIFY`. -/
def max_prefix_len (ip_type : Int) : Option Int :=
  if ip_type = AF_INET ∨ ip_type = AF_INET6 then
    some (if ip_type = AF_INET then 4 * 8 else 16 * 8)
  else none

/-- The C library's `strtok_r(str, delim, &saveptr)`: the token, if any, and
the new `saveptr`. -/
def strtok_r (str : Option (List Char)) (delim : List Char) (saveptr : List Char) :
    Option (List Char) × List Char :=
  let s := str.getD saveptr
  let s := s.dropWhile (fun c => delim.contains c)
  if s = [] then (none, s)
  else
    let tok := s.takeWhile (fun c => !delim.contains c)
    match s.dropWhile (fun c => !delim.contains c) with
    | [] => (some tok, [])
    | _ :: rest => (some tok, rest)

/-- The C library's `isspace` in the C locale. -/
def isspace (c : Char) : Bool :=
  c.toNat = 32 || (9 ≤ c.toNat && c.toNat ≤ 13)

/-- The C library's `isdigit`. -/
def isdigit (c : Char) : Bool := 48 ≤ c.toNat && c.toNat ≤ 57

/-- The digit loop of `strtol` in base 10: the accumulated value and the
unread rest. -/
def strtol_digits : List Char → Nat → Nat × List Char
  | [], acc => (acc, [])
  | c :: cs, acc =>
    if isdigit c then strtol_digits cs (acc * 10 + (c.toNat - 48)) else (acc, c :: cs)

/-- The C library's `strtol(nptr, &end, 10)`: the value, the string `end` points
to, and `errno` afterwards. -/
def strtol (nptr : List Char) (errno : Int) : Int × List Char × Int :=
  let s := nptr.dropWhile isspace
  let neg := s.head?.map Char.toNat = some 45
  let s := if s.head?.map Char.toNat = some 45 ∨ s.head?.map Char.toNat = some 43
    then s.tail else s
  let r := strtol_digits s 0
  if r.2.length = s.length then (0, nptr, errno)
  else if neg then
    if (r.1 : Int) > -LONG_MIN then (LONG_MIN, r.2, ERANGE) else (-(r.1 : Int), r.2, errno)
  else
    if (r.1 : Int) > LONG_MAX then (LONG_MAX, r.2, ERANGE) else ((r.1 : Int), r.2, errno)

/-- One round of the loop over `ip_cidrs` in `lua_init_iface`: `none` is an
abort, otherwise whether the round reached its end (`false` is `goto name`),
the interface and `errno` afterwards. -/
def lua_init_iface_cidr (env : libc_env) (iface : gatekeeper_if) (errno : Int)
    (ip_cidr : List Char) : Option (Bool × gatekeeper_if × Int) :=
  let ip_cidr_copy := ip_cidr
  let (ip_addr, saveptr) := strtok_r (some ip_cidr_copy) [Char.ofNat 47] []
  match ip_addr with
  | none => some (false, iface, errno)
  | some ip_addr =>
    let gk_type := get_ip_type env ip_addr
    let parsed : Option gatekeeper_if :=
      if gk_type = AF_INET ∧ (env.inet_pton4 ip_addr).isSome then
        some { iface with
          ip4_addr := (env.inet_pton4 ip_addr).getD iface.ip4_addr
          configured_proto := iface.configured_proto ||| GK_CONFIGURED_IPV4 }
      else if gk_type = AF_INET6 ∧ (env.inet_pton6 ip_addr).isSome then
        some { iface with
          ip6_addr := (env.inet_pton6 ip_addr).getD iface.ip6_addr
          configured_proto := iface.configured_proto ||| GK_CONFIGURED_IPV6 }
      else none
    match parsed with
    | none => some (false, iface, errno)
    | some iface =>
      let (prefix_len_str, _) := strtok_r none [] saveptr
      match prefix_len_str with
      | none => some (false, iface, errno)
      | some prefix_len_str =>
        let (prefix_len, end_, errno) := strtol prefix_len_str errno
        if end_.length = prefix_len_str.length ∨ prefix_len_str = [] ∨ end_ ≠ [] then
          some (false, iface, errno)
        else if (prefix_len = LONG_MAX ∨ prefix_len = LONG_MIN) ∧ errno = ERANGE then
          some (false, iface, errno)
        else if prefix_len < 0 then some (false, iface, errno)
        else
          match max_prefix_len gk_type with
          | none => none
          | some max_len =>
            if prefix_len > max_len then some (false, iface, errno)
            else if gk_type = AF_INET then
              some (true, { iface with
                ip4_mask := rte_cpu_to_be_32
                  ((18446744073709551615 <<< (32 - prefix_len).toNat)
                    % 18446744073709551616 % 4294967296)
                ip4_addr_plen := prefix_len.toNat % 256 }, errno)
            else if gk_type = AF_INET6 then
              let paddr := iface.ip6_mask
              let paddr :=
                if prefix_len = 0 then
                  store64 (store64 paddr 0 0) 8 0
                else if prefix_len ≤ 64 then
                  store64 (store64 paddr 0 (rte_cpu_to_be_64
                    ((18446744073709551615 <<< (64 - prefix_len).toNat)
                      % 18446744073709551616))) 8 0
                else
                  store64 (store64 paddr 0 18446744073709551615) 8 (rte_cpu_to_be_64
                    ((18446744073709551615 <<< (128 - prefix_len).toNat)
                      % 18446744073709551616))
              some (true, { iface with
                ip6_mask := paddr
                ip6_addr_plen := prefix_len.toNat % 256 }, errno)
            else some (true, iface, errno)

/-- The loop over `ip_cidrs[0 .. num_ip_cidrs)` in `lua_init_iface`. -/
def lua_init_iface_cidrs (env : libc_env) :
    List (List Char) → gatekeeper_if → Int → Option (Bool × gatekeeper_if × Int)
  | [], iface, errno => some (true, iface, errno)
  | c :: cs, iface, errno =>
    match lua_init_iface_cidr env iface errno c with
    | none => none
    | some (false, iface, errno) => some (false, iface, errno)
    | some (true, iface, errno) => lua_init_iface_cidrs env cs iface errno

/-- The function `lua_init_iface`: `none` is an abort, otherwise the return
value and the interface afterwards. -/
def lua_init_iface (env : libc_env) (iface : gatekeeper_if) (iface_name : List Char)
    (pci_addrs : List (List Char)) (num_pci_addrs : Nat)
    (ip_cidrs : List (List Char)) (num_ip_cidrs : Nat) : Option (Int × gatekeeper_if) :=
  if num_ip_cidrs < 1 ∨ num_ip_cidrs > 2 then some (-1, iface)
  else
    let iface := { iface with num_ports := num_pci_addrs }
    if !env.malloc_name_ok then some (-1, { iface with name := none })
    else
      let iface := { iface with name := some iface_name }
      if !env.calloc_pci_addrs_ok then
        some (-1, { iface with pci_addrs := none, name := none })
      else if (List.range num_pci_addrs).any (fun i => !env.malloc_pci_addr_ok i) then
        some (-1, { iface with pci_addrs := none, name := none })
      else
        let iface := { iface with
          pci_addrs := some ((List.range num_pci_addrs).map (fun i => pci_addrs.getD i [])) }
        match lua_init_iface_cidrs env (ip_cidrs.take num_ip_cidrs) iface env.errno with
        | none => none
        | some (true, iface, _) => some (0, iface)
        | some (false, iface, _) => some (-1, { iface with name := none })

/-- Value of a string of decimal digits. -/
def decimal_value (ds : List Char) : Nat :=
  ds.foldl (fun acc c => acc * 10 + (c.toNat - 48)) 0

/-- The CIDR string `addr/len`, where `len` is written as an optional minus
sign and the decimal digits `ds`. -/
def cidr_string (addr : List Char) (neg : Bool) (ds : List Char) : List Char :=
  addr ++ Char.ofNat 47 :: ((if neg then [Char.ofNat 45] else []) ++ ds)

/-- The characters of `192.0.2.1`. -/
def sample_addr4 : List Char :=
  [49, 57, 50, 46, 48, 46, 50, 46, 49].map Char.ofNat

/-- The characters of `2001:db8::1`. -/
def sample_addr6 : List Char :=
  [50, 48, 48, 49, 58, 100, 98, 56, 58, 58, 49].map Char.ofNat

/-- A C library that knows the two sample addresses and never runs out of
memory. -/
def sample_libc : libc_env where
  getaddrinfo := fun s =>
    if s = sample_addr4 then some AF_INET
    else if s = sample_addr6 then some AF_INET6 else none
  inet_pton4 := fun s => if s = sample_addr4 then some 0x010200c0 else none
  inet_pton6 := fun s =>
    if s = sample_addr6 then
      some (fun i => [0x20, 0x01, 0x0d, 0xb8, 0, 0, 0, 0, 0, 0, 0, 0, 0, 0, 0, 1].getD i 0)
    else none
  errno := 0
  malloc_name_ok := true
  calloc_pci_addrs_ok := true
  malloc_pci_addr_ok := fun _ => true

/-- A CIDR string `addr/len` given by its parts: the address, the sign and the
decimal digits of `len`, and whether the address is meant as IPv6. -/
structure cidr_spec where
  addr : List Char
  neg : Bool
  digits : List Char
  v6 : Bool

/-- The string of a CIDR. -/
def cidr_spec.str (s : cidr_spec) : List Char := cidr_string s.addr s.neg s.digits

/-- The prefix length written in a CIDR. -/
def cidr_spec.len (s : cidr_spec) : Int :=
  if s.neg then -(decimal_value s.digits : Int) else decimal_value s.digits

/-- The largest prefix length of the family of a CIDR. -/
def cidr_spec.max_len (s : cidr_spec) : Int := if s.v6 then 128 else 32

/-- The address part is a valid address of its family for the C library (and
so holds no `/`), and the length part is a decimal integer. -/
def cidr_spec.valid (env : libc_env) (s : cidr_spec) : Prop :=
  (s.addr ≠ [] ∧ ∀ c ∈ s.addr, c ≠ Char.ofNat 47) ∧
  (if s.v6 = true
    then env.getaddrinfo s.addr = some AF_INET6 ∧ (env.inet_pton6 s.addr).isSome = true
    else env.getaddrinfo s.addr = some AF_INET ∧ (env.inet_pton4 s.addr).isSome = true) ∧
  (s.digits ≠ [] ∧ ∀ c ∈ s.digits, isdigit c = true)

/-- The prefix length of a family that an interface has stored. -/
def gatekeeper_if.addr_plen (iface : gatekeeper_if) (v6 : Bool) : Nat :=
  if v6 then iface.ip6_addr_plen else iface.ip4_addr_plen

/-- The CIDR `192.0.2.1/32`. -/
def sample_cidr4 : cidr_spec := ⟨sample_addr4, false, [Char.ofNat 51, Char.ofNat 50], false⟩

/-- The CIDR `2001:db8::1/128`. -/
def sample_cidr6 : cidr_spec :=
  ⟨sample_addr6, false, [Char.ofNat 49, Char.ofNat 50, Char.ofNat 56], true⟩

/-! ## `lib/net.c`: queue allocation -/

/-- DPDK, as far as queue allocation calls it: the build constant
`RTE_MAX_LCORE`, the NUMA node of an lcore, and the return values of
`rte_eth_rx_queue_setup` / `rte_eth_tx_queue_setup` for a port, a queue
identifier and a NUMA node. -/
structure dpdk_env where
  RTE_MAX_LCORE : Nat
  rte_lcore_to_socket_id : Nat → Nat
  rte_eth_rx_queue_setup : Nat → Nat → Nat → Int
  rte_eth_tx_queue_setup : Nat → Nat → Nat → Int

/-- Conversion to `int16_t`. -/
def to_int16 (x : Int) : Int := (x + 32768) % 65536 - 32768

/-- Conversion to `uint16_t`. -/
def to_uint16 (x : Int) : Nat := (x % 65536).toNat

/-- One call of `configure_queue`, as the device sees it. -/
structure queue_setup_call where
  port_id : Nat
  queue_id : Nat
  ty : queue_type
  numa_node : Nat
  deriving DecidableEq, Repr

/-- The function `configure_queue`. -/
def configure_queue (env : dpdk_env) (port_id queue_id : Nat) (ty : queue_type)
    (numa_node : Nat) : Int :=
  match ty with
  | QUEUE_TYPE_RX =>
    let ret := env.rte_eth_rx_queue_setup port_id queue_id numa_node
    if ret < 0 then ret else 0
  | QUEUE_TYPE_TX =>
    let ret := env.rte_eth_tx_queue_setup port_id queue_id numa_node
    if ret < 0 then ret else 0
  | QUEUE_TYPE_MAX => -1

/-- The loop of `get_queue_id` over the ports of the interface: `some ret` when
a port fails with `ret < 0`, and the calls made. -/
def configure_ports (env : dpdk_env) (queue_id : Nat) (ty : queue_type) (numa_node : Nat) :
    List Nat → Option Int × List queue_setup_call
  | [] => (none, [])
  | p :: ps =>
    let ret := configure_queue env p queue_id ty numa_node
    if ret < 0 then (some ret, [⟨p, queue_id, ty, numa_node⟩])
    else
      let r := configure_ports env queue_id ty numa_node ps
      (r.1, ⟨p, queue_id, ty, numa_node⟩ :: r.2)

/-- The array `rx_queues` or `tx_queues`, by queue type. -/
def gatekeeper_if.queues (iface : gatekeeper_if) (ty : queue_type) : Nat → Int :=
  if ty = QUEUE_TYPE_RX then iface.rx_queues else iface.tx_queues

/-- The counter `rx_queue_id` or `tx_queue_id`, by queue type. -/
def gatekeeper_if.queue_id (iface : gatekeeper_if) (ty : queue_type) : Int :=
  if ty = QUEUE_TYPE_RX then iface.rx_queue_id else iface.tx_queue_id

/-- The requested queue count `num_rx_queues` or `num_tx_queues`, by queue type. -/
def gatekeeper_if.num_queues (iface : gatekeeper_if) (ty : queue_type) : Nat :=
  if ty = QUEUE_TYPE_RX then iface.num_rx_queues else iface.num_tx_queues

/-- What a call of `get_queue_id` leaves behind: its return value, the
interface, and the queue setups it asked the ports for. -/
structure get_queue_id_result where
  ret : Int
  iface : gatekeeper_if
  calls : List queue_setup_call

/-- The function `get_queue_id`; `none` is the abort of `RTE_VERIFY`. -/
def get_queue_id (env : dpdk_env) (iface : gatekeeper_if) (ty : queue_type) (lcore : Nat) :
    Option get_queue_id_result :=
  if ¬ lcore < env.RTE_MAX_LCORE then none
  else if ty = QUEUE_TYPE_MAX then none
  else if iface.queues ty lcore ≠ GATEKEEPER_QUEUE_UNALLOCATED then
    some ⟨iface.queues ty lcore, iface, []⟩
  else
    let new_queue_id := to_int16 (iface.queue_id ty + 1)
    let iface : gatekeeper_if :=
      if ty = QUEUE_TYPE_RX then { iface with rx_queue_id := new_queue_id }
      else { iface with tx_queue_id := new_queue_id }
    if new_queue_id = GATEKEEPER_QUEUE_UNALLOCATED then some ⟨-1, iface, []⟩
    else
      let iface : gatekeeper_if :=
        if ty = QUEUE_TYPE_RX then
          { iface with rx_queues := fun i => if i = lcore then new_queue_id else iface.rx_queues i }
        else
          { iface with tx_queues := fun i => if i = lcore then new_queue_id else iface.tx_queues i }
      let numa_node := env.rte_lcore_to_socket_id lcore
      let r := configure_ports env (to_uint16 new_queue_id) ty numa_node
        ((List.range iface.num_ports).map (fun port => iface.ports.getD port 0))
      match r.1 with
      | some ret => some ⟨ret, iface, r.2⟩
      | none =>
        if iface.num_ports > 1 ∨ iface.bonding_mode = BONDING_MODE_8023AD then
          let ret := configure_queue env iface.id (to_uint16 new_queue_id) ty numa_node
          let calls := r.2 ++ [⟨iface.id, to_uint16 new_queue_id, ty, numa_node⟩]
          if ret < 0 then some ⟨ret, iface, calls⟩
          else some ⟨iface.queues ty lcore, iface, calls⟩
        else some ⟨iface.queues ty lcore, iface, r.2⟩

/-- The queue part of `init_iface` (the loop over `RTE_MAX_LCORE` and the two
`rte_atomic16_set` calls). -/
def init_iface_queues (env : dpdk_env) (iface : gatekeeper_if) : gatekeeper_if :=
  { iface with
    rx_queues := fun i =>
      if i < env.RTE_MAX_LCORE then GATEKEEPER_QUEUE_UNALLOCATED else iface.rx_queues i
    tx_queues := fun i =>
      if i < env.RTE_MAX_LCORE then GATEKEEPER_QUEUE_UNALLOCATED else iface.tx_queues i
    rx_queue_id := -1
    tx_queue_id := -1 }

/-- A sequence of `get_queue_id` calls, each given as (queue type, lcore): the
return values in order and the interface afterwards; `none` when a call
aborts. -/
def get_queue_id_seq (env : dpdk_env) :
    gatekeeper_if → List (queue_type × Nat) → Option (List Int × gatekeeper_if)
  | iface, [] => some ([], iface)
  | iface, c :: cs =>
    match get_queue_id env iface c.1 c.2 with
    | none => none
    | some r =>
      match get_queue_id_seq env r.iface cs with
      | none => none
      | some (rets, iface') => some (r.ret :: rets, iface')

/-- A DPDK whose ports were configured with `nb_rx` RX and `nb_tx` TX queues:
queue setup fails with `-EINVAL` for a queue identifier at or above the
configured count and succeeds otherwise. -/
def dpdk_configured (nb_rx nb_tx : Nat) : dpdk_env where
  RTE_MAX_LCORE := 128
  rte_lcore_to_socket_id := fun _ => 0
  rte_eth_rx_queue_setup := fun _ queue_id _ => if queue_id ≥ nb_rx then -22 else 0
  rte_eth_tx_queue_setup := fun _ queue_id _ => if queue_id ≥ nb_tx then -22 else 0

/-- Invariant of one direction's queue table `q` and counter `c` over the
lcores below `M`: every entry is unallocated or an index in `[0, c]`,
allocated entries are pairwise different, and `c + 1` entries are allocated. -/
def queue_inv (M : Nat) (q : Nat → Int) (c : Int) : Prop :=
  (∀ l, l < M → q l = GATEKEEPER_QUEUE_UNALLOCATED ∨ (0 ≤ q l ∧ q l ≤ c)) ∧
  (∀ l l', l < M → l' < M → q l ≠ GATEKEEPER_QUEUE_UNALLOCATED → q l = q l' → l = l') ∧
  ((((Finset.range M).filter (fun l => q l ≠ GATEKEEPER_QUEUE_UNALLOCATED)).card : Nat) : Int)
    = c + 1

/-- The invariant for both directions of an interface. -/
def iface_queue_inv (env : dpdk_env) (iface : gatekeeper_if) : Prop :=
  queue_inv env.RTE_MAX_LCORE iface.rx_queues iface.rx_queue_id ∧
  queue_inv env.RTE_MAX_LCORE iface.tx_queues iface.tx_queue_id

/-- The value that `configure_queue` returns for a queue setup. -/
def queue_setup_call.ret (s : queue_setup_call) (env : dpdk_env) : Int :=
  configure_queue env s.port_id s.queue_id s.ty s.numa_node

/-- The queue setups that a sequence of `get_queue_id` calls asks the ports
for, call by call, in order; the sequence ends at a call that aborts. -/
def get_queue_id_seq_setups (env : dpdk_env) :
    gatekeeper_if → List (queue_type × Nat) → List queue_setup_call
  | _, [] => []
  | iface, c :: cs =>
    match get_queue_id env iface c.1 c.2 with
    | none => []
    | some r => r.calls ++ get_queue_id_seq_setups env r.iface cs

/-- The lcores for which a sequence of calls asks for a queue of a type, each
lcore once. -/
def lcores_of (calls : List (queue_type × Nat)) (ty : queue_type) : List Nat :=
  ((calls.filter fun c => decide (c.1 = ty)).map fun c => c.2).dedup

/-- The sample interface with two RX queues and one TX queue requested. -/
def sample_iface_two_rx : gatekeeper_if :=
  { sample_iface with num_rx_queues := 2 }

/-- The sample interface, freshly initialised, on a DPDK whose ports were
configured with one RX and one TX queue. -/
def sample_fresh_iface : gatekeeper_if :=
  init_iface_queues (dpdk_configured 1 1) sample_iface

/-- What the first `get_queue_id` call for RX on lcore 0 leaves behind on
`sample_fresh_iface`. -/
def sample_first_result : get_queue_id_result where
  ret := 0
  iface := { sample_fresh_iface with
    rx_queues := fun i => if i = 0 then 0 else sample_fresh_iface.rx_queues i
    rx_queue_id := 0 }
  calls := [⟨0, 0, QUEUE_TYPE_RX, 0⟩]

/-! ## `lib/net.c`: RSS redirection table -/

/-- DPDK's `ETH_RSS_RETA_SIZE_512`. -/
def ETH_RSS_RETA_SIZE_512 : Nat := 512

/-- DPDK's `RTE_RETA_GROUP_SIZE`. -/
def RTE_RETA_GROUP_SIZE : Nat := 64

def GATEKEEPER_RETA_MAX_SIZE : Nat := ETH_RSS_RETA_SIZE_512 / RTE_RETA_GROUP_SIZE

def ENOTSUP : Int := 95
def EINVAL : Int := 22

/-- DPDK's `struct rte_eth_rss_reta_entry64`: a 64-bit mask and 64 entries. -/
structure rte_eth_rss_reta_entry64 where
  mask : Nat
  reta : Nat → Nat

/-- The array `reta_conf`, by group index. -/
abbrev reta_conf_t := Nat → rte_eth_rss_reta_entry64

/-- The device, as far as `gatekeeper_setup_rss` calls it: the RETA size that
`rte_eth_dev_info_get` reports and the return values of the RETA update and
query for a table and a size. -/
structure rss_env where
  reta_size : Nat
  rte_eth_dev_rss_reta_update : reta_conf_t → Nat → Int
  rte_eth_dev_rss_reta_query : reta_conf_t → Nat → Int

/-- What `gatekeeper_setup_rss` leaves behind: its return value and, when it
got that far, the table and size it handed to `rte_eth_dev_rss_reta_update`. -/
structure setup_rss_result where
  ret : Int
  programmed : Option (reta_conf_t × Nat)

/-- One round of the loop of `gatekeeper_setup_rss`. -/
def setup_rss_step (queues : List Nat) (num_queues : Nat) (reta_conf : reta_conf_t)
    (i : Nat) : reta_conf_t :=
  let idx := i / RTE_RETA_GROUP_SIZE
  let shift := i % RTE_RETA_GROUP_SIZE
  let queue_idx := i % num_queues
  fun g =>
    if g = idx then
      { mask := 18446744073709551615
        reta := fun s => if s = shift then queues.getD queue_idx 0 % 65536
                         else (reta_conf g).reta s }
    else reta_conf g

/-- The function `gatekeeper_setup_rss`; `none` is the division by zero of
`i % num_queues` with no queue. -/
def gatekeeper_setup_rss (env : rss_env) (queues : List Nat) (num_queues : Nat) :
    Option setup_rss_result :=
  if env.reta_size = 0 then some ⟨-1, none⟩
  else if env.reta_size > ETH_RSS_RETA_SIZE_512 then some ⟨-1, none⟩
  else if num_queues = 0 then none
  else
    let reta_conf : reta_conf_t := fun _ => ⟨0, fun _ => 0⟩
    let reta_conf := (List.range env.reta_size).foldl (setup_rss_step queues num_queues)
      reta_conf
    let ret := env.rte_eth_dev_rss_reta_update reta_conf env.reta_size
    if ret = -ENOTSUP then some ⟨-1, some (reta_conf, env.reta_size)⟩
    else if ret = -EINVAL then some ⟨-1, some (reta_conf, env.reta_size)⟩
    else
      let ret := env.rte_eth_dev_rss_reta_query reta_conf env.reta_size
      if ret = -ENOTSUP then some ⟨-1, some (reta_conf, env.reta_size)⟩
      else if ret = -EINVAL then some ⟨-1, some (reta_conf, env.reta_size)⟩
      else some ⟨ret, some (reta_conf, env.reta_size)⟩

/-- A device with a RETA of 128 entries that accepts every update. -/
def sample_rss_env : rss_env where
  reta_size := 128
  rte_eth_dev_rss_reta_update := fun _ _ => 0
  rte_eth_dev_rss_reta_query := fun _ _ => 0

/-! ## `cps/main.c`: the CPS block's state -/

/-- DPDK's `ETHER_TYPE_ARP`, `ARP_HRD_ETHER`, `ARP_OP_REPLY`, `ETHER_ADDR_LEN`
and the sizes of `struct arp_hdr` and `struct in_addr`. -/
def ETHER_TYPE_ARP : Nat := 0x0806
def ARP_HRD_ETHER : Nat := 1
def ARP_OP_REPLY : Nat := 2
def ETHER_ADDR_LEN : Nat := 6
def sizeof_arp_hdr : Nat := 28
def sizeof_in_addr : Nat := 4

/-- The fields of `struct net_config` used below. -/
structure net_config where
  back_iface_enabled : Bool
  front : gatekeeper_if
  back : gatekeeper_if
  numa_nodes : Nat

/-- A `struct gatekeeper_if *` that points into `struct net_config`:
`&net->front` or `&net->back`. -/
inductive iface_ptr where
  | front
  | back
  deriving DecidableEq, Repr

/-- The interface a pointer refers to. -/
def net_config.deref (net : net_config) : iface_ptr → gatekeeper_if
  | iface_ptr.front => net.front
  | iface_ptr.back => net.back

/-- A `struct rte_kni *` of the CPS block: `cps_conf->front_kni` or
`cps_conf->back_kni`. -/
inductive kni_ptr where
  | front_kni
  | back_kni
  deriving DecidableEq, Repr

/-- Modelled from the spec: `struct cps_arp_req` of `gatekeeper_cps.h`, which
is not among the sources; the request `Arp { iface, target_ipv4, resolved_mac }`.
The address `ip` is the 32-bit word as held in memory. -/
structure cps_arp_req where
  ip : Nat
  ha : ether_addr
  iface : iface_ptr

/-- Modelled from the spec: `struct cps_nd_req` of `gatekeeper_cps.h`, which is
not among the sources; the request `Nd { iface, target_ipv6, resolved_mac }`
with the address as its 16 bytes. -/
structure cps_nd_req where
  ip : List Nat
  ha : ether_addr
  iface : iface_ptr

/-- Modelled from the spec: `struct cps_bgp_req` of `gatekeeper_cps.h`, which
is not among the sources; a burst of packets bound for a KNI. -/
structure cps_bgp_req where
  pkts : List rte_mbuf
  num_pkts : Nat
  kni : kni_ptr

/-- Modelled from the spec: `struct cps_request` of `gatekeeper_cps.h`, which
is not among the sources; the tagged union of the mailbox, with the tag `ty`
of an unrecognised request kept as a number. -/
inductive cps_request where
  | CPS_REQ_BGP (bgp : cps_bgp_req)
  | CPS_REQ_ARP (arp : cps_arp_req)
  | CPS_REQ_ND (nd : cps_nd_req)
  | other (ty : Nat)

/-- Modelled from the spec: `struct arp_request` of `gatekeeper_cps.h`, which
is not among the sources; a neighbour request `{ ip, stale }` for IPv4. -/
structure arp_request where
  addr : Nat
  stale : Bool
  deriving DecidableEq, Repr

/-- Modelled from the spec: `struct nd_request` of `gatekeeper_cps.h`, which is
not among the sources; a neighbour request `{ ip, stale }` for IPv6. -/
structure nd_request where
  addr : List Nat
  stale : Bool
  deriving DecidableEq, Repr

/-- Modelled from the spec: the mailbox of `gatekeeper_mailbox.h`, which is not
among the sources; a bounded queue whose messages come from a slab owned by
the mailbox.  `free_slots` counts the slab slots not handed out, `ring_room`
the places left in the queue, and `queue` holds the published messages,
oldest first. -/
structure mailbox where
  free_slots : Nat
  ring_room : Nat
  queue : List cps_request

/-- Modelled from the spec: `struct cps_config` of `gatekeeper_cps.h`, which is
not among the sources; the fields `cps/main.c` uses.  The two flags are what
`arp_enabled(cps_conf->lls)` and `nd_enabled(cps_conf->lls)` return. -/
structure cps_config where
  net : net_config
  tcp_port_bgp : Nat
  mailbox : mailbox
  arp_requests : List arp_request
  nd_requests : List nd_request
  arp_enabled : Bool
  nd_enabled : Bool

/-- What the CPS block does to the world outside `struct cps_config`, in the
order it does it. -/
inductive cps_event where
  | kni_tx_burst (kni : kni_ptr) (pkts : List rte_mbuf)
  | pktmbuf_free (pkt : rte_mbuf)
  | log_err
  | put_arp (addr : Nat)
  | put_nd (addr : List Nat)

/-- The environment of the CPS block: the buffer `rte_pktmbuf_alloc` hands out
(`none` is NULL) and the number of packets `rte_kni_tx_burst` accepts. -/
structure cps_env where
  rte_pktmbuf_alloc : Option rte_mbuf
  rte_kni_tx_burst : kni_ptr → List rte_mbuf → Nat

/-! ## `cps/main.c`: replies to the KNI -/

open cps_event kni_ptr in
/-- The function `send_arp_reply_kni`; the result is what it does, in order. -/
def send_arp_reply_kni (env : cps_env) (cps_conf : cps_config) (arp : cps_arp_req) :
    List cps_event :=
  let iface := cps_conf.net.deref arp.iface
  match env.rte_pktmbuf_alloc with
  | none => [log_err]
  | some created_pkt =>
    let pkt_size := sizeof_ether_hdr + sizeof_arp_hdr
    let created_pkt := { created_pkt with data_len := pkt_size, pkt_len := pkt_size }
    let eth_hdr := created_pkt.data_off
    let b := created_pkt.buf
    let b := rte_memcpy b (eth_hdr + 6) arp.ha.addr_bytes 6
    let b := rte_memcpy b eth_hdr iface.eth_addr.addr_bytes 6
    let b := store16 b (eth_hdr + 12) (rte_cpu_to_be_16 ETHER_TYPE_ARP)
    let arp_hdr := eth_hdr + sizeof_ether_hdr
    let b := store16 b arp_hdr (rte_cpu_to_be_16 ARP_HRD_ETHER)
    let b := store16 b (arp_hdr + 2) (rte_cpu_to_be_16 ETHER_TYPE_IPv4)
    let b := store8 b (arp_hdr + 4) ETHER_ADDR_LEN
    let b := store8 b (arp_hdr + 5) sizeof_in_addr
    let b := store16 b (arp_hdr + 6) (rte_cpu_to_be_16 ARP_OP_REPLY)
    let b := rte_memcpy b (arp_hdr + 8) arp.ha.addr_bytes 6
    let b := rte_memcpy b (arp_hdr + 14) (host32_bytes arp.ip) 4
    let b := rte_memcpy b (arp_hdr + 18) iface.eth_addr.addr_bytes 6
    let b := store32 b (arp_hdr + 24) iface.ip4_addr
    let created_pkt := { created_pkt with buf := b }
    let kni := if arp.iface = iface_ptr.front then front_kni else back_kni
    let ret : Int := env.rte_kni_tx_burst kni [created_pkt]
    if ret ≤ 0 then
      [kni_tx_burst kni [created_pkt], pktmbuf_free created_pkt, log_err]
    else
      [kni_tx_burst kni [created_pkt]]

/-- The ARP reply of the spec: Ethernet(dst, src, 0x0806) and ARP(hrd 1,
pro 0x0800, hln 6, pln 4, op 2, sha, sip, tha, tip), the IPv4 addresses being
32-bit words as held in memory. -/
def arp_reply_frame (iface_mac h : ether_addr) (t iface_ip4 : Nat) : List Nat :=
  ether_hdr_bytes iface_mac h 0x0806 ++
  (be16_bytes 1 ++ be16_bytes 0x0800 ++ [6, 4] ++ be16_bytes 2 ++
   h.addr_bytes ++ host32_bytes t ++ iface_mac.addr_bytes ++ host32_bytes iface_ip4)

/-- The KNI of an interface: front KNI for the front interface, back KNI
otherwise. -/
def kni_of : iface_ptr → kni_ptr
  | iface_ptr.front => kni_ptr.front_kni
  | iface_ptr.back => kni_ptr.back_kni

/-- A freshly allocated packet buffer: 2048 bytes of zeros after a headroom of
128 bytes, no data. -/
def sample_fresh_mbuf : rte_mbuf where
  buf := fun _ => 0
  buf_len := 2176
  data_off := 128
  data_len := 0
  pkt_len := 0
  ol_flags := 0
  outer_l2_len := 0
  outer_l3_len := 0

/-- A pool with a buffer to hand out and KNIs that accept every packet. -/
def sample_cps_env : cps_env where
  rte_pktmbuf_alloc := some sample_fresh_mbuf
  rte_kni_tx_burst := fun _ pkts => pkts.length

/-- The front interface of scenario S1: MAC 02:00:00:00:00:01 and IPv4 address
192.0.2.1. -/
def sample_front_s1 : gatekeeper_if :=
  { sample_iface with
    eth_addr := ⟨[0x02, 0x00, 0x00, 0x00, 0x00, 0x01]⟩
    ip4_addr := 0x010200C0 }

/-- A CPS block with the front interface of scenario S1 and empty lists. -/
def sample_cps_conf : cps_config where
  net := { back_iface_enabled := false, front := sample_front_s1, back := sample_iface,
           numa_nodes := 1 }
  tcp_port_bgp := 179
  mailbox := { free_slots := 4, ring_room := 4, queue := [] }
  arp_requests := []
  nd_requests := []
  arp_enabled := true
  nd_enabled := true

/-- The request of scenario S1: 192.0.2.100 is at 02:00:00:00:00:64. -/
def sample_arp_req : cps_arp_req where
  ip := 0x640200C0
  ha := ⟨[0x02, 0x00, 0x00, 0x00, 0x00, 0x64]⟩
  iface := iface_ptr.front

/-- Linux value of `IPPROTO_ICMPV6`. -/
def IPPROTO_ICMPV6 : Nat := 58

/-- Modelled from the spec: `ND_NEIGH_PKT_LLADDR_MIN_LEN` of `gatekeeper_lls.h`,
which is not among the sources; the length of an ND packet with one link-layer
address option: Ethernet (14), IPv6 (40), ICMPv6 (4), ND message (20), option
(8). -/
def ND_NEIGH_PKT_LLADDR_MIN_LEN : Nat := 86

/-- Modelled from the spec: `ND_NEIGHBOR_ADVERTISEMENT` of `gatekeeper_lls.h`,
which is not among the sources; ICMPv6 type 136. -/
def ND_NEIGHBOR_ADVERTISEMENT : Nat := 136

/-- Modelled from the spec: `LLS_ND_NA_SOLICITED` of `gatekeeper_lls.h`, which
is not among the sources; the Solicited flag of the advertisement's flags word. -/
def LLS_ND_NA_SOLICITED : Nat := 0x40000000

/-- Modelled from the spec: `LLS_ND_NA_OVERRIDE` of `gatekeeper_lls.h`, which is
not among the sources; the Override flag of the advertisement's flags word. -/
def LLS_ND_NA_OVERRIDE : Nat := 0x20000000

/-- Modelled from the spec: `ND_OPT_TARGET_LL_ADDR` of `gatekeeper_lls.h`, which
is not among the sources; option type 2. -/
def ND_OPT_TARGET_LL_ADDR : Nat := 2

/-- Modelled from the spec: the size of `struct icmpv6_hdr` of
`gatekeeper_lls.h`, which is not among the sources: type, code, checksum. -/
def sizeof_icmpv6_hdr : Nat := 4

/-- Modelled from the spec: the size of `struct nd_neigh_msg` of
`gatekeeper_lls.h`, which is not among the sources: flags word and target. -/
def sizeof_nd_neigh_msg : Nat := 20

/-- Sum of the 16-bit big-endian words of a byte string; an odd last byte is
padded with a zero byte. -/
def sum16 : List Nat → Nat
  | [] => 0
  | [a] => a * 256
  | a :: b :: rest => a * 256 + b + sum16 rest

/-- End-around carry: a sum of 16-bit words folded to 16 bits in one's
complement arithmetic. -/
def fold16 (s : Nat) : Nat := if s = 0 then 0 else (s - 1) % 65535 + 1

/-- Modelled from the spec: the ICMPv6 checksum over the IPv6 pseudo-header
(source, destination, upper-layer length, three zero bytes, next header 58)
and the message: the one's complement of their one's-complement sum. -/
def icmpv6_cksum (src dst msg : List Nat) : Nat :=
  65535 - fold16 (sum16 (src ++ dst ++ be32_bytes msg.length ++ [0, 0, 0, 58] ++ msg))

/-- Modelled from the spec: the helper `rte_ipv6_icmpv6_cksum(ipv6_hdr, l4_hdr)`
of `gatekeeper_lls.h`, which is not among the sources; the ICMPv6 checksum over
the pseudo-header of the IPv6 header at `ipv6_hdr` and the message at `l4_hdr`,
whose length is the header's payload length, as the 16-bit word whose store
puts the checksum in network order. -/
def rte_ipv6_icmpv6_cksum (m : Mem) (ipv6_hdr l4_hdr : Nat) : Nat :=
  let l4_len := rte_be_to_cpu_16 (load16 m (ipv6_hdr + 4))
  rte_cpu_to_be_16 (icmpv6_cksum (loadBytes m (ipv6_hdr + 8) 16)
    (loadBytes m (ipv6_hdr + 24) 16) (loadBytes m l4_hdr l4_len))

open cps_event kni_ptr in
/-- The function `send_nd_reply_kni`; the result is what it does, in order. -/
def send_nd_reply_kni (env : cps_env) (cps_conf : cps_config) (nd : cps_nd_req) :
    List cps_event :=
  let iface := cps_conf.net.deref nd.iface
  match env.rte_pktmbuf_alloc with
  | none => [log_err]
  | some created_pkt =>
    let created_pkt := { created_pkt with
      data_len := ND_NEIGH_PKT_LLADDR_MIN_LEN
      pkt_len := ND_NEIGH_PKT_LLADDR_MIN_LEN }
    let eth_hdr := created_pkt.data_off
    let b := created_pkt.buf
    let b := rte_memcpy b (eth_hdr + 6) nd.ha.addr_bytes 6
    let b := rte_memcpy b eth_hdr iface.eth_addr.addr_bytes 6
    let b := store16 b (eth_hdr + 12) (rte_cpu_to_be_16 ETHER_TYPE_IPv6)
    let ipv6_hdr := eth_hdr + sizeof_ether_hdr
    let b := store32 b ipv6_hdr (rte_cpu_to_be_32 IPv6_DEFAULT_VTC_FLOW)
    let b := store16 b (ipv6_hdr + 4) (rte_cpu_to_be_16
      (ND_NEIGH_PKT_LLADDR_MIN_LEN - (sizeof_ether_hdr + sizeof_ipv6_hdr)))
    let b := store8 b (ipv6_hdr + 6) IPPROTO_ICMPV6
    let b := store8 b (ipv6_hdr + 7) IPv6_DEFAULT_HOP_LIMITS
    let b := rte_memcpy b (ipv6_hdr + 8) nd.ip 16
    let b := rte_memcpy b (ipv6_hdr + 24) (loadBytes iface.ll_ip6_addr 0 16) 16
    let icmpv6_hdr := ipv6_hdr + sizeof_ipv6_hdr
    let b := store8 b icmpv6_hdr ND_NEIGHBOR_ADVERTISEMENT
    let b := store8 b (icmpv6_hdr + 1) 0
    let b := store16 b (icmpv6_hdr + 2) 0
    let nd_msg := icmpv6_hdr + sizeof_icmpv6_hdr
    let b := store32 b nd_msg (rte_cpu_to_be_32 (LLS_ND_NA_OVERRIDE ||| LLS_ND_NA_SOLICITED))
    let b := rte_memcpy b (nd_msg + 4) nd.ip 16
    let nd_opt := nd_msg + sizeof_nd_neigh_msg
    let b := store8 b nd_opt ND_OPT_TARGET_LL_ADDR
    let b := store8 b (nd_opt + 1) 1
    let b := rte_memcpy b (nd_opt + 2) nd.ha.addr_bytes 6
    let b := store16 b (icmpv6_hdr + 2) (rte_ipv6_icmpv6_cksum b ipv6_hdr icmpv6_hdr)
    let created_pkt := { created_pkt with buf := b }
    let kni := if nd.iface = iface_ptr.front then front_kni else back_kni
    let ret : Int := env.rte_kni_tx_burst kni [created_pkt]
    if ret ≤ 0 then
      [kni_tx_burst kni [created_pkt], pktmbuf_free created_pkt, log_err]
    else
      [kni_tx_burst kni [created_pkt]]

/-- The ICMPv6 message of a Neighbor Advertisement of the spec: ICMPv6(type
136, code 0, checksum), NA(flags word Override|Solicited, target) and the
option (type 2, length 1, link-layer address). -/
def nd_advert_msg (cksum : Nat) (t : List Nat) (h : ether_addr) : List Nat :=
  [136, 0] ++ be16_bytes cksum ++ (be32_bytes 0x60000000 ++ t ++ [2, 1] ++ h.addr_bytes)

/-- The ND advertisement of the spec: Ethernet(dst, src, 0x86DD), IPv6(version
6, traffic class 0, flow label 0, payload length 32, next header 58, hop limit
255, src = target, dst = link-local address) and the message with its checksum
over the pseudo-header and the message with a zero checksum field. -/
def nd_advert_frame (iface_mac h : ether_addr) (t ll : List Nat) : List Nat :=
  ether_hdr_bytes iface_mac h 0x86DD ++ ipv6_hdr_bytes 0x60000000 32 58 255 t ll ++
  nd_advert_msg (icmpv6_cksum t ll (nd_advert_msg 0 t h)) t h

/-- The front interface of scenario S2: MAC 02:00:00:00:00:02, global address
2001:db8::1 and its derived link-local address fe80::ff:fe00:2. -/
def sample_front_s2 : gatekeeper_if :=
  gen_ipv6_link_local { sample_iface with
    ip6_addr := writeList (fun _ => 0) 0 [0x20, 0x01, 0x0d, 0xb8, 0, 0, 0, 0,
      0, 0, 0, 0, 0, 0, 0, 1] }

/-- A CPS block with the front interface of scenario S2. -/
def sample_cps_conf_s2 : cps_config :=
  { sample_cps_conf with net := { sample_cps_conf.net with front := sample_front_s2 } }

/-- The request of scenario S2: 2001:db8::100 is at 02:00:00:00:00:C8. -/
def sample_nd_req : cps_nd_req where
  ip := [0x20, 0x01, 0x0d, 0xb8, 0, 0, 0, 0, 0, 0, 0, 0, 0, 0, 0x01, 0x00]
  ha := ⟨[0x02, 0x00, 0x00, 0x00, 0x00, 0xC8]⟩
  iface := iface_ptr.front

/-! ## `cps/main.c`: requests from the mailbox -/

def CPS_REQ_BURST_SIZE : Nat := 32

/-- Modelled from the spec: `mb_alloc_entry` of the mailbox, which is not among
the sources; a slab slot, or `none` (NULL) when the slab is exhausted. -/
def mb_alloc_entry (mb : mailbox) : Option mailbox :=
  if mb.free_slots = 0 then none else some { mb with free_slots := mb.free_slots - 1 }

/-- Modelled from the spec: `mb_send_entry` of the mailbox, which is not among
the sources; publishes a message behind the ones already published and
returns 0, or fails with a negative value when the queue has no room. -/
def mb_send_entry (mb : mailbox) (req : cps_request) : Int × mailbox :=
  if mb.ring_room = 0 then (-105, mb)
  else (0, { mb with ring_room := mb.ring_room - 1, queue := mb.queue ++ [req] })

/-- Modelled from the spec: `mb_dequeue_burst` of the mailbox, which is not
among the sources; up to `n` published messages in FIFO order. -/
def mb_dequeue_burst (mb : mailbox) (n : Nat) : List cps_request × mailbox :=
  (mb.queue.take n,
   { mb with ring_room := mb.ring_room + (mb.queue.take n).length, queue := mb.queue.drop n })

/-- Modelled from the spec: `mb_free_entry` of the mailbox, which is not among
the sources; returns a slot to the slab. -/
def mb_free_entry (mb : mailbox) : mailbox :=
  { mb with free_slots := mb.free_slots + 1 }

/-- Modelled from the spec: the helper `ipv6_addrs_equal`, which is not among
the sources; whether two IPv6 addresses are the same 16 bytes. -/
def ipv6_addrs_equal (a b : List Nat) : Bool := decide (a = b)

def CPS_SCAN_INTERVAL_SEC : Nat := 5

open cps_event in
/-- The loop of `cps_scan` over the ARP requests: a stale entry is reported
with `put_arp`, unlinked and freed; any other entry is marked stale. -/
def cps_scan_arp : List arp_request → List arp_request × List cps_event
  | [] => ([], [])
  | entry :: next =>
    if entry.stale then
      let (rest, events) := cps_scan_arp next
      (rest, put_arp entry.addr :: events)
    else
      let (rest, events) := cps_scan_arp next
      ({ entry with stale := true } :: rest, events)

open cps_event in
/-- The loop of `cps_scan` over the ND requests. -/
def cps_scan_nd : List nd_request → List nd_request × List cps_event
  | [] => ([], [])
  | entry :: next =>
    if entry.stale then
      let (rest, events) := cps_scan_nd next
      (rest, put_nd entry.addr :: events)
    else
      let (rest, events) := cps_scan_nd next
      ({ entry with stale := true } :: rest, events)

/-- The function `cps_scan`. -/
def cps_scan (cps_conf : cps_config) : cps_config × List cps_event :=
  let (cps_conf, arp_events) :=
    if cps_conf.arp_enabled then
      let (l, events) := cps_scan_arp cps_conf.arp_requests
      ({ cps_conf with arp_requests := l }, events)
    else (cps_conf, [])
  let (cps_conf, nd_events) :=
    if cps_conf.nd_enabled then
      let (l, events) := cps_scan_nd cps_conf.nd_requests
      ({ cps_conf with nd_requests := l }, events)
    else (cps_conf, [])
  (cps_conf, arp_events ++ nd_events)

/-- The addresses of the `put_arp` calls among events, in order. -/
def put_arp_calls (events : List cps_event) : List Nat :=
  events.filterMap fun e => match e with
    | cps_event.put_arp addr => some addr
    | _ => none

/-- The addresses of the `put_nd` calls among events, in order. -/
def put_nd_calls (events : List cps_event) : List (List Nat) :=
  events.filterMap fun e => match e with
    | cps_event.put_nd addr => some addr
    | _ => none

/-- A CPS block with stale and fresh requests of both families. -/
def sample_cps_conf_scan : cps_config :=
  { sample_cps_conf with
    arp_requests := [⟨1, false⟩, ⟨2, true⟩, ⟨3, false⟩, ⟨2, true⟩]
    nd_requests := [⟨List.replicate 16 7, true⟩, ⟨sample_nd_req.ip, false⟩] }

/-! ## `lib/acl.c`: ACL categories -/

def MAX_NUM_IPV6_ACL_RULES : Nat := 32

/-- DPDK's `RTE_ACL_INVALID_USERDATA`. -/
def RTE_ACL_INVALID_USERDATA : Nat := 0

/-- The environment of `lib/acl.c`: `get_net_conf()->numa_nodes`, whether
`rte_acl_create` gives a context for a socket, the return values of
`rte_acl_add_rules` and `rte_acl_build` for a context, the return value and
the results of `rte_acl_classify` for a context and the packets' data, the
socket of an lcore, and the return values of the callbacks of other blocks. -/
structure acl_env where
  numa_nodes : Nat
  rte_acl_create : Nat → Bool
  rte_acl_add_rules : Option rte_acl_ctx → List ipv6_acl_rule → Int
  rte_acl_build : Option rte_acl_ctx → Int
  rte_acl_classify : Option rte_acl_ctx → List (List Nat) → Int × (Nat → Nat)
  rte_lcore_to_socket_id : Nat → Nat
  ext_cb : ext_cb_func → rte_mbuf → Int
  acl_cb : acl_cb_func → List rte_mbuf → Int

/-- The loop of `register_ipv6_acl` over the NUMA nodes from node `i` on, with
`n` nodes left: the rules are added to every context in turn, and the first
failure ends the loop with its return value. -/
def add_rules_loop (env : acl_env) (ipv6_rules : List ipv6_acl_rule) :
    Nat → Nat → (Nat → Option rte_acl_ctx) → Int × (Nat → Option rte_acl_ctx)
  | 0, _, ipv6_acls => (0, ipv6_acls)
  | n + 1, i, ipv6_acls =>
    let ret := env.rte_acl_add_rules (ipv6_acls i) ipv6_rules
    if ret < 0 then (ret, ipv6_acls)
    else
      let ipv6_acls := fun k =>
        if k = i then (ipv6_acls i).map fun ctx => { ctx with rules := ctx.rules ++ ipv6_rules }
        else ipv6_acls k
      add_rules_loop env ipv6_rules n (i + 1) ipv6_acls

/-- What `register_ipv6_acl` leaves behind: its return value, the caller's
rule array and the interface. -/
structure register_result where
  ret : Int
  ipv6_rules : List ipv6_acl_rule
  iface : gatekeeper_if

/-- The function `register_ipv6_acl`; `num_rules` is the length of
`ipv6_rules`. -/
def register_ipv6_acl (env : acl_env) (ipv6_rules : List ipv6_acl_rule)
    (cb_f : Option acl_cb_func) (ext_cb_f : Option ext_cb_func) (iface : gatekeeper_if) :
    register_result :=
  let numa_nodes := env.numa_nodes
  if iface.acl_func_count = GATEKEEPER_IPV6_ACL_MAX then ⟨-1, ipv6_rules, iface⟩
  else
    let ipv6_rules := ipv6_rules.map fun r =>
      { r with data := { r.data with userdata := iface.acl_func_count } }
    let (ret, ipv6_acls) := add_rules_loop env ipv6_rules numa_nodes 0 iface.ipv6_acls
    let iface := { iface with ipv6_acls := ipv6_acls }
    if ret < 0 then ⟨ret, ipv6_rules, iface⟩
    else
      let iface := { iface with
        acl_funcs := fun k => if k = iface.acl_func_count then cb_f else iface.acl_funcs k }
      let iface := { iface with
        ext_funcs := fun k => if k = iface.acl_func_count then ext_cb_f else iface.ext_funcs k }
      let iface := { iface with acl_func_count := (iface.acl_func_count + 1) % 4294967296 }
      ⟨0, ipv6_rules, iface⟩

/-- Number of characters that `snprintf` needs for `"%s_%u"`. -/
def acl_name_len (name : List Char) (i : Nat) : Nat :=
  name.length + 1 + (Nat.toDigits 10 i).length

/-- The loop of `init_ipv6_acls` over the NUMA nodes from node `i` on, with `n`
nodes left; the outer `none` is the abort of `RTE_VERIFY` on a name that does
not fit, the result `false` the failure of `rte_acl_create`. -/
def create_acls_loop (env : acl_env) (name : List Char) :
    Nat → Nat → (Nat → Option rte_acl_ctx) → Option (Bool × (Nat → Option rte_acl_ctx))
  | 0, _, ipv6_acls => some (true, ipv6_acls)
  | n + 1, i, ipv6_acls =>
    if acl_name_len name i < 64 then
      if env.rte_acl_create i then
        create_acls_loop env name n (i + 1)
          (fun k => if k = i then some ⟨[], false⟩ else ipv6_acls k)
      else
        some (false, fun k => if k = i then none else ipv6_acls k)
    else none

/-- The function `init_ipv6_acls`; `none` is an abort (`RTE_VERIFY`, or a name
that is NULL). -/
def init_ipv6_acls (env : acl_env) (iface : gatekeeper_if) : Option (Int × gatekeeper_if) :=
  match iface.name with
  | none => none
  | some name =>
    match create_acls_loop env name env.numa_nodes 0 iface.ipv6_acls with
    | none => none
    | some (false, ipv6_acls) => some (-1, { iface with ipv6_acls := ipv6_acls })
    | some (true, ipv6_acls) =>
      let iface := { iface with ipv6_acls := ipv6_acls }
      let iface := { iface with
        acl_funcs := fun k => if k = RTE_ACL_INVALID_USERDATA
          then some acl_cb_func.drop_unmatched_ipv6_pkts else iface.acl_funcs k }
      let iface := { iface with
        ext_funcs := fun k => if k = RTE_ACL_INVALID_USERDATA then none else iface.ext_funcs k }
      let iface := { iface with acl_func_count := 1 }
      some (0, iface)

/-- One call of `register_ipv6_acl`: the rules and the two callbacks. -/
structure register_call where
  ipv6_rules : List ipv6_acl_rule
  cb_f : Option acl_cb_func
  ext_cb_f : Option ext_cb_func

/-- A sequence of `register_ipv6_acl` calls on one interface, each call
working on the interface the call before left; the results, in order. -/
def register_ipv6_acl_seq (env : acl_env) :
    gatekeeper_if → List register_call → List register_result
  | _, [] => []
  | iface, c :: cs =>
    let r := register_ipv6_acl env c.ipv6_rules c.cb_f c.ext_cb_f iface
    r :: register_ipv6_acl_seq env r.iface cs

/-- The interface before the `i`-th call of a sequence. -/
def iface_before (iface : gatekeeper_if) (results : List register_result) (i : Nat) :
    gatekeeper_if :=
  match i with
  | 0 => iface
  | i + 1 => ((results.get? i).map fun r => r.iface).getD iface

/-- Number of calls among the first `i` that returned 0. -/
def successes_before (results : List register_result) (i : Nat) : Nat :=
  ((results.take i).filter fun r => decide (r.ret = 0)).length

/-- A host with one NUMA node whose ACL library accepts everything and finds
no match. -/
def sample_acl_env : acl_env where
  numa_nodes := 1
  rte_acl_create := fun _ => true
  rte_acl_add_rules := fun _ _ => 0
  rte_acl_build := fun _ => 0
  rte_acl_classify := fun _ _ => (0, fun _ => 0)
  rte_lcore_to_socket_id := fun _ => 0
  ext_cb := fun _ _ => -2
  acl_cb := fun _ _ => 0

/-- The sample interface under the name "f". -/
def sample_named_iface : gatekeeper_if :=
  { sample_iface with name := some [Char.ofNat 102] }

/-- The sample interface after `init_ipv6_acls`. -/
def sample_acl_iface : gatekeeper_if :=
  ((init_ipv6_acls sample_acl_env sample_named_iface).map fun r => r.2).getD sample_iface

/-- Two rules with no userdata yet and the callbacks of the CPS block. -/
def sample_register_call : register_call where
  ipv6_rules := [⟨⟨1, 1, 0⟩, []⟩, ⟨⟨1, 1, 0⟩, []⟩]
  cb_f := some acl_cb_func.submit_bgp
  ext_cb_f := some ext_cb_func.match_bgp

/-- An interface whose eight categories are taken. -/
def sample_full_iface : gatekeeper_if :=
  { sample_acl_iface with acl_func_count := 8 }

/-! ## `lib/acl.c`: classification of a burst -/

/-- Modelled from the spec: `struct acl_search` of `gatekeeper_acl.h`, which is
not among the sources; a burst to classify: the packets' data for the
classifier, the per-packet results, and the packets, `num` of them. -/
structure acl_search where
  data : List (List Nat)
  res : Nat → Nat
  mbufs : List rte_mbuf
  num : Nat

/-- What `lib/acl.c` does to the world outside the interface, in the order it
does it. -/
inductive acl_event where
  | ext_call (j : Nat) (f : ext_cb_func) (pkt : rte_mbuf)
  | acl_call (i : Nat) (f : acl_cb_func) (pkts : List rte_mbuf)
  | log_no_match
  | pktmbuf_dump (pkt : rte_mbuf)
  | pktmbuf_free (pkt : rte_mbuf)
  | log_acl_func_failed (i : Nat)
  | log_err

open acl_event in
/-- The function `drop_unmatched_ipv6_pkts`: its return value and what it
does. -/
def drop_unmatched_ipv6_pkts (pkts : List rte_mbuf) : Int × List acl_event :=
  (0, pkts.flatMap fun pkt => [log_no_match, pktmbuf_dump pkt, pktmbuf_free pkt])

open acl_event in
/-- The loop of `process_ipv6_acl` over the extension-header callbacks `j` of
a list of categories, for a packet without a match: the category that claims
the packet (0 if none does) and the calls made; `none` is a call through a
NULL pointer. -/
def try_ext_funcs (env : acl_env) (iface : gatekeeper_if) (pkt : rte_mbuf) :
    List Nat → Option (Nat × List acl_event)
  | [] => some (RTE_ACL_INVALID_USERDATA, [])
  | j :: js =>
    match iface.ext_funcs j with
    | none => none
    | some f =>
      if env.ext_cb f pkt = 0 then some (j, [ext_call j f pkt])
      else
        match try_ext_funcs env iface pkt js with
        | none => none
        | some (type, events) => some (type, ext_call j f pkt :: events)

/-- The loop of `process_ipv6_acl` that splits the burst, from packet `i` on:
each packet goes to the end of the buffer `pkts[type]` of its type; `none` is
a NULL callback or a type without a buffer. -/
def split_pkts (env : acl_env) (iface : gatekeeper_if) (res : Nat → Nat) :
    Nat → List rte_mbuf → (Nat → List rte_mbuf) →
    Option ((Nat → List rte_mbuf) × List acl_event)
  | _, [], pkts => some (pkts, [])
  | i, mbuf :: mbufs, pkts =>
    let type := res i
    let found :=
      if type = RTE_ACL_INVALID_USERDATA then
        try_ext_funcs env iface mbuf (List.range' 1 (iface.acl_func_count - 1))
      else some (type, [])
    match found with
    | none => none
    | some (type, events) =>
      if type < iface.acl_func_count then
        let pkts := fun k => if k = type then pkts k ++ [mbuf] else pkts k
        match split_pkts env iface res (i + 1) mbufs pkts with
        | none => none
        | some (pkts, more) => some (pkts, events ++ more)
      else none

open acl_event in
/-- The loop of `process_ipv6_acl` that hands every non-empty buffer to the
callback of its type; `none` is a NULL callback. -/
def call_acl_funcs (env : acl_env) (iface : gatekeeper_if) (pkts : Nat → List rte_mbuf) :
    List Nat → Option (List acl_event)
  | [] => some []
  | i :: is =>
    if (pkts i).length = 0 then call_acl_funcs env iface pkts is
    else
      match iface.acl_funcs i with
      | none => none
      | some f =>
        let (ret, done) :=
          if f = acl_cb_func.drop_unmatched_ipv6_pkts then drop_unmatched_ipv6_pkts (pkts i)
          else (env.acl_cb f (pkts i), [])
        let events := acl_call i f (pkts i) :: done ++
          (if ret < 0 then [log_acl_func_failed i] else [])
        match call_acl_funcs env iface pkts is with
        | none => none
        | some more => some (events ++ more)

open acl_event in
/-- The function `process_ipv6_acl`: its return value, the search afterwards
and what it did; `none` is a crash (NULL callback, type out of range). -/
def process_ipv6_acl (env : acl_env) (iface : gatekeeper_if) (lcore_id : Nat)
    (acl : acl_search) : Option (Int × acl_search × List acl_event) :=
  let socket_id := env.rte_lcore_to_socket_id lcore_id
  let mbufs := acl.mbufs.take acl.num
  if iface.configured_proto &&& GK_CONFIGURED_IPV6 = 0 then
    some (0, { acl with num := 0 }, mbufs.map pktmbuf_free)
  else
    let (ret, res) := env.rte_acl_classify (iface.ipv6_acls socket_id) acl.data
    let acl := { acl with res := res }
    if ret < 0 then
      some (ret, { acl with num := 0 }, log_err :: mbufs.map pktmbuf_free)
    else
      match split_pkts env iface acl.res 0 mbufs (fun _ => []) with
      | none => none
      | some (pkts, ext_events) =>
        match call_acl_funcs env iface pkts (List.range iface.acl_func_count) with
        | none => none
        | some events => some (0, { acl with num := 0 }, ext_events ++ events)

/-- The category that claims a packet: the classifier's result when it is not
0; otherwise the first category 1, 2, ... whose extension-header callback
returns 0 for the packet, and category 0 when none does. -/
def category_of (env : acl_env) (iface : gatekeeper_if) (res : Nat) (pkt : rte_mbuf) : Nat :=
  if res = RTE_ACL_INVALID_USERDATA then
    ((List.range' 1 (iface.acl_func_count - 1)).find? fun j =>
      match iface.ext_funcs j with
      | some f => decide (env.ext_cb f pkt = 0)
      | none => false).getD 0
  else res

/-- The categories of the packets of a burst whose first packet has index
`i`. -/
def categories (env : acl_env) (iface : gatekeeper_if) (res : Nat → Nat) :
    Nat → List rte_mbuf → List Nat
  | _, [] => []
  | i, mbuf :: mbufs => category_of env iface (res i) mbuf :: categories env iface res (i + 1) mbufs

/-- The packets of a burst that fall in category `k`, in burst order. -/
def category_pkts (mbufs : List rte_mbuf) (cats : List Nat) (k : Nat) : List rte_mbuf :=
  ((mbufs.zip cats).filter fun x => decide (x.2 = k)).map fun x => x.1

/-- The calls of match callbacks among events: category, callback and
sub-burst, in order. -/
def acl_calls (events : List acl_event) : List (Nat × acl_cb_func × List rte_mbuf) :=
  events.filterMap fun e => match e with
    | acl_event.acl_call i f pkts => some (i, f, pkts)
    | _ => none

/-- The packets freed among events, in order. -/
def acl_freed (events : List acl_event) : List rte_mbuf :=
  events.filterMap fun e => match e with
    | acl_event.pktmbuf_free pkt => some pkt
    | _ => none

/-- The number of `no match` warnings among events. -/
def acl_no_match_logs (events : List acl_event) : Nat :=
  (events.filter fun e => match e with
    | acl_event.log_no_match => true
    | _ => false).length

/-- Whether an event is a call of an extension-header callback. -/
def acl_event.is_ext_call : acl_event → Bool
  | acl_event.ext_call _ _ _ => true
  | _ => false

/-- The sample interface with IPv6 configured and the BGP category of the CPS
block registered as category 1. -/
def sample_bgp_iface : gatekeeper_if :=
  { (register_ipv6_acl sample_acl_env sample_register_call.ipv6_rules
      sample_register_call.cb_f sample_register_call.ext_cb_f sample_acl_iface).iface with
    configured_proto := GK_CONFIGURED_IPV6 }

/-- A classifier that finds a match in category 1 for the second packet of a
burst only. -/
def sample_classify_env : acl_env :=
  { sample_acl_env with
    rte_acl_classify := fun _ _ => (0, fun i => if i = 1 then 1 else 0) }

/-- A burst of three packets that differ in their lengths. -/
def sample_acl_search : acl_search where
  data := []
  res := fun _ => 0
  mbufs := [{ sample_fresh_mbuf with data_len := 60 }, { sample_fresh_mbuf with data_len := 74 },
            { sample_fresh_mbuf with data_len := 90 }]
  num := 3

/-! ## `cps/main.c`: BGP packets over IPv6 -/

/-- Linux values of `ENOENT`, `ENOMEM` and `IPPROTO_TCP`, and the size of
DPDK's `struct tcp_hdr`. -/
def ENOENT : Int := 2
def ENOMEM : Int := 12
def IPPROTO_TCP : Nat := 6
def sizeof_tcp_hdr : Nat := 20

/-- The helper `ipv6_skip_exthdr(ip6hdr, remaining_len, &nexthdr)`, which is not
among the sources, as `match_bgp` sees it: for the packet memory, the offset of
the IPv6 header and the length from there on, the return value (the offset of
the upper-layer header from the IPv6 header, or a negative value) and the byte
written through `nexthdr`. -/
structure exthdr_env where
  ipv6_skip_exthdr : Mem → Nat → Nat → Int × Nat

/-- The function `match_bgp`; `cps_conf` is what `get_cps_conf()` returns. -/
def match_bgp (env : exthdr_env) (cps_conf : cps_config) (pkt : rte_mbuf)
    (iface : gatekeeper_if) : Int :=
  let BE_ETHER_TYPE_IPv6 := rte_cpu_to_be_16 ETHER_TYPE_IPv6
  let eth_hdr := pkt.data_off
  let minimum_size := (sizeof_ether_hdr + sizeof_ipv6_hdr + sizeof_tcp_hdr) % 65536
  let cps_bgp_port := rte_cpu_to_be_16 cps_conf.tcp_port_bgp
  if load16 pkt.buf (eth_hdr + 12) ≠ BE_ETHER_TYPE_IPv6 then -ENOENT
  else if pkt.data_len < minimum_size then -ENOENT
  else
    let ip6hdr := eth_hdr + sizeof_ether_hdr
    if loadBytes pkt.buf (ip6hdr + 24) 16 ≠ loadBytes iface.ip6_addr 0 16 then -ENOENT
    else
      let (tcp_offset, nexthdr) :=
        env.ipv6_skip_exthdr pkt.buf ip6hdr (pkt.data_len - sizeof_ether_hdr)
      if tcp_offset < 0 ∨ nexthdr ≠ IPPROTO_TCP then -ENOENT
      else
        let minimum_size := to_uint16 ((minimum_size : Int) + tcp_offset - sizeof_ipv6_hdr)
        if pkt.data_len < minimum_size then -ENOENT
        else
          let tcp_hdr := ip6hdr + tcp_offset.toNat
          if load16 pkt.buf tcp_hdr ≠ cps_bgp_port ∧
              load16 pkt.buf (tcp_hdr + 2) ≠ cps_bgp_port then -ENOENT
          else 0

/-- A parser for packets without extension headers: the upper-layer header
follows the IPv6 header, and the next header is the header's own. -/
def sample_exthdr_env : exthdr_env where
  ipv6_skip_exthdr := fun m ip6hdr _ => (40, m (ip6hdr + 6))

/-- The packet of scenario S3: IPv6 to 2001:db8::1, TCP from port 54321 to
port 179, 74 bytes. -/
def sample_bgp_pkt : rte_mbuf :=
  { sample_fresh_mbuf with
    data_len := 74
    pkt_len := 74
    buf := writeList (fun _ => 0) 128
      ([0x02, 0, 0, 0, 0, 0x02, 0x02, 0, 0, 0, 0, 0x09, 0x86, 0xDD,
        0x60, 0, 0, 0, 0, 20, 6, 64] ++
       [0x20, 0x01, 0x0d, 0xb8, 0, 0, 0, 0, 0, 0, 0, 0, 0, 0, 0, 9] ++
       [0x20, 0x01, 0x0d, 0xb8, 0, 0, 0, 0, 0, 0, 0, 0, 0, 0, 0, 1] ++
       [0xD4, 0x31, 0, 179] ++ List.replicate 16 0) }


open cps_event kni_ptr in
/-- The function `submit_bgp`: its return value, the CPS block afterwards and
what it did; `num_pkts` is the length of `pkts`, `gatekeeper_max_pkt_burst` is
the field of `get_gatekeeper_conf()`, and `none` is the abort of
`RTE_VERIFY`. -/
def submit_bgp (gatekeeper_max_pkt_burst : Nat) (cps_conf : cps_config)
    (pkts : List rte_mbuf) (iface : iface_ptr) : Option (Int × cps_config × List cps_event) :=
  let num_pkts := pkts.length
  let req := mb_alloc_entry cps_conf.mailbox
  if ¬ num_pkts ≤ gatekeeper_max_pkt_burst % 65536 then none
  else
    match req with
    | none => some (-ENOMEM, cps_conf, pkts.map pktmbuf_free)
    | some mb =>
      let req := cps_request.CPS_REQ_BGP
        { num_pkts := num_pkts
          kni := if iface = iface_ptr.front then front_kni else back_kni
          pkts := pkts }
      let (ret, mb) := mb_send_entry mb req
      let cps_conf := { cps_conf with mailbox := mb }
      if ret < 0 then some (ret, cps_conf, pkts.map pktmbuf_free)
      else some (0, cps_conf, [])

/-- A CPS block whose mailbox has two slots, both free. -/
def sample_cps_conf_mb : cps_config :=
  { sample_cps_conf with mailbox := { free_slots := 2, ring_room := 2, queue := [] } }

/-- Three bursts that differ in their packets' lengths. -/
def sample_burst (len : Nat) : List rte_mbuf :=
  [{ sample_fresh_mbuf with data_len := len }, { sample_fresh_mbuf with data_len := len + 1 }]

/-- The CPS block after two bursts have been submitted to a mailbox of two
slots. -/
def sample_cps_conf_mb_full : cps_config :=
  let c1 := ((submit_bgp 32 sample_cps_conf_mb (sample_burst 74) iface_ptr.front).map
    fun r => r.2.1).getD sample_cps_conf_mb
  ((submit_bgp 32 c1 (sample_burst 80) iface_ptr.back).map fun r => r.2.1).getD c1

/-! ## `lib/net.c`: configured protocols -/

/-- The function `ipv4_if_configured` of `gatekeeper_net.h`. -/
def ipv4_if_configured (iface : gatekeeper_if) : Bool :=
  decide (iface.configured_proto &&& GK_CONFIGURED_IPV4 ≠ 0)

/-- The function `ipv6_if_configured` of `gatekeeper_net.h`. -/
def ipv6_if_configured (iface : gatekeeper_if) : Bool :=
  decide (iface.configured_proto &&& GK_CONFIGURED_IPV6 ≠ 0)

/-- The characters of `0000:01:00.0`, a PCI address. -/
def sample_pci_addr : List Char :=
  [48, 48, 48, 48, 58, 48, 49, 58, 48, 48, 46, 48].map Char.ofNat

/-- The sample interface after `lua_init_iface` with one PCI address and the
CIDR `192.0.2.1/32`. -/
def sample_lua_iface : gatekeeper_if :=
  ((lua_init_iface sample_libc sample_iface [Char.ofNat 102] [sample_pci_addr] 1
    [sample_cidr4.str] 1).map fun r => r.2).getD sample_iface

/-- The number that a string of bytes is when read in network (big-endian)
order. -/
def be_value (bytes : List Nat) : Nat :=
  bytes.foldl (fun acc b => acc * 256 + b) 0

/-- The CIDR `192.0.2.1/24`. -/
def sample_cidr4_24 : cidr_spec := ⟨sample_addr4, false, [Char.ofNat 50, Char.ofNat 52], false⟩

/-- The CIDR `2001:db8::1/64`. -/
def sample_cidr6_64 : cidr_spec :=
  ⟨sample_addr6, false, [Char.ofNat 54, Char.ofNat 52], true⟩

/-- The characters of `192.0.2.2`. -/
def sample_addr4b : List Char :=
  [49, 57, 50, 46, 48, 46, 50, 46, 50].map Char.ofNat

/-- A C library that knows the IPv4 addresses 192.0.2.1 and 192.0.2.2 and the
IPv6 address 2001:db8::1, and never runs out of memory. -/
def sample_libc_two : libc_env :=
  { sample_libc with
    getaddrinfo := fun s =>
      if s = sample_addr4 ∨ s = sample_addr4b then some AF_INET
      else if s = sample_addr6 then some AF_INET6 else none
    inet_pton4 := fun s =>
      if s = sample_addr4 then some 0x010200c0
      else if s = sample_addr4b then some 0x020200c0 else none }

/-- The CIDR `192.0.2.2/24`. -/
def sample_cidr4b_24 : cidr_spec := ⟨sample_addr4b, false, [Char.ofNat 50, Char.ofNat 52], false⟩

/-! ## `lib/net.c`: starting a port -/

/-- Number of attempts to wait for a link to come up. -/
def NUM_ATTEMPTS_LINK_GET : Nat := 5

/-- The device, as far as `start_port` calls it: the return value of
`rte_eth_dev_start` for a port, and the link status that the `k`-th call of
`rte_eth_link_get` for the port reports (`k` counts from 0). -/
structure port_env where
  rte_eth_dev_start : Nat → Int
  link_status : Nat → Nat → Bool

/-- What `start_port` does besides computing its return value, in the order it
does it. -/
inductive port_event where
  | link_get (port_id : Nat)
  | log_link_down (port_id : Nat)
  | log_giving_up (port_id : Nat)
  | log_start_failed (port_id : Nat)
  | sleep (seconds : Nat)
  deriving DecidableEq, Repr

open port_event in
/-- The loop `do { ... } while (true)` of `start_port`, with `attempts` the
counter and `k` the number of link queries made so far; `none` when the fuel
runs out before the loop ends. -/
def link_wait_loop (env : port_env) (port_id : Nat) (wait_for_link : Int) :
    Nat → Nat → Nat → Option (Int × List port_event)
  | 0, _, _ => none
  | fuel + 1, attempts, k =>
    if env.link_status port_id k then some (0, [link_get port_id])
    else if wait_for_link = 0 ∨ attempts > NUM_ATTEMPTS_LINK_GET then
      some (-1, [link_get port_id, log_link_down port_id, log_giving_up port_id])
    else
      match link_wait_loop env port_id wait_for_link fuel ((attempts + 1) % 256) (k + 1) with
      | none => none
      | some (ret, events) =>
        some (ret, link_get port_id :: log_link_down port_id :: sleep 1 :: events)

/-- What `start_port` leaves behind: its return value, the counter behind
`pnum_succ_ports` (`none` for NULL) and what it did. -/
structure start_port_result where
  ret : Int
  num_succ_ports : Option Nat
  events : List port_event
  deriving DecidableEq, Repr

/-- The function `start_port`; the loop is given more rounds than the counter
`attempts`, a `uint8_t`, has values, and `none` would be a loop that outlasts
them. -/
def start_port (env : port_env) (port_id : Nat) (pnum_succ_ports : Option Nat)
    (wait_for_link : Int) : Option start_port_result :=
  let attempts := 0
  let ret := env.rte_eth_dev_start port_id
  if ret < 0 then some ⟨ret, pnum_succ_ports, [port_event.log_start_failed port_id]⟩
  else
    let pnum_succ_ports := pnum_succ_ports.map fun n => (n + 1) % 256
    match link_wait_loop env port_id wait_for_link 257 attempts 0 with
    | none => none
    | some (ret, events) => some ⟨ret, pnum_succ_ports, events⟩

/-- The one-second waits among events. -/
def sleeps (events : List port_event) : List Nat :=
  events.filterMap fun e => match e with
    | port_event.sleep s => some s
    | _ => none

/-- The number of link queries among events. -/
def link_queries (events : List port_event) : Nat :=
  (events.filter fun e => match e with
    | port_event.link_get _ => true
    | _ => false).length

/-- A device that starts and whose link never comes up. -/
def sample_port_env_down : port_env where
  rte_eth_dev_start := fun _ => 0
  link_status := fun _ _ => false

/-! ## `lib/net.c`: the RSS key -/

def GATEKEEPER_RSS_KEY_LEN : Nat := 40

/-- The array `default_rss_key` as the file initialises it. -/
def default_rss_key : List Nat := List.replicate GATEKEEPER_RSS_KEY_LEN 0

/-- The loop `while ((rsk1 == rsk2) && (rsk1 == 0 || rsk1 == 0xFF))` of
`gatekeeper_init_network`: `rand k` is what the `k`-th call of `rand()`
returns, and the assignment to a `uint8_t` keeps its low byte. The result is
the pair on which the loop exits, `none` when the fuel runs out first. -/
def rss_key_loop (rand : Nat → Nat) : Nat → Nat → Nat → Nat → Option (Nat × Nat)
  | fuel, rsk1, rsk2, k =>
    if rsk1 = rsk2 ∧ (rsk1 = 0 ∨ rsk1 = 0xFF) then
      match fuel with
      | 0 => none
      | fuel + 1 => rss_key_loop rand fuel (rand k % 256) (rand (k + 1) % 256) (k + 2)
    else some (rsk1, rsk2)

/-- The loop `for (i = 0; (uint32_t)i < sizeof(default_rss_key); i++)` of
`gatekeeper_init_network`. -/
def fill_rss_key (key : List Nat) (rsk1 rsk2 : Nat) : List Nat :=
  (List.range GATEKEEPER_RSS_KEY_LEN).foldl
    (fun key i => if i % 2 = 0 then key.set i rsk1 else key.set i rsk2) key

/-- The key generation of `gatekeeper_init_network`: both bytes start at 0. -/
def gen_rss_key (rand : Nat → Nat) (fuel : Nat) : Option (List Nat) :=
  let rsk1 := 0
  let rsk2 := 0
  match rss_key_loop rand fuel rsk1 rsk2 0 with
  | none => none
  | some (rsk1, rsk2) => some (fill_rss_key default_rss_key rsk1 rsk2)

/-- A random stream whose first pair is (0xFF, 0xFF) and whose second pair is
(0x1A2, 0xFF). -/
def sample_rand : Nat → Nat
  | 0 => 0xFF
  | 1 => 0xFF
  | 2 => 0x1A2
  | _ => 0xFF

/-! ## `cps/main.c`: packets from the KNI -/

/-- Modelled from the spec: `ND_NEIGHBOR_SOLICITATION` of `gatekeeper_lls.h`,
which is not among the sources; ICMPv6 type 135. -/
def ND_NEIGHBOR_SOLICITATION : Nat := 135

/-- The size of a pointer such as `struct icmpv6_hdr *` on the 64-bit host. -/
def sizeof_pointer : Nat := 8

/-- The function `pkt_is_nd`; `buf` is the memory that `eth_hdr` points into.
The length test adds `sizeof(icmpv6_hdr)`, and `icmpv6_hdr` is declared as a
pointer. -/
def pkt_is_nd (iface : gatekeeper_if) (buf : Mem) (eth_hdr : Nat) (pkt_len : Nat) : Bool :=
  if pkt_len < sizeof_ether_hdr + sizeof_ipv6_hdr + sizeof_pointer then false
  else
    let ipv6_hdr := eth_hdr + sizeof_ether_hdr
    if load8 buf (ipv6_hdr + 6) ≠ IPPROTO_ICMPV6 then false
    else
      let icmpv6_hdr := ipv6_hdr + sizeof_ipv6_hdr
      let src_addr := loadBytes buf (ipv6_hdr + 8) 16
      (load8 buf icmpv6_hdr == ND_NEIGHBOR_SOLICITATION ||
          load8 buf icmpv6_hdr == ND_NEIGHBOR_ADVERTISEMENT) &&
        (ipv6_addrs_equal src_addr (loadBytes iface.ll_ip6_addr 0 16) ||
        ipv6_addrs_equal src_addr (loadBytes iface.ip6_addr 0 16) ||
        ipv6_addrs_equal src_addr (loadBytes iface.ip6_mc_addr 0 16) ||
        ipv6_addrs_equal src_addr (loadBytes iface.ll_ip6_mc_addr 0 16))

/-- The KNI and the NIC, as far as `process_egress` calls them: the packets
that `rte_kni_rx_burst` hands over when asked for at most so many, and the
number of packets that `rte_eth_tx_burst` accepts on a port and queue. -/
structure egress_env where
  rte_kni_rx_burst : kni_ptr → Nat → List rte_mbuf
  rte_eth_tx_burst : Nat → Nat → List rte_mbuf → Nat

/-- What `process_egress` does, in the order it does it. The handlers
`kni_process_arp` and `kni_process_nd` are not among the sources; a call of
them is recorded with its packet. -/
inductive egress_event where
  | kni_process_arp (pkt : rte_mbuf)
  | kni_process_nd (pkt : rte_mbuf) (pkt_len : Nat)
  | eth_tx_burst (port_id : Nat) (tx_queue : Nat) (pkts : List rte_mbuf)
  | pktmbuf_free (pkt : rte_mbuf)

/-- The loop over the burst in `process_egress`: the calls of the handlers and
the array `forward_bufs` after it. -/
def process_egress_loop (iface : gatekeeper_if) :
    List rte_mbuf → List rte_mbuf → List egress_event × List rte_mbuf
  | [], forward_bufs => ([], forward_bufs)
  | pkt :: bufs, forward_bufs =>
    let eth_hdr := pkt.data_off
    let ether_type := rte_be_to_cpu_16 (load16 pkt.buf (eth_hdr + 12))
    if ether_type = ETHER_TYPE_ARP then
      let r := process_egress_loop iface bufs forward_bufs
      (egress_event.kni_process_arp pkt :: r.1, r.2)
    else if ether_type = ETHER_TYPE_IPv6 ∧ pkt_is_nd iface pkt.buf eth_hdr pkt.data_len = true then
      let r := process_egress_loop iface bufs forward_bufs
      (egress_event.kni_process_nd pkt pkt.data_len :: r.1, r.2)
    else
      process_egress_loop iface bufs (forward_bufs ++ [pkt])

/-- The function `process_egress`. -/
def process_egress (env : egress_env) (gatekeeper_max_pkt_burst : Nat) (iface : gatekeeper_if)
    (kni : kni_ptr) (tx_queue : Nat) : List egress_event :=
  let bufs := (env.rte_kni_rx_burst kni gatekeeper_max_pkt_burst).take gatekeeper_max_pkt_burst
  let num_rx := bufs.length
  if num_rx = 0 then []
  else
    let r := process_egress_loop iface bufs []
    let forward_bufs := r.2
    let num_forward := forward_bufs.length
    let num_tx := env.rte_eth_tx_burst iface.id tx_queue forward_bufs
    r.1 ++ [egress_event.eth_tx_burst iface.id tx_queue forward_bufs] ++
      (if num_tx < num_forward then
        (forward_bufs.drop num_tx).map egress_event.pktmbuf_free
      else [])

/-- The ethertype of a packet. -/
def ether_type_of (pkt : rte_mbuf) : Nat :=
  rte_be_to_cpu_16 (load16 pkt.buf (pkt.data_off + 12))

/-- The condition under which `process_egress` takes a packet for an ND
message of the interface, written out: the length bound is 62 bytes. -/
def egress_is_nd (iface : gatekeeper_if) (pkt : rte_mbuf) : Prop :=
  ether_type_of pkt = ETHER_TYPE_IPv6 ∧ 62 ≤ pkt.data_len ∧
    load8 pkt.buf (pkt.data_off + 14 + 6) = IPPROTO_ICMPV6 ∧
    (load8 pkt.buf (pkt.data_off + 14 + 40) = ND_NEIGHBOR_SOLICITATION ∨
      load8 pkt.buf (pkt.data_off + 14 + 40) = ND_NEIGHBOR_ADVERTISEMENT) ∧
    (loadBytes pkt.buf (pkt.data_off + 14 + 8) 16 = loadBytes iface.ll_ip6_addr 0 16 ∨
      loadBytes pkt.buf (pkt.data_off + 14 + 8) 16 = loadBytes iface.ip6_addr 0 16 ∨
      loadBytes pkt.buf (pkt.data_off + 14 + 8) 16 = loadBytes iface.ip6_mc_addr 0 16 ∨
      loadBytes pkt.buf (pkt.data_off + 14 + 8) 16 = loadBytes iface.ll_ip6_mc_addr 0 16)

instance (iface : gatekeeper_if) (pkt : rte_mbuf) : Decidable (egress_is_nd iface pkt) := by
  unfold egress_is_nd; infer_instance

/-- The handler calls of a burst, in the burst's order. -/
def egress_handler_calls (iface : gatekeeper_if) (bufs : List rte_mbuf) : List egress_event :=
  bufs.filterMap fun pkt =>
    if ether_type_of pkt = ETHER_TYPE_ARP then some (egress_event.kni_process_arp pkt)
    else if egress_is_nd iface pkt then some (egress_event.kni_process_nd pkt pkt.data_len)
    else none

/-- The packets of a burst that go to neither handler, in the burst's order. -/
def egress_forwarded (iface : gatekeeper_if) (bufs : List rte_mbuf) : List rte_mbuf :=
  bufs.filter fun pkt =>
    decide (¬ ether_type_of pkt = ETHER_TYPE_ARP ∧ ¬ egress_is_nd iface pkt)

/-- A Neighbor Solicitation of 60 bytes sent from 2001:db8::1, the global
address of the front interface of scenario S2: Ethernet header, IPv6 header
with next header 58 and a payload of 6 bytes, of which the first 4 are the
ICMPv6 header with type 135. -/
def sample_short_ns : rte_mbuf where
  buf := writeList (fun _ => 0) 128
    ([0x33, 0x33, 0xff, 0x00, 0x01, 0x00, 0x02, 0x00, 0x00, 0x00, 0x00, 0x02, 0x86, 0xDD] ++
     [0x60, 0, 0, 0, 0, 6, 58, 255] ++
     [0x20, 0x01, 0x0d, 0xb8, 0, 0, 0, 0, 0, 0, 0, 0, 0, 0, 0, 1] ++
     [0xff, 0x02, 0, 0, 0, 0, 0, 0, 0, 0, 0, 1, 0xff, 0, 0x01, 0] ++
     [135, 0, 0, 0, 0, 0])
  buf_len := 2176
  data_off := 128
  data_len := 60
  pkt_len := 60
  ol_flags := 0
  outer_l2_len := 0
  outer_l3_len := 0

/-- The same solicitation with two more bytes, 62 in all. -/
def sample_ns_62 : rte_mbuf :=
  { sample_short_ns with data_len := 62, pkt_len := 62 }

/-- A KNI that hands over the short solicitation and a NIC that accepts every
packet. -/
def sample_egress_env : egress_env where
  rte_kni_rx_burst := fun _ _ => [sample_short_ns]
  rte_eth_tx_burst := fun _ _ pkts => pkts.length

/-- The events of `process_egress` without the packets' contents: the kind of
each call and the data lengths of the packets it is given. -/
def egress_event.shape : egress_event → Nat × List Nat
  | egress_event.kni_process_arp pkt => (0, [pkt.data_len])
  | egress_event.kni_process_nd pkt _ => (1, [pkt.data_len])
  | egress_event.eth_tx_burst _ _ pkts => (2, pkts.map fun p => p.data_len)
  | egress_event.pktmbuf_free pkt => (3, [pkt.data_len])

/-! ## `cps/main.c`: a mailbox with slots left and no room in its queue -/

/-- A CPS block whose mailbox has two slots and room for one message, after one
burst has been submitted: a slot is left, the queue is full. -/
def sample_cps_conf_mb_no_room : cps_config :=
  let c := { sample_cps_conf with mailbox := { free_slots := 2, ring_room := 1, queue := [] } }
  ((submit_bgp 32 c (sample_burst 74) iface_ptr.front).map fun r => r.2.1).getD c

/-! ## `cps/main.c`: `submit_bgp` over any mailbox -/

/-- Modelled from the spec: the mailbox as `submit_bgp` calls it, for any
implementation of it, with `σ` the states of the mailbox; the mailbox is not
among the sources. `mb_alloc_entry` gives the state after a slot has been
handed out, or `none` for NULL; `mb_send_entry` gives its return value and the
state it leaves. -/
structure mailbox_impl (σ : Type) where
  mb_alloc_entry : σ → Option σ
  mb_send_entry : σ → cps_request → Int × σ

/-- The calls that `submit_bgp` can make to the mailbox and to the packet
pool. -/
inductive submit_event where
  | mb_alloc_entry
  | mb_send_entry (req : cps_request)
  | mb_free_entry
  | pktmbuf_free (pkt : rte_mbuf)

/-- The kind of a call: 0 for `mb_alloc_entry`, 1 for `mb_send_entry`, 2 for
`mb_free_entry`, 3 for `rte_pktmbuf_free`. -/
def submit_event.kind : submit_event → Nat
  | submit_event.mb_alloc_entry => 0
  | submit_event.mb_send_entry _ => 1
  | submit_event.mb_free_entry => 2
  | submit_event.pktmbuf_free _ => 3

open kni_ptr in
/-- The function `submit_bgp` over a mailbox implementation: its return
value, the state of the mailbox afterwards and the calls it made, in order;
`none` is the abort of `RTE_VERIFY`. -/
def submit_bgp_on {σ : Type} (mbi : mailbox_impl σ) (gatekeeper_max_pkt_burst : Nat)
    (mailbox : σ) (pkts : List rte_mbuf) (iface : iface_ptr) :
    Option (Int × σ × List submit_event) :=
  let num_pkts := pkts.length
  let req := mbi.mb_alloc_entry mailbox
  if ¬ num_pkts ≤ gatekeeper_max_pkt_burst % 65536 then none
  else
    match req with
    | none =>
      some (-ENOMEM, mailbox,
        submit_event.mb_alloc_entry :: pkts.map submit_event.pktmbuf_free)
    | some mb =>
      let req := cps_request.CPS_REQ_BGP
        { num_pkts := num_pkts
          kni := if iface = iface_ptr.front then front_kni else back_kni
          pkts := pkts }
      let (ret, mb) := mbi.mb_send_entry mb req
      if ret < 0 then
        some (ret, mb, submit_event.mb_alloc_entry :: submit_event.mb_send_entry req ::
          pkts.map submit_event.pktmbuf_free)
      else some (0, mb, [submit_event.mb_alloc_entry, submit_event.mb_send_entry req])

/-- The mailbox modelled from the spec, as an implementation: a failed
`mb_send_entry` leaves the slot with the caller. -/
def mailbox_of_spec : mailbox_impl mailbox where
  mb_alloc_entry := mb_alloc_entry
  mb_send_entry := mb_send_entry

/-- A mailbox whose `mb_send_entry` gives the slot back to the slab itself
when it cannot publish the message. -/
def mailbox_releasing : mailbox_impl mailbox where
  mb_alloc_entry := mb_alloc_entry
  mb_send_entry := fun mb req =>
    let r := mb_send_entry mb req
    if r.1 < 0 then (r.1, mb_free_entry r.2) else r

/-- The packets freed among the calls of `submit_bgp`, in order. -/
def submit_event.freed (events : List submit_event) : List rte_mbuf :=
  events.filterMap fun e => match e with
    | submit_event.pktmbuf_free pkt => some pkt
    | _ => none

/-! ## `lib/acl.c`: the calls of extension-header callbacks -/

/-- The calls of extension-header callbacks among events: category, callback
and packet, in order. -/
def ext_calls (events : List acl_event) : List (Nat × ext_cb_func × rte_mbuf) :=
  events.filterMap fun e => match e with
    | acl_event.ext_call j f pkt => some (j, f, pkt)
    | _ => none

/-- The categories whose extension-header callback is to be asked about a
packet: none when the classifier found a match; otherwise 1, 2, ... up to the
category that claims the packet, and all of 1, ..., count - 1 when none
does. -/
def ext_tried (env : acl_env) (iface : gatekeeper_if) (res : Nat) (pkt : rte_mbuf) : List Nat :=
  if res = RTE_ACL_INVALID_USERDATA then
    if category_of env iface res pkt = 0 then List.range' 1 (iface.acl_func_count - 1)
    else List.range' 1 (category_of env iface res pkt)
  else []

/-- The calls of extension-header callbacks to be made for a burst whose first
packet has index `i`: packet by packet, the categories of `ext_tried` in
increasing order, each with its callback. -/
def ext_calls_of (env : acl_env) (iface : gatekeeper_if) (res : Nat → Nat) :
    Nat → List rte_mbuf → List (Nat × ext_cb_func × rte_mbuf)
  | _, [] => []
  | i, mbuf :: mbufs =>
    (ext_tried env iface (res i) mbuf).filterMap
      (fun j => (iface.ext_funcs j).map fun f => (j, f, mbuf)) ++
    ext_calls_of env iface res (i + 1) mbufs

/-- Two more callbacks than the drop callback: the BGP category 1 takes
packets of 74 bytes, category 2 packets of 90 bytes, through their
extension-header callbacks. -/
def sample_ext_env : acl_env :=
  { sample_acl_env with
    rte_acl_classify := fun _ _ => (0, fun i => if i = 3 then 2 else 0)
    ext_cb := fun f pkt =>
      match f with
      | ext_cb_func.match_bgp => if pkt.data_len = 74 then 0 else -2
      | ext_cb_func.other _ => if pkt.data_len = 90 then 0 else -2 }

/-- The sample interface with IPv6 configured and two categories registered
after the drop category. -/
def sample_ext_iface : gatekeeper_if :=
  { (register_ipv6_acl sample_acl_env [] (some (acl_cb_func.other 7))
      (some (ext_cb_func.other 7)) sample_bgp_iface).iface with
    configured_proto := GK_CONFIGURED_IPV6 }

/-- A burst of four packets of 60, 74, 90 and 100 bytes. -/
def sample_ext_search : acl_search where
  data := []
  res := fun _ => 0
  mbufs := [{ sample_fresh_mbuf with data_len := 60 }, { sample_fresh_mbuf with data_len := 74 },
            { sample_fresh_mbuf with data_len := 90 }, { sample_fresh_mbuf with data_len := 100 }]
  num := 4

/-! ## `lib/acl.c`: building the contexts -/

/-- The loop of `build_ipv6_acls` over the NUMA nodes from node `i` on, with
`n` nodes left: every context is built in turn, and the first failure ends the
loop with its return value. -/
def build_acls_loop (env : acl_env) :
    Nat → Nat → (Nat → Option rte_acl_ctx) → Int × (Nat → Option rte_acl_ctx)
  | 0, _, ipv6_acls => (0, ipv6_acls)
  | n + 1, i, ipv6_acls =>
    let ret := env.rte_acl_build (ipv6_acls i)
    if ret < 0 then (ret, ipv6_acls)
    else
      let ipv6_acls := fun k =>
        if k = i then (ipv6_acls i).map fun ctx => { ctx with built := true }
        else ipv6_acls k
      build_acls_loop env n (i + 1) ipv6_acls

/-- The function `build_ipv6_acls`: its return value and the interface. -/
def build_ipv6_acls (env : acl_env) (iface : gatekeeper_if) : Int × gatekeeper_if :=
  let numa_nodes := env.numa_nodes
  let (ret, ipv6_acls) := build_acls_loop env numa_nodes 0 iface.ipv6_acls
  (ret, { iface with ipv6_acls := ipv6_acls })

/-- The rules that a sequence of `register_ipv6_acl` calls handed to
`rte_acl_add_rules`, in order, with the userdata the calls gave them. -/
def registered_rules (results : List register_result) : List ipv6_acl_rule :=
  (results.map fun r => r.ipv6_rules).flatten

/-- A host with two NUMA nodes whose ACL library accepts everything and whose
classifier returns the userdata of the first rule of the context it is
given. -/
def sample_acl_env_two : acl_env :=
  { sample_acl_env with
    numa_nodes := 2
    rte_acl_classify := fun ctx _ =>
      (0, fun _ => ((ctx.bind fun c => c.rules.head?).map fun r => r.data.userdata).getD 0) }

/-- The sample interface after `init_ipv6_acls` on the host with two nodes. -/
def sample_acl_iface_two : gatekeeper_if :=
  ((init_ipv6_acls sample_acl_env_two sample_named_iface).map fun r => r.2).getD sample_iface

/-- Two registrations: the two BGP rules, then one rule of another block. -/
def sample_register_calls : List register_call :=
  [sample_register_call, ⟨[⟨⟨1, 2, 0⟩, []⟩], some (acl_cb_func.other 7), some (ext_cb_func.other 7)⟩]

/-! # Theorems -/

/-! ## Memory lemmas -/

theorem store8_apply (m : Mem) (a v i : Nat) :
    store8 m a v i = if i = a then v % 256 else m i := rfl

theorem store16_apply (m : Mem) (a v i : Nat) :
    store16 m a v i =
      if i = a + 1 then v / 256 % 256 else if i = a then v % 256 else m i := rfl

theorem store32_apply (m : Mem) (a v i : Nat) :
    store32 m a v i =
      if i = a + 3 then v / 16777216 % 256 else if i = a + 2 then v / 65536 % 256
      else if i = a + 1 then v / 256 % 256 else if i = a then v % 256 else m i := by
  simp only [store32, store16_apply, Nat.add_assoc, Nat.div_div_eq_div_mul]

theorem rte_memcpy_apply (m : Mem) (dst : Nat) (src : List Nat) (n i : Nat) :
    rte_memcpy m dst src n i =
      if dst ≤ i ∧ i < dst + n then src.getD (i - dst) 0 else m i := rfl

theorem store16_be_apply (m : Mem) (a x i : Nat) (hx : x < 65536) :
    store16 m a (rte_cpu_to_be_16 x) i =
      if i = a + 1 then x % 256 else if i = a then x / 256 else m i := by
  simp only [store16_apply, rte_cpu_to_be_16]
  have hy : x / 256 < 256 := by omega
  have hz : x % 256 < 256 := by omega
  generalize x / 256 = y at hy ⊢
  generalize x % 256 = z at hz ⊢
  have h1 : (z * 256 + y % 256) / 256 % 256 = z := by omega
  have h2 : (z * 256 + y % 256) % 256 = y := by omega
  rw [h1, h2]

theorem store32_be_apply (m : Mem) (a x i : Nat) :
    store32 m a (rte_cpu_to_be_32 x) i =
      if i = a + 3 then x % 256 else if i = a + 2 then x / 256 % 256
      else if i = a + 1 then x / 65536 % 256 else if i = a then x / 16777216 % 256
      else m i := by
  simp only [store32_apply, rte_cpu_to_be_32]
  have h0 : x % 256 < 256 := by omega
  have h1 : x / 256 % 256 < 256 := by omega
  have h2 : x / 65536 % 256 < 256 := by omega
  have h3 : x / 16777216 % 256 < 256 := by omega
  generalize x % 256 = b0 at h0 ⊢
  generalize x / 256 % 256 = b1 at h1 ⊢
  generalize x / 65536 % 256 = b2 at h2 ⊢
  generalize x / 16777216 % 256 = b3 at h3 ⊢
  have e0 : (b0 * 16777216 + b1 * 65536 + b2 * 256 + b3) / 16777216 % 256 = b0 := by omega
  have e1 : (b0 * 16777216 + b1 * 65536 + b2 * 256 + b3) / 65536 % 256 = b1 := by omega
  have e2 : (b0 * 16777216 + b1 * 65536 + b2 * 256 + b3) / 256 % 256 = b2 := by omega
  have e3 : (b0 * 16777216 + b1 * 65536 + b2 * 256 + b3) % 256 = b3 := by omega
  rw [e0, e1, e2, e3]

theorem store8_of_out (m : Mem) (a v i : Nat) (h : i < a ∨ a + 1 ≤ i) :
    store8 m a v i = m i := by
  rw [store8_apply, if_neg (by omega)]

theorem store16_of_out (m : Mem) (a v i : Nat) (h : i < a ∨ a + 2 ≤ i) :
    store16 m a v i = m i := by
  rw [store16, store8_of_out _ _ _ _ (by omega), store8_of_out _ _ _ _ (by omega)]

theorem store32_of_out (m : Mem) (a v i : Nat) (h : i < a ∨ a + 4 ≤ i) :
    store32 m a v i = m i := by
  rw [store32, store16_of_out _ _ _ _ (by omega), store16_of_out _ _ _ _ (by omega)]

theorem rte_memcpy_of_out (m : Mem) (dst : Nat) (src : List Nat) (n i : Nat)
    (h : i < dst ∨ dst + n ≤ i) : rte_memcpy m dst src n i = m i := by
  rw [rte_memcpy_apply, if_neg (by omega)]

theorem loadBytes_length (m : Mem) (a n : Nat) : (loadBytes m a n).length = n := by
  simp [loadBytes]

theorem loadBytes_add (m : Mem) (a n k : Nat) :
    loadBytes m a (n + k) = loadBytes m a n ++ loadBytes m (a + n) k := by
  simp [loadBytes, List.range_add, List.map_append, Nat.add_assoc]

theorem loadBytes_drop (m : Mem) (a n k : Nat) (h : k ≤ n) :
    (loadBytes m a n).drop k = loadBytes m (a + k) (n - k) := by
  obtain ⟨j, rfl⟩ : ∃ j, n = k + j := ⟨n - k, by omega⟩
  rw [loadBytes_add]
  simp [loadBytes]

theorem loadBytes_congr (m m' : Mem) (a n : Nat)
    (h : ∀ i, i < n → m (a + i) = m' (a + i)) : loadBytes m a n = loadBytes m' a n := by
  apply List.map_congr_left
  intro i hi
  exact h i (List.mem_range.mp hi)

theorem writeList_apply_add (m : Mem) (a : Nat) (l : List Nat) (k : Nat) :
    writeList m a l (a + k) = if k < l.length then l.getD k 0 else m (a + k) := by
  simp [writeList]

theorem loadBytes_writeList_self (m : Mem) (a : Nat) (l : List Nat) :
    loadBytes (writeList m a l) a l.length = l := by
  apply List.ext_getElem
  · simp [loadBytes]
  · intro i h1 h2
    simp only [loadBytes, List.getElem_map, List.getElem_range, writeList_apply_add]
    rw [if_pos h2, List.getD_eq_getElem _ _ h2]

theorem loadBytes_writeList_after (m : Mem) (a : Nat) (l : List Nat) (b n : Nat)
    (h : a + l.length ≤ b) : loadBytes (writeList m a l) b n = loadBytes m b n := by
  apply loadBytes_congr
  intro i _
  simp only [writeList]
  rw [if_neg (by omega)]

theorem list_eq_of_length_six (l : List Nat) (h : l.length = 6) :
    [l.getD 0 0, l.getD 1 0, l.getD 2 0, l.getD 3 0, l.getD 4 0, l.getD 5 0] = l := by
  match l, h with
  | [a, b, c, d, e, f], _ => rfl

theorem list_eq_of_length_sixteen (l : List Nat) (h : l.length = 16) :
    [l.getD 0 0, l.getD 1 0, l.getD 2 0, l.getD 3 0, l.getD 4 0, l.getD 5 0, l.getD 6 0,
     l.getD 7 0, l.getD 8 0, l.getD 9 0, l.getD 10 0, l.getD 11 0, l.getD 12 0,
     l.getD 13 0, l.getD 14 0, l.getD 15 0] = l := by
  match l, h with
  | [_, _, _, _, _, _, _, _, _, _, _, _, _, _, _, _], _ => rfl

/-! ## `encapsulate` -/

theorem encap4_buf (m : Mem) (d L pri : Nat) (info : ipip_tunnel_info) (hpri : pri ≤ 63)
    (hL : L - 14 < 65536) :
    store16 (store16 (store32 (store32 (store8 (store8 (store16 (store16 (store8 (store8
      (store16 (rte_memcpy (rte_memcpy m (d + 6) info.source_mac.addr_bytes 6)
        d info.nexthop_mac.addr_bytes 6)
        (d + 12) (rte_cpu_to_be_16 ETHER_TYPE_IPv4))
        (d + 14) IP_VHL_DEF) (d + 14 + 1) (pri <<< 2)) (d + 14 + 4) 0)
        (d + 14 + 6) IP_DN_FRAGMENT_FLAG) (d + 14 + 8) IP_DEFTTL) (d + 14 + 9) IPPROTO_IPIP)
        (d + 14 + 12) info.flow.v4_src) (d + 14 + 16) info.flow.v4_dst)
        (d + 14 + 2) (rte_cpu_to_be_16 (L - 14))) (d + 14 + 10) 0
      = writeList m d (outer_ipv4_hdr pri info L) := by
  have hpri4 : pri <<< 2 % 256 = pri * 4 := by
    rw [Nat.shiftLeft_eq]; omega
  funext i
  by_cases hi : d ≤ i ∧ i < d + 34
  swap
  · simp (disch := omega) only [store8_of_out, store16_of_out, store32_of_out,
      rte_memcpy_of_out, writeList, outer_ipv4_hdr, List.length_cons, List.length_nil]
    rw [if_neg (by omega)]
  simp only [store8_apply, store16_be_apply _ _ _ _ hL,
      store16_be_apply _ _ ETHER_TYPE_IPv4 _ (by decide), store16_apply, store32_apply,
      rte_memcpy_apply, writeList, outer_ipv4_hdr, List.length_cons, List.length_nil, hpri4,
      Nat.add_assoc, Nat.reduceAdd]
  obtain ⟨k, rfl, hk⟩ : ∃ k, i = d + k ∧ k < 34 := ⟨i - d, by omega, by omega⟩
  simp only [Nat.add_left_cancel_iff, Nat.add_le_add_iff_left, Nat.add_lt_add_iff_left,
    Nat.add_sub_add_left, Nat.add_sub_cancel_left, Nat.le_add_right, true_and,
    show ∀ c, (d + c ≤ d + k) = (c ≤ k) from fun c => by simp]
  interval_cases k <;>
    simp [ETHER_TYPE_IPv4, IP_VHL_DEF, IP_VERSION, IP_HDRLEN,
      IP_DN_FRAGMENT_FLAG, IP_DEFTTL, IPPROTO_IPIP]

set_option maxHeartbeats 1000000 in
theorem encap6_buf (m : Mem) (d L pri : Nat) (info : ipip_tunnel_info)
    (hL : L - 54 < 65536) :
    store16 (rte_memcpy (rte_memcpy (store8 (store8 (store32
      (store16 (rte_memcpy (rte_memcpy m (d + 6) info.source_mac.addr_bytes 6)
        d info.nexthop_mac.addr_bytes 6)
        (d + 12) (rte_cpu_to_be_16 ETHER_TYPE_IPv6))
        (d + 14) (rte_cpu_to_be_32 (IPv6_DEFAULT_VTC_FLOW ||| (pri <<< 22))))
        (d + 14 + 6) IPPROTO_IPIP) (d + 14 + 7) IPv6_DEFAULT_HOP_LIMITS)
        (d + 14 + 8) info.flow.v6_src 16) (d + 14 + 24) info.flow.v6_dst 16)
        (d + 14 + 4) (rte_cpu_to_be_16 (L - 54))
      = writeList m d (outer_ipv6_hdr pri info L) := by
  funext i
  by_cases hi : d ≤ i ∧ i < d + 54
  swap
  · simp (disch := omega) only [store8_of_out, store16_of_out, store32_of_out,
      rte_memcpy_of_out, writeList, outer_ipv6_hdr, List.length_cons, List.length_nil]
    rw [if_neg (by omega)]
  simp only [store8_apply, store16_be_apply _ _ _ _ hL,
      store16_be_apply _ _ ETHER_TYPE_IPv6 _ (by decide),
      store32_be_apply, rte_memcpy_apply, writeList,
      outer_ipv6_hdr, List.length_cons, List.length_nil, Nat.add_assoc, Nat.reduceAdd]
  obtain ⟨k, rfl, hk⟩ : ∃ k, i = d + k ∧ k < 54 := ⟨i - d, by omega, by omega⟩
  simp only [Nat.add_left_cancel_iff, Nat.add_le_add_iff_left, Nat.add_lt_add_iff_left,
    Nat.add_sub_add_left, Nat.add_sub_cancel_left, Nat.le_add_right, true_and,
    show ∀ c, (d + c ≤ d + k) = (c ≤ k) from fun c => by simp]
  interval_cases k <;>
    simp [ETHER_TYPE_IPv6, IPv6_DEFAULT_HOP_LIMITS, IPPROTO_IPIP]

/-- With room for the outer header, `encapsulate` with an IPv4 flow returns 0
and leaves the packet with 20 more bytes in front, holding the new headers. -/
theorem encapsulate_ipv4_eq (pkt : rte_mbuf) (pri : Nat) (info : ipip_tunnel_info)
    (hproto : info.flow.proto = ETHER_TYPE_IPv4) (hroom : 20 ≤ pkt.data_off)
    (hpri : pri ≤ 63) (hwf : pkt.wf) :
    encapsulate pkt pri info = (0, { pkt with
      buf := writeList pkt.buf (pkt.data_off - 20)
        (outer_ipv4_hdr pri info (pkt.data_len + 20))
      data_off := pkt.data_off - 20
      data_len := pkt.data_len + 20
      pkt_len := (pkt.pkt_len + 20) % 4294967296
      outer_l2_len := 14
      outer_l3_len := 20
      ol_flags := pkt.ol_flags ||| (PKT_TX_IPV4 ||| PKT_TX_IP_CKSUM ||| PKT_TX_OUTER_IPV4) }) := by
  obtain ⟨hw1, hw2⟩ := hwf
  have hmod : (pkt.data_len + 20) % 65536 = pkt.data_len + 20 := by omega
  have htl : (pkt.data_len + 20 + 18446744073709551616 - 14) % 18446744073709551616 % 65536
      = pkt.data_len + 20 - 14 := by omega
  simp only [encapsulate, hproto, if_true, rte_pktmbuf_prepend, sizeof_ipv4_hdr, hmod,
    sizeof_ether_hdr]
  rw [if_neg (by omega)]
  simp only [htl]
  rw [encap4_buf _ _ _ _ _ hpri (by omega)]

/-- With room for the outer header, `encapsulate` with an IPv6 flow returns 0
and leaves the packet with 40 more bytes in front, holding the new headers. -/
theorem encapsulate_ipv6_eq (pkt : rte_mbuf) (pri : Nat) (info : ipip_tunnel_info)
    (hproto : info.flow.proto = ETHER_TYPE_IPv6) (hroom : 40 ≤ pkt.data_off)
    (hwf : pkt.wf) (hlen : 14 ≤ pkt.data_len) :
    encapsulate pkt pri info = (0, { pkt with
      buf := writeList pkt.buf (pkt.data_off - 40)
        (outer_ipv6_hdr pri info (pkt.data_len + 40))
      data_off := pkt.data_off - 40
      data_len := pkt.data_len + 40
      pkt_len := (pkt.pkt_len + 40) % 4294967296
      outer_l2_len := 14
      outer_l3_len := 40 }) := by
  obtain ⟨hw1, hw2⟩ := hwf
  have hne : ETHER_TYPE_IPv6 ≠ ETHER_TYPE_IPv4 := by decide
  have hmod : (pkt.data_len + 40) % 65536 = pkt.data_len + 40 := by omega
  have htl : (pkt.data_len + 40 + 2 * 18446744073709551616 - 14 - 40)
      % 18446744073709551616 % 65536 = pkt.data_len + 40 - 54 := by omega
  simp only [encapsulate, hproto, if_neg hne, if_true, rte_pktmbuf_prepend, sizeof_ipv6_hdr,
    hmod, sizeof_ether_hdr]
  rw [if_neg (by omega)]
  simp only [htl]
  rw [encap6_buf _ _ _ _ _ (by omega)]

theorem outer_ipv4_hdr_length (pri : Nat) (info : ipip_tunnel_info) (len : Nat) :
    (outer_ipv4_hdr pri info len).length = 34 := rfl

theorem outer_ipv6_hdr_length (pri : Nat) (info : ipip_tunnel_info) (len : Nat) :
    (outer_ipv6_hdr pri info len).length = 54 := rfl

theorem outer_ipv4_hdr_eq (pri : Nat) (info : ipip_tunnel_info) (len : Nat)
    (hinfo : info.wf) (hlen : len - 14 < 65536) :
    outer_ipv4_hdr pri info len =
      ether_hdr_bytes info.nexthop_mac info.source_mac 0x0800 ++
      ipv4_hdr_bytes 0x45 (pri <<< 2) (len - 14) 0 [0x40, 0x00] 64 4 0
        info.flow.v4_src info.flow.v4_dst := by
  obtain ⟨hm1, hm2, -, -⟩ := hinfo
  have e1 := list_eq_of_length_six _ hm1
  have e2 := list_eq_of_length_six _ hm2
  have h3 : (len - 14) / 256 % 256 = (len - 14) / 256 := by omega
  simp only [ether_hdr_bytes, ipv4_hdr_bytes, be16_bytes, host32_bytes, h3]
  rw [← e1, ← e2]
  simp [outer_ipv4_hdr, Nat.shiftLeft_eq]

theorem outer_ipv6_hdr_eq (pri : Nat) (info : ipip_tunnel_info) (len : Nat)
    (hinfo : info.wf) (hlen : len - 54 < 65536) :
    outer_ipv6_hdr pri info len =
      ether_hdr_bytes info.nexthop_mac info.source_mac 0x86DD ++
      ipv6_hdr_bytes (0x60000000 ||| (pri <<< 22)) (len - 54) 4 255
        info.flow.v6_src info.flow.v6_dst := by
  obtain ⟨hm1, hm2, hs, hd⟩ := hinfo
  have e1 := list_eq_of_length_six _ hm1
  have e2 := list_eq_of_length_six _ hm2
  have e3 := list_eq_of_length_sixteen _ hs
  have e4 := list_eq_of_length_sixteen _ hd
  have h3 : (len - 54) / 256 % 256 = (len - 54) / 256 := by omega
  simp only [ether_hdr_bytes, ipv6_hdr_bytes, be16_bytes, be32_bytes, h3]
  rw [← e1, ← e2, ← e3, ← e4]
  simp [outer_ipv6_hdr, IPv6_DEFAULT_VTC_FLOW]

/-- C3. Outer IPv4 header: with an IPv4 flow, at least 20 bytes of headroom and
a priority in [0,63], `encapsulate` returns 0, the packet grows by 20 bytes,
bytes 0..13 are Ethernet(dst = nexthop MAC, src = source MAC, type 0x0800),
bytes 14..33 are the IPv4 header (VHL 0x45, TOS = pri<<2, total length = new
length - 14 in network order, id 0, flags/fragment bytes 0x40 0x00, TTL 64,
protocol 4, checksum 0, src/dst from the flow), and the bytes from offset 34
on are the original bytes after the original 14-byte Ethernet header. -/
theorem encapsulate_outer_ipv4_header (pkt : rte_mbuf) (pri : Nat)
    (info : ipip_tunnel_info)
    (hproto : info.flow.proto = ETHER_TYPE_IPv4) (hroom : 20 ≤ pkt.data_off)
    (hpri : pri ≤ 63) (hwf : pkt.wf) (hinfo : info.wf) (hlen : 14 ≤ pkt.data_len) :
    (encapsulate pkt pri info).1 = 0 ∧
    (encapsulate pkt pri info).2.data_len = pkt.data_len + 20 ∧
    (encapsulate pkt pri info).2.data =
      ether_hdr_bytes info.nexthop_mac info.source_mac 0x0800 ++
      ipv4_hdr_bytes 0x45 (pri <<< 2) ((encapsulate pkt pri info).2.data_len - 14) 0
        [0x40, 0x00] 64 4 0 info.flow.v4_src info.flow.v4_dst ++
      pkt.data.drop 14 ∧
    (ether_hdr_bytes info.nexthop_mac info.source_mac 0x0800).length = 14 ∧
    (ipv4_hdr_bytes 0x45 (pri <<< 2) ((encapsulate pkt pri info).2.data_len - 14) 0
        [0x40, 0x00] 64 4 0 info.flow.v4_src info.flow.v4_dst).length = 20 := by
  rw [encapsulate_ipv4_eq pkt pri info hproto hroom hpri hwf]
  obtain ⟨hw1, hw2⟩ := hwf
  refine ⟨rfl, rfl, ?_, ?_, ?_⟩
  · simp only [rte_mbuf.data]
    rw [← outer_ipv4_hdr_eq pri info _ hinfo (by omega),
      show pkt.data_len + 20 = 34 + (pkt.data_len - 14) by omega, loadBytes_add,
      loadBytes_drop _ _ _ _ hlen]
    refine congrArg₂ (fun a b : List Nat => a ++ b) ?_ ?_
    · exact loadBytes_writeList_self _ _ (outer_ipv4_hdr pri info _)
    · rw [loadBytes_writeList_after _ _ _ _ _ (by rw [outer_ipv4_hdr_length])]
      rw [show pkt.data_off - 20 + 34 = pkt.data_off + 14 by omega]
  · simp [ether_hdr_bytes, be16_bytes, hinfo.1, hinfo.2.1]
  · simp [ipv4_hdr_bytes, be16_bytes, host32_bytes]

/-- C4. Outer IPv6 header: with an IPv6 flow, at least 40 bytes of headroom and
a priority in [0,63], `encapsulate` returns 0, the packet grows by 40 bytes,
bytes 0..13 are Ethernet(dst = nexthop MAC, src = source MAC, type 0x86DD),
bytes 14..53 are the IPv6 header (first word 0x60000000|(pri<<22) in network
order, payload length = new length - 54, next header 4, hop limit 255, src/dst
from the flow), and the bytes from offset 54 on are the original bytes after
the original 14-byte Ethernet header. -/
theorem encapsulate_outer_ipv6_header (pkt : rte_mbuf) (pri : Nat)
    (info : ipip_tunnel_info)
    (hproto : info.flow.proto = ETHER_TYPE_IPv6) (hroom : 40 ≤ pkt.data_off)
    (hpri : pri ≤ 63) (hwf : pkt.wf) (hinfo : info.wf) (hlen : 14 ≤ pkt.data_len) :
    (encapsulate pkt pri info).1 = 0 ∧
    (encapsulate pkt pri info).2.data_len = pkt.data_len + 40 ∧
    (encapsulate pkt pri info).2.data =
      ether_hdr_bytes info.nexthop_mac info.source_mac 0x86DD ++
      ipv6_hdr_bytes (0x60000000 ||| (pri <<< 22))
        ((encapsulate pkt pri info).2.data_len - 54) 4 255
        info.flow.v6_src info.flow.v6_dst ++
      pkt.data.drop 14 ∧
    (ether_hdr_bytes info.nexthop_mac info.source_mac 0x86DD).length = 14 ∧
    (ipv6_hdr_bytes (0x60000000 ||| (pri <<< 22))
        ((encapsulate pkt pri info).2.data_len - 54) 4 255
        info.flow.v6_src info.flow.v6_dst).length = 40 ∧
    0x60000000 ||| (pri <<< 22) = 6 * 2 ^ 28 + pri * 2 ^ 22 := by
  rw [encapsulate_ipv6_eq pkt pri info hproto hroom hwf hlen]
  obtain ⟨hw1, hw2⟩ := hwf
  refine ⟨rfl, rfl, ?_, ?_, ?_, ?_⟩
  · simp only [rte_mbuf.data]
    rw [← outer_ipv6_hdr_eq pri info _ hinfo (by omega),
      show pkt.data_len + 40 = 54 + (pkt.data_len - 14) by omega, loadBytes_add,
      loadBytes_drop _ _ _ _ hlen]
    refine congrArg₂ (fun a b : List Nat => a ++ b) ?_ ?_
    · exact loadBytes_writeList_self _ _ (outer_ipv6_hdr pri info _)
    · rw [loadBytes_writeList_after _ _ _ _ _ (by rw [outer_ipv6_hdr_length])]
      rw [show pkt.data_off - 40 + 54 = pkt.data_off + 14 by omega]
  · simp [ether_hdr_bytes, be16_bytes, hinfo.1, hinfo.2.1]
  · simp [ipv6_hdr_bytes, be16_bytes, be32_bytes, hinfo.2.2.1, hinfo.2.2.2]
  · interval_cases pri <;> rfl

/-! ## `decapsulate` -/

theorem decapsulate_ipv4_case (pkt : rte_mbuf) (info : ipip_tunnel_info)
    (h : rte_be_to_cpu_16 (load16 pkt.buf (pkt.data_off + 12)) = ETHER_TYPE_IPv4) :
    (decapsulate pkt info).priority = load8 pkt.buf (pkt.data_off + 14 + 1) >>> 2 ∧
    (decapsulate pkt info).ret
      = (if load8 pkt.buf (pkt.data_off + 14 + 9) = IPPROTO_IPIP then 0 else -1) ∧
    (decapsulate pkt info).pkt
      = (if load8 pkt.buf (pkt.data_off + 14 + 9) = IPPROTO_IPIP
          then (rte_pktmbuf_adj pkt 34).getD pkt else pkt) := by
  simp only [decapsulate, h, if_true, sizeof_ether_hdr, sizeof_ipv4_hdr, Nat.zero_add,
    Nat.reduceAdd]
  by_cases hp : load8 pkt.buf (pkt.data_off + 14 + 9) = IPPROTO_IPIP
  · simp [hp]
  · simp [hp]

theorem decapsulate_ipv6_case (pkt : rte_mbuf) (info : ipip_tunnel_info)
    (h : rte_be_to_cpu_16 (load16 pkt.buf (pkt.data_off + 12)) = ETHER_TYPE_IPv6) :
    (decapsulate pkt info).priority
      = ((load32 pkt.buf (pkt.data_off + 14) >>> 20) &&& 0xFF) >>> 2 ∧
    (decapsulate pkt info).ret
      = (if load8 pkt.buf (pkt.data_off + 14 + 6) = IPPROTO_IPIP then 0 else -1) ∧
    (decapsulate pkt info).pkt
      = (if load8 pkt.buf (pkt.data_off + 14 + 6) = IPPROTO_IPIP
          then (rte_pktmbuf_adj pkt 54).getD pkt else pkt) := by
  have hne : ETHER_TYPE_IPv6 ≠ ETHER_TYPE_IPv4 := by decide
  simp only [decapsulate, h, if_neg hne, if_true, sizeof_ether_hdr, sizeof_ipv6_hdr,
    Nat.zero_add, Nat.reduceAdd]
  by_cases hp : load8 pkt.buf (pkt.data_off + 14 + 6) = IPPROTO_IPIP
  · simp [hp]
  · simp [hp]

theorem decapsulate_other_case (pkt : rte_mbuf) (info : ipip_tunnel_info)
    (h4 : rte_be_to_cpu_16 (load16 pkt.buf (pkt.data_off + 12)) ≠ ETHER_TYPE_IPv4)
    (h6 : rte_be_to_cpu_16 (load16 pkt.buf (pkt.data_off + 12)) ≠ ETHER_TYPE_IPv6) :
    (decapsulate pkt info).priority = 0 ∧
    (decapsulate pkt info).ret = -1 ∧
    (decapsulate pkt info).pkt = pkt := by
  simp [decapsulate, h4, h6, sizeof_ether_hdr, sizeof_ipv6_hdr, IPPROTO_IPIP]

theorem decapsulate_encapsulate_ipv4 (pkt : rte_mbuf) (pri : Nat)
    (info info' : ipip_tunnel_info)
    (hproto : info.flow.proto = ETHER_TYPE_IPv4) (hroom : 20 ≤ pkt.data_off)
    (hpri : pri ≤ 63) (hwf : pkt.wf) (hlen : 14 ≤ pkt.data_len) :
    (encapsulate pkt pri info).1 = 0 ∧
    (decapsulate (encapsulate pkt pri info).2 info').ret = 0 ∧
    (decapsulate (encapsulate pkt pri info).2 info').priority = pri ∧
    (decapsulate (encapsulate pkt pri info).2 info').pkt.data_off = pkt.data_off + 14 ∧
    (decapsulate (encapsulate pkt pri info).2 info').pkt.data_len = pkt.data_len - 14 ∧
    (decapsulate (encapsulate pkt pri info).2 info').pkt.data = pkt.data.drop 14 := by
  rw [encapsulate_ipv4_eq pkt pri info hproto hroom hpri hwf]
  obtain ⟨d, hd⟩ : ∃ d, pkt.data_off = d + 20 := ⟨pkt.data_off - 20, by omega⟩
  have hpri2 : (pri * 4) >>> 2 = pri := by
    rw [Nat.shiftRight_eq_div_pow]; omega
  simp only [hd, Nat.add_sub_cancel]
  generalize hq : ({ pkt with
      buf := writeList pkt.buf d (outer_ipv4_hdr pri info (pkt.data_len + 20))
      data_off := d
      data_len := pkt.data_len + 20
      pkt_len := (pkt.pkt_len + 20) % 4294967296
      outer_l2_len := 14
      outer_l3_len := 20
      ol_flags := pkt.ol_flags ||| (PKT_TX_IPV4 ||| PKT_TX_IP_CKSUM ||| PKT_TX_OUTER_IPV4) }
      : rte_mbuf) = q
  have hqb : q.buf = writeList pkt.buf d (outer_ipv4_hdr pri info (pkt.data_len + 20)) := by
    rw [← hq]
  have hqo : q.data_off = d := by rw [← hq]
  have hql : q.data_len = pkt.data_len + 20 := by rw [← hq]
  have hE : rte_be_to_cpu_16 (load16 q.buf (q.data_off + 12)) = ETHER_TYPE_IPv4 := by
    simp [hqb, hqo, load16, Nat.add_assoc, writeList_apply_add, outer_ipv4_hdr,
      rte_be_to_cpu_16, rte_cpu_to_be_16, ETHER_TYPE_IPv4]
  have hP : load8 q.buf (q.data_off + 14 + 9) = IPPROTO_IPIP := by
    simp [hqb, hqo, load8, Nat.add_assoc, writeList_apply_add, outer_ipv4_hdr, IPPROTO_IPIP]
  have hT : load8 q.buf (q.data_off + 14 + 1) = pri * 4 := by
    simp [hqb, hqo, load8, Nat.add_assoc, writeList_apply_add, outer_ipv4_hdr]
  obtain ⟨h1, h2, h3⟩ := decapsulate_ipv4_case q info' hE
  rw [h1, h2, h3, if_pos hP, if_pos hP, hT, hpri2]
  have hadj : rte_pktmbuf_adj q 34 = some { q with
      data_len := q.data_len - 34
      data_off := q.data_off + 34
      pkt_len := (q.pkt_len + 4294967296 - 34) % 4294967296 } := by
    rw [rte_pktmbuf_adj, if_neg (by omega)]
  rw [hadj]
  refine ⟨trivial, rfl, rfl, ?_, ?_, ?_⟩
  · simp only [Option.getD_some, hqo]
  · simp only [Option.getD_some, hql]; omega
  · simp only [Option.getD_some, rte_mbuf.data, hqb, hqo, hql, hd]
    rw [loadBytes_drop _ _ _ _ hlen,
      loadBytes_writeList_after _ _ _ _ _ (by rw [outer_ipv4_hdr_length])]
    rw [show pkt.data_len + 20 - 34 = pkt.data_len - 14 by omega,
      show d + 20 + 14 = d + 34 by omega]

theorem vtc_flow_eq_add (pri : Nat) (hpri : pri ≤ 63) :
    IPv6_DEFAULT_VTC_FLOW ||| (pri <<< 22) = 1610612736 + pri * 4194304 := by
  interval_cases pri <;> rfl

/-- The big-endian bytes of the outer IPv6 header's first word, read back as a
host-order (little-endian) word, have no bit set at or above bit 20. -/
theorem vtc_flow_priority_host_order (pri : Nat) (hpri : pri ≤ 63) :
    (((((IPv6_DEFAULT_VTC_FLOW ||| (pri <<< 22)) / 16777216 % 256
        + (256 * ((IPv6_DEFAULT_VTC_FLOW ||| (pri <<< 22)) / 65536 % 256)
        + 65536 * ((IPv6_DEFAULT_VTC_FLOW ||| (pri <<< 22)) / 256 % 256
          + 256 * ((IPv6_DEFAULT_VTC_FLOW ||| (pri <<< 22)) % 256)))) >>> 20)
        &&& 0xFF) >>> 2) = 0 := by
  rw [vtc_flow_eq_add pri hpri]
  have h : ((1610612736 + pri * 4194304) / 16777216 % 256
        + (256 * ((1610612736 + pri * 4194304) / 65536 % 256)
        + 65536 * ((1610612736 + pri * 4194304) / 256 % 256
          + 256 * ((1610612736 + pri * 4194304) % 256)))) / 2 ^ 20 = 0 := by
    apply Nat.div_eq_of_lt
    omega
  simp only [Nat.shiftRight_eq_div_pow, h]
  rfl

theorem outer_ipv6_hdr_getD_12 (pri : Nat) (info : ipip_tunnel_info) (len : Nat) :
    (outer_ipv6_hdr pri info len).getD 12 0 = 0x86 := rfl

theorem outer_ipv6_hdr_getD_13 (pri : Nat) (info : ipip_tunnel_info) (len : Nat) :
    (outer_ipv6_hdr pri info len).getD 13 0 = 0xDD := rfl

theorem outer_ipv6_hdr_getD_20 (pri : Nat) (info : ipip_tunnel_info) (len : Nat) :
    (outer_ipv6_hdr pri info len).getD 20 0 = 4 := rfl

theorem outer_ipv6_hdr_getD_vtc (pri : Nat) (info : ipip_tunnel_info) (len : Nat) :
    (outer_ipv6_hdr pri info len).getD 14 0
        = (IPv6_DEFAULT_VTC_FLOW ||| (pri <<< 22)) / 16777216 % 256 ∧
    (outer_ipv6_hdr pri info len).getD 15 0
        = (IPv6_DEFAULT_VTC_FLOW ||| (pri <<< 22)) / 65536 % 256 ∧
    (outer_ipv6_hdr pri info len).getD 16 0
        = (IPv6_DEFAULT_VTC_FLOW ||| (pri <<< 22)) / 256 % 256 ∧
    (outer_ipv6_hdr pri info len).getD 17 0
        = (IPv6_DEFAULT_VTC_FLOW ||| (pri <<< 22)) % 256 := ⟨rfl, rfl, rfl, rfl⟩

theorem decapsulate_encapsulate_ipv6 (pkt : rte_mbuf) (pri : Nat)
    (info info' : ipip_tunnel_info)
    (hproto : info.flow.proto = ETHER_TYPE_IPv6) (hroom : 40 ≤ pkt.data_off)
    (hpri : pri ≤ 63) (hwf : pkt.wf) (hlen : 14 ≤ pkt.data_len) :
    (encapsulate pkt pri info).1 = 0 ∧
    (decapsulate (encapsulate pkt pri info).2 info').ret = 0 ∧
    (decapsulate (encapsulate pkt pri info).2 info').priority = 0 ∧
    (decapsulate (encapsulate pkt pri info).2 info').pkt.data_off = pkt.data_off + 14 ∧
    (decapsulate (encapsulate pkt pri info).2 info').pkt.data_len = pkt.data_len - 14 ∧
    (decapsulate (encapsulate pkt pri info).2 info').pkt.data = pkt.data.drop 14 := by
  rw [encapsulate_ipv6_eq pkt pri info hproto hroom hwf hlen]
  obtain ⟨d, hd⟩ : ∃ d, pkt.data_off = d + 40 := ⟨pkt.data_off - 40, by omega⟩
  simp only [hd, Nat.add_sub_cancel]
  generalize hq : ({ pkt with
      buf := writeList pkt.buf d (outer_ipv6_hdr pri info (pkt.data_len + 40))
      data_off := d
      data_len := pkt.data_len + 40
      pkt_len := (pkt.pkt_len + 40) % 4294967296
      outer_l2_len := 14
      outer_l3_len := 40 } : rte_mbuf) = q
  have hqb : q.buf = writeList pkt.buf d (outer_ipv6_hdr pri info (pkt.data_len + 40)) := by
    rw [← hq]
  have hqo : q.data_off = d := by rw [← hq]
  have hql : q.data_len = pkt.data_len + 40 := by rw [← hq]
  have hE : rte_be_to_cpu_16 (load16 q.buf (q.data_off + 12)) = ETHER_TYPE_IPv6 := by
    simp only [hqb, hqo, load16, Nat.add_assoc, Nat.reduceAdd, writeList_apply_add,
      outer_ipv6_hdr_length, outer_ipv6_hdr_getD_12, outer_ipv6_hdr_getD_13,
      Nat.reduceLT, if_true]
    decide
  have hP : load8 q.buf (q.data_off + 14 + 6) = IPPROTO_IPIP := by
    simp only [hqb, hqo, load8, Nat.add_assoc, Nat.reduceAdd, writeList_apply_add,
      outer_ipv6_hdr_length, outer_ipv6_hdr_getD_20, Nat.reduceLT, if_true]
    decide
  have hT : ((load32 q.buf (q.data_off + 14) >>> 20) &&& 0xFF) >>> 2 = 0 := by
    obtain ⟨g0, g1, g2, g3⟩ := outer_ipv6_hdr_getD_vtc pri info (pkt.data_len + 40)
    simp only [hqb, hqo, load32, load16, Nat.add_assoc, Nat.reduceAdd, writeList_apply_add,
      outer_ipv6_hdr_length, g0, g1, g2, g3, Nat.reduceLT, if_true]
    exact vtc_flow_priority_host_order pri hpri
  obtain ⟨h1, h2, h3⟩ := decapsulate_ipv6_case q info' hE
  rw [h1, h2, h3, if_pos hP, if_pos hP, hT]
  have hadj : rte_pktmbuf_adj q 54 = some { q with
      data_len := q.data_len - 54
      data_off := q.data_off + 54
      pkt_len := (q.pkt_len + 4294967296 - 54) % 4294967296 } := by
    rw [rte_pktmbuf_adj, if_neg (by omega)]
  rw [hadj]
  refine ⟨trivial, rfl, rfl, ?_, ?_, ?_⟩
  · simp only [Option.getD_some, hqo]
  · simp only [Option.getD_some, hql]; omega
  · simp only [Option.getD_some, rte_mbuf.data, hqb, hqo, hql, hd]
    rw [loadBytes_drop _ _ _ _ hlen,
      loadBytes_writeList_after _ _ _ _ _ (by rw [outer_ipv6_hdr_length])]
    rw [show pkt.data_len + 40 - 54 = pkt.data_len - 14 by omega,
      show d + 40 + 14 = d + 54 by omega]

/-! ## Claims on the IP-in-IP codec -/

theorem sample_pkt_wf : sample_pkt.wf := by decide

theorem sample_info4_wf : sample_info4.wf := by decide

theorem sample_info6_wf : sample_info6.wf := by decide

/-- C1, as the code has it. IP-in-IP round trip: for a packet that starts with
a 14-byte Ethernet header, enough headroom (20 bytes for an IPv4 flow, 40 for
IPv6) and a priority in [0,63], `encapsulate` returns 0, `decapsulate` of the
result returns 0, and the data region afterwards is the original one without
its 14-byte Ethernet header: the inner IP packet, byte for byte. -/
theorem ipip_round_trip_inner_ip (pkt : rte_mbuf) (pri : Nat)
    (info info' : ipip_tunnel_info)
    (hproto : info.flow.proto = ETHER_TYPE_IPv4 ∨ info.flow.proto = ETHER_TYPE_IPv6)
    (hroom : (if info.flow.proto = ETHER_TYPE_IPv4 then 20 else 40) ≤ pkt.data_off)
    (hpri : pri ≤ 63) (hwf : pkt.wf) (hlen : 14 ≤ pkt.data_len) :
    (encapsulate pkt pri info).1 = 0 ∧
    (decapsulate (encapsulate pkt pri info).2 info').ret = 0 ∧
    (decapsulate (encapsulate pkt pri info).2 info').pkt.data_off = pkt.data_off + 14 ∧
    (decapsulate (encapsulate pkt pri info).2 info').pkt.data_len = pkt.data_len - 14 ∧
    (decapsulate (encapsulate pkt pri info).2 info').pkt.data = pkt.data.drop 14 := by
  rcases hproto with h4 | h6
  · rw [if_pos h4] at hroom
    obtain ⟨a, b, -, c, d, e⟩ :=
      decapsulate_encapsulate_ipv4 pkt pri info info' h4 hroom hpri hwf hlen
    exact ⟨a, b, c, d, e⟩
  · have hne : ¬ info.flow.proto = ETHER_TYPE_IPv4 := by rw [h6]; decide
    rw [if_neg hne] at hroom
    obtain ⟨a, b, -, c, d, e⟩ :=
      decapsulate_encapsulate_ipv6 pkt pri info info' h6 hroom hpri hwf hlen
    exact ⟨a, b, c, d, e⟩

/-- C1 at the sample packet and the sample IPv4 tunnel. -/
theorem ipip_round_trip_inner_ip_witness :
    (encapsulate sample_pkt 5 sample_info4).1 = 0 ∧
    (decapsulate (encapsulate sample_pkt 5 sample_info4).2 blank_info).ret = 0 ∧
    (decapsulate (encapsulate sample_pkt 5 sample_info4).2 blank_info).pkt.data_off
      = sample_pkt.data_off + 14 ∧
    (decapsulate (encapsulate sample_pkt 5 sample_info4).2 blank_info).pkt.data_len
      = sample_pkt.data_len - 14 ∧
    (decapsulate (encapsulate sample_pkt 5 sample_info4).2 blank_info).pkt.data
      = sample_pkt.data.drop 14 :=
  ipip_round_trip_inner_ip sample_pkt 5 sample_info4 blank_info (Or.inl rfl)
    (by decide) (by decide) sample_pkt_wf (by decide)

/-- C1 as stated fails: after the round trip of the sample packet the data
region is not the original packet (its Ethernet header is gone). -/
theorem ipip_round_trip_drops_inner_ethernet :
    ¬ ((encapsulate sample_pkt 5 sample_info4).1 = 0 ∧
       (decapsulate (encapsulate sample_pkt 5 sample_info4).2 blank_info).ret = 0 ∧
       (decapsulate (encapsulate sample_pkt 5 sample_info4).2 blank_info).pkt.data
         = sample_pkt.data) := by
  rintro ⟨-, -, h⟩
  have hd := (decapsulate_encapsulate_ipv4 sample_pkt 5 sample_info4 blank_info rfl
    (by decide) (by decide) sample_pkt_wf (by decide)).2.2.2.2.2
  rw [hd] at h
  have hl := congrArg List.length h
  simp [rte_mbuf.data, loadBytes_length, sample_pkt] at hl

/-- C2 at a failing input. Priority 5 sent through an IPv4 outer header comes
back as 5; sent through an IPv6 outer header it comes back as 0. -/
theorem decapsulate_priority_ipv6_lost :
    (decapsulate (encapsulate sample_pkt 5 sample_info4).2 blank_info).priority = 5 ∧
    (encapsulate sample_pkt 5 sample_info6).1 = 0 ∧
    (decapsulate (encapsulate sample_pkt 5 sample_info6).2 blank_info).ret = 0 ∧
    (decapsulate (encapsulate sample_pkt 5 sample_info6).2 blank_info).priority = 0 := by
  have h4 := decapsulate_encapsulate_ipv4 sample_pkt 5 sample_info4 blank_info rfl
    (by decide) (by decide) sample_pkt_wf (by decide)
  have h6 := decapsulate_encapsulate_ipv6 sample_pkt 5 sample_info6 blank_info rfl
    (by decide) (by decide) sample_pkt_wf (by decide)
  exact ⟨h4.2.2.1, h6.1, h6.2.1, h6.2.2.1⟩

/-- C3 at the sample packet and the sample IPv4 tunnel. -/
theorem encapsulate_outer_ipv4_header_witness :
    (encapsulate sample_pkt 5 sample_info4).1 = 0 ∧
    (encapsulate sample_pkt 5 sample_info4).2.data_len = sample_pkt.data_len + 20 ∧
    (encapsulate sample_pkt 5 sample_info4).2.data =
      ether_hdr_bytes sample_info4.nexthop_mac sample_info4.source_mac 0x0800 ++
      ipv4_hdr_bytes 0x45 (5 <<< 2) ((encapsulate sample_pkt 5 sample_info4).2.data_len - 14) 0
        [0x40, 0x00] 64 4 0 sample_info4.flow.v4_src sample_info4.flow.v4_dst ++
      sample_pkt.data.drop 14 ∧
    (ether_hdr_bytes sample_info4.nexthop_mac sample_info4.source_mac 0x0800).length = 14 ∧
    (ipv4_hdr_bytes 0x45 (5 <<< 2) ((encapsulate sample_pkt 5 sample_info4).2.data_len - 14) 0
        [0x40, 0x00] 64 4 0 sample_info4.flow.v4_src sample_info4.flow.v4_dst).length = 20 :=
  encapsulate_outer_ipv4_header sample_pkt 5 sample_info4 rfl (by decide) (by decide)
    sample_pkt_wf sample_info4_wf (by decide)

/-- C4 at the sample packet and the sample IPv6 tunnel. -/
theorem encapsulate_outer_ipv6_header_witness :
    (encapsulate sample_pkt 5 sample_info6).1 = 0 ∧
    (encapsulate sample_pkt 5 sample_info6).2.data_len = sample_pkt.data_len + 40 ∧
    (encapsulate sample_pkt 5 sample_info6).2.data =
      ether_hdr_bytes sample_info6.nexthop_mac sample_info6.source_mac 0x86DD ++
      ipv6_hdr_bytes (0x60000000 ||| (5 <<< 22))
        ((encapsulate sample_pkt 5 sample_info6).2.data_len - 54) 4 255
        sample_info6.flow.v6_src sample_info6.flow.v6_dst ++
      sample_pkt.data.drop 14 ∧
    (ether_hdr_bytes sample_info6.nexthop_mac sample_info6.source_mac 0x86DD).length = 14 ∧
    (ipv6_hdr_bytes (0x60000000 ||| (5 <<< 22))
        ((encapsulate sample_pkt 5 sample_info6).2.data_len - 54) 4 255
        sample_info6.flow.v6_src sample_info6.flow.v6_dst).length = 40 ∧
    0x60000000 ||| (5 <<< 22) = 6 * 2 ^ 28 + 5 * 2 ^ 22 :=
  encapsulate_outer_ipv6_header sample_pkt 5 sample_info6 rfl (by decide) (by decide)
    sample_pkt_wf sample_info6_wf (by decide)

theorem outer_ether_type_cases (pkt : rte_mbuf) :
    outer_ether_type pkt = ETHER_TYPE_IPv4 ∨ outer_ether_type pkt = ETHER_TYPE_IPv6 ∨
    (outer_ether_type pkt ≠ ETHER_TYPE_IPv4 ∧ outer_ether_type pkt ≠ ETHER_TYPE_IPv6) := by
  by_cases h4 : outer_ether_type pkt = ETHER_TYPE_IPv4
  · exact Or.inl h4
  · by_cases h6 : outer_ether_type pkt = ETHER_TYPE_IPv6
    · exact Or.inr (Or.inl h6)
    · exact Or.inr (Or.inr ⟨h4, h6⟩)

theorem rte_pktmbuf_adj_strip (pkt : rte_mbuf) (len : Nat) (h : len ≤ pkt.data_len) :
    ((rte_pktmbuf_adj pkt len).getD pkt).data_off = pkt.data_off + len ∧
    ((rte_pktmbuf_adj pkt len).getD pkt).data_len = pkt.data_len - len ∧
    ((rte_pktmbuf_adj pkt len).getD pkt).data = pkt.data.drop len := by
  rw [rte_pktmbuf_adj, if_neg (by omega)]
  refine ⟨rfl, rfl, ?_⟩
  simp only [Option.getD_some, rte_mbuf.data]
  rw [loadBytes_drop _ _ _ _ h]

/-- C5, as the code has it. `decapsulate` returns -1 or 0; it returns -1
exactly when the outer EtherType is neither IPv4 nor IPv6 or the outer
protocol / next-header byte is not 4; when it returns -1 the packet (data
offset and length included) is unchanged; when it returns 0 and the data
region is at least as long as the outer Ethernet + IP header (34 bytes for
IPv4, 54 for IPv6), exactly that header is stripped. -/
theorem decapsulate_result (pkt : rte_mbuf) (info : ipip_tunnel_info) :
    ((decapsulate pkt info).ret = -1 ∨ (decapsulate pkt info).ret = 0) ∧
    ((decapsulate pkt info).ret = -1 ↔
      ((outer_ether_type pkt ≠ ETHER_TYPE_IPv4 ∧ outer_ether_type pkt ≠ ETHER_TYPE_IPv6) ∨
       outer_l4_proto pkt ≠ IPPROTO_IPIP)) ∧
    ((decapsulate pkt info).ret = -1 → (decapsulate pkt info).pkt = pkt) ∧
    ((decapsulate pkt info).ret = 0 → outer_hdr_len pkt ≤ pkt.data_len →
      (decapsulate pkt info).pkt.data_off = pkt.data_off + outer_hdr_len pkt ∧
      (decapsulate pkt info).pkt.data_len = pkt.data_len - outer_hdr_len pkt ∧
      (decapsulate pkt info).pkt.data = pkt.data.drop (outer_hdr_len pkt)) := by
  have hne : ETHER_TYPE_IPv6 ≠ ETHER_TYPE_IPv4 := by decide
  rcases outer_ether_type_cases pkt with h4 | h6 | ⟨h4, h6⟩
  · obtain ⟨-, h2, h3⟩ := decapsulate_ipv4_case pkt info h4
    rw [h2, h3]
    simp only [outer_l4_proto, outer_hdr_len, h4, if_true]
    by_cases hp : load8 pkt.buf (pkt.data_off + 14 + 9) = IPPROTO_IPIP
    · simp only [hp, if_true]
      exact ⟨by simp, by simp, by simp, fun _ hl => rte_pktmbuf_adj_strip pkt 34 hl⟩
    · simp only [hp, if_false]
      exact ⟨by simp, by simp [hp], by simp, by simp⟩
  · obtain ⟨-, h2, h3⟩ := decapsulate_ipv6_case pkt info h6
    rw [h2, h3]
    simp only [outer_l4_proto, outer_hdr_len, h6, if_neg hne, if_true]
    by_cases hp : load8 pkt.buf (pkt.data_off + 14 + 6) = IPPROTO_IPIP
    · simp only [hp, if_true]
      exact ⟨by simp, by simp [hne], by simp, fun _ hl => rte_pktmbuf_adj_strip pkt 54 hl⟩
    · simp only [hp, if_false]
      exact ⟨by simp, by simp [hp], by simp, by simp⟩
  · obtain ⟨-, h2, h3⟩ := decapsulate_other_case pkt info h4 h6
    rw [h2, h3]
    refine ⟨Or.inl rfl, ?_, by simp, by simp⟩
    simp [h4, h6]

theorem sample_outer4_ether_type : outer_ether_type sample_outer4 = ETHER_TYPE_IPv4 := by
  decide

/-- C5 at a sample IP-in-IP packet with an IPv4 outer header: `decapsulate`
returns 0 and strips 34 bytes. -/
theorem decapsulate_result_witness :
    (decapsulate sample_outer4 blank_info).ret = 0 ∧
    outer_hdr_len sample_outer4 ≤ sample_outer4.data_len ∧
    (decapsulate sample_outer4 blank_info).pkt.data_off = sample_outer4.data_off + 34 ∧
    (decapsulate sample_outer4 blank_info).pkt.data_len = sample_outer4.data_len - 34 ∧
    (decapsulate sample_outer4 blank_info).pkt.data = sample_outer4.data.drop 34 := by
  have hret : (decapsulate sample_outer4 blank_info).ret = 0 := by
    rw [(decapsulate_ipv4_case sample_outer4 blank_info sample_outer4_ether_type).2.1]
    decide
  have hlen : outer_hdr_len sample_outer4 ≤ sample_outer4.data_len := by decide
  exact ⟨hret, hlen, (decapsulate_result sample_outer4 blank_info).2.2.2 hret hlen⟩

theorem short_pkt_ether_type : outer_ether_type short_pkt = ETHER_TYPE_IPv4 := by
  decide

/-- C5 as stated fails: on a 30-byte packet whose EtherType is IPv4 and whose
protocol byte is 4, `decapsulate` returns 0 but strips nothing. -/
theorem decapsulate_short_packet_not_stripped :
    (decapsulate short_pkt blank_info).ret = 0 ∧
    ¬ ((decapsulate short_pkt blank_info).pkt.data_off = short_pkt.data_off + 34) ∧
    (decapsulate short_pkt blank_info).pkt.data_off = short_pkt.data_off ∧
    (decapsulate short_pkt blank_info).pkt.data_len = short_pkt.data_len := by
  obtain ⟨-, h2, h3⟩ := decapsulate_ipv4_case short_pkt blank_info short_pkt_ether_type
  have hp : load8 short_pkt.buf (short_pkt.data_off + 14 + 9) = IPPROTO_IPIP := by decide
  have hadj : rte_pktmbuf_adj short_pkt 34 = none := by
    rw [rte_pktmbuf_adj, if_pos (by decide)]
  rw [h2, h3, if_pos hp, if_pos hp, hadj]
  refine ⟨rfl, ?_, rfl, rfl⟩
  decide

/-! ## Derived IPv6 addresses -/

theorem store64_apply (m : Mem) (a v i : Nat) :
    store64 m a v i =
      if i = a + 7 then v / 72057594037927936 % 256
      else if i = a + 6 then v / 281474976710656 % 256
      else if i = a + 5 then v / 1099511627776 % 256
      else if i = a + 4 then v / 4294967296 % 256
      else if i = a + 3 then v / 16777216 % 256 else if i = a + 2 then v / 65536 % 256
      else if i = a + 1 then v / 256 % 256 else if i = a then v % 256 else m i := by
  simp only [store64, store32_apply, Nat.add_assoc, Nat.div_div_eq_div_mul]

theorem loadBytes_16 (m : Mem) :
    loadBytes m 0 16 = [m 0, m 1, m 2, m 3, m 4, m 5, m 6, m 7, m 8, m 9, m 10, m 11,
      m 12, m 13, m 14, m 15] := by
  simp [loadBytes, List.range_succ]

/-- C6. Link-local derivation: for every MAC m of six bytes,
`gen_ipv6_link_local` sets `ll_ip6_addr` to fe 80 00 00 00 00 00 00
(m[0] XOR 2) m[1] m[2] ff fe m[3] m[4] m[5] and `ll_ip6_mask` to the /64 mask
(eight bytes 0xFF, then eight bytes 0). -/
theorem gen_ipv6_link_local_addr (iface : gatekeeper_if) (m0 m1 m2 m3 m4 m5 : Nat)
    (hmac : iface.eth_addr.addr_bytes = [m0, m1, m2, m3, m4, m5])
    (hbyte : m0 < 256) :
    loadBytes (gen_ipv6_link_local iface).ll_ip6_addr 0 16 =
      [0xfe, 0x80, 0x00, 0x00, 0x00, 0x00, 0x00, 0x00,
       m0 ^^^ 0x02, m1, m2, 0xff, 0xfe, m3, m4, m5] ∧
    loadBytes (gen_ipv6_link_local iface).ll_ip6_mask 0 16 =
      [0xff, 0xff, 0xff, 0xff, 0xff, 0xff, 0xff, 0xff, 0, 0, 0, 0, 0, 0, 0, 0] := by
  have hx : (m0 ^^^ 2) % 256 = m0 ^^^ 2 :=
    Nat.mod_eq_of_lt (Nat.xor_lt_two_pow (n := 8) hbyte (by decide))
  constructor
  · rw [loadBytes_16]
    simp [gen_ipv6_link_local, hmac, store8_apply, rte_memcpy_apply, hx]
  · rw [loadBytes_16]
    simp [gen_ipv6_link_local, store64_apply]

/-- C6 at the interface MAC 02:00:00:00:00:02: fe80::ff:fe00:2. -/
theorem gen_ipv6_link_local_addr_witness :
    loadBytes (gen_ipv6_link_local sample_iface).ll_ip6_addr 0 16 =
      [0xfe, 0x80, 0x00, 0x00, 0x00, 0x00, 0x00, 0x00,
       0x02 ^^^ 0x02, 0x00, 0x00, 0xff, 0xfe, 0x00, 0x00, 0x02] ∧
    loadBytes (gen_ipv6_link_local sample_iface).ll_ip6_mask 0 16 =
      [0xff, 0xff, 0xff, 0xff, 0xff, 0xff, 0xff, 0xff, 0, 0, 0, 0, 0, 0, 0, 0] :=
  gen_ipv6_link_local_addr sample_iface 0x02 0x00 0x00 0x00 0x00 0x02 rfl (by decide)

/-- C7. Solicited-node derivation: `setup_ipv6_addrs` stores, for the global
address a = `ip6_addr` and for the link-local address a = `ll_ip6_addr` it has
just derived, the multicast address ff02:0:0:0:0:1:ff followed by a[13],
a[14], a[15], and the multicast MAC 33:33:ff:a[13]:a[14]:a[15]; both MACs are
handed to the device. -/
theorem setup_ipv6_addrs_solicited_node (iface : gatekeeper_if) :
    loadBytes (setup_ipv6_addrs iface).1.ip6_mc_addr 0 16 =
      [0xff, 0x02, 0, 0, 0, 0, 0, 0, 0, 0, 0, 0x01, 0xff,
       iface.ip6_addr 13, iface.ip6_addr 14, iface.ip6_addr 15] ∧
    (setup_ipv6_addrs iface).1.eth_mc_addr.addr_bytes =
      [0x33, 0x33, 0xff, iface.ip6_addr 13, iface.ip6_addr 14, iface.ip6_addr 15] ∧
    (setup_ipv6_addrs iface).1.ll_ip6_addr = (gen_ipv6_link_local iface).ll_ip6_addr ∧
    loadBytes (setup_ipv6_addrs iface).1.ll_ip6_mc_addr 0 16 =
      [0xff, 0x02, 0, 0, 0, 0, 0, 0, 0, 0, 0, 0x01, 0xff,
       (setup_ipv6_addrs iface).1.ll_ip6_addr 13, (setup_ipv6_addrs iface).1.ll_ip6_addr 14,
       (setup_ipv6_addrs iface).1.ll_ip6_addr 15] ∧
    (setup_ipv6_addrs iface).1.ll_eth_mc_addr.addr_bytes =
      [0x33, 0x33, 0xff, (setup_ipv6_addrs iface).1.ll_ip6_addr 13,
       (setup_ipv6_addrs iface).1.ll_ip6_addr 14, (setup_ipv6_addrs iface).1.ll_ip6_addr 15] ∧
    (setup_ipv6_addrs iface).2 =
      [(setup_ipv6_addrs iface).1.eth_mc_addr, (setup_ipv6_addrs iface).1.ll_eth_mc_addr] := by
  refine ⟨?_, rfl, rfl, ?_, rfl, rfl⟩
  · rw [loadBytes_16]
    simp [setup_ipv6_addrs, gen_ipv6_link_local, IPV6_SN_MC_ADDR, rte_memcpy_apply]
  · rw [loadBytes_16]
    simp [setup_ipv6_addrs, gen_ipv6_link_local, IPV6_SN_MC_ADDR, rte_memcpy_apply]

/-! ## Prefix lengths in `lua_init_iface` -/

theorem takeWhile_append_stop {α : Type} (p : α → Bool) (a : List α) (x : α) (r : List α)
    (ha : ∀ c ∈ a, p c = true) (hx : p x = false) :
    (a ++ x :: r).takeWhile p = a := by
  induction a with
  | nil => simp [List.takeWhile, hx]
  | cons c cs ih =>
    have hc : p c = true := ha c (List.mem_cons_self _ _)
    rw [List.cons_append, List.takeWhile_cons_of_pos hc,
      ih (fun d hd => ha d (List.mem_cons_of_mem _ hd))]

theorem dropWhile_append_stop {α : Type} (p : α → Bool) (a : List α) (x : α) (r : List α)
    (ha : ∀ c ∈ a, p c = true) (hx : p x = false) :
    (a ++ x :: r).dropWhile p = x :: r := by
  induction a with
  | nil => simp [List.dropWhile, hx]
  | cons c cs ih =>
    have hc : p c = true := ha c (List.mem_cons_self _ _)
    rw [List.cons_append, List.dropWhile_cons_of_pos hc,
      ih (fun d hd => ha d (List.mem_cons_of_mem _ hd))]

theorem strtok_r_slash (addr rest : List Char) (hne : addr ≠ [])
    (hs : ∀ c ∈ addr, c ≠ Char.ofNat 47) :
    strtok_r (some (addr ++ Char.ofNat 47 :: rest)) [Char.ofNat 47] [] = (some addr, rest) := by
  obtain ⟨a, as, rfl⟩ := List.exists_cons_of_ne_nil hne
  have ha : a ≠ Char.ofNat 47 := hs a (List.mem_cons_self _ _)
  have hp : ∀ c ∈ a :: as, (!([Char.ofNat 47] : List Char).contains c) = true := by
    intro c hc
    simp [hs c hc]
  have hx : (!([Char.ofNat 47] : List Char).contains (Char.ofNat 47)) = false := by simp
  have hd : ((a :: as) ++ Char.ofNat 47 :: rest).dropWhile
      (fun c => ([Char.ofNat 47] : List Char).contains c) = (a :: as) ++ Char.ofNat 47 :: rest := by
    simp [List.dropWhile, ha]
  simp only [strtok_r, Option.getD_some]
  rw [hd, takeWhile_append_stop _ _ _ _ hp hx, dropWhile_append_stop _ _ _ _ hp hx]
  simp

theorem strtok_r_rest (rest : List Char) (hne : rest ≠ []) :
    strtok_r none [] rest = (some rest, []) := by
  obtain ⟨a, as, rfl⟩ := List.exists_cons_of_ne_nil hne
  have h1 : ∀ l : List Char, l.dropWhile (fun c => ([] : List Char).contains c) = l := by
    intro l; cases l <;> simp [List.dropWhile]
  have h2 : ∀ l : List Char, l.takeWhile (fun c => !([] : List Char).contains c) = l := by
    intro l
    induction l with
    | nil => rfl
    | cons c cs ih => simp [List.takeWhile]
  have h3 : ∀ l : List Char, l.dropWhile (fun c => !([] : List Char).contains c) = [] := by
    intro l
    induction l with
    | nil => rfl
    | cons c cs ih => simp [List.dropWhile]
  simp only [strtok_r, Option.getD_none, h1, h2, h3]
  simp

theorem strtol_digits_all (ds : List Char) (acc : Nat) (h : ∀ c ∈ ds, isdigit c = true) :
    strtol_digits ds acc = (ds.foldl (fun a c => a * 10 + (c.toNat - 48)) acc, []) := by
  induction ds generalizing acc with
  | nil => rfl
  | cons c cs ih =>
    simp only [strtol_digits, h c (List.mem_cons_self _ _), if_true, List.foldl_cons]
    exact ih _ (fun d hd => h d (List.mem_cons_of_mem _ hd))

theorem isdigit_head (c : Char) (h : isdigit c = true) :
    isspace c = false ∧ c.toNat ≠ 45 ∧ c.toNat ≠ 43 := by
  simp only [isdigit, Bool.and_eq_true, decide_eq_true_eq] at h
  refine ⟨?_, by omega, by omega⟩
  simp only [isspace, Bool.or_eq_false_iff, Bool.and_eq_false_iff, decide_eq_false_iff_not]
  omega

/-- What `strtol` makes of an optional minus sign followed by decimal digits. -/
theorem strtol_decimal (neg : Bool) (ds : List Char) (errno : Int) (hne : ds ≠ [])
    (hds : ∀ c ∈ ds, isdigit c = true) :
    ∃ v e, strtol ((if neg then [Char.ofNat 45] else []) ++ ds) errno = (v, [], e) ∧
      (v < 0 ↔ (if neg then -(decimal_value ds : Int) else decimal_value ds) < 0) ∧
      (∀ b : Int, 0 ≤ b → b ≤ 128 → (b < v ↔
        b < (if neg then -(decimal_value ds : Int) else decimal_value ds))) ∧
      (0 ≤ v → v ≤ 128 → v = (if neg then -(decimal_value ds : Int) else decimal_value ds)) := by
  obtain ⟨d, dt, rfl⟩ := List.exists_cons_of_ne_nil hne
  obtain ⟨hsp, h45, h43⟩ := isdigit_head d (hds d (List.mem_cons_self _ _))
  have hdig := strtol_digits_all (d :: dt) 0 hds
  cases neg with
  | false =>
    have hs : ([] ++ d :: dt).dropWhile isspace = d :: dt := by
      simp [List.dropWhile, hsp]
    simp only [strtol, Bool.false_eq_true, if_false, hs, List.head?_cons, Option.map_some',
      Option.some.injEq, h45, h43, or_self, hdig]
    simp only [List.length_nil, List.length_cons]
    rw [if_neg (by omega)]
    by_cases hov : ((List.foldl (fun a c => a * 10 + (c.toNat - 48)) 0 (d :: dt) : Nat) : Int)
        > LONG_MAX
    · rw [if_pos hov]
      refine ⟨_, _, rfl, ?_, ?_, ?_⟩
      · simp only [decimal_value, LONG_MAX] at *; omega
      · intro b hb0 hb; simp only [decimal_value, LONG_MAX] at *; omega
      · intro h0 h1; simp only [LONG_MAX] at *; omega
    · rw [if_neg hov]
      refine ⟨_, _, rfl, ?_, ?_, ?_⟩
      · simp only [decimal_value]
      · intro b hb0 hb; simp only [decimal_value]
      · intro h0 h1; simp only [decimal_value]
  | true =>
    have hm : (Char.ofNat 45).toNat = 45 := by decide
    have hmsp : isspace (Char.ofNat 45) = false := by decide
    have hs : ([Char.ofNat 45] ++ d :: dt).dropWhile isspace = Char.ofNat 45 :: d :: dt := by
      simp [List.dropWhile, hmsp]
    simp only [strtol, if_true, hs, List.head?_cons, Option.map_some', hm, true_or,
      List.tail_cons, hdig]
    simp only [List.length_nil, List.length_cons]
    rw [if_neg (by omega)]
    by_cases hov : ((List.foldl (fun a c => a * 10 + (c.toNat - 48)) 0 (d :: dt) : Nat) : Int)
        > -LONG_MIN
    · rw [if_pos hov]
      refine ⟨_, _, rfl, ?_, ?_, ?_⟩
      · simp only [decimal_value, LONG_MIN] at *; omega
      · intro b hb0 hb; simp only [decimal_value, LONG_MIN] at *; omega
      · intro h0 h1; simp only [LONG_MIN] at *; omega
    · rw [if_neg hov]
      refine ⟨_, _, rfl, ?_, ?_, ?_⟩
      · simp only [decimal_value]
      · intro b hb0 hb; simp only [decimal_value]
      · intro h0 h1; simp only [decimal_value]
theorem cidr_string_rest_ne (neg : Bool) (ds : List Char) (hne : ds ≠ []) :
    (if neg then [Char.ofNat 45] else []) ++ ds ≠ [] := by
  cases neg <;> simp [hne]

/-- One round of the CIDR loop on `addr/len` with a valid IPv4 address. -/
theorem lua_init_iface_cidr_ipv4 (env : libc_env) (iface : gatekeeper_if) (errno : Int)
    (addr ds : List Char) (neg : Bool) (a : Nat)
    (haddr : addr ≠ [] ∧ ∀ c ∈ addr, c ≠ Char.ofNat 47)
    (hfam : env.getaddrinfo addr = some AF_INET) (hpton : env.inet_pton4 addr = some a)
    (hds : ds ≠ [] ∧ ∀ c ∈ ds, isdigit c = true) :
    ∃ ok iface' e,
      lua_init_iface_cidr env iface errno (cidr_string addr neg ds) = some (ok, iface', e) ∧
      (ok = false ↔ ((if neg then -(decimal_value ds : Int) else decimal_value ds) < 0 ∨
        32 < (if neg then -(decimal_value ds : Int) else decimal_value ds))) ∧
      (ok = true → (iface'.ip4_addr_plen : Int)
        = (if neg then -(decimal_value ds : Int) else decimal_value ds)) ∧
      (ok = true → iface'.ip6_addr_plen = iface.ip6_addr_plen) := by
  obtain ⟨v, e, hst, h1, h2, h3⟩ := strtol_decimal neg ds errno hds.1 hds.2
  have hrest := cidr_string_rest_ne neg ds hds.1
  have h32 := h2 32 (by decide) (by decide)
  simp only [lua_init_iface_cidr, cidr_string, strtok_r_slash addr _ haddr.1 haddr.2,
    get_ip_type, hfam, hpton, Option.isSome_some, and_self, if_true, strtok_r_rest _ hrest,
    hst, List.length_nil, hrest, ne_eq, not_true_eq_false, or_false, max_prefix_len,
    true_or, Option.getD_some]
  have hl : ¬ (0 = ((if neg then [Char.ofNat 45] else []) ++ ds).length) := by
    intro h
    exact hrest (List.length_eq_zero.mp h.symm)
  rw [if_neg hl]
  by_cases hc1 : (v = LONG_MAX ∨ v = LONG_MIN) ∧ e = ERANGE
  · rw [if_pos hc1]
    refine ⟨_, _, _, rfl, ?_, by simp, by simp⟩
    simp only [true_iff]
    rcases hc1.1 with hv | hv
    · right; rw [← h32, hv]; decide
    · left; rw [← h1, hv]; decide
  · rw [if_neg hc1]
    by_cases hc2 : v < 0
    · rw [if_pos hc2]
      exact ⟨_, _, _, rfl, by simp only [true_iff]; exact Or.inl (h1.mp hc2), by simp, by simp⟩
    · rw [if_neg hc2]
      simp only [show (4 : Int) * 8 = 32 by decide]
      by_cases hc3 : v > 32
      · rw [if_pos hc3]
        exact ⟨_, _, _, rfl, by simp only [true_iff]; exact Or.inr (h32.mp hc3), by simp,
          by simp⟩
      · rw [if_neg hc3]
        refine ⟨_, _, _, rfl, ?_, ?_, fun _ => rfl⟩
        · have := h3 (by omega) (by omega)
          simp only [Bool.true_eq_false, false_iff]
          omega
        · intro _
          have := h3 (by omega) (by omega)
          simp only
          omega

/-- One round of the CIDR loop on `addr/len` with a valid IPv6 address. -/
theorem lua_init_iface_cidr_ipv6 (env : libc_env) (iface : gatekeeper_if) (errno : Int)
    (addr ds : List Char) (neg : Bool) (a : Mem)
    (haddr : addr ≠ [] ∧ ∀ c ∈ addr, c ≠ Char.ofNat 47)
    (hfam : env.getaddrinfo addr = some AF_INET6) (hpton : env.inet_pton6 addr = some a)
    (hds : ds ≠ [] ∧ ∀ c ∈ ds, isdigit c = true) :
    ∃ ok iface' e,
      lua_init_iface_cidr env iface errno (cidr_string addr neg ds) = some (ok, iface', e) ∧
      (ok = false ↔ ((if neg then -(decimal_value ds : Int) else decimal_value ds) < 0 ∨
        128 < (if neg then -(decimal_value ds : Int) else decimal_value ds))) ∧
      (ok = true → (iface'.ip6_addr_plen : Int)
        = (if neg then -(decimal_value ds : Int) else decimal_value ds)) ∧
      (ok = true → iface'.ip4_addr_plen = iface.ip4_addr_plen) := by
  obtain ⟨v, e, hst, h1, h2, h3⟩ := strtol_decimal neg ds errno hds.1 hds.2
  have hrest := cidr_string_rest_ne neg ds hds.1
  have h128 := h2 128 (by decide) (by decide)
  have hne : ¬ (AF_INET6 = AF_INET) := by decide
  simp only [lua_init_iface_cidr, cidr_string, strtok_r_slash addr _ haddr.1 haddr.2,
    get_ip_type, hfam, hpton, Option.isSome_some, and_self, if_true, strtok_r_rest _ hrest,
    hst, List.length_nil, hrest, ne_eq, not_true_eq_false, or_false, max_prefix_len,
    or_true, Option.getD_some, hne, false_and, if_false]
  have hl : ¬ (0 = ((if neg then [Char.ofNat 45] else []) ++ ds).length) := by
    intro h
    exact hrest (List.length_eq_zero.mp h.symm)
  rw [if_neg hl]
  by_cases hc1 : (v = LONG_MAX ∨ v = LONG_MIN) ∧ e = ERANGE
  · rw [if_pos hc1]
    refine ⟨_, _, _, rfl, ?_, by simp, by simp⟩
    simp only [true_iff]
    rcases hc1.1 with hv | hv
    · right; rw [← h128, hv]; decide
    · left; rw [← h1, hv]; decide
  · rw [if_neg hc1]
    by_cases hc2 : v < 0
    · rw [if_pos hc2]
      exact ⟨_, _, _, rfl, by simp only [true_iff]; exact Or.inl (h1.mp hc2), by simp, by simp⟩
    · rw [if_neg hc2]
      simp only [show (16 : Int) * 8 = 128 by decide]
      by_cases hc3 : v > 128
      · rw [if_pos hc3]
        exact ⟨_, _, _, rfl, by simp only [true_iff]; exact Or.inr (h128.mp hc3), by simp,
          by simp⟩
      · rw [if_neg hc3]
        refine ⟨_, _, _, rfl, ?_, ?_, fun _ => rfl⟩
        · have := h3 (by omega) (by omega)
          simp only [Bool.true_eq_false, false_iff]
          omega
        · intro _
          have := h3 (by omega) (by omega)
          simp only
          omega
/-- One round of the CIDR loop on a valid CIDR: it passes exactly when the
prefix length is in range, and then the length is stored for the CIDR's family
and the length of the other family is left alone. -/
theorem lua_init_iface_cidr_valid (env : libc_env) (iface : gatekeeper_if) (errno : Int)
    (s : cidr_spec) (hv : s.valid env) :
    ∃ ok iface' e,
      lua_init_iface_cidr env iface errno s.str = some (ok, iface', e) ∧
      (ok = true ↔ (0 ≤ s.len ∧ s.len ≤ s.max_len)) ∧
      (ok = true → (iface'.addr_plen s.v6 : Int) = s.len) ∧
      (ok = true → iface'.addr_plen (!s.v6) = iface.addr_plen (!s.v6)) := by
  obtain ⟨haddr, hfam, hds⟩ := hv
  rcases s with ⟨addr, neg, ds, v6⟩
  cases v6 with
  | false =>
    simp only [Bool.false_eq_true, if_false] at hfam
    obtain ⟨a, ha⟩ := Option.isSome_iff_exists.mp hfam.2
    obtain ⟨ok, iface', e, hstep, hfail, hplen, hother⟩ :=
      lua_init_iface_cidr_ipv4 env iface errno addr ds neg a haddr hfam.1 ha hds
    refine ⟨ok, iface', e, hstep, ?_, ?_, ?_⟩
    · simp only [cidr_spec.len, cidr_spec.max_len, Bool.false_eq_true, if_false]
      cases ok
      · have := hfail.mp rfl
        simp only [Bool.false_eq_true, false_iff]
        omega
      · have : ¬ _ := fun h => absurd (hfail.mpr h) (by simp)
        simp only [true_iff]
        omega
    · simpa [gatekeeper_if.addr_plen, cidr_spec.len] using hplen
    · simpa [gatekeeper_if.addr_plen] using hother
  | true =>
    simp only [if_true] at hfam
    obtain ⟨a, ha⟩ := Option.isSome_iff_exists.mp hfam.2
    obtain ⟨ok, iface', e, hstep, hfail, hplen, hother⟩ :=
      lua_init_iface_cidr_ipv6 env iface errno addr ds neg a haddr hfam.1 ha hds
    refine ⟨ok, iface', e, hstep, ?_, ?_, ?_⟩
    · simp only [cidr_spec.len, cidr_spec.max_len, if_true]
      cases ok
      · have := hfail.mp rfl
        simp only [Bool.false_eq_true, false_iff]
        omega
      · have : ¬ _ := fun h => absurd (hfail.mpr h) (by simp)
        simp only [true_iff]
        omega
    · simpa [gatekeeper_if.addr_plen, cidr_spec.len] using hplen
    · simpa [gatekeeper_if.addr_plen] using hother

/-- The CIDR loop on valid CIDRs: it passes exactly when every prefix length is
in range, and then the length of every CIDR that is the last of its family is
stored, and the stored length of a family without a CIDR is left alone. -/
theorem lua_init_iface_cidrs_valid (env : libc_env) (specs : List cidr_spec)
    (hv : ∀ s ∈ specs, s.valid env) :
    ∀ (iface : gatekeeper_if) (errno : Int),
    ∃ ok iface' e,
      lua_init_iface_cidrs env (specs.map cidr_spec.str) iface errno = some (ok, iface', e) ∧
      (ok = true ↔ ∀ s ∈ specs, (0 ≤ s.len ∧ s.len ≤ s.max_len)) ∧
      (ok = true → ∀ pre s post, specs = pre ++ s :: post → (∀ t ∈ post, t.v6 ≠ s.v6) →
        (iface'.addr_plen s.v6 : Int) = s.len) ∧
      (ok = true → ∀ v6, (∀ t ∈ specs, t.v6 ≠ v6) →
        iface'.addr_plen v6 = iface.addr_plen v6) := by
  induction specs with
  | nil =>
    intro iface errno
    refine ⟨true, iface, errno, rfl, by simp, ?_, fun _ _ _ => rfl⟩
    intro _ pre s post h
    exact absurd h (by simp)
  | cons c cs ih =>
    intro iface errno
    obtain ⟨ok, iface1, e1, hstep, hok, hplen, hother⟩ :=
      lua_init_iface_cidr_valid env iface errno c (hv c (List.mem_cons_self _ _))
    cases ok with
    | false =>
      refine ⟨false, iface1, e1, ?_, ?_, by simp, by simp⟩
      · simp only [List.map_cons, lua_init_iface_cidrs, hstep]
      · simp only [Bool.false_eq_true, false_iff]
        intro h
        exact absurd (hok.mpr (h c (List.mem_cons_self _ _))) (by simp)
    | true =>
      obtain ⟨ok2, iface2, e2, hloop, hok2, hplen2, hother2⟩ :=
        ih (fun s hs => hv s (List.mem_cons_of_mem _ hs)) iface1 e1
      refine ⟨ok2, iface2, e2, ?_, ?_, ?_, ?_⟩
      · simp only [List.map_cons, lua_init_iface_cidrs, hstep, hloop]
      · rw [hok2]
        constructor
        · intro h s hs
          rcases List.mem_cons.mp hs with rfl | hs
          · exact hok.mp rfl
          · exact h s hs
        · intro h s hs
          exact h s (List.mem_cons_of_mem _ hs)
      · intro h2 pre s post hsplit hlast
        cases pre with
        | nil =>
          simp only [List.nil_append, List.cons.injEq] at hsplit
          obtain ⟨rfl, rfl⟩ := hsplit
          rw [hother2 h2 c.v6 hlast]
          exact hplen rfl
        | cons d ds =>
          simp only [List.cons_append, List.cons.injEq] at hsplit
          exact hplen2 h2 ds s post hsplit.2 hlast
      · intro h2 v6 hnone
        rw [hother2 h2 v6 (fun t ht => hnone t (List.mem_cons_of_mem _ ht))]
        have hc := hnone c (List.mem_cons_self _ _)
        have hv6 : ∀ b : Bool, b ≠ v6 → v6 = !b := by
          intro b
          cases b <;> cases v6 <;> decide
        rw [hv6 c.v6 hc]
        exact hother rfl

/-- C8. Prefix length bounds: for a list of one or two CIDR strings `addr/len`,
each with a valid IPv4 (resp. IPv6) address and a decimal integer `len`,
`lua_init_iface` (allocations succeeding) returns -1 when some `len` is
outside [0,32] (resp. [0,128]) and returns 0 when every `len` is inside, end
points included; on acceptance the `len` of every CIDR that is the last of its
family in the list is stored as `ip4_addr_plen` (resp. `ip6_addr_plen`). -/
theorem lua_init_iface_prefix_len_bounds (env : libc_env) (iface : gatekeeper_if)
    (iface_name : List Char) (pci_addrs : List (List Char)) (num_pci_addrs : Nat)
    (specs : List cidr_spec)
    (halloc : env.malloc_name_ok = true ∧ env.calloc_pci_addrs_ok = true ∧
      ∀ i, env.malloc_pci_addr_ok i = true)
    (hnum : 1 ≤ specs.length ∧ specs.length ≤ 2)
    (hvalid : ∀ s ∈ specs, s.valid env) :
    ∃ ret iface',
      lua_init_iface env iface iface_name pci_addrs num_pci_addrs
        (specs.map cidr_spec.str) specs.length = some (ret, iface') ∧
      (ret = 0 ∨ ret = -1) ∧
      (ret = -1 ↔ ∃ s ∈ specs, (s.len < 0 ∨ s.max_len < s.len)) ∧
      (ret = 0 → ∀ pre s post, specs = pre ++ s :: post → (∀ t ∈ post, t.v6 ≠ s.v6) →
        (iface'.addr_plen s.v6 : Int) = s.len) := by
  obtain ⟨ok, iface', e, hloop, hok, hplen, -⟩ :=
    lua_init_iface_cidrs_valid env specs hvalid
      { iface with
        num_ports := num_pci_addrs
        name := some iface_name
        pci_addrs := some ((List.range num_pci_addrs).map (fun i => pci_addrs.getD i [])) }
      env.errno
  have hany : (List.range num_pci_addrs).any (fun i => !env.malloc_pci_addr_ok i) = false := by
    simp [halloc.2.2]
  have htake : (specs.map cidr_spec.str).take specs.length = specs.map cidr_spec.str := by
    rw [← List.length_map specs cidr_spec.str, List.take_length]
  have hret : lua_init_iface env iface iface_name pci_addrs num_pci_addrs
      (specs.map cidr_spec.str) specs.length =
      some (if ok then 0 else -1, if ok then iface' else { iface' with name := none }) := by
    simp only [lua_init_iface, halloc.1, halloc.2.1, hany, Bool.not_true, Bool.false_eq_true,
      if_false, htake, hloop]
    rw [if_neg (by omega)]
    cases ok <;> rfl
  refine ⟨_, _, hret, ?_, ?_, ?_⟩
  · cases ok <;> simp
  · cases ok
    · simp only [Bool.false_eq_true, if_false, true_iff]
      by_contra hcon
      have : ∀ s ∈ specs, (0 ≤ s.len ∧ s.len ≤ s.max_len) := by
        intro s hs
        by_contra hs'
        exact hcon ⟨s, hs, by omega⟩
      exact absurd (hok.mpr this) (by simp)
    · have hall := hok.mp rfl
      simp only [if_true]
      constructor
      · intro h; exact absurd h (by decide)
      · rintro ⟨s, hs, hbad⟩
        have := hall s hs
        omega
  · cases ok
    · simp
    · intro _ pre s post hsplit hlast
      exact hplen rfl pre s post hsplit hlast

theorem sample_cidrs_valid : ∀ s ∈ [sample_cidr4, sample_cidr6], s.valid sample_libc := by
  intro s hs
  simp only [List.mem_cons, List.mem_singleton, List.not_mem_nil, or_false] at hs
  rcases hs with rfl | rfl
  · exact ⟨by decide, by decide, by decide⟩
  · exact ⟨by decide, by decide, by decide⟩

/-- C8 at an interface with one PCI address and the list `192.0.2.1/32`,
`2001:db8::1/128` on the sample C library. -/
theorem lua_init_iface_prefix_len_bounds_witness :
    ∃ ret iface',
      lua_init_iface sample_libc sample_iface [Char.ofNat 102] [sample_pci_addr] 1
        ([sample_cidr4, sample_cidr6].map cidr_spec.str) [sample_cidr4, sample_cidr6].length
          = some (ret, iface') ∧
      (ret = 0 ∨ ret = -1) ∧
      (ret = -1 ↔ ∃ s ∈ [sample_cidr4, sample_cidr6], (s.len < 0 ∨ s.max_len < s.len)) ∧
      (ret = 0 → ∀ pre s post, [sample_cidr4, sample_cidr6] = pre ++ s :: post →
        (∀ t ∈ post, t.v6 ≠ s.v6) → (iface'.addr_plen s.v6 : Int) = s.len) :=
  lua_init_iface_prefix_len_bounds sample_libc sample_iface [Char.ofNat 102] [sample_pci_addr] 1
    [sample_cidr4, sample_cidr6] ⟨rfl, rfl, fun _ => rfl⟩ (by decide) sample_cidrs_valid

/-- The same list, evaluated: the call returns 0 with one port and both
prefix lengths stored; with `192.0.2.1/33` in place of the first CIDR, or
`2001:db8::1/129` in place of the second, it returns -1. -/
theorem lua_init_iface_prefix_len_samples :
    (lua_init_iface sample_libc sample_iface [Char.ofNat 102] [sample_pci_addr] 1
      [sample_cidr4.str, sample_cidr6.str] 2).map
        (fun r => (r.1, r.2.num_ports, r.2.ip4_addr_plen, r.2.ip6_addr_plen))
      = some (0, 1, 32, 128) ∧
    (lua_init_iface sample_libc sample_iface [Char.ofNat 102] [sample_pci_addr] 1
      [(⟨sample_addr4, false, [Char.ofNat 51, Char.ofNat 51], false⟩ : cidr_spec).str,
        sample_cidr6.str] 2).map (fun r => r.1) = some (-1) ∧
    (lua_init_iface sample_libc sample_iface [Char.ofNat 102] [sample_pci_addr] 1
      [sample_cidr4.str,
        (⟨sample_addr6, false, [Char.ofNat 49, Char.ofNat 50, Char.ofNat 57], true⟩ :
          cidr_spec).str] 2).map (fun r => r.1) = some (-1) := by
  refine ⟨by decide, by decide, by decide⟩

/-! ## Queue allocation -/

theorem queue_inv_fresh (M : Nat) (q : Nat → Int)
    (h : ∀ l, l < M → q l = GATEKEEPER_QUEUE_UNALLOCATED) : queue_inv M q (-1) := by
  refine ⟨fun l hl => Or.inl (h l hl), fun l l' hl _ hne _ => absurd (h l hl) hne, ?_⟩
  have : (Finset.range M).filter (fun l => q l ≠ GATEKEEPER_QUEUE_UNALLOCATED) = ∅ := by
    apply Finset.filter_eq_empty_iff.mpr
    intro l hl
    simpa using h l (Finset.mem_range.mp hl)
  rw [this]
  rfl

/-- Allocating the next index to an lcore that has none keeps the invariant,
and the counter cannot wrap while an lcore is still unallocated. -/
theorem queue_inv_alloc (M : Nat) (q : Nat → Int) (c : Int) (l0 : Nat)
    (hM : M ≤ 32768) (hl0 : l0 < M) (hq : q l0 = GATEKEEPER_QUEUE_UNALLOCATED)
    (hinv : queue_inv M q c) :
    to_int16 (c + 1) = c + 1 ∧ to_uint16 (c + 1) < M ∧
    c + 1 ≠ GATEKEEPER_QUEUE_UNALLOCATED ∧
    queue_inv M (fun i => if i = l0 then c + 1 else q i) (c + 1) := by
  obtain ⟨hrange, hinj, hcard⟩ := hinv
  have hsub : (Finset.range M).filter (fun l => q l ≠ GATEKEEPER_QUEUE_UNALLOCATED)
      ⊂ Finset.range M := by
    refine Finset.ssubset_iff_subset_ne.mpr ⟨Finset.filter_subset _ _, ?_⟩
    intro heq
    have : l0 ∈ (Finset.range M).filter (fun l => q l ≠ GATEKEEPER_QUEUE_UNALLOCATED) := by
      rw [heq]; exact Finset.mem_range.mpr hl0
    exact (Finset.mem_filter.mp this).2 hq
  have hlt := Finset.card_lt_card hsub
  rw [Finset.card_range] at hlt
  have hc0 : 0 ≤ c + 1 := by omega
  have hcM : c + 1 < M := by omega
  have hne : c + 1 ≠ GATEKEEPER_QUEUE_UNALLOCATED := by
    simp only [GATEKEEPER_QUEUE_UNALLOCATED]; omega
  refine ⟨by simp only [to_int16]; omega, by simp only [to_uint16]; omega, hne, ?_, ?_, ?_⟩
  · intro l hl
    by_cases h : l = l0
    · simp only [h, if_true]; right; omega
    · simp only [h, if_false]
      rcases hrange l hl with hu | ⟨h1, h2⟩
      · exact Or.inl hu
      · right; omega
  · intro l l' hl hl' hne' heq
    by_cases h : l = l0 <;> by_cases h' : l' = l0
    · rw [h, h']
    · simp only [h, h', if_true, if_false] at heq
      rcases hrange l' hl' with hu | ⟨-, h2⟩
      · exact absurd (heq.trans hu) hne
      · omega
    · simp only [h, h', if_true, if_false] at heq hne'
      rcases hrange l hl with hu | ⟨-, h2⟩
      · exact absurd hu hne'
      · omega
    · simp only [h, h', if_false] at heq hne'
      exact hinj l l' hl hl' hne' heq
  · have hins : (Finset.range M).filter
        (fun l => (if l = l0 then c + 1 else q l) ≠ GATEKEEPER_QUEUE_UNALLOCATED)
        = insert l0 ((Finset.range M).filter (fun l => q l ≠ GATEKEEPER_QUEUE_UNALLOCATED)) := by
      ext l
      simp only [Finset.mem_filter, Finset.mem_range, Finset.mem_insert]
      by_cases h : l = l0
      · simp [h, hl0, hne]
      · simp [h]
    have hnot : l0 ∉ (Finset.range M).filter (fun l => q l ≠ GATEKEEPER_QUEUE_UNALLOCATED) := by
      intro hmem
      exact (Finset.mem_filter.mp hmem).2 hq
    rw [hins, Finset.card_insert_of_not_mem hnot]
    push_cast
    omega
/-- A call for a (direction, lcore) that already has an index returns that
index and changes nothing. -/
theorem get_queue_id_cached (env : dpdk_env) (iface : gatekeeper_if) (ty : queue_type)
    (lcore : Nat) (hl : lcore < env.RTE_MAX_LCORE) (hty : ty ≠ QUEUE_TYPE_MAX)
    (hq : iface.queues ty lcore ≠ GATEKEEPER_QUEUE_UNALLOCATED) :
    get_queue_id env iface ty lcore = some ⟨iface.queues ty lcore, iface, []⟩ := by
  simp only [get_queue_id, hl, not_true_eq_false, if_false, hty, hq, ne_eq, not_false_eq_true,
    if_true]

theorem init_iface_queues_inv (env : dpdk_env) (iface : gatekeeper_if) :
    iface_queue_inv env (init_iface_queues env iface) := by
  constructor
  · apply queue_inv_fresh
    intro l hl
    simp [init_iface_queues, hl]
  · apply queue_inv_fresh
    intro l hl
    simp [init_iface_queues, hl]

theorem queue_inv_injective (env : dpdk_env) (iface : gatekeeper_if) (ty : queue_type)
    (hty : ty ≠ QUEUE_TYPE_MAX) (hinv : iface_queue_inv env iface) (l l' : Nat)
    (hl : l < env.RTE_MAX_LCORE) (hl' : l' < env.RTE_MAX_LCORE)
    (hne : iface.queues ty l ≠ GATEKEEPER_QUEUE_UNALLOCATED)
    (heq : iface.queues ty l = iface.queues ty l') : l = l' := by
  cases ty with
  | QUEUE_TYPE_MAX => exact absurd rfl hty
  | QUEUE_TYPE_RX => exact hinv.1.2.1 l l' hl hl' hne heq
  | QUEUE_TYPE_TX => exact hinv.2.2.1 l l' hl hl' hne heq

/-- A loop over the ports that stops with a failure has asked for the setup
that failed. -/
theorem configure_ports_some_mem (env : dpdk_env) (queue_id : Nat) (ty : queue_type)
    (numa_node : Nat) (ports : List Nat) (ret : Int)
    (h : (configure_ports env queue_id ty numa_node ports).1 = some ret) :
    ∃ s ∈ (configure_ports env queue_id ty numa_node ports).2, s.ret env < 0 := by
  induction ports with
  | nil => simp [configure_ports] at h
  | cons p ps ih =>
    simp only [configure_ports] at h ⊢
    by_cases hc : configure_queue env p queue_id ty numa_node < 0
    · rw [if_pos hc]
      exact ⟨⟨p, queue_id, ty, numa_node⟩, List.mem_singleton.mpr rfl, hc⟩
    · rw [if_neg hc] at h ⊢
      obtain ⟨s, hs, hneg⟩ := ih h
      exact ⟨s, List.mem_cons_of_mem _ hs, hneg⟩

/-- A call for a (direction, lcore) that has no index yet, with the counter in
its range: the counter is advanced by one and its new value is recorded for
the lcore, whatever the ports answer; nothing else in the tables and counters
changes; and the call returns the new index when every queue setup it asks for
succeeds. -/
theorem get_queue_id_fresh (env : dpdk_env) (iface : gatekeeper_if) (ty : queue_type)
    (lcore : Nat) (hl : lcore < env.RTE_MAX_LCORE) (hty : ty ≠ QUEUE_TYPE_MAX)
    (hq : iface.queues ty lcore = GATEKEEPER_QUEUE_UNALLOCATED)
    (hc1 : -1 ≤ iface.queue_id ty) (hc2 : iface.queue_id ty < 32767) :
    ∃ r, get_queue_id env iface ty lcore = some r ∧
      r.iface.queue_id ty = iface.queue_id ty + 1 ∧
      r.iface.queues ty lcore = iface.queue_id ty + 1 ∧
      (∀ ty' l, (ty', l) ≠ (ty, lcore) → ty' ≠ QUEUE_TYPE_MAX →
        r.iface.queues ty' l = iface.queues ty' l) ∧
      (∀ ty', ty' ≠ ty → ty' ≠ QUEUE_TYPE_MAX → r.iface.queue_id ty' = iface.queue_id ty') ∧
      ((∀ s ∈ r.calls, 0 ≤ s.ret env) → r.ret = iface.queue_id ty + 1) := by
  have hnew : to_int16 (iface.queue_id ty + 1) = iface.queue_id ty + 1 := by
    simp only [to_int16]; omega
  have hne : iface.queue_id ty + 1 ≠ GATEKEEPER_QUEUE_UNALLOCATED := by
    simp only [GATEKEEPER_QUEUE_UNALLOCATED]; omega
  have hrx : ¬ (QUEUE_TYPE_TX = QUEUE_TYPE_RX) := by decide
  cases hr : (configure_ports env (to_uint16 (iface.queue_id ty + 1)) ty
      (env.rte_lcore_to_socket_id lcore)
      ((List.range iface.num_ports).map (fun port => iface.ports.getD port 0))).1 with
  | some ret =>
    obtain ⟨s0, hs0, hneg0⟩ := configure_ports_some_mem env _ ty _ _ ret hr
    cases ty with
    | QUEUE_TYPE_MAX => exact absurd rfl hty
    | QUEUE_TYPE_RX =>
      simp only [gatekeeper_if.queues, gatekeeper_if.queue_id, if_true] at hq hnew hne hr hs0 ⊢
      refine ⟨⟨ret, { iface with
          rx_queue_id := iface.rx_queue_id + 1
          rx_queues := fun i => if i = lcore then iface.rx_queue_id + 1 else iface.rx_queues i },
        (configure_ports env (to_uint16 (iface.rx_queue_id + 1)) QUEUE_TYPE_RX
          (env.rte_lcore_to_socket_id lcore)
          ((List.range iface.num_ports).map (fun port => iface.ports.getD port 0))).2⟩,
        ?_, rfl, by simp, ?_, ?_, ?_⟩
      · simp only [get_queue_id, hl, not_true_eq_false, if_false, gatekeeper_if.queues,
          gatekeeper_if.queue_id, if_true, hq, ne_eq, hnew, hne, hr, reduceCtorEq]
      · intro ty' l hne' hmax
        cases ty' with
        | QUEUE_TYPE_MAX => exact absurd rfl hmax
        | QUEUE_TYPE_TX => simp
        | QUEUE_TYPE_RX =>
          have hll : l ≠ lcore := fun h => hne' (by rw [h])
          simp [hll]
      · intro ty' h1 hmax
        cases ty' with
        | QUEUE_TYPE_MAX => exact absurd rfl hmax
        | QUEUE_TYPE_TX => simp
        | QUEUE_TYPE_RX => exact absurd rfl h1
      · intro hall
        have := hall s0 hs0
        omega
    | QUEUE_TYPE_TX =>
      simp only [gatekeeper_if.queues, gatekeeper_if.queue_id, hrx, if_false]
        at hq hnew hne hr hs0 ⊢
      refine ⟨⟨ret, { iface with
          tx_queue_id := iface.tx_queue_id + 1
          tx_queues := fun i => if i = lcore then iface.tx_queue_id + 1 else iface.tx_queues i },
        (configure_ports env (to_uint16 (iface.tx_queue_id + 1)) QUEUE_TYPE_TX
          (env.rte_lcore_to_socket_id lcore)
          ((List.range iface.num_ports).map (fun port => iface.ports.getD port 0))).2⟩,
        ?_, rfl, by simp, ?_, ?_, ?_⟩
      · simp only [get_queue_id, hl, not_true_eq_false, if_false, gatekeeper_if.queues,
          gatekeeper_if.queue_id, hq, ne_eq, hnew, hne, hr, reduceCtorEq]
      · intro ty' l hne' hmax
        cases ty' with
        | QUEUE_TYPE_MAX => exact absurd rfl hmax
        | QUEUE_TYPE_RX => simp
        | QUEUE_TYPE_TX =>
          have hll : l ≠ lcore := fun h => hne' (by rw [h])
          simp [hll]
      · intro ty' h1 hmax
        cases ty' with
        | QUEUE_TYPE_MAX => exact absurd rfl hmax
        | QUEUE_TYPE_RX => simp
        | QUEUE_TYPE_TX => exact absurd rfl h1
      · intro hall
        have := hall s0 hs0
        omega
  | none =>
    cases ty with
    | QUEUE_TYPE_MAX => exact absurd rfl hty
    | QUEUE_TYPE_RX =>
      simp only [gatekeeper_if.queues, gatekeeper_if.queue_id, if_true]
        at hq hnew hne hr ⊢
      by_cases hb : iface.num_ports > 1 ∨ iface.bonding_mode = BONDING_MODE_8023AD
      · by_cases hcq : configure_queue env iface.id (to_uint16 (iface.rx_queue_id + 1))
            QUEUE_TYPE_RX (env.rte_lcore_to_socket_id lcore) < 0
        · refine ⟨⟨configure_queue env iface.id (to_uint16 (iface.rx_queue_id + 1))
              QUEUE_TYPE_RX (env.rte_lcore_to_socket_id lcore), { iface with
              rx_queue_id := iface.rx_queue_id + 1
              rx_queues := fun i =>
                if i = lcore then iface.rx_queue_id + 1 else iface.rx_queues i },
            (configure_ports env (to_uint16 (iface.rx_queue_id + 1)) QUEUE_TYPE_RX
              (env.rte_lcore_to_socket_id lcore)
              ((List.range iface.num_ports).map (fun port => iface.ports.getD port 0))).2 ++
              [⟨iface.id, to_uint16 (iface.rx_queue_id + 1), QUEUE_TYPE_RX,
                env.rte_lcore_to_socket_id lcore⟩]⟩,
            ?_, rfl, by simp, ?_, ?_, ?_⟩
          · simp only [get_queue_id, hl, not_true_eq_false, if_false, gatekeeper_if.queues,
              gatekeeper_if.queue_id, if_true, hq, ne_eq, hnew, hne, hr, reduceCtorEq, hb, hcq]
          · intro ty' l hne' hmax
            cases ty' with
            | QUEUE_TYPE_MAX => exact absurd rfl hmax
            | QUEUE_TYPE_TX => simp
            | QUEUE_TYPE_RX =>
              have hll : l ≠ lcore := fun h => hne' (by rw [h])
              simp [hll]
          · intro ty' h1 hmax
            cases ty' with
            | QUEUE_TYPE_MAX => exact absurd rfl hmax
            | QUEUE_TYPE_TX => simp
            | QUEUE_TYPE_RX => exact absurd rfl h1
          · intro hall
            have := hall ⟨iface.id, to_uint16 (iface.rx_queue_id + 1), QUEUE_TYPE_RX,
              env.rte_lcore_to_socket_id lcore⟩ (by simp)
            simp only [queue_setup_call.ret] at this
            omega
        · refine ⟨⟨iface.rx_queue_id + 1, { iface with
              rx_queue_id := iface.rx_queue_id + 1
              rx_queues := fun i =>
                if i = lcore then iface.rx_queue_id + 1 else iface.rx_queues i },
            (configure_ports env (to_uint16 (iface.rx_queue_id + 1)) QUEUE_TYPE_RX
              (env.rte_lcore_to_socket_id lcore)
              ((List.range iface.num_ports).map (fun port => iface.ports.getD port 0))).2 ++
              [⟨iface.id, to_uint16 (iface.rx_queue_id + 1), QUEUE_TYPE_RX,
                env.rte_lcore_to_socket_id lcore⟩]⟩,
            ?_, rfl, by simp, ?_, ?_, fun _ => rfl⟩
          · simp only [get_queue_id, hl, not_true_eq_false, if_false, gatekeeper_if.queues,
              gatekeeper_if.queue_id, if_true, hq, ne_eq, hnew, hne, hr, reduceCtorEq, hb, hcq]
          · intro ty' l hne' hmax
            cases ty' with
            | QUEUE_TYPE_MAX => exact absurd rfl hmax
            | QUEUE_TYPE_TX => simp
            | QUEUE_TYPE_RX =>
              have hll : l ≠ lcore := fun h => hne' (by rw [h])
              simp [hll]
          · intro ty' h1 hmax
            cases ty' with
            | QUEUE_TYPE_MAX => exact absurd rfl hmax
            | QUEUE_TYPE_TX => simp
            | QUEUE_TYPE_RX => exact absurd rfl h1
      · refine ⟨⟨iface.rx_queue_id + 1, { iface with
            rx_queue_id := iface.rx_queue_id + 1
            rx_queues := fun i =>
              if i = lcore then iface.rx_queue_id + 1 else iface.rx_queues i },
          (configure_ports env (to_uint16 (iface.rx_queue_id + 1)) QUEUE_TYPE_RX
            (env.rte_lcore_to_socket_id lcore)
            ((List.range iface.num_ports).map (fun port => iface.ports.getD port 0))).2⟩,
          ?_, rfl, by simp, ?_, ?_, fun _ => rfl⟩
        · simp only [get_queue_id, hl, not_true_eq_false, if_false, gatekeeper_if.queues,
            gatekeeper_if.queue_id, if_true, hq, ne_eq, hnew, hne, hr, reduceCtorEq, hb]
        · intro ty' l hne' hmax
          cases ty' with
          | QUEUE_TYPE_MAX => exact absurd rfl hmax
          | QUEUE_TYPE_TX => simp
          | QUEUE_TYPE_RX =>
            have hll : l ≠ lcore := fun h => hne' (by rw [h])
            simp [hll]
        · intro ty' h1 hmax
          cases ty' with
          | QUEUE_TYPE_MAX => exact absurd rfl hmax
          | QUEUE_TYPE_TX => simp
          | QUEUE_TYPE_RX => exact absurd rfl h1
    | QUEUE_TYPE_TX =>
      simp only [gatekeeper_if.queues, gatekeeper_if.queue_id, hrx, if_false]
        at hq hnew hne hr ⊢
      by_cases hb : iface.num_ports > 1 ∨ iface.bonding_mode = BONDING_MODE_8023AD
      · by_cases hcq : configure_queue env iface.id (to_uint16 (iface.tx_queue_id + 1))
            QUEUE_TYPE_TX (env.rte_lcore_to_socket_id lcore) < 0
        · refine ⟨⟨configure_queue env iface.id (to_uint16 (iface.tx_queue_id + 1))
              QUEUE_TYPE_TX (env.rte_lcore_to_socket_id lcore), { iface with
              tx_queue_id := iface.tx_queue_id + 1
              tx_queues := fun i =>
                if i = lcore then iface.tx_queue_id + 1 else iface.tx_queues i },
            (configure_ports env (to_uint16 (iface.tx_queue_id + 1)) QUEUE_TYPE_TX
              (env.rte_lcore_to_socket_id lcore)
              ((List.range iface.num_ports).map (fun port => iface.ports.getD port 0))).2 ++
              [⟨iface.id, to_uint16 (iface.tx_queue_id + 1), QUEUE_TYPE_TX,
                env.rte_lcore_to_socket_id lcore⟩]⟩,
            ?_, rfl, by simp, ?_, ?_, ?_⟩
          · simp only [get_queue_id, hl, not_true_eq_false, if_false, gatekeeper_if.queues,
              gatekeeper_if.queue_id, if_true, hq, ne_eq, hnew, hne, hr, reduceCtorEq, hb, hcq]
          · intro ty' l hne' hmax
            cases ty' with
            | QUEUE_TYPE_MAX => exact absurd rfl hmax
            | QUEUE_TYPE_RX => simp
            | QUEUE_TYPE_TX =>
              have hll : l ≠ lcore := fun h => hne' (by rw [h])
              simp [hll]
          · intro ty' h1 hmax
            cases ty' with
            | QUEUE_TYPE_MAX => exact absurd rfl hmax
            | QUEUE_TYPE_RX => simp
            | QUEUE_TYPE_TX => exact absurd rfl h1
          · intro hall
            have := hall ⟨iface.id, to_uint16 (iface.tx_queue_id + 1), QUEUE_TYPE_TX,
              env.rte_lcore_to_socket_id lcore⟩ (by simp)
            simp only [queue_setup_call.ret] at this
            omega
        · refine ⟨⟨iface.tx_queue_id + 1, { iface with
              tx_queue_id := iface.tx_queue_id + 1
              tx_queues := fun i =>
                if i = lcore then iface.tx_queue_id + 1 else iface.tx_queues i },
            (configure_ports env (to_uint16 (iface.tx_queue_id + 1)) QUEUE_TYPE_TX
              (env.rte_lcore_to_socket_id lcore)
              ((List.range iface.num_ports).map (fun port => iface.ports.getD port 0))).2 ++
              [⟨iface.id, to_uint16 (iface.tx_queue_id + 1), QUEUE_TYPE_TX,
                env.rte_lcore_to_socket_id lcore⟩]⟩,
            ?_, rfl, by simp, ?_, ?_, fun _ => rfl⟩
          · simp only [get_queue_id, hl, not_true_eq_false, if_false, gatekeeper_if.queues,
              gatekeeper_if.queue_id, if_true, hq, ne_eq, hnew, hne, hr, reduceCtorEq, hb, hcq]
          · intro ty' l hne' hmax
            cases ty' with
            | QUEUE_TYPE_MAX => exact absurd rfl hmax
            | QUEUE_TYPE_RX => simp
            | QUEUE_TYPE_TX =>
              have hll : l ≠ lcore := fun h => hne' (by rw [h])
              simp [hll]
          · intro ty' h1 hmax
            cases ty' with
            | QUEUE_TYPE_MAX => exact absurd rfl hmax
            | QUEUE_TYPE_RX => simp
            | QUEUE_TYPE_TX => exact absurd rfl h1
      · refine ⟨⟨iface.tx_queue_id + 1, { iface with
            tx_queue_id := iface.tx_queue_id + 1
            tx_queues := fun i =>
              if i = lcore then iface.tx_queue_id + 1 else iface.tx_queues i },
          (configure_ports env (to_uint16 (iface.tx_queue_id + 1)) QUEUE_TYPE_TX
            (env.rte_lcore_to_socket_id lcore)
            ((List.range iface.num_ports).map (fun port => iface.ports.getD port 0))).2⟩,
          ?_, rfl, by simp, ?_, ?_, fun _ => rfl⟩
        · simp only [get_queue_id, hl, not_true_eq_false, if_false, gatekeeper_if.queues,
            gatekeeper_if.queue_id, if_true, hq, ne_eq, hnew, hne, hr, reduceCtorEq, hb]
        · intro ty' l hne' hmax
          cases ty' with
          | QUEUE_TYPE_MAX => exact absurd rfl hmax
          | QUEUE_TYPE_RX => simp
          | QUEUE_TYPE_TX =>
            have hll : l ≠ lcore := fun h => hne' (by rw [h])
            simp [hll]
        · intro ty' h1 hmax
          cases ty' with
          | QUEUE_TYPE_MAX => exact absurd rfl hmax
          | QUEUE_TYPE_RX => simp
          | QUEUE_TYPE_TX => exact absurd rfl h1

/-- The invariant of an interface, direction by direction. -/
theorem iface_queue_inv_iff (env : dpdk_env) (iface : gatekeeper_if) :
    iface_queue_inv env iface ↔
      ∀ ty, ty ≠ QUEUE_TYPE_MAX →
        queue_inv env.RTE_MAX_LCORE (iface.queues ty) (iface.queue_id ty) := by
  constructor
  · intro h ty hty
    cases ty with
    | QUEUE_TYPE_MAX => exact absurd rfl hty
    | QUEUE_TYPE_RX => exact h.1
    | QUEUE_TYPE_TX => exact h.2
  · intro h
    exact ⟨h QUEUE_TYPE_RX (by decide), h QUEUE_TYPE_TX (by decide)⟩

/-- One call of `get_queue_id` whose queue setups all succeed, on an interface
that satisfies the invariant: the call returns the index recorded for its
(direction, lcore), keeps the invariant, and changes no other entry. -/
theorem get_queue_id_step (env : dpdk_env) (iface : gatekeeper_if) (ty : queue_type)
    (lcore : Nat) (hM : env.RTE_MAX_LCORE ≤ 32768)
    (hl : lcore < env.RTE_MAX_LCORE) (hty : ty ≠ QUEUE_TYPE_MAX)
    (hinv : iface_queue_inv env iface)
    (hs : ∀ r, get_queue_id env iface ty lcore = some r → ∀ s ∈ r.calls, 0 ≤ s.ret env) :
    ∃ r, get_queue_id env iface ty lcore = some r ∧ iface_queue_inv env r.iface ∧
      r.ret = r.iface.queues ty lcore ∧ r.ret ≠ GATEKEEPER_QUEUE_UNALLOCATED ∧
      (∀ ty' l, iface.queues ty' l ≠ GATEKEEPER_QUEUE_UNALLOCATED →
        r.iface.queues ty' l = iface.queues ty' l) ∧
      (∀ ty' l, (ty', l) ≠ (ty, lcore) → ty' ≠ QUEUE_TYPE_MAX →
        r.iface.queues ty' l = iface.queues ty' l) := by
  by_cases hq : iface.queues ty lcore ≠ GATEKEEPER_QUEUE_UNALLOCATED
  · exact ⟨_, get_queue_id_cached env iface ty lcore hl hty hq, hinv, rfl, hq,
      fun _ _ _ => rfl, fun _ _ _ _ => rfl⟩
  · have hq' : iface.queues ty lcore = GATEKEEPER_QUEUE_UNALLOCATED := not_not.mp hq
    have hinvty := (iface_queue_inv_iff env iface).mp hinv
    obtain ⟨h16, h0, hne, hinv'⟩ :=
      queue_inv_alloc _ _ _ lcore hM hl hq' (hinvty ty hty)
    have hc1 : -1 ≤ iface.queue_id ty := by
      simp only [to_int16, to_uint16] at h16 h0
      omega
    have hc2 : iface.queue_id ty < 32767 := by
      simp only [to_int16] at h16
      omega
    obtain ⟨r, hr, hcnt, hrec, hothers, hcounters, hret⟩ :=
      get_queue_id_fresh env iface ty lcore hl hty hq' hc1 hc2
    have hretv := hret (hs r hr)
    have hqueues : r.iface.queues ty =
        fun i => if i = lcore then iface.queue_id ty + 1 else iface.queues ty i := by
      funext i
      by_cases hi : i = lcore
      · rw [hi, hrec, if_pos rfl]
      · rw [if_neg hi]
        exact hothers ty i (fun h => hi (Prod.mk.inj h).2) hty
    refine ⟨r, hr, ?_, by rw [hretv, hrec], by rw [hretv]; exact hne, ?_, hothers⟩
    · rw [iface_queue_inv_iff]
      intro ty' hty'
      by_cases htt : ty' = ty
      · subst htt
        rw [hqueues, hcnt]
        exact hinv'
      · have hsame : r.iface.queues ty' = iface.queues ty' := by
          funext i
          exact hothers ty' i (fun h => htt (Prod.mk.inj h).1) hty'
        rw [hsame, hcounters ty' htt hty']
        exact hinvty ty' hty'
    · intro ty' l hal
      by_cases hmax : ty' = QUEUE_TYPE_MAX
      · subst hmax
        have e1 : ∀ st : gatekeeper_if, st.queues QUEUE_TYPE_MAX = st.queues QUEUE_TYPE_TX :=
          fun st => rfl
        rw [e1] at hal ⊢
        exact hothers QUEUE_TYPE_TX l (fun h => by
          have h1 := (Prod.mk.inj h).1
          have h2 := (Prod.mk.inj h).2
          subst h1
          subst h2
          exact hal hq') (by decide)
      · exact hothers ty' l (fun h => by
          have h1 := (Prod.mk.inj h).1
          have h2 := (Prod.mk.inj h).2
          subst h1
          subst h2
          exact hal hq') hmax

/-- A sequence of calls whose queue setups all succeed keeps the invariant,
never changes an index once assigned, leaves alone the entries it is not
called for, and every return value is the index recorded at the end for its
(direction, lcore). -/
theorem get_queue_id_seq_ok (env : dpdk_env) (hM : env.RTE_MAX_LCORE ≤ 32768)
    (calls : List (queue_type × Nat)) :
    ∀ iface : gatekeeper_if, iface_queue_inv env iface →
    (∀ c ∈ calls, c.2 < env.RTE_MAX_LCORE ∧ c.1 ≠ QUEUE_TYPE_MAX) →
    (∀ s ∈ get_queue_id_seq_setups env iface calls, 0 ≤ s.ret env) →
    ∃ rets iface', get_queue_id_seq env iface calls = some (rets, iface') ∧
      rets.length = calls.length ∧ iface_queue_inv env iface' ∧
      (∀ ty l, iface.queues ty l ≠ GATEKEEPER_QUEUE_UNALLOCATED →
        iface'.queues ty l = iface.queues ty l) ∧
      (∀ ty l, ty ≠ QUEUE_TYPE_MAX → (ty, l) ∉ calls →
        iface'.queues ty l = iface.queues ty l) ∧
      (∀ p ∈ calls.zip rets,
        p.2 = iface'.queues p.1.1 p.1.2 ∧ p.2 ≠ GATEKEEPER_QUEUE_UNALLOCATED) := by
  induction calls with
  | nil =>
    intro iface hinv _ _
    exact ⟨[], iface, rfl, rfl, hinv, fun _ _ _ => rfl, fun _ _ _ _ => rfl, by simp⟩
  | cons c cs ih =>
    intro iface hinv hcalls hsetups
    obtain ⟨hl, hty⟩ := hcalls c (List.mem_cons_self _ _)
    have hs1 : ∀ r, get_queue_id env iface c.1 c.2 = some r → ∀ s ∈ r.calls, 0 ≤ s.ret env := by
      intro r hr s hs
      apply hsetups s
      simp only [get_queue_id_seq_setups, hr]
      exact List.mem_append_left _ hs
    obtain ⟨r, hr, hinv1, hret, hne, hstab1, hothers1⟩ :=
      get_queue_id_step env iface c.1 c.2 hM hl hty hinv hs1
    have hs2 : ∀ s ∈ get_queue_id_seq_setups env r.iface cs, 0 ≤ s.ret env := by
      intro s hs
      apply hsetups s
      simp only [get_queue_id_seq_setups, hr]
      exact List.mem_append_right _ hs
    obtain ⟨rets, iface', hseq, hlen, hinv2, hstab2, hothers2, hall⟩ :=
      ih r.iface hinv1 (fun d hd => hcalls d (List.mem_cons_of_mem _ hd)) hs2
    refine ⟨r.ret :: rets, iface', ?_, by simp [hlen], hinv2, ?_, ?_, ?_⟩
    · simp only [get_queue_id_seq, hr, hseq]
    · intro ty l h
      have h1 := hstab1 ty l h
      rw [hstab2 ty l (by rw [h1]; exact h), h1]
    · intro ty l hmax hnot
      rw [hothers2 ty l hmax (fun h => hnot (List.mem_cons_of_mem _ h))]
      exact hothers1 ty l (fun h => hnot (by rw [h]; exact List.mem_cons_self _ _)) hmax
    · intro p hp
      simp only [List.zip_cons_cons, List.mem_cons] at hp
      rcases hp with rfl | hp
      · refine ⟨?_, hne⟩
        simp only
        rw [hstab2 c.1 c.2 (by rw [← hret]; exact hne), hret]
      · exact hall p hp

theorem mem_zip_of_mem {α β : Type} (l : List α) :
    ∀ (r : List β), r.length = l.length → ∀ a ∈ l, ∃ b, (a, b) ∈ l.zip r := by
  induction l with
  | nil => intro r _ a ha; exact absurd ha (List.not_mem_nil _)
  | cons x xs ih =>
    intro r hlen a ha
    cases r with
    | nil => simp at hlen
    | cons y ys =>
      rcases List.mem_cons.mp ha with rfl | ha
      · exact ⟨y, by simp⟩
      · obtain ⟨b, hb⟩ := ih ys (by simpa using hlen) a ha
        exact ⟨b, by simp [hb]⟩

/-- C9. Queue allocation: on a freshly initialised interface, for every
sequence of `get_queue_id` calls (lcores below `RTE_MAX_LCORE`, which is at
most 32768) in which each queue setup that the calls ask for succeeds, every
call returns; all calls for the same (direction, lcore) return the same index;
calls for different lcores in the same direction return different indices; no
returned index is `GATEKEEPER_QUEUE_UNALLOCATED`; every returned index is the
one recorded for its (direction, lcore) at the end and lies between 0 and the
direction's counter; the counter of a direction has advanced once for each
lcore that was called for it, and an lcore that was not called has no index.
Call by call: a call for a (direction, lcore) that already has an index
returns it without changing the interface or touching a port, and a call for
one that has none advances the counter by one, records the new value for the
lcore and returns it when its queue setups succeed. -/
theorem get_queue_id_allocation (env : dpdk_env) (iface : gatekeeper_if)
    (calls : List (queue_type × Nat)) (hM : env.RTE_MAX_LCORE ≤ 32768)
    (hcalls : ∀ c ∈ calls, c.2 < env.RTE_MAX_LCORE ∧ c.1 ≠ QUEUE_TYPE_MAX)
    (hs : ∀ s ∈ get_queue_id_seq_setups env (init_iface_queues env iface) calls,
      0 ≤ s.ret env) :
    ∃ rets iface',
      get_queue_id_seq env (init_iface_queues env iface) calls = some (rets, iface') ∧
      rets.length = calls.length ∧
      (∀ p ∈ calls.zip rets, ∀ p' ∈ calls.zip rets,
        (p.1 = p'.1 → p.2 = p'.2) ∧
        (p.1.1 = p'.1.1 → p.1.2 ≠ p'.1.2 → p.2 ≠ p'.2) ∧
        p.2 ≠ GATEKEEPER_QUEUE_UNALLOCATED) ∧
      (∀ p ∈ calls.zip rets,
        p.2 = iface'.queues p.1.1 p.1.2 ∧ 0 ≤ p.2 ∧ p.2 ≤ iface'.queue_id p.1.1) ∧
      (∀ ty, ty ≠ QUEUE_TYPE_MAX →
        iface'.queue_id ty + 1 = ((lcores_of calls ty).length : Int)) ∧
      (∀ ty l, ty ≠ QUEUE_TYPE_MAX → l < env.RTE_MAX_LCORE → (ty, l) ∉ calls →
        iface'.queues ty l = GATEKEEPER_QUEUE_UNALLOCATED) ∧
      (∀ (st : gatekeeper_if) (ty : queue_type) (lcore : Nat),
        lcore < env.RTE_MAX_LCORE → ty ≠ QUEUE_TYPE_MAX →
        st.queues ty lcore ≠ GATEKEEPER_QUEUE_UNALLOCATED →
        get_queue_id env st ty lcore = some ⟨st.queues ty lcore, st, []⟩) ∧
      (∀ (st : gatekeeper_if) (ty : queue_type) (lcore : Nat),
        lcore < env.RTE_MAX_LCORE → ty ≠ QUEUE_TYPE_MAX →
        st.queues ty lcore = GATEKEEPER_QUEUE_UNALLOCATED →
        -1 ≤ st.queue_id ty → st.queue_id ty < 32767 →
        ∃ r, get_queue_id env st ty lcore = some r ∧
          r.iface.queue_id ty = st.queue_id ty + 1 ∧
          r.iface.queues ty lcore = st.queue_id ty + 1 ∧
          ((∀ s ∈ r.calls, 0 ≤ s.ret env) → r.ret = st.queue_id ty + 1)) := by
  obtain ⟨rets, iface', hseq, hlen, hinv, -, hothers, hall⟩ :=
    get_queue_id_seq_ok env hM calls _ (init_iface_queues_inv env iface) hcalls hs
  have hinvty := (iface_queue_inv_iff env iface').mp hinv
  have hfresh : ∀ ty l, ty ≠ QUEUE_TYPE_MAX → l < env.RTE_MAX_LCORE →
      (init_iface_queues env iface).queues ty l = GATEKEEPER_QUEUE_UNALLOCATED := by
    intro ty l hty hl
    cases ty with
    | QUEUE_TYPE_MAX => exact absurd rfl hty
    | QUEUE_TYPE_RX => simp [gatekeeper_if.queues, init_iface_queues, hl]
    | QUEUE_TYPE_TX => simp [gatekeeper_if.queues, init_iface_queues, hl]
  have hnone : ∀ ty l, ty ≠ QUEUE_TYPE_MAX → l < env.RTE_MAX_LCORE → (ty, l) ∉ calls →
      iface'.queues ty l = GATEKEEPER_QUEUE_UNALLOCATED := by
    intro ty l hty hl hnot
    rw [hothers ty l hty hnot]
    exact hfresh ty l hty hl
  refine ⟨rets, iface', hseq, hlen, ?_, ?_, ?_, hnone,
    fun st ty lcore hl hty hq => get_queue_id_cached env st ty lcore hl hty hq, ?_⟩
  · intro p hp p' hp'
    obtain ⟨h1, h2⟩ := hall p hp
    obtain ⟨h1', h2'⟩ := hall p' hp'
    obtain ⟨hl, hty⟩ := hcalls p.1 (List.of_mem_zip hp).1
    obtain ⟨hl', -⟩ := hcalls p'.1 (List.of_mem_zip hp').1
    refine ⟨?_, ?_, h2⟩
    · intro h; rw [h1, h1', h]
    · intro hsame hdiff heq
      apply hdiff
      apply queue_inv_injective env iface' p.1.1 hty hinv p.1.2 p'.1.2 hl hl'
      · rw [← h1]; exact h2
      · rw [← h1, heq, h1', hsame]
  · intro p hp
    obtain ⟨h1, h2⟩ := hall p hp
    obtain ⟨hl, hty⟩ := hcalls p.1 (List.of_mem_zip hp).1
    refine ⟨h1, ?_⟩
    rcases (hinvty p.1.1 hty).1 p.1.2 hl with hu | hr
    · rw [h1] at h2; exact absurd hu h2
    · rw [h1]; exact hr
  · intro ty hty
    have hcard := (hinvty ty hty).2.2
    have hset : (Finset.range env.RTE_MAX_LCORE).filter
        (fun l => iface'.queues ty l ≠ GATEKEEPER_QUEUE_UNALLOCATED)
        = (lcores_of calls ty).toFinset := by
      ext l
      simp only [Finset.mem_filter, Finset.mem_range, List.mem_toFinset, lcores_of,
        List.mem_dedup, List.mem_map, List.mem_filter, decide_eq_true_eq]
      constructor
      · rintro ⟨hl, hal⟩
        by_contra hno
        apply hal
        apply hnone ty l hty hl
        intro hmem
        exact hno ⟨(ty, l), ⟨hmem, rfl⟩, rfl⟩
      · rintro ⟨c, ⟨hc, hcty⟩, hcl⟩
        obtain ⟨hl, -⟩ := hcalls c hc
        obtain ⟨b, hb⟩ := mem_zip_of_mem calls rets hlen c hc
        obtain ⟨h1, h2⟩ := hall (c, b) hb
        simp only at h1 h2
        rw [hcty, hcl] at h1
        rw [hcl] at hl
        exact ⟨hl, by rw [← h1]; exact h2⟩
    have hnodup : (lcores_of calls ty).Nodup := by
      unfold lcores_of
      exact List.nodup_dedup _
    rw [hset, List.toFinset_card_of_nodup hnodup] at hcard
    omega
  · intro st ty lcore hl hty hq hc1 hc2
    obtain ⟨r, hr, hcnt, hrec, -, -, hret⟩ :=
      get_queue_id_fresh env st ty lcore hl hty hq hc1 hc2
    exact ⟨r, hr, hcnt, hrec, hret⟩

/-- On the sample interface with two RX queues and one TX queue, configured on
its port, every queue setup of the calls RX for lcores 0, 1, 0 and TX for lcore
0 succeeds. -/
theorem sample_setups_succeed :
    ∀ s ∈ get_queue_id_seq_setups (dpdk_configured 2 1)
      (init_iface_queues (dpdk_configured 2 1) sample_iface_two_rx)
      [(QUEUE_TYPE_RX, 0), (QUEUE_TYPE_RX, 1), (QUEUE_TYPE_RX, 0), (QUEUE_TYPE_TX, 0)],
      0 ≤ s.ret (dpdk_configured 2 1) := by
  decide

/-- C9 on a DPDK with two RX queues and one TX queue per port: RX for lcores
0, 1, 0 and TX for lcore 0. -/
theorem get_queue_id_allocation_witness :
    ∃ rets iface',
      get_queue_id_seq (dpdk_configured 2 1)
        (init_iface_queues (dpdk_configured 2 1) sample_iface_two_rx)
        [(QUEUE_TYPE_RX, 0), (QUEUE_TYPE_RX, 1), (QUEUE_TYPE_RX, 0), (QUEUE_TYPE_TX, 0)]
          = some (rets, iface') ∧
      rets.length
        = [(QUEUE_TYPE_RX, 0), (QUEUE_TYPE_RX, 1), (QUEUE_TYPE_RX, 0), (QUEUE_TYPE_TX, 0)].length ∧
      (∀ p ∈ [(QUEUE_TYPE_RX, 0), (QUEUE_TYPE_RX, 1), (QUEUE_TYPE_RX, 0),
              (QUEUE_TYPE_TX, 0)].zip rets,
       ∀ p' ∈ [(QUEUE_TYPE_RX, 0), (QUEUE_TYPE_RX, 1), (QUEUE_TYPE_RX, 0),
              (QUEUE_TYPE_TX, 0)].zip rets,
        (p.1 = p'.1 → p.2 = p'.2) ∧
        (p.1.1 = p'.1.1 → p.1.2 ≠ p'.1.2 → p.2 ≠ p'.2) ∧
        p.2 ≠ GATEKEEPER_QUEUE_UNALLOCATED) ∧
      (∀ p ∈ [(QUEUE_TYPE_RX, 0), (QUEUE_TYPE_RX, 1), (QUEUE_TYPE_RX, 0),
              (QUEUE_TYPE_TX, 0)].zip rets,
        p.2 = iface'.queues p.1.1 p.1.2 ∧ 0 ≤ p.2 ∧ p.2 ≤ iface'.queue_id p.1.1) ∧
      (∀ ty, ty ≠ QUEUE_TYPE_MAX →
        iface'.queue_id ty + 1 = ((lcores_of [(QUEUE_TYPE_RX, 0), (QUEUE_TYPE_RX, 1),
          (QUEUE_TYPE_RX, 0), (QUEUE_TYPE_TX, 0)] ty).length : Int)) ∧
      (∀ ty l, ty ≠ QUEUE_TYPE_MAX → l < (dpdk_configured 2 1).RTE_MAX_LCORE →
        (ty, l) ∉ [(QUEUE_TYPE_RX, 0), (QUEUE_TYPE_RX, 1), (QUEUE_TYPE_RX, 0),
          (QUEUE_TYPE_TX, 0)] →
        iface'.queues ty l = GATEKEEPER_QUEUE_UNALLOCATED) ∧
      (∀ (st : gatekeeper_if) (ty : queue_type) (lcore : Nat),
        lcore < (dpdk_configured 2 1).RTE_MAX_LCORE → ty ≠ QUEUE_TYPE_MAX →
        st.queues ty lcore ≠ GATEKEEPER_QUEUE_UNALLOCATED →
        get_queue_id (dpdk_configured 2 1) st ty lcore
          = some ⟨st.queues ty lcore, st, []⟩) ∧
      (∀ (st : gatekeeper_if) (ty : queue_type) (lcore : Nat),
        lcore < (dpdk_configured 2 1).RTE_MAX_LCORE → ty ≠ QUEUE_TYPE_MAX →
        st.queues ty lcore = GATEKEEPER_QUEUE_UNALLOCATED →
        -1 ≤ st.queue_id ty → st.queue_id ty < 32767 →
        ∃ r, get_queue_id (dpdk_configured 2 1) st ty lcore = some r ∧
          r.iface.queue_id ty = st.queue_id ty + 1 ∧
          r.iface.queues ty lcore = st.queue_id ty + 1 ∧
          ((∀ s ∈ r.calls, 0 ≤ s.ret (dpdk_configured 2 1)) →
            r.ret = st.queue_id ty + 1)) :=
  get_queue_id_allocation (dpdk_configured 2 1) sample_iface_two_rx
    [(QUEUE_TYPE_RX, 0), (QUEUE_TYPE_RX, 1), (QUEUE_TYPE_RX, 0), (QUEUE_TYPE_TX, 0)]
    (by decide) (by decide) sample_setups_succeed

/-- The same sequence with lcores 5 and 3, evaluated: the calls return the
indices 0, 1, 0 for RX and 0 for TX, the counters end at 1 and 0, the tables
hold the indices at the lcores called and `GATEKEEPER_QUEUE_UNALLOCATED`
elsewhere, and the port was asked for the queues RX 0, RX 1 and TX 0 once
each. -/
theorem get_queue_id_seq_sample :
    (get_queue_id_seq (dpdk_configured 2 1)
      (init_iface_queues (dpdk_configured 2 1) sample_iface_two_rx)
      [(QUEUE_TYPE_RX, 5), (QUEUE_TYPE_RX, 3), (QUEUE_TYPE_RX, 5), (QUEUE_TYPE_TX, 5)]).map
      (fun r => (r.1, r.2.rx_queue_id, r.2.tx_queue_id,
        (List.range 7).map r.2.rx_queues, (List.range 7).map r.2.tx_queues))
      = some ([0, 1, 0, 0], 1, 0,
          [-32768, -32768, -32768, 1, -32768, 0, -32768],
          [-32768, -32768, -32768, -32768, -32768, 0, -32768]) ∧
    get_queue_id_seq_setups (dpdk_configured 2 1)
      (init_iface_queues (dpdk_configured 2 1) sample_iface_two_rx)
      [(QUEUE_TYPE_RX, 5), (QUEUE_TYPE_RX, 3), (QUEUE_TYPE_RX, 5), (QUEUE_TYPE_TX, 5)]
      = [⟨0, 0, QUEUE_TYPE_RX, 0⟩, ⟨0, 1, QUEUE_TYPE_RX, 0⟩, ⟨0, 0, QUEUE_TYPE_TX, 0⟩] := by
  refine ⟨by decide, by decide⟩

/-! ## Queue indices and the requested queue count -/

theorem configure_ports_some_neg (env : dpdk_env) (queue_id : Nat) (ty : queue_type)
    (numa_node : Nat) (ports : List Nat) (ret : Int)
    (h : (configure_ports env queue_id ty numa_node ports).1 = some ret) : ret < 0 := by
  induction ports with
  | nil => simp [configure_ports] at h
  | cons p ps ih =>
    simp only [configure_ports] at h
    by_cases hc : configure_queue env p queue_id ty numa_node < 0
    · rw [if_pos hc] at h
      simp only [Option.some.injEq] at h
      rw [← h]; exact hc
    · rw [if_neg hc] at h
      exact ih h

theorem configure_ports_none_all (env : dpdk_env) (queue_id : Nat) (ty : queue_type)
    (numa_node : Nat) (ports : List Nat)
    (h : (configure_ports env queue_id ty numa_node ports).1 = none) :
    ∀ p ∈ ports, ¬ configure_queue env p queue_id ty numa_node < 0 := by
  induction ports with
  | nil => simp
  | cons p ps ih =>
    simp only [configure_ports] at h
    by_cases hc : configure_queue env p queue_id ty numa_node < 0
    · rw [if_pos hc] at h
      simp at h
    · rw [if_neg hc] at h
      intro p' hp'
      rcases List.mem_cons.mp hp' with rfl | hp'
      · exact hc
      · exact ih h p' hp'

/-- After the first `k` rounds of the loop, every entry below `k` is set and
its group's mask is all ones. -/
theorem setup_rss_loop (queues : List Nat) (n : Nat) (conf0 : reta_conf_t) (k : Nat) :
    ∀ i, i < k →
      (((List.range k).foldl (setup_rss_step queues n) conf0) (i / 64)).reta (i % 64)
        = queues.getD (i % n) 0 % 65536 ∧
      (((List.range k).foldl (setup_rss_step queues n) conf0) (i / 64)).mask
        = 18446744073709551615 := by
  induction k with
  | zero => intro i hi; omega
  | succ k ih =>
    intro i hi
    rw [List.range_succ, List.foldl_append]
    simp only [List.foldl_cons, List.foldl_nil, setup_rss_step, RTE_RETA_GROUP_SIZE]
    by_cases hg : i / 64 = k / 64
    · rw [if_pos hg]
      by_cases hs : i % 64 = k % 64
      · have hik : i = k := by omega
        simp only [hs, if_true, hik, and_self]
      · have hik : i < k := by omega
        simp only [hs, if_false]
        exact ⟨(ih i hik).1, trivial⟩
    · have hik : i < k := by
        rcases Nat.lt_or_ge i k with h | h
        · exact h
        · exfalso; apply hg; have : i = k := by omega
          rw [this]
      rw [if_neg hg]
      exact ih i hik

/-- C11. RSS redirection table: for a device RETA size r in [1,512] and a list
of n >= 1 queues, `gatekeeper_setup_rss` hands the device a table of size r in
which entry i, stored at `reta_conf[i / 64].reta[i mod 64]`, is
`queues[i mod n]` for every i < r, with the mask of every touched group all
ones; for r = 0 or r > 512 it returns -1 without programming the table. -/
theorem gatekeeper_setup_rss_table (env : rss_env) (queues : List Nat) :
    (1 ≤ env.reta_size → env.reta_size ≤ 512 → 1 ≤ queues.length →
      (∀ q ∈ queues, q < 65536) →
      ∃ r conf, gatekeeper_setup_rss env queues queues.length = some r ∧
        r.programmed = some (conf, env.reta_size) ∧
        ∀ i, i < env.reta_size →
          (conf (i / 64)).reta (i % 64) = queues.getD (i % queues.length) 0 ∧
          (conf (i / 64)).mask = 2 ^ 64 - 1) ∧
    (env.reta_size = 0 ∨ 512 < env.reta_size →
      gatekeeper_setup_rss env queues queues.length = some ⟨-1, none⟩) := by
  constructor
  · intro h1 h512 hn hq
    have hloop := setup_rss_loop queues queues.length (fun _ => ⟨0, fun _ => 0⟩) env.reta_size
    have hval : ∀ i, queues.getD (i % queues.length) 0 % 65536
        = queues.getD (i % queues.length) 0 := by
      intro i
      apply Nat.mod_eq_of_lt
      have hlt : i % queues.length < queues.length := Nat.mod_lt _ (by omega)
      rw [List.getD_eq_getElem _ _ hlt]
      exact hq _ (List.getElem_mem _)
    simp only [gatekeeper_setup_rss, ETH_RSS_RETA_SIZE_512]
    rw [if_neg (by omega), if_neg (by omega), if_neg (by omega)]
    have key : ∀ i, i < env.reta_size →
        (((List.range env.reta_size).foldl (setup_rss_step queues queues.length)
          (fun _ => ⟨0, fun _ => 0⟩)) (i / 64)).reta (i % 64)
          = queues.getD (i % queues.length) 0 ∧
        (((List.range env.reta_size).foldl (setup_rss_step queues queues.length)
          (fun _ => ⟨0, fun _ => 0⟩)) (i / 64)).mask = 2 ^ 64 - 1 := by
      intro i hi
      obtain ⟨a, b⟩ := hloop i hi
      exact ⟨by rw [a, hval], by rw [b]; rfl⟩
    split_ifs <;> exact ⟨_, _, rfl, rfl, key⟩
  · intro h
    simp only [gatekeeper_setup_rss, ETH_RSS_RETA_SIZE_512]
    rcases h with h | h
    · rw [if_pos h]
    · rw [if_neg (by omega), if_pos (by omega)]

/-- C11 for a RETA of 128 entries and the queues 3, 5, 7. -/
theorem gatekeeper_setup_rss_table_witness :
    ∃ r conf, gatekeeper_setup_rss sample_rss_env [3, 5, 7] [3, 5, 7].length = some r ∧
      r.programmed = some (conf, sample_rss_env.reta_size) ∧
      ∀ i, i < sample_rss_env.reta_size →
        (conf (i / 64)).reta (i % 64) = [3, 5, 7].getD (i % [3, 5, 7].length) 0 ∧
        (conf (i / 64)).mask = 2 ^ 64 - 1 :=
  (gatekeeper_setup_rss_table sample_rss_env [3, 5, 7]).1 (by decide) (by decide)
    (by decide) (by decide)

/-! ## Writes as byte lists -/

theorem writeList_append_at (m : Mem) (a b : Nat) (l1 l2 : List Nat)
    (h : b = a + l1.length) :
    writeList (writeList m a l1) b l2 = writeList m a (l1 ++ l2) := by
  subst h
  funext i
  simp only [writeList, List.length_append]
  by_cases h2 : a + l1.length ≤ i ∧ i < a + l1.length + l2.length
  · rw [if_pos h2, if_pos (by omega)]
    rw [List.getD_append_right _ _ _ _ (by omega)]
    congr 1
    omega
  · rw [if_neg h2]
    by_cases h1 : a ≤ i ∧ i < a + l1.length
    · rw [if_pos h1, if_pos (by omega), List.getD_append _ _ _ _ (by omega)]
    · rw [if_neg h1, if_neg (by omega)]

theorem writeList_comm (m : Mem) (a b : Nat) (l1 l2 : List Nat)
    (h : a + l1.length ≤ b ∨ b + l2.length ≤ a) :
    writeList (writeList m a l1) b l2 = writeList (writeList m b l2) a l1 := by
  funext i
  simp only [writeList]
  by_cases h1 : a ≤ i ∧ i < a + l1.length <;> by_cases h2 : b ≤ i ∧ i < b + l2.length
  · omega
  · rw [if_neg h2, if_pos h1, if_pos h1]
  · rw [if_pos h2, if_neg h1, if_pos h2]
  · rw [if_neg h2, if_neg h1, if_neg h1, if_neg h2]

theorem rte_memcpy_eq_writeList (m : Mem) (dst : Nat) (src : List Nat) (n : Nat)
    (h : src.length = n) : rte_memcpy m dst src n = writeList m dst src := by
  subst h; rfl

theorem store8_eq_writeList (m : Mem) (a v : Nat) :
    store8 m a v = writeList m a [v % 256] := by
  funext i
  simp only [store8, writeList, List.length_cons, List.length_nil]
  by_cases h : i = a
  · subst h; simp
  · rw [if_neg h, if_neg (by omega)]

theorem store16_eq_writeList (m : Mem) (a v : Nat) :
    store16 m a v = writeList m a [v % 256, v / 256 % 256] := by
  rw [store16, store8_eq_writeList, store8_eq_writeList,
    writeList_append_at m a (a + 1) [v % 256] [v / 256 % 256] rfl]
  rfl

theorem store16_be_eq_writeList (m : Mem) (a x : Nat) (hx : x < 65536) :
    store16 m a (rte_cpu_to_be_16 x) = writeList m a (be16_bytes x) := by
  funext i
  rw [store16_be_apply _ _ _ _ hx]
  simp only [writeList, be16_bytes, List.length_cons, List.length_nil]
  by_cases h1 : i = a + 1
  · subst h1; simp
  · by_cases h0 : i = a
    · subst h0
      have : x / 256 % 256 = x / 256 := by omega
      simp [this]
    · rw [if_neg h1, if_neg h0, if_neg (by omega)]

theorem store32_eq_writeList (m : Mem) (a v : Nat) :
    store32 m a v = writeList m a (host32_bytes v) := by
  rw [store32, store16_eq_writeList, store16_eq_writeList,
    writeList_append_at m a (a + 2) [v % 256, v / 256 % 256] _ rfl]
  simp only [host32_bytes, List.cons_append, List.nil_append, Nat.div_div_eq_div_mul]

theorem store32_be_eq_writeList (m : Mem) (a x : Nat) :
    store32 m a (rte_cpu_to_be_32 x) = writeList m a (be32_bytes x) := by
  funext i
  rw [store32_be_apply]
  simp only [writeList, be32_bytes, List.length_cons, List.length_nil]
  by_cases h : a ≤ i ∧ i < a + 4
  · obtain ⟨k, rfl, hk⟩ : ∃ k, i = a + k ∧ k < 4 := ⟨i - a, by omega, by omega⟩
    interval_cases k <;> simp
  · rw [if_neg (by omega), if_neg (by omega), if_neg (by omega), if_neg (by omega),
      if_neg (by omega)]

/-! ## `send_arp_reply_kni` -/

/-- The stores of `send_arp_reply_kni` write the ARP reply frame. -/
theorem arp_reply_buf (m : Mem) (d : Nat) (h mac : ether_addr) (t ip4 : Nat)
    (hh : h.addr_bytes.length = 6) (hmac : mac.addr_bytes.length = 6) :
    store32 (rte_memcpy (rte_memcpy (rte_memcpy (store16 (store8 (store8 (store16 (store16
      (store16 (rte_memcpy (rte_memcpy m (d + 6) h.addr_bytes 6) d mac.addr_bytes 6)
        (d + 12) (rte_cpu_to_be_16 ETHER_TYPE_ARP))
        (d + sizeof_ether_hdr) (rte_cpu_to_be_16 ARP_HRD_ETHER))
        (d + sizeof_ether_hdr + 2) (rte_cpu_to_be_16 ETHER_TYPE_IPv4))
        (d + sizeof_ether_hdr + 4) ETHER_ADDR_LEN)
        (d + sizeof_ether_hdr + 5) sizeof_in_addr)
        (d + sizeof_ether_hdr + 6) (rte_cpu_to_be_16 ARP_OP_REPLY))
        (d + sizeof_ether_hdr + 8) h.addr_bytes 6)
        (d + sizeof_ether_hdr + 14) (host32_bytes t) 4)
        (d + sizeof_ether_hdr + 18) mac.addr_bytes 6)
        (d + sizeof_ether_hdr + 24) ip4
      = writeList m d (arp_reply_frame mac h t ip4) := by
  rw [rte_memcpy_eq_writeList _ _ _ _ hh, rte_memcpy_eq_writeList _ _ _ _ hmac,
    rte_memcpy_eq_writeList _ _ _ _ hh, rte_memcpy_eq_writeList _ _ (host32_bytes t) 4 rfl,
    rte_memcpy_eq_writeList _ _ _ _ hmac,
    store16_be_eq_writeList _ _ ETHER_TYPE_ARP (by decide),
    store16_be_eq_writeList _ _ ARP_HRD_ETHER (by decide),
    store16_be_eq_writeList _ _ ETHER_TYPE_IPv4 (by decide),
    store16_be_eq_writeList _ _ ARP_OP_REPLY (by decide),
    store8_eq_writeList, store8_eq_writeList, store32_eq_writeList]
  rw [writeList_comm m (d + 6) d _ _ (Or.inr (by omega))]
  have hb : ∀ x, (be16_bytes x).length = 2 := fun _ => rfl
  have hq : ∀ x, (host32_bytes x).length = 4 := fun _ => rfl
  rw [writeList_append_at m d (d + 6) _ _ (by omega)]
  rw [writeList_append_at m d (d + 12) _ _ (by simp only [List.length_append]; omega)]
  rw [writeList_append_at m d (d + sizeof_ether_hdr) _ _
    (by simp only [List.length_append, hb, sizeof_ether_hdr]; omega)]
  rw [writeList_append_at m d (d + sizeof_ether_hdr + 2) _ _
    (by simp only [List.length_append, hb, sizeof_ether_hdr]; omega)]
  rw [writeList_append_at m d (d + sizeof_ether_hdr + 4) _ _
    (by simp only [List.length_append, hb, sizeof_ether_hdr]; omega)]
  rw [writeList_append_at m d (d + sizeof_ether_hdr + 5) _ _
    (by simp only [List.length_append, hb, sizeof_ether_hdr, List.length_cons,
      List.length_nil]; omega)]
  rw [writeList_append_at m d (d + sizeof_ether_hdr + 6) _ _
    (by simp only [List.length_append, hb, sizeof_ether_hdr, List.length_cons,
      List.length_nil]; omega)]
  rw [writeList_append_at m d (d + sizeof_ether_hdr + 8) _ _
    (by simp only [List.length_append, hb, sizeof_ether_hdr, List.length_cons,
      List.length_nil]; omega)]
  rw [writeList_append_at m d (d + sizeof_ether_hdr + 14) _ _
    (by simp only [List.length_append, hb, sizeof_ether_hdr, List.length_cons,
      List.length_nil]; omega)]
  rw [writeList_append_at m d (d + sizeof_ether_hdr + 18) _ _
    (by simp only [List.length_append, hb, hq, sizeof_ether_hdr, List.length_cons,
      List.length_nil]; omega)]
  rw [writeList_append_at m d (d + sizeof_ether_hdr + 24) _ _
    (by simp only [List.length_append, hb, hq, sizeof_ether_hdr, List.length_cons,
      List.length_nil]; omega)]
  simp [arp_reply_frame, ether_hdr_bytes, ETHER_TYPE_ARP, ARP_HRD_ETHER, ETHER_TYPE_IPv4,
    ARP_OP_REPLY, ETHER_ADDR_LEN, sizeof_in_addr]

theorem arp_reply_frame_length (mac h : ether_addr) (t ip4 : Nat)
    (hh : h.addr_bytes.length = 6) (hmac : mac.addr_bytes.length = 6) :
    (arp_reply_frame mac h t ip4).length = 42 := by
  simp [arp_reply_frame, ether_hdr_bytes, be16_bytes, host32_bytes, hh, hmac]

theorem kni_of_eq (p : iface_ptr) :
    (if p = iface_ptr.front then kni_ptr.front_kni else kni_ptr.back_kni) = kni_of p := by
  cases p <;> rfl

/-- C12. ARP reply frame: for every Arp request (iface, target IPv4 t, resolved
MAC h) for which a packet buffer can be allocated, `send_arp_reply_kni` builds
the 42-byte frame Ethernet(dst = iface MAC, src = h, type 0x0806), ARP(hrd 1,
pro 0x0800, hln 6, pln 4, op 2, sha = h, sip = t, tha = iface MAC, tip = iface
IPv4 address) and hands exactly that one frame, once, to the KNI of that
interface: the front KNI for the front interface, the back KNI otherwise. -/
theorem send_arp_reply_kni_frame (env : cps_env) (cps_conf : cps_config)
    (arp : cps_arp_req) (pkt : rte_mbuf) (halloc : env.rte_pktmbuf_alloc = some pkt)
    (hha : arp.ha.addr_bytes.length = 6)
    (hmac : (cps_conf.net.deref arp.iface).eth_addr.addr_bytes.length = 6) :
    ∃ reply : rte_mbuf,
      reply.data = arp_reply_frame (cps_conf.net.deref arp.iface).eth_addr arp.ha arp.ip
        (cps_conf.net.deref arp.iface).ip4_addr ∧
      reply.data.length = 42 ∧ reply.data_len = 42 ∧ reply.pkt_len = 42 ∧
      send_arp_reply_kni env cps_conf arp =
        cps_event.kni_tx_burst (kni_of arp.iface) [reply] ::
          (if env.rte_kni_tx_burst (kni_of arp.iface) [reply] = 0
           then [cps_event.pktmbuf_free reply, cps_event.log_err] else []) := by
  have hlen := arp_reply_frame_length (cps_conf.net.deref arp.iface).eth_addr arp.ha arp.ip
    (cps_conf.net.deref arp.iface).ip4_addr hha hmac
  refine ⟨{ pkt with
    data_len := 42
    pkt_len := 42
    buf := writeList pkt.buf pkt.data_off
      (arp_reply_frame (cps_conf.net.deref arp.iface).eth_addr arp.ha arp.ip
        (cps_conf.net.deref arp.iface).ip4_addr) }, ?_, ?_, rfl, rfl, ?_⟩
  · simp only [rte_mbuf.data]
    rw [← hlen, loadBytes_writeList_self]
  · simp only [rte_mbuf.data, loadBytes_length]
  · simp only [send_arp_reply_kni, halloc, kni_of_eq]
    rw [arp_reply_buf _ _ _ _ _ _ hha hmac]
    simp only [sizeof_ether_hdr, sizeof_arp_hdr, Nat.reduceAdd, Nat.cast_nonpos]
    split_ifs <;> rfl

/-- C12 on scenario S1: 192.0.2.100 is at 02:00:00:00:00:64, asked on the
front interface 02:00:00:00:00:01 with address 192.0.2.1. -/
theorem send_arp_reply_kni_frame_witness :
    ∃ reply : rte_mbuf,
      reply.data = arp_reply_frame
        (sample_cps_conf.net.deref sample_arp_req.iface).eth_addr sample_arp_req.ha
        sample_arp_req.ip (sample_cps_conf.net.deref sample_arp_req.iface).ip4_addr ∧
      reply.data.length = 42 ∧ reply.data_len = 42 ∧ reply.pkt_len = 42 ∧
      send_arp_reply_kni sample_cps_env sample_cps_conf sample_arp_req =
        cps_event.kni_tx_burst (kni_of sample_arp_req.iface) [reply] ::
          (if sample_cps_env.rte_kni_tx_burst (kni_of sample_arp_req.iface) [reply] = 0
           then [cps_event.pktmbuf_free reply, cps_event.log_err] else []) :=
  send_arp_reply_kni_frame sample_cps_env sample_cps_conf sample_arp_req sample_fresh_mbuf
    rfl rfl rfl

/-- The frame of scenario S1, byte by byte. -/
theorem arp_reply_frame_s1 :
    arp_reply_frame sample_front_s1.eth_addr sample_arp_req.ha sample_arp_req.ip
      sample_front_s1.ip4_addr =
    [0x02, 0, 0, 0, 0, 0x01, 0x02, 0, 0, 0, 0, 0x64, 0x08, 0x06,
     0, 1, 0x08, 0, 6, 4, 0, 2,
     0x02, 0, 0, 0, 0, 0x64, 192, 0, 2, 100,
     0x02, 0, 0, 0, 0, 0x01, 192, 0, 2, 1] := by
  decide

/-! ## `send_nd_reply_kni` -/

theorem writeList_overwrite (m : Mem) (a : Nat) (l1 l2 : List Nat)
    (h : l1.length = l2.length) :
    writeList (writeList m a l1) a l2 = writeList m a l2 := by
  funext i
  simp only [writeList]
  by_cases h2 : a ≤ i ∧ i < a + l2.length
  · rw [if_pos h2, if_pos h2]
  · rw [if_neg h2, if_neg h2, if_neg (by omega)]

theorem loadBytes_writeList_before (m : Mem) (a : Nat) (l : List Nat) (b n : Nat)
    (h : b + n ≤ a) : loadBytes (writeList m a l) b n = loadBytes m b n := by
  apply loadBytes_congr
  intro i _
  simp only [writeList]
  rw [if_neg (by omega)]

/-- Bytes written in the middle of a run are read back. -/
theorem loadBytes_writeList_mid (m : Mem) (a b : Nat) (pre l post : List Nat)
    (hb : b = a + pre.length) :
    loadBytes (writeList m a (pre ++ l ++ post)) b l.length = l := by
  subst hb
  rw [List.append_assoc, ← writeList_append_at m a (a + pre.length) pre (l ++ post) rfl,
    ← writeList_append_at _ (a + pre.length) (a + pre.length + l.length) l post rfl,
    loadBytes_writeList_before _ _ _ _ _ (le_refl _), loadBytes_writeList_self]

theorem load16_eq_loadBytes (m : Mem) (a x y : Nat) (h : loadBytes m a 2 = [x, y]) :
    load16 m a = x + 256 * y := by
  simp only [loadBytes, List.range_succ, List.range_zero, List.nil_append, List.map_cons,
    List.map_nil, List.cons_append, Nat.add_zero, List.cons.injEq, and_true] at h
  simp only [load16, h.1, h.2]

/-- The stores of `send_nd_reply_kni` before the checksum is filled in. -/
theorem nd_advert_buf (m : Mem) (d : Nat) (h mac : ether_addr) (t ll : List Nat)
    (hh : h.addr_bytes.length = 6) (hmac : mac.addr_bytes.length = 6)
    (ht : t.length = 16) (hll : ll.length = 16) :
    rte_memcpy (store8 (store8 (rte_memcpy (store32 (store16 (store8 (store8
      (rte_memcpy (rte_memcpy (store8 (store8 (store16 (store32
      (store16 (rte_memcpy (rte_memcpy m (d + 6) h.addr_bytes 6) d mac.addr_bytes 6)
        (d + 12) (rte_cpu_to_be_16 ETHER_TYPE_IPv6))
        (d + 14) (rte_cpu_to_be_32 IPv6_DEFAULT_VTC_FLOW))
        (d + 14 + 4) (rte_cpu_to_be_16 (86 - (14 + 40))))
        (d + 14 + 6) IPPROTO_ICMPV6)
        (d + 14 + 7) IPv6_DEFAULT_HOP_LIMITS)
        (d + 14 + 8) t 16)
        (d + 14 + 24) ll 16)
        (d + 14 + 40) ND_NEIGHBOR_ADVERTISEMENT)
        (d + 14 + 40 + 1) 0)
        (d + 14 + 40 + 2) 0)
        (d + 14 + 40 + 4) (rte_cpu_to_be_32 (LLS_ND_NA_OVERRIDE ||| LLS_ND_NA_SOLICITED)))
        (d + 14 + 40 + 4 + 4) t 16)
        (d + 14 + 40 + 4 + 20) ND_OPT_TARGET_LL_ADDR)
        (d + 14 + 40 + 4 + 20 + 1) 1)
        (d + 14 + 40 + 4 + 20 + 2) h.addr_bytes 6
      = writeList (writeList (writeList m d
          (ether_hdr_bytes mac h 0x86DD ++ ipv6_hdr_bytes 0x60000000 32 58 255 t ll ++ [136, 0]))
          (d + 56) [0, 0])
          (d + 58) (be32_bytes 0x60000000 ++ t ++ [2, 1] ++ h.addr_bytes) := by
  rw [rte_memcpy_eq_writeList _ _ _ _ hh, rte_memcpy_eq_writeList _ _ _ _ ht,
    rte_memcpy_eq_writeList _ _ _ _ hll, rte_memcpy_eq_writeList _ _ _ _ ht,
    rte_memcpy_eq_writeList _ _ _ _ hmac, rte_memcpy_eq_writeList _ _ _ _ hh,
    store16_be_eq_writeList _ _ ETHER_TYPE_IPv6 (by decide),
    store16_be_eq_writeList _ _ (86 - (14 + 40)) (by decide),
    store32_be_eq_writeList, store32_be_eq_writeList,
    store8_eq_writeList, store8_eq_writeList, store8_eq_writeList, store8_eq_writeList,
    store8_eq_writeList, store8_eq_writeList, store16_eq_writeList]
  rw [writeList_comm m (d + 6) d _ _ (Or.inr (by omega))]
  have hb : ∀ x, (be16_bytes x).length = 2 := fun _ => rfl
  have hq : ∀ x, (be32_bytes x).length = 4 := fun _ => rfl
  rw [writeList_append_at m d (d + 6) _ _ (by omega)]
  rw [writeList_append_at m d (d + 12) _ _ (by simp only [List.length_append]; omega)]
  rw [writeList_append_at m d (d + 14) _ _ (by simp only [List.length_append, hb]; omega)]
  rw [writeList_append_at m d (d + 14 + 4) _ _
    (by simp only [List.length_append, hb, hq]; omega)]
  rw [writeList_append_at m d (d + 14 + 6) _ _
    (by simp only [List.length_append, hb, hq]; omega)]
  rw [writeList_append_at m d (d + 14 + 7) _ _
    (by simp only [List.length_append, hb, hq, List.length_cons, List.length_nil]; omega)]
  rw [writeList_append_at m d (d + 14 + 8) _ _
    (by simp only [List.length_append, hb, hq, List.length_cons, List.length_nil]; omega)]
  rw [writeList_append_at m d (d + 14 + 24) _ _
    (by simp only [List.length_append, hb, hq, List.length_cons, List.length_nil]; omega)]
  rw [writeList_append_at m d (d + 14 + 40) _ _
    (by simp only [List.length_append, hb, hq, List.length_cons, List.length_nil]; omega)]
  rw [writeList_append_at m d (d + 14 + 40 + 1) _ _
    (by simp only [List.length_append, hb, hq, List.length_cons, List.length_nil]; omega)]
  rw [writeList_append_at _ (d + 14 + 40 + 4) (d + 14 + 40 + 4 + 4) _ _ (by rw [hq])]
  rw [writeList_append_at _ (d + 14 + 40 + 4) (d + 14 + 40 + 4 + 20) _ _
    (by simp only [List.length_append, hq]; omega)]
  rw [writeList_append_at _ (d + 14 + 40 + 4) (d + 14 + 40 + 4 + 20 + 1) _ _
    (by simp only [List.length_append, hq, List.length_cons, List.length_nil]; omega)]
  rw [writeList_append_at _ (d + 14 + 40 + 4) (d + 14 + 40 + 4 + 20 + 2) _ _
    (by simp only [List.length_append, hq, List.length_cons, List.length_nil]; omega)]
  simp [ether_hdr_bytes, ipv6_hdr_bytes, ETHER_TYPE_IPv6, IPv6_DEFAULT_VTC_FLOW,
    IPPROTO_ICMPV6, IPv6_DEFAULT_HOP_LIMITS, ND_NEIGHBOR_ADVERTISEMENT, LLS_ND_NA_OVERRIDE,
    LLS_ND_NA_SOLICITED, ND_OPT_TARGET_LL_ADDR, Nat.add_assoc]

theorem loadBytes_writeList_of_eq (m : Mem) (a b n : Nat) (frame pre l post : List Nat)
    (hf : frame = pre ++ l ++ post) (hb : b = a + pre.length) (hn : n = l.length) :
    loadBytes (writeList m a frame) b n = l := by
  subst hf hn
  exact loadBytes_writeList_mid m a b pre l post hb

theorem icmpv6_cksum_lt (src dst msg : List Nat) : icmpv6_cksum src dst msg < 65536 := by
  unfold icmpv6_cksum
  omega

/-- The checksum that `send_nd_reply_kni` computes on the frame with a zero
checksum field, and the frame after the checksum is stored. -/
theorem nd_advert_cksum_buf (m : Mem) (d : Nat) (h mac : ether_addr) (t ll : List Nat)
    (hh : h.addr_bytes.length = 6) (hmac : mac.addr_bytes.length = 6)
    (ht : t.length = 16) (hll : ll.length = 16) (W : Mem)
    (hW : W = writeList (writeList (writeList m d
          (ether_hdr_bytes mac h 0x86DD ++ ipv6_hdr_bytes 0x60000000 32 58 255 t ll ++ [136, 0]))
          (d + 56) [0, 0])
          (d + 58) (be32_bytes 0x60000000 ++ t ++ [2, 1] ++ h.addr_bytes)) :
    store16 W (d + 14 + 40 + 2) (rte_ipv6_icmpv6_cksum W (d + 14) (d + 14 + 40))
      = writeList m d (nd_advert_frame mac h t ll) := by
  have hpre : (ether_hdr_bytes mac h 0x86DD ++ ipv6_hdr_bytes 0x60000000 32 58 255 t ll
      ++ [136, 0]).length = 56 := by
    simp [ether_hdr_bytes, ipv6_hdr_bytes, be16_bytes, be32_bytes, hh, hmac, ht, hll]
  have hW0 : W = writeList m d (ether_hdr_bytes mac h 0x86DD ++
      ipv6_hdr_bytes 0x60000000 32 58 255 t ll ++ nd_advert_msg 0 t h) := by
    rw [hW, writeList_append_at m d (d + 56) _ _ (by rw [hpre]),
      writeList_append_at m d (d + 58) _ _
        (by simp only [List.length_append, hpre, List.length_cons, List.length_nil])]
    simp [nd_advert_msg, be16_bytes, List.append_assoc]
  have hlen : loadBytes W (d + 14 + 4) 2 = [0, 32] := by
    rw [hW0]
    refine loadBytes_writeList_of_eq m d _ _ _
      (mac.addr_bytes ++ h.addr_bytes ++ be16_bytes 0x86DD ++ be32_bytes 0x60000000) [0, 32]
      ([58, 255] ++ t ++ ll ++ nd_advert_msg 0 t h) ?_ ?_ rfl
    · simp [ether_hdr_bytes, ipv6_hdr_bytes, be16_bytes, List.append_assoc]
    · simp [be16_bytes, be32_bytes, hh, hmac]
  have hsrc : loadBytes W (d + 14 + 8) 16 = t := by
    rw [hW0]
    refine loadBytes_writeList_of_eq m d _ _ _
      (mac.addr_bytes ++ h.addr_bytes ++ be16_bytes 0x86DD ++ be32_bytes 0x60000000 ++
        [0, 32, 58, 255]) t (ll ++ nd_advert_msg 0 t h) ?_ ?_ ht.symm
    · simp [ether_hdr_bytes, ipv6_hdr_bytes, be16_bytes, List.append_assoc]
    · simp [be16_bytes, be32_bytes, hh, hmac]
  have hdst : loadBytes W (d + 14 + 24) 16 = ll := by
    rw [hW0]
    refine loadBytes_writeList_of_eq m d _ _ _
      (mac.addr_bytes ++ h.addr_bytes ++ be16_bytes 0x86DD ++ be32_bytes 0x60000000 ++
        [0, 32, 58, 255] ++ t) ll (nd_advert_msg 0 t h) ?_ ?_ hll.symm
    · simp [ether_hdr_bytes, ipv6_hdr_bytes, be16_bytes, List.append_assoc]
    · simp [be16_bytes, be32_bytes, hh, hmac, ht]
  have hmsg : loadBytes W (d + 14 + 40) 32 = nd_advert_msg 0 t h := by
    rw [hW0]
    refine loadBytes_writeList_of_eq m d _ _ _
      (ether_hdr_bytes mac h 0x86DD ++ ipv6_hdr_bytes 0x60000000 32 58 255 t ll)
      (nd_advert_msg 0 t h) [] ?_ ?_ ?_
    · simp
    · simp [ether_hdr_bytes, ipv6_hdr_bytes, be16_bytes, be32_bytes, hh, hmac, ht, hll]
    · simp [nd_advert_msg, be16_bytes, be32_bytes, hh, ht]
  have hck : rte_ipv6_icmpv6_cksum W (d + 14) (d + 14 + 40)
      = rte_cpu_to_be_16 (icmpv6_cksum t ll (nd_advert_msg 0 t h)) := by
    have h32 : rte_be_to_cpu_16 (load16 W (d + 14 + 4)) = 32 := by
      rw [load16_eq_loadBytes W _ 0 32 hlen]; rfl
    simp only [rte_ipv6_icmpv6_cksum, h32, hsrc, hdst, hmsg]
  rw [hck, store16_be_eq_writeList _ _ _ (icmpv6_cksum_lt _ _ _), hW]
  rw [writeList_comm _ (d + 58) (d + 14 + 40 + 2) _ _ (Or.inr (by simp [be16_bytes]))]
  rw [show d + 14 + 40 + 2 = d + 56 from rfl,
    writeList_overwrite _ (d + 56) [0, 0] (be16_bytes _) rfl,
    writeList_append_at m d (d + 56) _ _ (by rw [hpre]),
    writeList_append_at m d (d + 58) _ _
      (by simp only [List.length_append, hpre, be16_bytes, List.length_cons,
        List.length_nil])]
  simp [nd_advert_frame, nd_advert_msg, List.append_assoc]

theorem nd_advert_frame_length (mac h : ether_addr) (t ll : List Nat)
    (hh : h.addr_bytes.length = 6) (hmac : mac.addr_bytes.length = 6)
    (ht : t.length = 16) (hll : ll.length = 16) :
    (nd_advert_frame mac h t ll).length = 86 := by
  simp [nd_advert_frame, nd_advert_msg, ether_hdr_bytes, ipv6_hdr_bytes, be16_bytes,
    be32_bytes, hh, hmac, ht, hll]

/-- C13. ND advertisement frame: for every Nd request (iface, target IPv6 t,
resolved MAC h) for which a packet buffer can be allocated,
`send_nd_reply_kni` builds the 86-byte frame Ethernet(dst = iface MAC, src = h,
type 0x86DD), IPv6(version 6, traffic class 0, flow label 0, payload length 32,
next header 58, hop limit 255, src = t, dst = iface link-local address),
ICMPv6(type 136, code 0, checksum = the ICMPv6 checksum over the pseudo-header
and the 32-byte message), NA(flags word Override|Solicited, reserved bits 0,
target = t) and one option (type 2, length 1, link-layer address h), and hands
it to the KNI of that interface. -/
theorem send_nd_reply_kni_frame (env : cps_env) (cps_conf : cps_config)
    (nd : cps_nd_req) (pkt : rte_mbuf) (halloc : env.rte_pktmbuf_alloc = some pkt)
    (hha : nd.ha.addr_bytes.length = 6) (hip : nd.ip.length = 16)
    (hmac : (cps_conf.net.deref nd.iface).eth_addr.addr_bytes.length = 6) :
    ∃ reply : rte_mbuf,
      reply.data =
        ether_hdr_bytes (cps_conf.net.deref nd.iface).eth_addr nd.ha 0x86DD ++
        ipv6_hdr_bytes 0x60000000 32 58 255 nd.ip
          (loadBytes (cps_conf.net.deref nd.iface).ll_ip6_addr 0 16) ++
        ([136, 0] ++
         be16_bytes (icmpv6_cksum nd.ip
           (loadBytes (cps_conf.net.deref nd.iface).ll_ip6_addr 0 16)
           ([136, 0] ++ [0, 0] ++ ([0x60, 0, 0, 0] ++ nd.ip ++ [2, 1] ++ nd.ha.addr_bytes))) ++
         ([0x60, 0, 0, 0] ++ nd.ip ++ [2, 1] ++ nd.ha.addr_bytes)) ∧
      reply.data.length = 86 ∧ reply.data_len = 86 ∧ reply.pkt_len = 86 ∧
      send_nd_reply_kni env cps_conf nd =
        cps_event.kni_tx_burst (kni_of nd.iface) [reply] ::
          (if env.rte_kni_tx_burst (kni_of nd.iface) [reply] = 0
           then [cps_event.pktmbuf_free reply, cps_event.log_err] else []) := by
  have hll : (loadBytes (cps_conf.net.deref nd.iface).ll_ip6_addr 0 16).length = 16 :=
    loadBytes_length _ _ _
  have hlen := nd_advert_frame_length (cps_conf.net.deref nd.iface).eth_addr nd.ha nd.ip
    (loadBytes (cps_conf.net.deref nd.iface).ll_ip6_addr 0 16) hha hmac hip hll
  refine ⟨{ pkt with
    data_len := 86
    pkt_len := 86
    buf := writeList pkt.buf pkt.data_off
      (nd_advert_frame (cps_conf.net.deref nd.iface).eth_addr nd.ha nd.ip
        (loadBytes (cps_conf.net.deref nd.iface).ll_ip6_addr 0 16)) }, ?_, ?_, rfl, rfl, ?_⟩
  · simp only [rte_mbuf.data]
    rw [← hlen, loadBytes_writeList_self]
    rfl
  · simp only [rte_mbuf.data, loadBytes_length]
  · simp only [send_nd_reply_kni, halloc, kni_of_eq, sizeof_ether_hdr, sizeof_ipv6_hdr,
      sizeof_icmpv6_hdr, sizeof_nd_neigh_msg, ND_NEIGH_PKT_LLADDR_MIN_LEN]
    rw [nd_advert_cksum_buf pkt.buf pkt.data_off nd.ha
      (cps_conf.net.deref nd.iface).eth_addr nd.ip _ hha hmac hip hll _
      (nd_advert_buf _ _ _ _ _ _ hha hmac hip hll)]
    simp only [Nat.cast_nonpos]
    split_ifs <;> rfl

/-- C13 on scenario S2: 2001:db8::100 is at 02:00:00:00:00:C8, asked on the
front interface 02:00:00:00:00:02 with link-local address fe80::ff:fe00:2. -/
theorem send_nd_reply_kni_frame_witness :
    ∃ reply : rte_mbuf,
      reply.data =
        ether_hdr_bytes (sample_cps_conf_s2.net.deref sample_nd_req.iface).eth_addr
          sample_nd_req.ha 0x86DD ++
        ipv6_hdr_bytes 0x60000000 32 58 255 sample_nd_req.ip
          (loadBytes (sample_cps_conf_s2.net.deref sample_nd_req.iface).ll_ip6_addr 0 16) ++
        ([136, 0] ++
         be16_bytes (icmpv6_cksum sample_nd_req.ip
           (loadBytes (sample_cps_conf_s2.net.deref sample_nd_req.iface).ll_ip6_addr 0 16)
           ([136, 0] ++ [0, 0] ++
             ([0x60, 0, 0, 0] ++ sample_nd_req.ip ++ [2, 1] ++ sample_nd_req.ha.addr_bytes))) ++
         ([0x60, 0, 0, 0] ++ sample_nd_req.ip ++ [2, 1] ++ sample_nd_req.ha.addr_bytes)) ∧
      reply.data.length = 86 ∧ reply.data_len = 86 ∧ reply.pkt_len = 86 ∧
      send_nd_reply_kni sample_cps_env sample_cps_conf_s2 sample_nd_req =
        cps_event.kni_tx_burst (kni_of sample_nd_req.iface) [reply] ::
          (if sample_cps_env.rte_kni_tx_burst (kni_of sample_nd_req.iface) [reply] = 0
           then [cps_event.pktmbuf_free reply, cps_event.log_err] else []) :=
  send_nd_reply_kni_frame sample_cps_env sample_cps_conf_s2 sample_nd_req sample_fresh_mbuf
    rfl rfl rfl rfl

/-- The frame of scenario S2, byte by byte; its ICMPv6 checksum is 0xB7E6. -/
theorem nd_advert_frame_s2 :
    nd_advert_frame sample_front_s2.eth_addr sample_nd_req.ha sample_nd_req.ip
      (loadBytes sample_front_s2.ll_ip6_addr 0 16) =
    [0x02, 0, 0, 0, 0, 0x02, 0x02, 0, 0, 0, 0, 0xC8, 0x86, 0xDD,
     0x60, 0, 0, 0, 0, 32, 58, 255,
     0x20, 0x01, 0x0d, 0xb8, 0, 0, 0, 0, 0, 0, 0, 0, 0, 0, 0x01, 0x00,
     0xfe, 0x80, 0, 0, 0, 0, 0, 0, 0, 0, 0, 0xff, 0xfe, 0, 0, 0x02,
     136, 0, 0xB7, 0xE6, 0x60, 0, 0, 0,
     0x20, 0x01, 0x0d, 0xb8, 0, 0, 0, 0, 0, 0, 0, 0, 0, 0, 0x01, 0x00,
     2, 1, 0x02, 0, 0, 0, 0, 0xC8] := by
  decide

/-- The checksum of the frame of scenario S2 is valid: the 16-bit words of the
pseudo-header and of the message as sent add up to 0xFFFF in one's complement
arithmetic. -/
theorem nd_advert_frame_s2_cksum_valid :
    fold16 (sum16 (sample_nd_req.ip ++ loadBytes sample_front_s2.ll_ip6_addr 0 16 ++
      be32_bytes 32 ++ [0, 0, 0, 58] ++
      (nd_advert_frame sample_front_s2.eth_addr sample_nd_req.ha sample_nd_req.ip
        (loadBytes sample_front_s2.ll_ip6_addr 0 16)).drop 54)) = 0xFFFF := by
  decide

/-! ## `process_reqs` -/

theorem cps_scan_arp_fst (l : List arp_request) :
    (cps_scan_arp l).1 = (l.filter (fun e => !e.stale)).map (fun e => { e with stale := true }) := by
  induction l with
  | nil => rfl
  | cons e l ih =>
    by_cases h : e.stale = true
    · simp only [cps_scan_arp, h, if_true, List.filter_cons, Bool.not_true, Bool.false_eq_true,
        if_false]
      exact ih
    · have h' : e.stale = false := by simpa using h
      simp only [cps_scan_arp, h', Bool.false_eq_true, if_false, List.filter_cons,
        Bool.not_false, if_true, List.map_cons, ih]

theorem cps_scan_arp_snd (l : List arp_request) :
    (cps_scan_arp l).2 =
      (l.filter (fun e => e.stale)).map (fun e => cps_event.put_arp e.addr) := by
  induction l with
  | nil => rfl
  | cons e l ih =>
    by_cases h : e.stale = true
    · simp only [cps_scan_arp, h, if_true, List.filter_cons, List.map_cons, ih]
    · have h' : e.stale = false := by simpa using h
      simp only [cps_scan_arp, h', Bool.false_eq_true, if_false, List.filter_cons, ih]

theorem cps_scan_nd_fst (l : List nd_request) :
    (cps_scan_nd l).1 = (l.filter (fun e => !e.stale)).map (fun e => { e with stale := true }) := by
  induction l with
  | nil => rfl
  | cons e l ih =>
    by_cases h : e.stale = true
    · simp only [cps_scan_nd, h, if_true, List.filter_cons, Bool.not_true, Bool.false_eq_true,
        if_false]
      exact ih
    · have h' : e.stale = false := by simpa using h
      simp only [cps_scan_nd, h', Bool.false_eq_true, if_false, List.filter_cons,
        Bool.not_false, if_true, List.map_cons, ih]

theorem cps_scan_nd_snd (l : List nd_request) :
    (cps_scan_nd l).2 =
      (l.filter (fun e => e.stale)).map (fun e => cps_event.put_nd e.addr) := by
  induction l with
  | nil => rfl
  | cons e l ih =>
    by_cases h : e.stale = true
    · simp only [cps_scan_nd, h, if_true, List.filter_cons, List.map_cons, ih]
    · have h' : e.stale = false := by simpa using h
      simp only [cps_scan_nd, h', Bool.false_eq_true, if_false, List.filter_cons, ih]

/-- What `cps_scan` does to the state and to the world, in closed form. -/
theorem cps_scan_eq (c : cps_config) :
    cps_scan c =
      ({ c with
          arp_requests := if c.arp_enabled then (cps_scan_arp c.arp_requests).1
            else c.arp_requests
          nd_requests := if c.nd_enabled then (cps_scan_nd c.nd_requests).1
            else c.nd_requests },
       (if c.arp_enabled then (cps_scan_arp c.arp_requests).2 else []) ++
       (if c.nd_enabled then (cps_scan_nd c.nd_requests).2 else [])) := by
  obtain ⟨net, port, mb, arp, nd, ae, ne⟩ := c
  cases ae <;> cases ne <;> rfl

theorem put_arp_calls_append (a b : List cps_event) :
    put_arp_calls (a ++ b) = put_arp_calls a ++ put_arp_calls b := by
  simp [put_arp_calls, List.filterMap_append]

theorem put_nd_calls_append (a b : List cps_event) :
    put_nd_calls (a ++ b) = put_nd_calls a ++ put_nd_calls b := by
  simp [put_nd_calls, List.filterMap_append]

theorem put_arp_calls_map_put_arp (l : List arp_request) :
    put_arp_calls (l.map (fun e => cps_event.put_arp e.addr)) = l.map (fun e => e.addr) := by
  induction l with
  | nil => rfl
  | cons e l ih =>
    simp only [List.map_cons, put_arp_calls, List.filterMap_cons] at ih ⊢
    rw [ih]

theorem put_arp_calls_map_put_nd (l : List nd_request) :
    put_arp_calls (l.map (fun e => cps_event.put_nd e.addr)) = [] := by
  induction l with
  | nil => rfl
  | cons e l ih =>
    simp only [List.map_cons, put_arp_calls, List.filterMap_cons] at ih ⊢
    rw [ih]

theorem put_nd_calls_map_put_nd (l : List nd_request) :
    put_nd_calls (l.map (fun e => cps_event.put_nd e.addr)) = l.map (fun e => e.addr) := by
  induction l with
  | nil => rfl
  | cons e l ih =>
    simp only [List.map_cons, put_nd_calls, List.filterMap_cons] at ih ⊢
    rw [ih]

theorem put_nd_calls_map_put_arp (l : List arp_request) :
    put_nd_calls (l.map (fun e => cps_event.put_arp e.addr)) = [] := by
  induction l with
  | nil => rfl
  | cons e l ih =>
    simp only [List.map_cons, put_nd_calls, List.filterMap_cons] at ih ⊢
    rw [ih]

/-- C15. Scan step: with ARP (resp. ND) enabled, one run of `cps_scan` turns
the ARP (resp. ND) request list into exactly the entries that were not stale
before the scan, in their original order and now all marked stale; every entry
that was stale before is removed, and `put_arp` (resp. `put_nd`) is called
exactly once for each removed entry, in list order, with that entry's
address. -/
theorem cps_scan_step (c : cps_config) :
    (c.arp_enabled = true →
      (cps_scan c).1.arp_requests =
        (c.arp_requests.filter (fun e => !e.stale)).map (fun e => { e with stale := true }) ∧
      put_arp_calls (cps_scan c).2 =
        (c.arp_requests.filter (fun e => e.stale)).map (fun e => e.addr)) ∧
    (c.nd_enabled = true →
      (cps_scan c).1.nd_requests =
        (c.nd_requests.filter (fun e => !e.stale)).map (fun e => { e with stale := true }) ∧
      put_nd_calls (cps_scan c).2 =
        (c.nd_requests.filter (fun e => e.stale)).map (fun e => e.addr)) := by
  rw [cps_scan_eq]
  constructor
  · intro h
    simp only [h, if_true, cps_scan_arp_fst, cps_scan_arp_snd, cps_scan_nd_snd,
      put_arp_calls_append, put_arp_calls_map_put_arp, true_and]
    cases c.nd_enabled
    · simp [put_arp_calls]
    · simp [put_arp_calls_map_put_nd]
  · intro h
    simp only [h, if_true, cps_scan_nd_fst, cps_scan_nd_snd, cps_scan_arp_snd,
      put_nd_calls_append, put_nd_calls_map_put_nd, true_and]
    cases c.arp_enabled
    · simp [put_nd_calls]
    · simp [put_nd_calls_map_put_arp]

/-- C15 on a list with the ARP requests 1 (fresh), 2 (stale), 3 (fresh),
2 (stale) and two ND requests. -/
theorem cps_scan_step_witness :
    ((cps_scan sample_cps_conf_scan).1.arp_requests =
        (sample_cps_conf_scan.arp_requests.filter (fun e => !e.stale)).map
          (fun e => { e with stale := true }) ∧
      put_arp_calls (cps_scan sample_cps_conf_scan).2 =
        (sample_cps_conf_scan.arp_requests.filter (fun e => e.stale)).map (fun e => e.addr)) ∧
    ((cps_scan sample_cps_conf_scan).1.nd_requests =
        (sample_cps_conf_scan.nd_requests.filter (fun e => !e.stale)).map
          (fun e => { e with stale := true }) ∧
      put_nd_calls (cps_scan sample_cps_conf_scan).2 =
        (sample_cps_conf_scan.nd_requests.filter (fun e => e.stale)).map (fun e => e.addr)) :=
  ⟨(cps_scan_step sample_cps_conf_scan).1 rfl, (cps_scan_step sample_cps_conf_scan).2 rfl⟩

/-- The scan of the sample lists, evaluated. -/
theorem cps_scan_sample :
    (cps_scan sample_cps_conf_scan).1.arp_requests = [⟨1, true⟩, ⟨3, true⟩] ∧
    (cps_scan sample_cps_conf_scan).2 =
      [cps_event.put_arp 2, cps_event.put_arp 2, cps_event.put_nd (List.replicate 16 7)] ∧
    (cps_scan (cps_scan sample_cps_conf_scan).1).1.arp_requests = [] :=
  ⟨rfl, rfl, rfl⟩

theorem filter_fresh_map_stale {α : Type} (stale : α → Bool) (mark : α → α)
    (hmark : ∀ e, stale (mark e) = true) (l : List α) :
    ((l.map mark).filter (fun e => !stale e)) = [] := by
  induction l with
  | nil => rfl
  | cons e l ih => simp [List.filter_cons, hmark, ih]

theorem cps_scan_arp_requests (c : cps_config) (h : c.arp_enabled = true) :
    (cps_scan c).1.arp_requests =
      (c.arp_requests.filter (fun e => !e.stale)).map (fun e => { e with stale := true }) := by
  rw [cps_scan_eq]
  simp only [h, if_true, cps_scan_arp_fst]

theorem cps_scan_nd_requests (c : cps_config) (h : c.nd_enabled = true) :
    (cps_scan c).1.nd_requests =
      (c.nd_requests.filter (fun e => !e.stale)).map (fun e => { e with stale := true }) := by
  rw [cps_scan_eq]
  simp only [h, if_true, cps_scan_nd_fst]

/-- C16. Staleness bound: with ARP (resp. ND) enabled, for every state of the
ARP (resp. ND) request list, two consecutive runs of `cps_scan` with no
insertion in between leave the list empty, and an entry that is fresh
(stale = false) before the first scan is still in the list, marked stale,
after the first scan. -/
theorem cps_scan_twice_empties (c : cps_config) :
    (c.arp_enabled = true →
      (cps_scan (cps_scan c).1).1.arp_requests = [] ∧
      ∀ e ∈ c.arp_requests, e.stale = false →
        { e with stale := true } ∈ (cps_scan c).1.arp_requests) ∧
    (c.nd_enabled = true →
      (cps_scan (cps_scan c).1).1.nd_requests = [] ∧
      ∀ e ∈ c.nd_requests, e.stale = false →
        { e with stale := true } ∈ (cps_scan c).1.nd_requests) := by
  constructor
  · intro h
    have h1 := cps_scan_arp_requests c h
    have h2 : (cps_scan c).1.arp_enabled = true := by rw [cps_scan_eq]; exact h
    have h3 := cps_scan_arp_requests (cps_scan c).1 h2
    constructor
    · rw [h3, h1, filter_fresh_map_stale (fun e : arp_request => e.stale)
        (fun e => { e with stale := true }) (fun _ => rfl)]
      rfl
    · intro e he hs
      rw [h1]
      exact List.mem_map.mpr ⟨e, List.mem_filter.mpr ⟨he, by simp [hs]⟩, rfl⟩
  · intro h
    have h1 := cps_scan_nd_requests c h
    have h2 : (cps_scan c).1.nd_enabled = true := by rw [cps_scan_eq]; exact h
    have h3 := cps_scan_nd_requests (cps_scan c).1 h2
    constructor
    · rw [h3, h1, filter_fresh_map_stale (fun e : nd_request => e.stale)
        (fun e => { e with stale := true }) (fun _ => rfl)]
      rfl
    · intro e he hs
      rw [h1]
      exact List.mem_map.mpr ⟨e, List.mem_filter.mpr ⟨he, by simp [hs]⟩, rfl⟩

/-- C16 on scenario S5: the fresh ND request for 2001:db8::100 is in the list,
marked stale, after the first scan, and both lists are empty after the
second. -/
theorem cps_scan_twice_empties_witness :
    ((cps_scan (cps_scan sample_cps_conf_scan).1).1.arp_requests = [] ∧
      (cps_scan (cps_scan sample_cps_conf_scan).1).1.nd_requests = []) ∧
    ({ addr := sample_nd_req.ip, stale := true } : nd_request) ∈
      (cps_scan sample_cps_conf_scan).1.nd_requests :=
  ⟨⟨((cps_scan_twice_empties sample_cps_conf_scan).1 rfl).1,
    ((cps_scan_twice_empties sample_cps_conf_scan).2 rfl).1⟩,
   ((cps_scan_twice_empties sample_cps_conf_scan).2 rfl).2 ⟨sample_nd_req.ip, false⟩
     (by decide) rfl⟩

/-! ## `register_ipv6_acl` -/

/-- One call of `register_ipv6_acl` on an interface with `n` categories. -/
theorem register_ipv6_acl_step (env : acl_env) (rules : List ipv6_acl_rule)
    (cb_f : Option acl_cb_func) (ext_cb_f : Option ext_cb_func) (iface : gatekeeper_if)
    (n : Nat) (hn : iface.acl_func_count = n) (hn8 : n ≤ 8) :
    ((register_ipv6_acl env rules cb_f ext_cb_f iface).ret = 0 →
      n ≤ 7 ∧
      (∀ rule ∈ (register_ipv6_acl env rules cb_f ext_cb_f iface).ipv6_rules,
        rule.data.userdata = n) ∧
      (register_ipv6_acl env rules cb_f ext_cb_f iface).ipv6_rules.length = rules.length ∧
      (register_ipv6_acl env rules cb_f ext_cb_f iface).iface.acl_funcs n = cb_f ∧
      (register_ipv6_acl env rules cb_f ext_cb_f iface).iface.ext_funcs n = ext_cb_f ∧
      (register_ipv6_acl env rules cb_f ext_cb_f iface).iface.acl_func_count = n + 1) ∧
    ((register_ipv6_acl env rules cb_f ext_cb_f iface).ret ≠ 0 →
      (register_ipv6_acl env rules cb_f ext_cb_f iface).iface.acl_func_count = n) := by
  unfold register_ipv6_acl
  by_cases h8 : iface.acl_func_count = GATEKEEPER_IPV6_ACL_MAX
  · simp only [h8, if_true]
    refine ⟨fun h => absurd h (by decide), fun _ => ?_⟩
    rw [← hn, h8]
  · simp only [h8, if_false]
    have hlt : n ≤ 7 := by
      rw [GATEKEEPER_IPV6_ACL_MAX, hn] at h8
      omega
    generalize add_rules_loop env _ env.numa_nodes 0 iface.ipv6_acls = res
    obtain ⟨ret, acls⟩ := res
    by_cases hret : ret < 0
    · simp only [hret, if_true]
      exact ⟨fun h => by omega, fun _ => hn⟩
    · simp only [hret, if_false, if_true, true_and]
      refine ⟨fun _ => ⟨hlt, ?_, by simp, ?_, ?_, ?_⟩, fun h => absurd rfl h⟩
      · intro rule hrule
        obtain ⟨r, -, rfl⟩ := List.mem_map.mp hrule
        exact hn
      · simp [hn]
      · simp [hn]
      · rw [hn]
        omega

theorem successes_before_zero (results : List register_result) :
    successes_before results 0 = 0 := by
  simp [successes_before]

theorem successes_before_succ (r : register_result) (results : List register_result)
    (i : Nat) :
    successes_before (r :: results) (i + 1) =
      (if r.ret = 0 then 1 else 0) + successes_before results i := by
  simp only [successes_before, List.take_succ_cons, List.filter_cons]
  by_cases h : r.ret = 0
  · simp [h]; omega
  · simp [h]

/-- In a sequence of calls on an interface with `n` categories, a call that
returns 0 installs the category `n` + the number of earlier successes. -/
theorem register_ipv6_acl_seq_step (env : acl_env) (calls : List register_call) :
    ∀ (iface : gatekeeper_if) (n : Nat), iface.acl_func_count = n → n ≤ 8 →
    ∀ (i : Nat) (r : register_result) (c : register_call),
      (register_ipv6_acl_seq env iface calls).get? i = some r → calls.get? i = some c →
      r.ret = 0 →
      n + successes_before (register_ipv6_acl_seq env iface calls) i ≤ 7 ∧
      (∀ rule ∈ r.ipv6_rules, rule.data.userdata =
        n + successes_before (register_ipv6_acl_seq env iface calls) i) ∧
      r.ipv6_rules.length = c.ipv6_rules.length ∧
      r.iface.acl_funcs (n + successes_before (register_ipv6_acl_seq env iface calls) i)
        = c.cb_f ∧
      r.iface.ext_funcs (n + successes_before (register_ipv6_acl_seq env iface calls) i)
        = c.ext_cb_f ∧
      r.iface.acl_func_count =
        n + successes_before (register_ipv6_acl_seq env iface calls) i + 1 := by
  induction calls with
  | nil => intro iface n _ _ i r c hr; simp [register_ipv6_acl_seq] at hr
  | cons c0 cs ih =>
    intro iface n hn hn8 i r c hr hc hret
    have hstep := register_ipv6_acl_step env c0.ipv6_rules c0.cb_f c0.ext_cb_f iface n hn hn8
    cases i with
    | zero =>
      simp only [register_ipv6_acl_seq, List.get?_cons_zero, Option.some.injEq] at hr hc
      subst hr hc
      rw [successes_before_zero, Nat.add_zero]
      exact hstep.1 hret
    | succ i =>
      simp only [register_ipv6_acl_seq, List.get?_cons_succ] at hr hc
      simp only [register_ipv6_acl_seq, successes_before_succ]
      by_cases h0 : (register_ipv6_acl env c0.ipv6_rules c0.cb_f c0.ext_cb_f iface).ret = 0
      · obtain ⟨h7, -, -, -, -, hcount⟩ := hstep.1 h0
        have := ih _ (n + 1) hcount (by omega) i r c hr hc hret
        simp only [h0, if_true]
        rw [show n + (1 + successes_before (register_ipv6_acl_seq env
          (register_ipv6_acl env c0.ipv6_rules c0.cb_f c0.ext_cb_f iface).iface cs) i)
          = n + 1 + successes_before (register_ipv6_acl_seq env
          (register_ipv6_acl env c0.ipv6_rules c0.cb_f c0.ext_cb_f iface).iface cs) i
          from by omega]
        exact this
      · have hcount := hstep.2 h0
        have := ih _ n hcount hn8 i r c hr hc hret
        simp only [h0, if_false, Nat.zero_add]
        exact this

theorem init_ipv6_acls_ok (env : acl_env) (iface iface1 : gatekeeper_if)
    (h : init_ipv6_acls env iface = some (0, iface1)) :
    iface1.acl_funcs 0 = some acl_cb_func.drop_unmatched_ipv6_pkts ∧
    iface1.ext_funcs 0 = none ∧ iface1.acl_func_count = 1 := by
  unfold init_ipv6_acls at h
  split at h
  · exact absurd h (by simp)
  · split at h
    · exact absurd h (by simp)
    · simp only [Option.some.injEq, Prod.mk.injEq] at h
      exact absurd h.1 (by decide)
    · simp only [Option.some.injEq, Prod.mk.injEq, true_and] at h
      subst h
      exact ⟨rfl, rfl, rfl⟩

/-- C17. ACL category registration: after a successful `init_ipv6_acls`
(category 0 is the drop callback with no extension-header callback, and the
count is 1), the k-th successful `register_ipv6_acl` call of any sequence of
calls on the interface has k in 1..7, sets the userdata of every rule it is
given to k, stores its match callback and its extension-header callback at
index k and raises the category count to k + 1; a call made when the interface
has 8 categories returns -1 and changes neither the rules, the callbacks nor
the count. -/
theorem register_ipv6_acl_categories (env : acl_env) (iface0 iface1 : gatekeeper_if)
    (hinit : init_ipv6_acls env iface0 = some (0, iface1)) :
    (iface1.acl_funcs 0 = some acl_cb_func.drop_unmatched_ipv6_pkts ∧
      iface1.ext_funcs 0 = none ∧ iface1.acl_func_count = 1) ∧
    (∀ (calls : List register_call) (i : Nat) (r : register_result) (c : register_call),
      (register_ipv6_acl_seq env iface1 calls).get? i = some r → calls.get? i = some c →
      r.ret = 0 →
      1 + successes_before (register_ipv6_acl_seq env iface1 calls) i ≤ 7 ∧
      (∀ rule ∈ r.ipv6_rules, rule.data.userdata =
        1 + successes_before (register_ipv6_acl_seq env iface1 calls) i) ∧
      r.ipv6_rules.length = c.ipv6_rules.length ∧
      r.iface.acl_funcs (1 + successes_before (register_ipv6_acl_seq env iface1 calls) i)
        = c.cb_f ∧
      r.iface.ext_funcs (1 + successes_before (register_ipv6_acl_seq env iface1 calls) i)
        = c.ext_cb_f ∧
      r.iface.acl_func_count =
        1 + successes_before (register_ipv6_acl_seq env iface1 calls) i + 1) ∧
    (∀ (iface : gatekeeper_if) (rules : List ipv6_acl_rule) (cb_f : Option acl_cb_func)
      (ext_cb_f : Option ext_cb_func), iface.acl_func_count = 8 →
      register_ipv6_acl env rules cb_f ext_cb_f iface = ⟨-1, rules, iface⟩) := by
  have h1 := init_ipv6_acls_ok env iface0 iface1 hinit
  refine ⟨h1, ?_, ?_⟩
  · intro calls i r c hr hc hret
    exact register_ipv6_acl_seq_step env calls iface1 1 h1.2.2 (by omega) i r c hr hc hret
  · intro iface rules cb_f ext_cb_f h8
    simp only [register_ipv6_acl, h8, GATEKEEPER_IPV6_ACL_MAX, if_true]

/-- C17 on the sample interface: the first registration, of the two BGP rules,
becomes category 1, and a registration on a full interface is refused. -/
theorem register_ipv6_acl_categories_witness :
    (sample_acl_iface.acl_funcs 0 = some acl_cb_func.drop_unmatched_ipv6_pkts ∧
      sample_acl_iface.ext_funcs 0 = none ∧ sample_acl_iface.acl_func_count = 1) ∧
    ((∀ rule ∈ (register_ipv6_acl sample_acl_env sample_register_call.ipv6_rules
        sample_register_call.cb_f sample_register_call.ext_cb_f sample_acl_iface).ipv6_rules,
        rule.data.userdata = 1 + 0) ∧
      (register_ipv6_acl sample_acl_env sample_register_call.ipv6_rules
        sample_register_call.cb_f sample_register_call.ext_cb_f
        sample_acl_iface).iface.acl_func_count = 1 + 0 + 1) ∧
    register_ipv6_acl sample_acl_env sample_register_call.ipv6_rules
        sample_register_call.cb_f sample_register_call.ext_cb_f sample_full_iface
      = ⟨-1, sample_register_call.ipv6_rules, sample_full_iface⟩ :=
  ⟨(register_ipv6_acl_categories sample_acl_env sample_named_iface sample_acl_iface rfl).1,
   ⟨((register_ipv6_acl_categories sample_acl_env sample_named_iface sample_acl_iface rfl).2.1
      [sample_register_call] 0 _ sample_register_call rfl rfl rfl).2.1,
    ((register_ipv6_acl_categories sample_acl_env sample_named_iface sample_acl_iface rfl).2.1
      [sample_register_call] 0 _ sample_register_call rfl rfl rfl).2.2.2.2.2⟩,
   (register_ipv6_acl_categories sample_acl_env sample_named_iface sample_acl_iface rfl).2.2
      sample_full_iface sample_register_call.ipv6_rules sample_register_call.cb_f
      sample_register_call.ext_cb_f rfl⟩

/-! ## `process_ipv6_acl` -/

theorem acl_calls_append (a b : List acl_event) :
    acl_calls (a ++ b) = acl_calls a ++ acl_calls b := by
  simp [acl_calls, List.filterMap_append]

theorem acl_freed_append (a b : List acl_event) :
    acl_freed (a ++ b) = acl_freed a ++ acl_freed b := by
  simp [acl_freed, List.filterMap_append]

theorem acl_no_match_logs_append (a b : List acl_event) :
    acl_no_match_logs (a ++ b) = acl_no_match_logs a + acl_no_match_logs b := by
  simp [acl_no_match_logs, List.filter_append]

theorem acl_events_of_ext (ev : List acl_event) (h : ∀ e ∈ ev, e.is_ext_call = true) :
    acl_calls ev = [] ∧ acl_freed ev = [] ∧ acl_no_match_logs ev = 0 := by
  induction ev with
  | nil => exact ⟨rfl, rfl, rfl⟩
  | cons e ev ih =>
    obtain ⟨h1, h2, h3⟩ := ih (fun x hx => h x (List.mem_cons_of_mem _ hx))
    have he := h e (List.mem_cons_self _ _)
    cases e <;> simp [acl_event.is_ext_call] at he
    refine ⟨?_, ?_, ?_⟩
    · simpa [acl_calls] using h1
    · simpa [acl_freed] using h2
    · simpa [acl_no_match_logs] using h3

theorem acl_events_of_drop (pkts : List rte_mbuf) :
    acl_calls (drop_unmatched_ipv6_pkts pkts).2 = [] ∧
    acl_freed (drop_unmatched_ipv6_pkts pkts).2 = pkts ∧
    acl_no_match_logs (drop_unmatched_ipv6_pkts pkts).2 = pkts.length := by
  induction pkts with
  | nil => exact ⟨rfl, rfl, rfl⟩
  | cons p pkts ih =>
    obtain ⟨h1, h2, h3⟩ := ih
    simp only [drop_unmatched_ipv6_pkts] at h1 h2 h3 ⊢
    refine ⟨?_, ?_, ?_⟩
    · simpa [acl_calls, List.flatMap_cons] using h1
    · simpa [acl_freed, List.flatMap_cons] using h2
    · simpa [acl_no_match_logs, List.flatMap_cons] using h3

/-- With no NULL among the extension-header callbacks tried, the loop ends
with the first category whose callback returns 0. -/
theorem try_ext_funcs_eq (env : acl_env) (iface : gatekeeper_if) (pkt : rte_mbuf)
    (js : List Nat) (h : ∀ j ∈ js, iface.ext_funcs j ≠ none) :
    ∃ ev, try_ext_funcs env iface pkt js =
        some ((js.find? fun j =>
          match iface.ext_funcs j with
          | some f => decide (env.ext_cb f pkt = 0)
          | none => false).getD 0, ev) ∧
      ∀ e ∈ ev, e.is_ext_call = true := by
  induction js with
  | nil => exact ⟨[], rfl, fun e he => absurd he (List.not_mem_nil _)⟩
  | cons j js ih =>
    obtain ⟨ev, hev, hall⟩ := ih (fun x hx => h x (List.mem_cons_of_mem _ hx))
    have hj := h j (List.mem_cons_self _ _)
    cases hf : iface.ext_funcs j with
    | none => exact absurd hf hj
    | some f =>
      by_cases h0 : env.ext_cb f pkt = 0
      · refine ⟨[acl_event.ext_call j f pkt], ?_, ?_⟩
        · simp [try_ext_funcs, hf, h0, List.find?_cons]
        · intro e he
          simp only [List.mem_singleton] at he
          subst he; rfl
      · refine ⟨acl_event.ext_call j f pkt :: ev, ?_, ?_⟩
        · simp only [try_ext_funcs, hf, h0, if_false, hev, List.find?_cons, decide_False]
        · intro e he
          rcases List.mem_cons.mp he with rfl | he
          · rfl
          · exact hall e he

theorem category_of_lt (env : acl_env) (iface : gatekeeper_if) (res : Nat) (pkt : rte_mbuf)
    (hcount : 1 ≤ iface.acl_func_count) (hres : res < iface.acl_func_count) :
    category_of env iface res pkt < iface.acl_func_count := by
  unfold category_of
  split_ifs with h
  · cases hfind : (List.range' 1 (iface.acl_func_count - 1)).find? fun j =>
        match iface.ext_funcs j with
        | some f => decide (env.ext_cb f pkt = 0)
        | none => false with
    | none => exact hcount
    | some j =>
      have hmem := List.mem_of_find?_eq_some hfind
      rw [List.mem_range'_1] at hmem
      simp only [Option.getD_some]
      omega
  · exact hres

theorem category_pkts_cons (mbuf : rte_mbuf) (mbufs : List rte_mbuf) (c : Nat)
    (cats : List Nat) (k : Nat) :
    category_pkts (mbuf :: mbufs) (c :: cats) k =
      (if c = k then [mbuf] else []) ++ category_pkts mbufs cats k := by
  simp only [category_pkts, List.zip_cons_cons, List.filter_cons]
  by_cases h : c = k <;> simp [h]

/-- The splitting loop puts every packet at the end of the buffer of its
category. -/
theorem split_pkts_eq (env : acl_env) (iface : gatekeeper_if) (res : Nat → Nat)
    (hcount : 1 ≤ iface.acl_func_count)
    (hext : ∀ j, 1 ≤ j → j < iface.acl_func_count → iface.ext_funcs j ≠ none)
    (mbufs : List rte_mbuf) :
    ∀ (i : Nat) (pkts0 : Nat → List rte_mbuf),
      (∀ k, k < mbufs.length → res (i + k) < iface.acl_func_count) →
      ∃ ev, split_pkts env iface res i mbufs pkts0 =
          some (fun k => pkts0 k ++ category_pkts mbufs (categories env iface res i mbufs) k,
            ev) ∧
        ∀ e ∈ ev, e.is_ext_call = true := by
  induction mbufs with
  | nil =>
    intro i pkts0 _
    exact ⟨[], by simp [split_pkts, category_pkts, categories],
      fun e he => absurd he (List.not_mem_nil _)⟩
  | cons mbuf mbufs ih =>
    intro i pkts0 hres
    have hres0 : res i < iface.acl_func_count := by
      have := hres 0 (by simp)
      simpa using this
    have hlt := category_of_lt env iface (res i) mbuf hcount hres0
    obtain ⟨ev1, hfound, hall1⟩ : ∃ ev1,
        (if res i = RTE_ACL_INVALID_USERDATA then
          try_ext_funcs env iface mbuf (List.range' 1 (iface.acl_func_count - 1))
        else some (res i, [])) = some (category_of env iface (res i) mbuf, ev1) ∧
        ∀ e ∈ ev1, e.is_ext_call = true := by
      by_cases h0 : res i = RTE_ACL_INVALID_USERDATA
      · obtain ⟨ev, hev, hall⟩ := try_ext_funcs_eq env iface mbuf
          (List.range' 1 (iface.acl_func_count - 1)) (by
            intro j hj
            rw [List.mem_range'_1] at hj
            exact hext j hj.1 (by omega))
        refine ⟨ev, ?_, hall⟩
        rw [if_pos h0, hev]
        simp only [category_of, h0, if_true]
      · refine ⟨[], ?_, fun e he => absurd he (List.not_mem_nil _)⟩
        rw [if_neg h0]
        simp only [category_of, h0, if_false]
    obtain ⟨ev2, hrest, hall2⟩ := ih (i + 1)
      (fun k => if k = category_of env iface (res i) mbuf then pkts0 k ++ [mbuf] else pkts0 k)
      (fun k hk => by
        have := hres (k + 1) (by simpa using hk)
        rwa [show i + (k + 1) = i + 1 + k from by omega] at this)
    refine ⟨ev1 ++ ev2, ?_, ?_⟩
    · simp only [split_pkts, hfound, hlt, if_true, hrest, categories]
      congr 2
      funext k
      rw [category_pkts_cons]
      by_cases hk : k = category_of env iface (res i) mbuf
      · subst hk
        simp
      · rw [if_neg hk, if_neg (fun h => hk h.symm)]
        simp
    · intro e he
      rcases List.mem_append.mp he with h | h
      · exact hall1 e h
      · exact hall2 e h

/-- With no NULL among the match callbacks called, every non-empty buffer is
handed to its callback once, in increasing order of the categories, and
packets are freed and `no match` warnings logged by the drop callback only. -/
theorem call_acl_funcs_eq (env : acl_env) (iface : gatekeeper_if) (pkts : Nat → List rte_mbuf)
    (is : List Nat) (h : ∀ i ∈ is, iface.acl_funcs i ≠ none) :
    ∃ ev, call_acl_funcs env iface pkts is = some ev ∧
      acl_calls ev = is.filterMap (fun i =>
        if (pkts i).length = 0 then none
        else (iface.acl_funcs i).map fun f => (i, f, pkts i)) ∧
      acl_freed ev = (is.filter fun i =>
        decide (iface.acl_funcs i = some acl_cb_func.drop_unmatched_ipv6_pkts)).flatMap pkts ∧
      acl_no_match_logs ev = ((is.filter fun i =>
        decide (iface.acl_funcs i = some acl_cb_func.drop_unmatched_ipv6_pkts)).flatMap
          pkts).length := by
  induction is with
  | nil => exact ⟨[], rfl, rfl, rfl, rfl⟩
  | cons i is ih =>
    obtain ⟨ev, hev, h1, h2, h3⟩ := ih (fun x hx => h x (List.mem_cons_of_mem _ hx))
    have hi := h i (List.mem_cons_self _ _)
    cases hf : iface.acl_funcs i with
    | none => exact absurd hf hi
    | some f =>
      by_cases hlen : (pkts i).length = 0
      · have hnil : pkts i = [] := List.length_eq_zero.mp hlen
        refine ⟨ev, ?_, ?_, ?_, ?_⟩
        · simp only [call_acl_funcs, hlen, if_true, hev]
        · simp only [List.filterMap_cons, hlen, if_true, h1]
        · rw [h2, List.filter_cons]
          split_ifs <;> simp [List.flatMap_cons, hnil]
        · rw [h3, List.filter_cons]
          split_ifs <;> simp [List.flatMap_cons, hnil]
      · have hne : pkts i ≠ [] := fun hnil => hlen (by rw [hnil]; rfl)
        by_cases hd : f = acl_cb_func.drop_unmatched_ipv6_pkts
        · subst hd
          obtain ⟨d1, d2, d3⟩ := acl_events_of_drop (pkts i)
          refine ⟨acl_event.acl_call i acl_cb_func.drop_unmatched_ipv6_pkts (pkts i) ::
            ((drop_unmatched_ipv6_pkts (pkts i)).2 ++ []) ++ ev, ?_, ?_, ?_, ?_⟩
          · simp only [call_acl_funcs, hlen, if_false, hf, if_true, hev]
            rfl
          · rw [List.cons_append, List.append_nil]
            simp only [List.filterMap_cons, hlen, if_false, hf, Option.map_some', ← h1]
            rw [← List.singleton_append, acl_calls_append, acl_calls_append, d1]
            rfl
          · rw [List.cons_append, List.append_nil, ← List.singleton_append, acl_freed_append,
              acl_freed_append, d2, h2, List.filter_cons]
            simp [hf, List.flatMap_cons, acl_freed]
          · rw [List.cons_append, List.append_nil, ← List.singleton_append,
              acl_no_match_logs_append, acl_no_match_logs_append, d3, h3, List.filter_cons]
            simp [hf, List.flatMap_cons, acl_no_match_logs]
        · have hfil : (List.filter (fun i => decide (iface.acl_funcs i =
              some acl_cb_func.drop_unmatched_ipv6_pkts)) (i :: is)) =
              List.filter (fun i => decide (iface.acl_funcs i =
              some acl_cb_func.drop_unmatched_ipv6_pkts)) is := by
            rw [List.filter_cons]
            exact if_neg (by simpa [hf] using hd)
          refine ⟨acl_event.acl_call i f (pkts i) ::
            ([] ++ (if env.acl_cb f (pkts i) < 0 then [acl_event.log_acl_func_failed i]
              else [])) ++ ev, ?_, ?_, ?_, ?_⟩
          · simp only [call_acl_funcs, hlen, if_false, hf, hd, hev]
            rfl
          · simp only [List.filterMap_cons, hlen, if_false, hf, Option.map_some', ← h1]
            split_ifs <;> simp [acl_calls]
          · rw [hfil, ← h2]
            split_ifs <;> simp [acl_freed]
          · rw [hfil, ← h3]
            split_ifs <;> simp [acl_no_match_logs]

theorem categories_length (env : acl_env) (iface : gatekeeper_if) (res : Nat → Nat)
    (mbufs : List rte_mbuf) : ∀ i, (categories env iface res i mbufs).length = mbufs.length := by
  induction mbufs with
  | nil => intro i; rfl
  | cons m ms ih => intro i; simp [categories, ih]

theorem categories_get (env : acl_env) (iface : gatekeeper_if) (res : Nat → Nat)
    (mbufs : List rte_mbuf) :
    ∀ i k, (categories env iface res i mbufs).get? k =
      (mbufs.get? k).map fun pkt => category_of env iface (res (i + k)) pkt := by
  induction mbufs with
  | nil => intro i k; simp [categories]
  | cons m ms ih =>
    intro i k
    cases k with
    | zero => simp [categories]
    | succ k =>
      simp only [categories, List.get?_cons_succ, ih]
      rw [show i + 1 + k = i + (k + 1) from by omega]

theorem categories_lt (env : acl_env) (iface : gatekeeper_if) (res : Nat → Nat)
    (hcount : 1 ≤ iface.acl_func_count) (mbufs : List rte_mbuf) :
    ∀ i, (∀ k, k < mbufs.length → res (i + k) < iface.acl_func_count) →
      ∀ c ∈ categories env iface res i mbufs, c < iface.acl_func_count := by
  induction mbufs with
  | nil => intro i _ c hc; simp [categories] at hc
  | cons m ms ih =>
    intro i hres c hc
    simp only [categories, List.mem_cons] at hc
    rcases hc with rfl | hc
    · exact category_of_lt env iface _ m hcount (by simpa using hres 0 (by simp))
    · exact ih (i + 1) (fun k hk => by
        have := hres (k + 1) (by simpa using hk)
        rwa [show i + (k + 1) = i + 1 + k from by omega] at this) c hc

/-- The sub-bursts of the categories below `n` hold every packet of the burst
once. -/
theorem category_pkts_sum (n : Nat) (mbufs : List rte_mbuf) :
    ∀ cats : List Nat, cats.length = mbufs.length → (∀ c ∈ cats, c < n) →
      (∑ k in Finset.range n, (category_pkts mbufs cats k).length) = mbufs.length := by
  induction mbufs with
  | nil =>
    intro cats _ _
    simp [category_pkts]
  | cons m ms ih =>
    intro cats hlen hlt
    match cats, hlen, hlt with
    | c :: cats, hlen, hlt =>
      have hc : c < n := hlt c (List.mem_cons_self _ _)
      have ih' := ih cats (by simpa using hlen) (fun x hx => hlt x (List.mem_cons_of_mem _ hx))
      simp only [category_pkts_cons, List.length_append, Finset.sum_add_distrib, ih',
        List.length_cons]
      have : (∑ k in Finset.range n, (if c = k then [m] else []).length) = 1 := by
        have h1 : ∀ k, (if c = k then [m] else ([] : List rte_mbuf)).length
            = if c = k then 1 else 0 := by
          intro k; split_ifs <;> rfl
        simp only [h1]
        rw [Finset.sum_ite_eq]
        simp [hc]
      omega

/-- A packet falls in category 0 exactly when the classifier's result is 0
and no extension-header callback of the categories 1, 2, ... returns 0. -/
theorem category_of_eq_zero_iff (env : acl_env) (iface : gatekeeper_if) (res : Nat)
    (pkt : rte_mbuf) :
    category_of env iface res pkt = 0 ↔
      res = 0 ∧ ∀ j f, 1 ≤ j → j < iface.acl_func_count → iface.ext_funcs j = some f →
        env.ext_cb f pkt ≠ 0 := by
  unfold category_of
  by_cases h0 : res = RTE_ACL_INVALID_USERDATA
  · rw [if_pos h0]
    cases hfind : (List.range' 1 (iface.acl_func_count - 1)).find? fun j =>
        match iface.ext_funcs j with
        | some f => decide (env.ext_cb f pkt = 0)
        | none => false with
    | none =>
      simp only [Option.getD_none, true_iff]
      refine ⟨h0, ?_⟩
      intro j f hj1 hj2 hf hcb
      have := List.find?_eq_none.mp hfind j (by rw [List.mem_range'_1]; omega)
      simp [hf, hcb] at this
    | some j =>
      have hmem := List.mem_of_find?_eq_some hfind
      have hp := List.find?_some hfind
      rw [List.mem_range'_1] at hmem
      simp only [Option.getD_some]
      constructor
      · intro hj; omega
      · intro ⟨_, hall⟩
        exfalso
        cases hf : iface.ext_funcs j with
        | none => simp [hf] at hp
        | some f =>
          simp only [hf, decide_eq_true_eq] at hp
          exact hall j f hmem.1 (by omega) hf hp
  · rw [if_neg h0]
    constructor
    · intro h; exact absurd h h0
    · intro h; exact h.1

theorem drop_filter_range (iface : gatekeeper_if) (hcount : 1 ≤ iface.acl_func_count)
    (h0 : iface.acl_funcs 0 = some acl_cb_func.drop_unmatched_ipv6_pkts)
    (hother : ∀ i, 1 ≤ i → i < iface.acl_func_count →
      iface.acl_funcs i ≠ some acl_cb_func.drop_unmatched_ipv6_pkts) :
    (List.range iface.acl_func_count).filter (fun i =>
      decide (iface.acl_funcs i = some acl_cb_func.drop_unmatched_ipv6_pkts)) = [0] := by
  obtain ⟨n, hn⟩ : ∃ n, iface.acl_func_count = n + 1 := ⟨iface.acl_func_count - 1, by omega⟩
  rw [hn, List.range_succ_eq_map, List.filter_cons, if_pos (by simpa using h0)]
  congr 1
  rw [List.filter_eq_nil_iff]
  intro a ha
  obtain ⟨k, hk, rfl⟩ := List.mem_map.mp ha
  rw [List.mem_range] at hk
  simpa using hother (k + 1) (by omega) (by omega)

/-- C18. Reserved category: in `process_ipv6_acl` on an IPv6-configured
interface whose categories are installed (no NULL callback; the drop callback
is category 0 and no other), with a classifier that succeeds and returns
installed categories, every category with packets gets one call of its match
callback, with its packets in burst order, and the sub-bursts of all
categories hold every packet of the burst once; a packet is in category 0
exactly when the classifier returns 0 for it and no extension-header callback
of the categories 1, 2, ... returns 0; the packets freed are exactly those of
category 0, and one `no match` warning is logged for each of them. -/
theorem process_ipv6_acl_categories (env : acl_env) (iface : gatekeeper_if)
    (lcore_id : Nat) (acl : acl_search)
    (hcfg : iface.configured_proto &&& GK_CONFIGURED_IPV6 ≠ 0)
    (hcls : 0 ≤ (env.rte_acl_classify
      (iface.ipv6_acls (env.rte_lcore_to_socket_id lcore_id)) acl.data).1)
    (hres : ∀ k, k < (acl.mbufs.take acl.num).length →
      (env.rte_acl_classify (iface.ipv6_acls (env.rte_lcore_to_socket_id lcore_id))
        acl.data).2 k < iface.acl_func_count)
    (hcount : 1 ≤ iface.acl_func_count)
    (hext : ∀ j, 1 ≤ j → j < iface.acl_func_count → iface.ext_funcs j ≠ none)
    (hacl : ∀ i, i < iface.acl_func_count → iface.acl_funcs i ≠ none)
    (h0 : iface.acl_funcs 0 = some acl_cb_func.drop_unmatched_ipv6_pkts)
    (hother : ∀ i, 1 ≤ i → i < iface.acl_func_count →
      iface.acl_funcs i ≠ some acl_cb_func.drop_unmatched_ipv6_pkts) :
    ∃ (acl1 : acl_search) (events : List acl_event) (cats : List Nat),
      process_ipv6_acl env iface lcore_id acl = some (0, acl1, events) ∧ acl1.num = 0 ∧
      cats = categories env iface (env.rte_acl_classify
        (iface.ipv6_acls (env.rte_lcore_to_socket_id lcore_id)) acl.data).2 0
        (acl.mbufs.take acl.num) ∧
      acl_calls events = (List.range iface.acl_func_count).filterMap (fun i =>
        if (category_pkts (acl.mbufs.take acl.num) cats i).length = 0 then none
        else (iface.acl_funcs i).map fun f =>
          (i, f, category_pkts (acl.mbufs.take acl.num) cats i)) ∧
      (∑ i in Finset.range iface.acl_func_count,
        (category_pkts (acl.mbufs.take acl.num) cats i).length)
        = (acl.mbufs.take acl.num).length ∧
      (∀ k pkt, (acl.mbufs.take acl.num).get? k = some pkt →
        (cats.get? k = some 0 ↔
          (env.rte_acl_classify (iface.ipv6_acls (env.rte_lcore_to_socket_id lcore_id))
            acl.data).2 k = 0 ∧
          ∀ j f, 1 ≤ j → j < iface.acl_func_count → iface.ext_funcs j = some f →
            env.ext_cb f pkt ≠ 0)) ∧
      acl_freed events = category_pkts (acl.mbufs.take acl.num) cats 0 ∧
      acl_no_match_logs events = (category_pkts (acl.mbufs.take acl.num) cats 0).length := by
  generalize hsock : env.rte_lcore_to_socket_id lcore_id = socket_id at hcls hres ⊢
  generalize hcl : env.rte_acl_classify (iface.ipv6_acls socket_id) acl.data = cl at hcls hres ⊢
  obtain ⟨ret, res⟩ := cl
  simp only at hcls hres
  generalize hm : acl.mbufs.take acl.num = mbufs at hres ⊢
  obtain ⟨ev1, hsplit, hall1⟩ := split_pkts_eq env iface res hcount hext mbufs 0 (fun _ => [])
    (fun k hk => by simpa using hres k hk)
  obtain ⟨e1, e2, e3⟩ := acl_events_of_ext ev1 hall1
  obtain ⟨ev2, hcall, c1, c2, c3⟩ := call_acl_funcs_eq env iface
    (fun k => [] ++ category_pkts mbufs (categories env iface res 0 mbufs) k)
    (List.range iface.acl_func_count) (fun i hi => hacl i (List.mem_range.mp hi))
  simp only [List.nil_append] at hsplit hcall c1 c2 c3
  rw [drop_filter_range iface hcount h0 hother] at c2 c3
  refine ⟨{ acl with res := res, num := 0 }, ev1 ++ ev2, _, ?_, rfl, rfl, ?_, ?_, ?_, ?_, ?_⟩
  · simp only [process_ipv6_acl, hsock, hcl, hm, if_neg hcfg, if_neg (not_lt.mpr hcls), hsplit,
      hcall]
  · rw [acl_calls_append, e1, List.nil_append, c1]
  · exact category_pkts_sum _ mbufs _ (categories_length _ _ _ _ _)
      (categories_lt env iface res hcount mbufs 0 (fun k hk => by simpa using hres k hk))
  · intro k pkt hk
    rw [categories_get, hk, Option.map_some', Option.some.injEq, Nat.zero_add]
    exact category_of_eq_zero_iff env iface (res k) pkt
  · rw [acl_freed_append, e2, List.nil_append, c2]
    simp
  · rw [acl_no_match_logs_append, e3, Nat.zero_add, c3]
    simp

theorem sample_bgp_iface_count : sample_bgp_iface.acl_func_count = 2 := rfl

/-- C18 on a burst of three packets of which the classifier puts the second in
the BGP category and no callback claims the others. -/
theorem process_ipv6_acl_categories_witness :
    ∃ (acl1 : acl_search) (events : List acl_event) (cats : List Nat),
      process_ipv6_acl sample_classify_env sample_bgp_iface 0 sample_acl_search
        = some (0, acl1, events) ∧ acl1.num = 0 ∧
      cats = categories sample_classify_env sample_bgp_iface
        (sample_classify_env.rte_acl_classify
          (sample_bgp_iface.ipv6_acls (sample_classify_env.rte_lcore_to_socket_id 0))
          sample_acl_search.data).2 0
        (sample_acl_search.mbufs.take sample_acl_search.num) ∧
      acl_calls events = (List.range sample_bgp_iface.acl_func_count).filterMap (fun i =>
        if (category_pkts (sample_acl_search.mbufs.take sample_acl_search.num) cats i).length
          = 0 then none
        else (sample_bgp_iface.acl_funcs i).map fun f =>
          (i, f, category_pkts (sample_acl_search.mbufs.take sample_acl_search.num) cats i)) ∧
      (∑ i in Finset.range sample_bgp_iface.acl_func_count,
        (category_pkts (sample_acl_search.mbufs.take sample_acl_search.num) cats i).length)
        = (sample_acl_search.mbufs.take sample_acl_search.num).length ∧
      (∀ k pkt, (sample_acl_search.mbufs.take sample_acl_search.num).get? k = some pkt →
        (cats.get? k = some 0 ↔
          (sample_classify_env.rte_acl_classify
            (sample_bgp_iface.ipv6_acls (sample_classify_env.rte_lcore_to_socket_id 0))
            sample_acl_search.data).2 k = 0 ∧
          ∀ j f, 1 ≤ j → j < sample_bgp_iface.acl_func_count →
            sample_bgp_iface.ext_funcs j = some f →
            sample_classify_env.ext_cb f pkt ≠ 0)) ∧
      acl_freed events =
        category_pkts (sample_acl_search.mbufs.take sample_acl_search.num) cats 0 ∧
      acl_no_match_logs events =
        (category_pkts (sample_acl_search.mbufs.take sample_acl_search.num) cats 0).length :=
  process_ipv6_acl_categories sample_classify_env sample_bgp_iface 0 sample_acl_search
    (by decide) (by decide)
    (fun k _ => by
      show (if k = 1 then 1 else 0) < 2
      split_ifs <;> omega)
    (by decide)
    (fun j h1 h2 => by
      rw [sample_bgp_iface_count] at h2
      have : j = 1 := by omega
      subst this
      decide)
    (fun i h2 => by
      rw [sample_bgp_iface_count] at h2
      interval_cases i <;> decide)
    rfl
    (fun i h1 h2 => by
      rw [sample_bgp_iface_count] at h2
      have : i = 1 := by omega
      subst this
      decide)

/-- The sample burst, evaluated: the first and the third packet go to the drop
callback, which frees them with one warning each, the second to the BGP
callback. -/
theorem process_ipv6_acl_sample :
    (process_ipv6_acl sample_classify_env sample_bgp_iface 0 sample_acl_search).map
      (fun r => (r.1, acl_calls r.2.2, acl_freed r.2.2, acl_no_match_logs r.2.2)) =
    some (0,
      [(0, acl_cb_func.drop_unmatched_ipv6_pkts,
          [{ sample_fresh_mbuf with data_len := 60 }, { sample_fresh_mbuf with data_len := 90 }]),
       (1, acl_cb_func.submit_bgp, [{ sample_fresh_mbuf with data_len := 74 }])],
      [{ sample_fresh_mbuf with data_len := 60 }, { sample_fresh_mbuf with data_len := 90 }],
      2) := rfl

/-! ## `match_bgp` -/

theorem load16_eq_be_iff (m : Mem) (a x : Nat) (hb : ∀ i, m i < 256) :
    load16 m a = rte_cpu_to_be_16 x ↔ loadBytes m a 2 = be16_bytes x := by
  have h0 := hb a
  have h1 := hb (a + 1)
  simp only [load16, rte_cpu_to_be_16, loadBytes, be16_bytes, List.range_succ, List.range_zero,
    List.nil_append, List.map_cons, List.map_nil, List.cons_append, Nat.add_zero,
    List.cons.injEq, and_true]
  omega

theorem writeList_bytes (m : Mem) (a : Nat) (l : List Nat) (hm : ∀ i, m i < 256)
    (hl : ∀ x ∈ l, x < 256) : ∀ i, writeList m a l i < 256 := by
  intro i
  simp only [writeList]
  split_ifs with h
  · rw [List.getD_eq_getElem _ _ (by omega)]
    exact hl _ (List.getElem_mem _)
  · exact hm i

/-- C19. BGP matcher: `match_bgp` returns 0 or -ENOENT, and it returns 0
exactly for a packet whose ethertype is IPv6, whose length is at least 74
bytes and at least 14 + TCP offset + 20, whose IPv6 destination is the
interface's global IPv6 address, whose extension-header chain ends in TCP
(`ipv6_skip_exthdr` returns a non-negative offset and next header 6), and
whose TCP source port or destination port is the configured BGP port; every
other packet gets -ENOENT. -/
theorem match_bgp_zero_iff (env : exthdr_env) (cps_conf : cps_config) (pkt : rte_mbuf)
    (iface : gatekeeper_if) (hbytes : ∀ i, pkt.buf i < 256)
    (hoff : (env.ipv6_skip_exthdr pkt.buf (pkt.data_off + 14) (pkt.data_len - 14)).1 + 34
      < 65536) :
    (match_bgp env cps_conf pkt iface = 0 ∨ match_bgp env cps_conf pkt iface = -ENOENT) ∧
    (match_bgp env cps_conf pkt iface = 0 ↔
      loadBytes pkt.buf (pkt.data_off + 12) 2 = be16_bytes 0x86DD ∧
      74 ≤ pkt.data_len ∧
      loadBytes pkt.buf (pkt.data_off + 14 + 24) 16 = loadBytes iface.ip6_addr 0 16 ∧
      0 ≤ (env.ipv6_skip_exthdr pkt.buf (pkt.data_off + 14) (pkt.data_len - 14)).1 ∧
      (env.ipv6_skip_exthdr pkt.buf (pkt.data_off + 14) (pkt.data_len - 14)).2 = 6 ∧
      14 + (env.ipv6_skip_exthdr pkt.buf (pkt.data_off + 14) (pkt.data_len - 14)).1 + 20
        ≤ pkt.data_len ∧
      (loadBytes pkt.buf (pkt.data_off + 14 +
          (env.ipv6_skip_exthdr pkt.buf (pkt.data_off + 14) (pkt.data_len - 14)).1.toNat) 2
          = be16_bytes cps_conf.tcp_port_bgp ∨
        loadBytes pkt.buf (pkt.data_off + 14 +
          (env.ipv6_skip_exthdr pkt.buf (pkt.data_off + 14) (pkt.data_len - 14)).1.toNat + 2) 2
          = be16_bytes cps_conf.tcp_port_bgp)) := by
  generalize hsk : env.ipv6_skip_exthdr pkt.buf (pkt.data_off + 14) (pkt.data_len - 14) = sk
    at hoff ⊢
  obtain ⟨off, nh⟩ := sk
  simp only at hoff ⊢
  have het := load16_eq_be_iff pkt.buf (pkt.data_off + 12) 34525 hbytes
  have hsp := fun a => load16_eq_be_iff pkt.buf a cps_conf.tcp_port_bgp hbytes
  simp only [match_bgp, sizeof_ether_hdr, sizeof_ipv6_hdr, sizeof_tcp_hdr, hsk, IPPROTO_TCP,
    ENOENT, to_uint16, ne_eq, ETHER_TYPE_IPv6, het, hsp]
  by_cases h1 : loadBytes pkt.buf (pkt.data_off + 12) 2 = be16_bytes 34525
  swap
  · simp [h1]
  by_cases h2 : pkt.data_len < 74
  · simp [h1, h2]
  by_cases h3 : loadBytes pkt.buf (pkt.data_off + 14 + 24) 16 = loadBytes iface.ip6_addr 0 16
  swap
  · simp [h1, h2, h3]
  by_cases h4 : off < 0
  · simp [h1, h2, h3, h4]
  by_cases h5 : nh = 6
  swap
  · simp [h1, h2, h3, h4, h5]
  have hmin : ((74 : Int) + off - 40) % 65536 = 34 + off := by
    omega
  by_cases h6 : (pkt.data_len : Int) < 34 + off
  · simp [h1, h2, h3, h4, h5, hmin, h6]
    omega
  have h7 : (14 : Int) + off + 20 ≤ pkt.data_len := by omega
  have h8 : (74 : Nat) ≤ pkt.data_len := by omega
  have h9 : (0 : Int) ≤ off := by omega
  by_cases hp : loadBytes pkt.buf (pkt.data_off + 14 + off.toNat) 2
      = be16_bytes cps_conf.tcp_port_bgp
  · simp [h1, h2, h3, h4, h5, hmin, h6, hp, h7, h8, h9]
  · by_cases hq : loadBytes pkt.buf (pkt.data_off + 14 + off.toNat + 2) 2
        = be16_bytes cps_conf.tcp_port_bgp
    · simp [h1, h2, h3, h4, h5, hmin, h6, hp, hq, h7, h8, h9]
    · simp [h1, h2, h3, h4, h5, hmin, h6, hp, hq]

/-- C19 on scenario S3: the packet IPv6(dst = 2001:db8::1) / TCP(54321 -> 179)
matches on the interface with address 2001:db8::1. -/
theorem match_bgp_zero_iff_witness :
    match_bgp sample_exthdr_env sample_cps_conf sample_bgp_pkt sample_front_s2 = 0 :=
  (match_bgp_zero_iff sample_exthdr_env sample_cps_conf sample_bgp_pkt sample_front_s2
    (writeList_bytes _ _ _ (fun _ => by decide) (by decide)) (by decide)).2.mpr
    ⟨by decide, by decide, by decide, by decide, by decide, by decide, Or.inr (by decide)⟩

/-- The same packet sent to port 180 instead gets -ENOENT. -/
theorem match_bgp_other_port :
    match_bgp sample_exthdr_env sample_cps_conf
      { sample_bgp_pkt with buf := store8 sample_bgp_pkt.buf (128 + 57) 180 }
      sample_front_s2 = -ENOENT := by
  decide

/-! ## `submit_bgp` -/

/-- C20. Mailbox overflow: when the mailbox has no free slot (`mb_alloc_entry`
returns NULL) and the burst is no longer than `gatekeeper_max_pkt_burst`,
`submit_bgp` returns -ENOMEM, a negative value, frees every packet of its burst
once, in order, and does nothing else: the CPS block and its mailbox are as
before, so a later `mb_dequeue_burst` returns the messages it would have
returned before the call, in the same order. -/
theorem submit_bgp_mailbox_full (max_burst : Nat) (cps_conf : cps_config)
    (pkts : List rte_mbuf) (iface : iface_ptr)
    (hfull : mb_alloc_entry cps_conf.mailbox = none)
    (hburst : pkts.length ≤ max_burst % 65536) :
    submit_bgp max_burst cps_conf pkts iface =
      some (-ENOMEM, cps_conf, pkts.map cps_event.pktmbuf_free) ∧
    -ENOMEM < 0 ∧
    ∀ r, submit_bgp max_burst cps_conf pkts iface = some r →
      r.2.1.mailbox.queue = cps_conf.mailbox.queue ∧
      ∀ n, (mb_dequeue_burst r.2.1.mailbox n).1 = cps_conf.mailbox.queue.take n := by
  have h : submit_bgp max_burst cps_conf pkts iface =
      some (-ENOMEM, cps_conf, pkts.map cps_event.pktmbuf_free) := by
    simp only [submit_bgp, hfull, not_le.mpr (Nat.lt_succ_of_le hburst), hburst,
      not_true_eq_false, if_false]
  refine ⟨h, by decide, ?_⟩
  intro r hr
  rw [h] at hr
  cases hr
  exact ⟨rfl, fun n => rfl⟩

/-- C20 on scenario S6: a mailbox of two slots is filled by two bursts; the
third `submit_bgp` fails with -ENOMEM and frees its two packets. -/
theorem submit_bgp_mailbox_full_witness :
    submit_bgp 32 sample_cps_conf_mb_full (sample_burst 90) iface_ptr.front =
      some (-ENOMEM, sample_cps_conf_mb_full,
        (sample_burst 90).map cps_event.pktmbuf_free) :=
  (submit_bgp_mailbox_full 32 sample_cps_conf_mb_full (sample_burst 90) iface_ptr.front
    rfl (by decide)).1

/-- Scenario S6, evaluated: after the failed third call the consumer dequeues
the first two bursts, in the order they were posted. -/
theorem submit_bgp_sample_drain :
    ((submit_bgp 32 sample_cps_conf_mb_full (sample_burst 90) iface_ptr.front).map
      fun r => (mb_dequeue_burst r.2.1.mailbox CPS_REQ_BURST_SIZE).1) =
    some [cps_request.CPS_REQ_BGP ⟨sample_burst 74, 2, kni_ptr.front_kni⟩,
          cps_request.CPS_REQ_BGP ⟨sample_burst 80, 2, kni_ptr.back_kni⟩] := rfl

/-! ## No rollback in `get_queue_id` -/

theorem to_int16_succ (c : Int) (h1 : -1 ≤ c) (h2 : c < 32767) : to_int16 (c + 1) = c + 1 := by
  simp only [to_int16]; omega

/-- C30. No rollback on failed queue setup: when `get_queue_id` is called for
an lcore that has no index yet (with the counter in its range after
initialisation, -1 .. 32766) and configuring the new queue fails on one of the
interface's ports, the call returns a negative value, but the new index stays
recorded for that lcore and the counter stays advanced; the next call with the
same arguments returns that index, which is not negative, and asks no port
for a queue. -/
theorem get_queue_id_no_rollback (env : dpdk_env) (iface : gatekeeper_if) (ty : queue_type)
    (lcore : Nat) (hl : lcore < env.RTE_MAX_LCORE) (hty : ty ≠ QUEUE_TYPE_MAX)
    (hq : iface.queues ty lcore = GATEKEEPER_QUEUE_UNALLOCATED)
    (hc1 : -1 ≤ iface.queue_id ty) (hc2 : iface.queue_id ty < 32767)
    (hfail : ∃ p ∈ (List.range iface.num_ports).map (fun port => iface.ports.getD port 0),
      configure_queue env p (to_uint16 (iface.queue_id ty + 1)) ty
        (env.rte_lcore_to_socket_id lcore) < 0) :
    ∃ r1, get_queue_id env iface ty lcore = some r1 ∧ r1.ret < 0 ∧
      r1.iface.queues ty lcore = iface.queue_id ty + 1 ∧
      r1.iface.queue_id ty = iface.queue_id ty + 1 ∧
      0 ≤ iface.queue_id ty + 1 ∧
      get_queue_id env r1.iface ty lcore = some ⟨iface.queue_id ty + 1, r1.iface, []⟩ := by
  have hnew := to_int16_succ (iface.queue_id ty) hc1 hc2
  have hne : iface.queue_id ty + 1 ≠ GATEKEEPER_QUEUE_UNALLOCATED := by
    simp only [GATEKEEPER_QUEUE_UNALLOCATED]; omega
  obtain ⟨p, hp, hpf⟩ := hfail
  cases hr : (configure_ports env (to_uint16 (iface.queue_id ty + 1)) ty
      (env.rte_lcore_to_socket_id lcore)
      ((List.range iface.num_ports).map (fun port => iface.ports.getD port 0))).1 with
  | none => exact absurd hpf (configure_ports_none_all env _ ty _ _ hr p hp)
  | some ret =>
    have hret := configure_ports_some_neg env _ ty _ _ ret hr
    cases ty with
    | QUEUE_TYPE_MAX => exact absurd rfl hty
    | QUEUE_TYPE_RX =>
      simp only [gatekeeper_if.queues, gatekeeper_if.queue_id, if_true] at hq hnew hne hr hc1 hc2 ⊢
      refine ⟨⟨ret, { iface with
          rx_queue_id := iface.rx_queue_id + 1
          rx_queues := fun i => if i = lcore then iface.rx_queue_id + 1 else iface.rx_queues i },
        (configure_ports env (to_uint16 (iface.rx_queue_id + 1)) QUEUE_TYPE_RX
          (env.rte_lcore_to_socket_id lcore)
          ((List.range iface.num_ports).map (fun port => iface.ports.getD port 0))).2⟩, ?_, ?_⟩
      · simp only [get_queue_id, hl, not_true_eq_false, if_false, gatekeeper_if.queues,
          gatekeeper_if.queue_id, if_true, hq, ne_eq, hnew, hne, hr, reduceCtorEq]
      · refine ⟨hret, by simp, rfl, by omega, ?_⟩
        rw [get_queue_id_cached env _ QUEUE_TYPE_RX lcore hl (by decide)
          (by simpa [gatekeeper_if.queues] using hne)]
        simp [gatekeeper_if.queues]
    | QUEUE_TYPE_TX =>
      simp only [gatekeeper_if.queues, gatekeeper_if.queue_id, reduceCtorEq, if_false]
        at hq hnew hne hr hc1 hc2 ⊢
      refine ⟨⟨ret, { iface with
          tx_queue_id := iface.tx_queue_id + 1
          tx_queues := fun i => if i = lcore then iface.tx_queue_id + 1 else iface.tx_queues i },
        (configure_ports env (to_uint16 (iface.tx_queue_id + 1)) QUEUE_TYPE_TX
          (env.rte_lcore_to_socket_id lcore)
          ((List.range iface.num_ports).map (fun port => iface.ports.getD port 0))).2⟩, ?_, ?_⟩
      · simp only [get_queue_id, hl, not_true_eq_false, if_false, gatekeeper_if.queues,
          gatekeeper_if.queue_id, hq, ne_eq, hnew, hne, hr, reduceCtorEq]
      · refine ⟨hret, by simp, rfl, by omega, ?_⟩
        rw [get_queue_id_cached env _ QUEUE_TYPE_TX lcore hl (by decide)
          (by simpa [gatekeeper_if.queues] using hne)]
        simp [gatekeeper_if.queues]

/-- C30 on the sample interface with one RX queue configured on its port:
after the call for lcore 0, the call for lcore 1 fails with -22 and the next
call for lcore 1 returns index 1 without a queue setup. -/
theorem get_queue_id_no_rollback_witness :
    ∃ r1, get_queue_id (dpdk_configured 1 1) sample_first_result.iface QUEUE_TYPE_RX 1
        = some r1 ∧ r1.ret < 0 ∧
      r1.iface.queues QUEUE_TYPE_RX 1 = sample_first_result.iface.queue_id QUEUE_TYPE_RX + 1 ∧
      r1.iface.queue_id QUEUE_TYPE_RX = sample_first_result.iface.queue_id QUEUE_TYPE_RX + 1 ∧
      0 ≤ sample_first_result.iface.queue_id QUEUE_TYPE_RX + 1 ∧
      get_queue_id (dpdk_configured 1 1) r1.iface QUEUE_TYPE_RX 1
        = some ⟨sample_first_result.iface.queue_id QUEUE_TYPE_RX + 1, r1.iface, []⟩ :=
  get_queue_id_no_rollback (dpdk_configured 1 1) sample_first_result.iface QUEUE_TYPE_RX 1
    (by decide) (by decide) (by decide) (by decide) (by decide) ⟨0, by decide, by decide⟩

/-! ## The interface after `lua_init_iface` -/

theorem and_two_pow_ne_zero (x i : Nat) : x &&& 2 ^ i ≠ 0 ↔ x.testBit i = true := by
  rw [Nat.and_two_pow]
  cases x.testBit i <;> simp

theorem ipv4_if_configured_iff (iface : gatekeeper_if) :
    ipv4_if_configured iface = true ↔ iface.configured_proto.testBit 0 = true := by
  simp only [ipv4_if_configured, GK_CONFIGURED_IPV4, decide_eq_true_eq]
  exact and_two_pow_ne_zero _ 0

theorem ipv6_if_configured_iff (iface : gatekeeper_if) :
    ipv6_if_configured iface = true ↔ iface.configured_proto.testBit 1 = true := by
  simp only [ipv6_if_configured, GK_CONFIGURED_IPV6, decide_eq_true_eq]
  exact and_two_pow_ne_zero _ 1

/-- A round of the loop over `ip_cidrs` that reaches its end leaves the number
of ports alone and marks IPv4 or IPv6 configured, on top of what was marked. -/
theorem lua_init_iface_cidr_true (env : libc_env) (iface iface1 : gatekeeper_if)
    (errno e : Int) (s : List Char)
    (h : lua_init_iface_cidr env iface errno s = some (true, iface1, e)) :
    iface1.num_ports = iface.num_ports ∧ iface1.name = iface.name ∧
    (iface1.configured_proto = iface.configured_proto ||| GK_CONFIGURED_IPV4 ∨
     iface1.configured_proto = iface.configured_proto ||| GK_CONFIGURED_IPV6) := by
  simp only [lua_init_iface_cidr] at h
  split at h
  · simp at h
  · split at h
    · simp at h
    · rename_i iface2 hparsed
      have h2 : iface2.num_ports = iface.num_ports ∧ iface2.name = iface.name ∧
          (iface2.configured_proto = iface.configured_proto ||| GK_CONFIGURED_IPV4 ∨
           iface2.configured_proto = iface.configured_proto ||| GK_CONFIGURED_IPV6) := by
        split_ifs at hparsed
        · cases hparsed; exact ⟨rfl, rfl, Or.inl rfl⟩
        · cases hparsed; exact ⟨rfl, rfl, Or.inr rfl⟩
      split at h
      · simp at h
      · split_ifs at h
        all_goals first
          | (simp at h; done)
          | skip
        all_goals
          split at h
          · simp at h
          · split_ifs at h
            all_goals first
              | (simp at h; done)
              | (simp only [Option.some.injEq, Prod.mk.injEq, true_and] at h
                 obtain ⟨rfl, -⟩ := h
                 exact h2)

/-- A loop over `ip_cidrs` that reaches its end leaves the number of ports
alone, keeps what was marked configured, and, when it ran at least once,
leaves IPv4 or IPv6 marked configured. -/
theorem lua_init_iface_cidrs_true (env : libc_env) (cs : List (List Char)) :
    ∀ (iface iface1 : gatekeeper_if) (errno e : Int),
      lua_init_iface_cidrs env cs iface errno = some (true, iface1, e) →
      iface1.num_ports = iface.num_ports ∧ iface1.name = iface.name ∧
      (∀ i, iface.configured_proto.testBit i = true →
        iface1.configured_proto.testBit i = true) ∧
      (cs ≠ [] → iface1.configured_proto.testBit 0 = true ∨
        iface1.configured_proto.testBit 1 = true) := by
  induction cs with
  | nil =>
    intro iface iface1 errno e h
    simp only [lua_init_iface_cidrs, Option.some.injEq, Prod.mk.injEq, true_and] at h
    obtain ⟨rfl, -⟩ := h
    exact ⟨rfl, rfl, fun _ hi => hi, fun hne => absurd rfl hne⟩
  | cons c cs ih =>
    intro iface iface1 errno e h
    simp only [lua_init_iface_cidrs] at h
    split at h
    · simp at h
    · simp at h
    · rename_i iface2 e2 hround
      obtain ⟨hp, hn, hc⟩ := lua_init_iface_cidr_true env iface iface2 errno e2 c hround
      obtain ⟨hp', hn', hmono, -⟩ := ih iface2 iface1 e2 e h
      have hbits : (∀ i, iface.configured_proto.testBit i = true →
          iface2.configured_proto.testBit i = true) ∧
          (iface2.configured_proto.testBit 0 = true ∨
            iface2.configured_proto.testBit 1 = true) := by
        rcases hc with hc | hc
        · rw [hc]
          refine ⟨fun i hi => by rw [Nat.testBit_or, hi]; rfl, Or.inl ?_⟩
          rw [Nat.testBit_or]
          simp [GK_CONFIGURED_IPV4]
        · rw [hc]
          refine ⟨fun i hi => by rw [Nat.testBit_or, hi]; rfl, Or.inr ?_⟩
          rw [Nat.testBit_or]
          simp [GK_CONFIGURED_IPV6, Nat.testBit]
      refine ⟨hp'.trans hp, hn'.trans hn, fun i hi => hmono i (hbits.1 i hi), fun _ => ?_⟩
      rcases hbits.2 with h0 | h1
      · exact Or.inl (hmono 0 h0)
      · exact Or.inr (hmono 1 h1)

/-- C21. Interface invariant after configuration: every interface for which
`lua_init_iface` returns success (0), called with an array of `num_ip_cidrs`
CIDR strings and with `rte_calloc` refusing an array of no PCI addresses, has
IPv4 or IPv6 marked configured and has `num_ports >= 1`, the number of PCI
addresses it was given. -/
theorem lua_init_iface_invariant (env : libc_env) (iface iface1 : gatekeeper_if)
    (iface_name : List Char) (pci_addrs : List (List Char)) (num_pci_addrs : Nat)
    (ip_cidrs : List (List Char)) (num_ip_cidrs : Nat)
    (hcidrs : num_ip_cidrs ≤ ip_cidrs.length)
    (hcalloc : num_pci_addrs = 0 → env.calloc_pci_addrs_ok = false)
    (h : lua_init_iface env iface iface_name pci_addrs num_pci_addrs ip_cidrs num_ip_cidrs
      = some (0, iface1)) :
    (ipv4_if_configured iface1 = true ∨ ipv6_if_configured iface1 = true) ∧
    iface1.num_ports = num_pci_addrs ∧ 1 ≤ iface1.num_ports := by
  rw [ipv4_if_configured_iff, ipv6_if_configured_iff]
  simp only [lua_init_iface] at h
  split_ifs at h with h1 h2 h3 h4
  all_goals first
    | (simp at h; done)
    | skip
  split at h
  · simp at h
  · rename_i iface2 e hloop
    simp only [Option.some.injEq, Prod.mk.injEq, true_and] at h
    subst h
    obtain ⟨hp, -, -, hcfg⟩ := lua_init_iface_cidrs_true env _ _ _ _ _ hloop
    have hne : ip_cidrs.take num_ip_cidrs ≠ [] := by
      intro hnil
      have := congrArg List.length hnil
      simp only [List.length_take, List.length_nil] at this
      omega
    have hn : num_pci_addrs ≠ 0 := by
      intro h0
      have := hcalloc h0
      simp [this] at h3
    refine ⟨hcfg hne, hp, ?_⟩
    rw [hp]
    show 1 ≤ num_pci_addrs
    omega
  · simp at h

/-- C21 on the sample interface, configured with one PCI address and the CIDR
`192.0.2.1/32`. -/
theorem lua_init_iface_invariant_witness :
    (ipv4_if_configured sample_lua_iface = true ∨ ipv6_if_configured sample_lua_iface = true) ∧
    sample_lua_iface.num_ports = 1 ∧ 1 ≤ sample_lua_iface.num_ports :=
  lua_init_iface_invariant sample_libc sample_iface sample_lua_iface [Char.ofNat 102]
    [sample_pci_addr] 1 [sample_cidr4.str] 1 (by decide) (by decide) rfl

/-! ## Netmasks in `lua_init_iface` -/

theorem be_value_foldl (l : List Nat) (acc : Nat) :
    l.foldl (fun acc b => acc * 256 + b) acc = acc * 256 ^ l.length + be_value l := by
  induction l generalizing acc with
  | nil => simp [be_value]
  | cons b l ih =>
    simp only [List.foldl_cons, be_value, List.length_cons]
    rw [ih, ih (0 * 256 + b)]
    ring

theorem be_value_append (l1 l2 : List Nat) :
    be_value (l1 ++ l2) = be_value l1 * 256 ^ l2.length + be_value l2 := by
  simp only [be_value, List.foldl_append]
  rw [be_value_foldl]
  rfl

theorem be_value_be32_bytes (x : Nat) (hx : x < 4294967296) : be_value (be32_bytes x) = x := by
  simp only [be_value, be32_bytes, List.foldl_cons, List.foldl_nil]
  omega

theorem be_value_host32_be (x : Nat) (hx : x < 4294967296) :
    be_value (host32_bytes (rte_cpu_to_be_32 x)) = x := by
  simp only [be_value, host32_bytes, rte_cpu_to_be_32, List.foldl_cons, List.foldl_nil]
  have h0 : x % 256 < 256 := by omega
  have h1 : x / 256 % 256 < 256 := by omega
  have h2 : x / 65536 % 256 < 256 := by omega
  have h3 : x / 16777216 % 256 < 256 := by omega
  have hx' : x = x / 16777216 % 256 * 16777216 + x / 65536 % 256 * 65536
      + x / 256 % 256 * 256 + x % 256 := by omega
  generalize x % 256 = b0 at h0 hx' ⊢
  generalize x / 256 % 256 = b1 at h1 hx' ⊢
  generalize x / 65536 % 256 = b2 at h2 hx' ⊢
  generalize x / 16777216 % 256 = b3 at h3 hx' ⊢
  have e0 : (b0 * 16777216 + b1 * 65536 + b2 * 256 + b3) / 16777216 % 256 = b0 := by
    clear hx'; omega
  have e1 : (b0 * 16777216 + b1 * 65536 + b2 * 256 + b3) / 65536 % 256 = b1 := by
    clear hx'; omega
  have e2 : (b0 * 16777216 + b1 * 65536 + b2 * 256 + b3) / 256 % 256 = b2 := by
    clear hx'; omega
  have e3 : (b0 * 16777216 + b1 * 65536 + b2 * 256 + b3) % 256 = b3 := by
    clear hx'; omega
  rw [e0, e1, e2, e3]
  omega

theorem rte_cpu_to_be_32_lt (x : Nat) : rte_cpu_to_be_32 x < 4294967296 := by
  simp only [rte_cpu_to_be_32]; omega

theorem store32_mod (m : Mem) (a v : Nat) : store32 m a v = store32 m a (v % 4294967296) := by
  funext i
  simp only [store32_apply]
  have e0 : v % 4294967296 % 256 = v % 256 := by omega
  have e1 : v % 4294967296 / 256 % 256 = v / 256 % 256 := by omega
  have e2 : v % 4294967296 / 65536 % 256 = v / 65536 % 256 := by omega
  have e3 : v % 4294967296 / 16777216 % 256 = v / 16777216 % 256 := by omega
  rw [e0, e1, e2, e3]

/-- A 64-bit store of a byte-swapped value writes the value's bytes in network
order. -/
theorem store64_be_eq_writeList (m : Mem) (a x : Nat) :
    store64 m a (rte_cpu_to_be_64 x) =
      writeList m a (be32_bytes (x / 4294967296 % 4294967296) ++ be32_bytes (x % 4294967296)) := by
  have hlo := rte_cpu_to_be_32_lt (x / 4294967296 % 4294967296)
  have hhi := rte_cpu_to_be_32_lt (x % 4294967296)
  have h1 : rte_cpu_to_be_64 x % 4294967296 = rte_cpu_to_be_32 (x / 4294967296 % 4294967296) := by
    simp only [rte_cpu_to_be_64]; omega
  have h2 : rte_cpu_to_be_64 x / 4294967296 = rte_cpu_to_be_32 (x % 4294967296) := by
    simp only [rte_cpu_to_be_64]; omega
  rw [store64, h2, store32_mod m a, h1, store32_be_eq_writeList, store32_be_eq_writeList,
    writeList_append_at m a (a + 4) (be32_bytes _) _ rfl]

theorem be_value_be64 (x : Nat) (hx : x < 18446744073709551616) :
    be_value (be32_bytes (x / 4294967296 % 4294967296) ++ be32_bytes (x % 4294967296)) = x := by
  rw [be_value_append, be_value_be32_bytes _ (by omega), be_value_be32_bytes _ (by omega)]
  simp only [be32_bytes, List.length_cons, List.length_nil]
  omega

theorem store64_zero (m : Mem) (a : Nat) : store64 m a 0 = writeList m a (List.replicate 8 0) := by
  rw [store64, store32_eq_writeList, store32_eq_writeList,
    writeList_append_at m a (a + 4) (host32_bytes _) _ rfl]
  rfl

theorem store64_ones (m : Mem) (a : Nat) :
    store64 m a 18446744073709551615 = writeList m a (List.replicate 8 255) := by
  rw [store64, store32_eq_writeList, store32_eq_writeList,
    writeList_append_at m a (a + 4) (host32_bytes _) _ rfl]
  rfl

/-- The mask `~0ULL << (32 - n)` cut to 32 bits. -/
theorem mask32_value (n : Nat) (hn : n ≤ 32) :
    18446744073709551615 <<< (32 - n) % 18446744073709551616 % 4294967296
      = 2 ^ 32 - 2 ^ (32 - n) := by
  interval_cases n <;> rfl

/-- The mask `~0ULL << k`. -/
theorem mask64_value (k : Nat) (hk : k ≤ 64) :
    18446744073709551615 <<< k % 18446744073709551616 = 2 ^ 64 - 2 ^ k := by
  interval_cases k <;> rfl

theorem mask128_low (n : Nat) (h1 : 1 ≤ n) (h2 : n ≤ 64) :
    (2 ^ 64 - 2 ^ (64 - n)) * 256 ^ 8 + 0 = 2 ^ 128 - 2 ^ (128 - n) := by
  interval_cases n <;> rfl

theorem mask128_high (n : Nat) (h1 : 65 ≤ n) (h2 : n ≤ 128) :
    (2 ^ 64 - 1) * 256 ^ 8 + (2 ^ 64 - 2 ^ (128 - n)) = 2 ^ 128 - 2 ^ (128 - n) := by
  interval_cases n <;> rfl

theorem be_value_mask6 (m : Mem) (n : Nat) (hn : n ≤ 128) :
    be_value (loadBytes
      (if (n : Int) = 0 then store64 (store64 m 0 0) 8 0
       else if (n : Int) ≤ 64 then
         store64 (store64 m 0 (rte_cpu_to_be_64
           (18446744073709551615 <<< (64 - (n : Int)).toNat % 18446744073709551616))) 8 0
       else
         store64 (store64 m 0 18446744073709551615) 8 (rte_cpu_to_be_64
           (18446744073709551615 <<< (128 - (n : Int)).toNat % 18446744073709551616)))
      0 16) = 2 ^ 128 - 2 ^ (128 - n) := by
  have h8 : ∀ x, (be32_bytes (x / 4294967296 % 4294967296) ++ be32_bytes (x % 4294967296)).length
      = 8 := fun _ => rfl
  by_cases h0 : n = 0
  · subst h0
    simp only [Nat.cast_zero, if_true, store64_zero]
    rw [writeList_append_at _ 0 8 (List.replicate 8 0) _ rfl]
    exact congrArg be_value (loadBytes_writeList_self _ 0 (List.replicate 8 0 ++ List.replicate 8 0))
  · have hn0 : ¬ ((n : Int) = 0) := by omega
    rw [if_neg hn0]
    by_cases h64 : n ≤ 64
    · have hle : (n : Int) ≤ 64 := by omega
      have hsh : (64 - (n : Int)).toNat = 64 - n := by omega
      rw [if_pos hle, hsh, mask64_value _ (by omega), store64_be_eq_writeList, store64_zero,
        writeList_append_at _ 0 8 _ _ (by rw [h8])]
      have hl : (be32_bytes ((2 ^ 64 - 2 ^ (64 - n)) / 4294967296 % 4294967296) ++
          be32_bytes ((2 ^ 64 - 2 ^ (64 - n)) % 4294967296) ++ List.replicate 8 0).length = 16 :=
        rfl
      have := loadBytes_writeList_self m 0 (be32_bytes ((2 ^ 64 - 2 ^ (64 - n)) / 4294967296
        % 4294967296) ++ be32_bytes ((2 ^ 64 - 2 ^ (64 - n)) % 4294967296) ++ List.replicate 8 0)
      rw [hl] at this
      rw [this, be_value_append, be_value_be64 _ (by
        have : 0 < 2 ^ (64 - n) := Nat.pos_pow_of_pos _ (by decide)
        omega)]
      exact mask128_low n (by omega) h64
    · have hle : ¬ ((n : Int) ≤ 64) := by omega
      have hsh : (128 - (n : Int)).toNat = 128 - n := by omega
      rw [if_neg hle, hsh, mask64_value _ (by omega), store64_be_eq_writeList, store64_ones,
        writeList_append_at _ 0 8 (List.replicate 8 255) _ rfl]
      have hl : (List.replicate 8 255 ++ (be32_bytes ((2 ^ 64 - 2 ^ (128 - n)) / 4294967296
          % 4294967296) ++ be32_bytes ((2 ^ 64 - 2 ^ (128 - n)) % 4294967296))).length = 16 :=
        rfl
      have := loadBytes_writeList_self m 0 (List.replicate 8 255 ++
        (be32_bytes ((2 ^ 64 - 2 ^ (128 - n)) / 4294967296 % 4294967296) ++
         be32_bytes ((2 ^ 64 - 2 ^ (128 - n)) % 4294967296)))
      rw [hl] at this
      rw [this, be_value_append, be_value_be64 _ (by
        have : 0 < 2 ^ (128 - n) := Nat.pos_pow_of_pos _ (by decide)
        omega), h8]
      exact mask128_high n (by omega) hn

/-- A round of the loop over `ip_cidrs` that reaches its end has stored a
prefix length within the family's range and the mask of that length. -/
theorem lua_init_iface_cidr_masks (env : libc_env) (iface iface1 : gatekeeper_if)
    (errno e : Int) (s tok : List Char)
    (htok : (strtok_r (some s) [Char.ofNat 47] []).1 = some tok)
    (h : lua_init_iface_cidr env iface errno s = some (true, iface1, e)) :
    (get_ip_type env tok = AF_INET →
      iface1.ip4_addr_plen ≤ 32 ∧
      be_value (host32_bytes iface1.ip4_mask) = 2 ^ 32 - 2 ^ (32 - iface1.ip4_addr_plen)) ∧
    (get_ip_type env tok = AF_INET6 →
      iface1.ip6_addr_plen ≤ 128 ∧
      be_value (loadBytes iface1.ip6_mask 0 16) = 2 ^ 128 - 2 ^ (128 - iface1.ip6_addr_plen)) := by
  simp only [lua_init_iface_cidr, htok] at h
  split at h
  · simp at h
  · rename_i iface2 hparsed
    split at h
    · simp at h
    · rename_i pstr hpstr
      generalize (strtol pstr errno).1 = v at h
      generalize (strtol pstr errno).2.1 = en at h
      generalize (strtol pstr errno).2.2 = e2 at h
      by_cases h1 : en.length = pstr.length ∨ pstr = [] ∨ en ≠ []
      · rw [if_pos h1] at h; simp at h
      rw [if_neg h1] at h
      by_cases h2 : (v = LONG_MAX ∨ v = LONG_MIN) ∧ e2 = ERANGE
      · rw [if_pos h2] at h; simp at h
      rw [if_neg h2] at h
      by_cases h3 : v < 0
      · rw [if_pos h3] at h; simp at h
      rw [if_neg h3] at h
      obtain ⟨n, rfl⟩ : ∃ n : Nat, v = (n : Int) := ⟨v.toNat, by omega⟩
      by_cases h4 : get_ip_type env tok = AF_INET
      · have hne : AF_INET ≠ AF_INET6 := by decide
        simp only [h4, max_prefix_len, true_or, if_true] at h
        by_cases h5 : (n : Int) > 4 * 8
        · rw [if_pos h5] at h; simp at h
        rw [if_neg h5] at h
        simp only [Option.some.injEq, Prod.mk.injEq, true_and] at h
        obtain ⟨rfl, -⟩ := h
        refine ⟨fun _ => ?_, fun h6 => absurd (h4.symm.trans h6) hne⟩
        have hn : n ≤ 32 := by omega
        have hsh : (32 - (n : Int)).toNat = 32 - n := by omega
        have hpl : (n : Int).toNat % 256 = n := by omega
        simp only [hsh, hpl]
        refine ⟨hn, ?_⟩
        rw [mask32_value n hn, be_value_host32_be _ (by
          have : 0 < 2 ^ (32 - n) := Nat.pos_pow_of_pos _ (by decide)
          omega)]
      · by_cases h4' : get_ip_type env tok = AF_INET6
        · simp only [h4', max_prefix_len, or_true, if_true,
            show ¬ (AF_INET6 = AF_INET) by decide, if_false] at h
          by_cases h5 : (n : Int) > 16 * 8
          · rw [if_pos h5] at h; simp at h
          rw [if_neg h5] at h
          simp only [Option.some.injEq, Prod.mk.injEq, true_and] at h
          obtain ⟨rfl, -⟩ := h
          refine ⟨fun h6 => absurd (h4'.symm.trans h6) (by decide), fun _ => ?_⟩
          have hn : n ≤ 128 := by omega
          have hpl : (n : Int).toNat % 256 = n := by omega
          simp only [hpl]
          exact ⟨hn, be_value_mask6 iface2.ip6_mask n hn⟩
        · exact ⟨fun h6 => absurd h6 h4, fun h6 => absurd h6 h4'⟩

/-- C29. Netmask from prefix length: for every CIDR `addr/n` with a valid
address and an accepted prefix length n (allocations succeeding),
`lua_init_iface` returns 0 and the mask it stores, read as a big-endian number
of W bits (W = 32 for `ip4_mask`, n in [0,32]; W = 128 for `ip6_mask`, n in
[0,128]), is 2^W - 2^(W-n): its n most significant bits set and all others
clear, n = 0, n = 64 and n = W included; n is stored as the prefix length. -/
theorem lua_init_iface_netmask (env : libc_env) (iface : gatekeeper_if)
    (iface_name : List Char) (pci_addrs : List (List Char)) (num_pci_addrs : Nat)
    (s : cidr_spec)
    (halloc : env.malloc_name_ok = true ∧ env.calloc_pci_addrs_ok = true ∧
      ∀ i, env.malloc_pci_addr_ok i = true)
    (hv : s.valid env) (hlen : 0 ≤ s.len ∧ s.len ≤ s.max_len) :
    ∃ iface1,
      lua_init_iface env iface iface_name pci_addrs num_pci_addrs [s.str] 1 = some (0, iface1) ∧
      (s.v6 = false →
        (iface1.ip4_addr_plen : Int) = s.len ∧
        be_value (host32_bytes iface1.ip4_mask) = 2 ^ 32 - 2 ^ (32 - s.len.toNat)) ∧
      (s.v6 = true →
        (iface1.ip6_addr_plen : Int) = s.len ∧
        be_value (loadBytes iface1.ip6_mask 0 16) = 2 ^ 128 - 2 ^ (128 - s.len.toNat)) := by
  obtain ⟨ok, iface1, e, hround, hok, hplen, -⟩ := lua_init_iface_cidr_valid env
    { iface with
      num_ports := num_pci_addrs
      name := some iface_name
      pci_addrs := some ((List.range num_pci_addrs).map (fun i => pci_addrs.getD i [])) }
    env.errno s hv
  have hoktrue : ok = true := hok.mpr hlen
  subst hoktrue
  have hplen := hplen rfl
  have htok : (strtok_r (some s.str) [Char.ofNat 47] []).1 = some s.addr := by
    simp only [cidr_spec.str, cidr_string]
    rw [strtok_r_slash s.addr _ hv.1.1 hv.1.2]
  obtain ⟨hm4, hm6⟩ := lua_init_iface_cidr_masks env _ iface1 env.errno e s.str s.addr htok hround
  have hany : (List.range num_pci_addrs).any (fun i => !env.malloc_pci_addr_ok i) = false := by
    simp [halloc.2.2]
  refine ⟨iface1, ?_, ?_, ?_⟩
  · simp only [lua_init_iface, halloc.1, halloc.2.1, hany, Bool.not_true, Bool.false_eq_true,
      if_false, List.take_succ_cons, List.take_zero, lua_init_iface_cidrs, hround]
    rw [if_neg (by omega)]
  · intro h6
    have hfam := hv.2.1
    simp only [h6, Bool.false_eq_true, if_false] at hfam
    have htype : get_ip_type env s.addr = AF_INET := by simp [get_ip_type, hfam.1]
    obtain ⟨-, hval⟩ := hm4 htype
    have hp : (iface1.ip4_addr_plen : Int) = s.len := by
      simpa [gatekeeper_if.addr_plen, h6] using hplen
    refine ⟨hp, ?_⟩
    rw [hval]
    congr 2
    omega
  · intro h6
    have hfam := hv.2.1
    simp only [h6, if_true] at hfam
    have htype : get_ip_type env s.addr = AF_INET6 := by simp [get_ip_type, hfam.1]
    obtain ⟨-, hval⟩ := hm6 htype
    have hp : (iface1.ip6_addr_plen : Int) = s.len := by
      simpa [gatekeeper_if.addr_plen, h6] using hplen
    refine ⟨hp, ?_⟩
    rw [hval]
    congr 2
    omega

theorem sample_cidr4_24_valid : sample_cidr4_24.valid sample_libc :=
  ⟨by decide, by decide, by decide⟩

/-- C29 for an interface with one PCI address and `192.0.2.1/24`: the mask
is 255.255.255.0. -/
theorem lua_init_iface_netmask_witness :
    ∃ iface1,
      lua_init_iface sample_libc sample_iface [Char.ofNat 102] [sample_pci_addr] 1
        [sample_cidr4_24.str] 1 = some (0, iface1) ∧
      (sample_cidr4_24.v6 = false →
        (iface1.ip4_addr_plen : Int) = sample_cidr4_24.len ∧
        be_value (host32_bytes iface1.ip4_mask) = 2 ^ 32 - 2 ^ (32 - sample_cidr4_24.len.toNat)) ∧
      (sample_cidr4_24.v6 = true →
        (iface1.ip6_addr_plen : Int) = sample_cidr4_24.len ∧
        be_value (loadBytes iface1.ip6_mask 0 16)
          = 2 ^ 128 - 2 ^ (128 - sample_cidr4_24.len.toNat)) :=
  lua_init_iface_netmask sample_libc sample_iface [Char.ofNat 102] [sample_pci_addr] 1
    sample_cidr4_24 ⟨rfl, rfl, fun _ => rfl⟩ sample_cidr4_24_valid (by decide)

/-- The masks stored for `192.0.2.1/24`, `2001:db8::1/64` and
`2001:db8::1/128` on an interface with one PCI address, byte by byte, with the
return value and the number of ports. -/
theorem lua_init_iface_netmask_samples :
    ((lua_init_iface sample_libc sample_iface [Char.ofNat 102] [sample_pci_addr] 1
      [sample_cidr4_24.str] 1).map
      fun r => (r.1, r.2.num_ports, host32_bytes r.2.ip4_mask))
      = some (0, 1, [255, 255, 255, 0]) ∧
    ((lua_init_iface sample_libc sample_iface [Char.ofNat 102] [sample_pci_addr] 1
      [sample_cidr6_64.str] 1).map
      fun r => (r.1, r.2.num_ports, loadBytes r.2.ip6_mask 0 16)) =
      some (0, 1, [255, 255, 255, 255, 255, 255, 255, 255, 0, 0, 0, 0, 0, 0, 0, 0]) ∧
    ((lua_init_iface sample_libc sample_iface [Char.ofNat 102] [sample_pci_addr] 1
      [sample_cidr6.str] 1).map
      fun r => (r.1, r.2.num_ports, loadBytes r.2.ip6_mask 0 16)) =
      some (0, 1, List.replicate 16 255) := by
  refine ⟨by decide, by decide, by decide⟩

/-! ## Address families in `lua_init_iface` -/

/-- C28 fails on the code: `lua_init_iface` given the two IPv4 CIDRs
`192.0.2.1/32` and `192.0.2.2/24` returns 0; the second address and prefix
length replace the first, and IPv6 is not configured. -/
theorem lua_init_iface_two_ipv4_accepted :
    ((lua_init_iface sample_libc_two sample_iface [Char.ofNat 102] [sample_pci_addr] 1
      [sample_cidr4.str, sample_cidr4b_24.str] 2).map fun r =>
        (r.1, r.2.ip4_addr, r.2.ip4_addr_plen, ipv4_if_configured r.2, ipv6_if_configured r.2))
      = some (0, 0x020200c0, 24, true, false) := by
  decide

/-- The same holds for two IPv6 CIDRs: `2001:db8::1/128` and `2001:db8::1/64`
are accepted, and the prefix length of the second is kept. -/
theorem lua_init_iface_two_ipv6_accepted :
    ((lua_init_iface sample_libc_two sample_iface [Char.ofNat 102] [sample_pci_addr] 1
      [sample_cidr6.str, sample_cidr6_64.str] 2).map fun r =>
        (r.1, r.2.ip6_addr_plen, ipv4_if_configured r.2, ipv6_if_configured r.2))
      = some (0, 64, false, true) := by
  decide

/-- What `lua_init_iface` does test: a list of no or of more than two CIDRs is
rejected with -1, whatever the families. -/
theorem lua_init_iface_count_check (env : libc_env) (iface : gatekeeper_if)
    (iface_name : List Char) (pci_addrs : List (List Char)) (num_pci_addrs : Nat)
    (ip_cidrs : List (List Char)) (num_ip_cidrs : Nat)
    (h : num_ip_cidrs < 1 ∨ 2 < num_ip_cidrs) :
    lua_init_iface env iface iface_name pci_addrs num_pci_addrs ip_cidrs num_ip_cidrs
      = some (-1, iface) := by
  simp only [lua_init_iface]
  rw [if_pos (by omega)]

/-! ## `start_port` -/

/-- C24 fails on the code: with `wait_for_link` set, a device that starts and
a link that never comes up, `start_port` returns -1 after 6 one-second waits
and 7 link queries, not 5 waits: it gives up when `attempts > 5`, tested
before `attempts` is incremented. -/
theorem start_port_waits_six_times :
    (start_port sample_port_env_down 0 none 1).map
      (fun r => (r.ret, sleeps r.events, link_queries r.events))
      = some (-1, [1, 1, 1, 1, 1, 1], 7) := by
  decide

/-- One round of the loop of `start_port`. -/
theorem link_wait_loop_succ (env : port_env) (port_id : Nat) (wait_for_link : Int)
    (fuel attempts k : Nat) :
    link_wait_loop env port_id wait_for_link (fuel + 1) attempts k =
      if env.link_status port_id k then some (0, [port_event.link_get port_id])
      else if wait_for_link = 0 ∨ attempts > NUM_ATTEMPTS_LINK_GET then
        some (-1, [port_event.link_get port_id, port_event.log_link_down port_id,
          port_event.log_giving_up port_id])
      else
        match link_wait_loop env port_id wait_for_link fuel ((attempts + 1) % 256) (k + 1) with
        | none => none
        | some (ret, events) =>
          some (ret, port_event.link_get port_id :: port_event.log_link_down port_id ::
            port_event.sleep 1 :: events) := rfl

/-- The loop of `start_port` when the link never comes up and the caller
waits for it. -/
theorem link_wait_loop_down (env : port_env) (port_id : Nat) (wait_for_link : Int)
    (hwait : wait_for_link ≠ 0) (hdown : ∀ k, env.link_status port_id k = false)
    (fuel : Nat) (hfuel : 7 ≤ fuel) :
    link_wait_loop env port_id wait_for_link fuel 0 0 = some (-1,
      (List.replicate 6 [port_event.link_get port_id, port_event.log_link_down port_id,
        port_event.sleep 1]).flatten ++ [port_event.link_get port_id,
        port_event.log_link_down port_id, port_event.log_giving_up port_id]) := by
  obtain ⟨f, rfl⟩ : ∃ f, fuel = f + 1 + 1 + 1 + 1 + 1 + 1 + 1 := ⟨fuel - 7, by omega⟩
  simp only [link_wait_loop_succ, hdown, Bool.false_eq_true, hwait, false_or,
    NUM_ATTEMPTS_LINK_GET, Nat.reduceAdd, Nat.reduceMod, Nat.reduceLT, gt_iff_lt, if_true,
    if_false, Nat.lt_irrefl, Nat.not_succ_le_zero]
  rfl

/-- Without `wait_for_link`, a device that starts and a link that is down:
`start_port` fails after a single link query without waiting. -/
theorem start_port_no_wait (env : port_env) (port_id : Nat) (pnum : Option Nat)
    (hstart : 0 ≤ env.rte_eth_dev_start port_id)
    (hdown : env.link_status port_id 0 = false) :
    ∃ r, start_port env port_id pnum 0 = some r ∧ r.ret = -1 ∧
      sleeps r.events = [] ∧ link_queries r.events = 1 := by
  refine ⟨⟨-1, pnum.map fun n => (n + 1) % 256, [port_event.link_get port_id,
    port_event.log_link_down port_id, port_event.log_giving_up port_id]⟩, ?_, rfl, rfl, rfl⟩
  have h : link_wait_loop env port_id 0 257 0 0 = some (-1, [port_event.link_get port_id,
      port_event.log_link_down port_id, port_event.log_giving_up port_id]) := by
    rw [link_wait_loop_succ env port_id 0 256 0 0, hdown]
    simp
  simp only [start_port, not_lt.mpr hstart, if_false, h]

/-- With `wait_for_link` set, whatever the device: when the link never comes
up, `start_port` ends with -1 after exactly 6 one-second waits and 7 link
queries. -/
theorem start_port_link_never_up (env : port_env) (port_id : Nat) (pnum : Option Nat)
    (wait_for_link : Int) (hwait : wait_for_link ≠ 0)
    (hstart : 0 ≤ env.rte_eth_dev_start port_id)
    (hdown : ∀ k, env.link_status port_id k = false) :
    ∃ r, start_port env port_id pnum wait_for_link = some r ∧ r.ret = -1 ∧
      sleeps r.events = [1, 1, 1, 1, 1, 1] ∧ link_queries r.events = 7 := by
  refine ⟨⟨-1, pnum.map fun n => (n + 1) % 256,
    (List.replicate 6 [port_event.link_get port_id, port_event.log_link_down port_id,
      port_event.sleep 1]).flatten ++ [port_event.link_get port_id,
      port_event.log_link_down port_id, port_event.log_giving_up port_id]⟩, ?_, rfl, rfl, rfl⟩
  simp only [start_port, not_lt.mpr hstart, if_false,
    link_wait_loop_down env port_id wait_for_link hwait hdown 257 (by omega)]

/-- The loop of `start_port` ends, whatever the link does: the function never
runs out of rounds. -/
theorem start_port_total (env : port_env) (port_id : Nat) (pnum : Option Nat)
    (wait_for_link : Int) : (start_port env port_id pnum wait_for_link).isSome = true := by
  have hloop : ∀ n attempts k fuel, attempts + n = 6 → n < fuel →
      (link_wait_loop env port_id wait_for_link fuel attempts k).isSome = true := by
    intro n
    induction n with
    | zero =>
      intro attempts k fuel ha hf
      obtain ⟨f, rfl⟩ : ∃ f, fuel = f + 1 := ⟨fuel - 1, by omega⟩
      simp only [link_wait_loop_succ, NUM_ATTEMPTS_LINK_GET]
      split_ifs with h1 h2
      · rfl
      · rfl
      · exfalso; apply h2; right; omega
    | succ n ih =>
      intro attempts k fuel ha hf
      obtain ⟨f, rfl⟩ : ∃ f, fuel = f + 1 := ⟨fuel - 1, by omega⟩
      rw [link_wait_loop_succ]
      split_ifs with h1 h2
      · rfl
      · rfl
      · have hmod : (attempts + 1) % 256 = attempts + 1 := by omega
        have := ih (attempts + 1) (k + 1) f (by omega) (by omega)
        rw [hmod]
        cases hl : link_wait_loop env port_id wait_for_link f (attempts + 1) (k + 1) with
        | none => rw [hl] at this; exact absurd this (by simp)
        | some r => rfl
  simp only [start_port]
  split_ifs
  · rfl
  · have := hloop 6 0 0 257 (by omega) (by omega)
    cases hl : link_wait_loop env port_id wait_for_link 257 0 0 with
    | none => rw [hl] at this; exact absurd this (by simp)
    | some r => rfl

/-! ## The RSS key -/

/-- The key that the filling loop leaves: `rsk1` at even and `rsk2` at odd
positions. -/
theorem fill_rss_key_eq (rsk1 rsk2 : Nat) :
    fill_rss_key default_rss_key rsk1 rsk2 =
      (List.replicate 20 [rsk1, rsk2]).flatten := by
  simp [fill_rss_key, default_rss_key, GATEKEEPER_RSS_KEY_LEN, List.range_succ, List.replicate]

/-- The pair on which the loop exits does not satisfy the loop's condition,
and both are bytes. -/
theorem rss_key_loop_exit (rand : Nat → Nat) (fuel : Nat) :
    ∀ (rsk1 rsk2 k r1 r2 : Nat), rsk1 < 256 → rsk2 < 256 →
      rss_key_loop rand fuel rsk1 rsk2 k = some (r1, r2) →
      ¬ (r1 = r2 ∧ (r1 = 0 ∨ r1 = 0xFF)) ∧ r1 < 256 ∧ r2 < 256 := by
  induction fuel with
  | zero =>
    intro rsk1 rsk2 k r1 r2 h1 h2 h
    unfold rss_key_loop at h
    by_cases hc : rsk1 = rsk2 ∧ (rsk1 = 0 ∨ rsk1 = 0xFF)
    · rw [if_pos hc] at h
      exact absurd h (by simp)
    · rw [if_neg hc] at h
      simp only [Option.some.injEq, Prod.mk.injEq] at h
      obtain ⟨rfl, rfl⟩ := h
      exact ⟨hc, h1, h2⟩
  | succ fuel ih =>
    intro rsk1 rsk2 k r1 r2 h1 h2 h
    unfold rss_key_loop at h
    by_cases hc : rsk1 = rsk2 ∧ (rsk1 = 0 ∨ rsk1 = 0xFF)
    · rw [if_pos hc] at h
      exact ih _ _ _ _ _ (Nat.mod_lt _ (by decide)) (Nat.mod_lt _ (by decide)) h
    · rw [if_neg hc] at h
      simp only [Option.some.injEq, Prod.mk.injEq] at h
      obtain ⟨rfl, rfl⟩ := h
      exact ⟨hc, h1, h2⟩

/-- The loop ends as soon as `rand` gives a pair of bytes that are not both
0x00 or both 0xFF: with the first such pair in round `n`, fuel above `n` is
enough. -/
theorem rss_key_loop_returns (rand : Nat → Nat) (n : Nat) :
    ∀ (fuel rsk1 rsk2 k : Nat), n < fuel →
      ¬ (rand (k + 2 * n) % 256 = rand (k + 2 * n + 1) % 256 ∧
        (rand (k + 2 * n) % 256 = 0 ∨ rand (k + 2 * n) % 256 = 0xFF)) →
      (rss_key_loop rand fuel rsk1 rsk2 k).isSome = true := by
  induction n with
  | zero =>
    intro fuel rsk1 rsk2 k hf hr
    obtain ⟨f, rfl⟩ : ∃ f, fuel = f + 1 := ⟨fuel - 1, by omega⟩
    unfold rss_key_loop
    split_ifs with hc
    · show (rss_key_loop rand f _ _ _).isSome = true
      unfold rss_key_loop
      rw [if_neg (by simpa using hr)]
      rfl
    · rfl
  | succ n ih =>
    intro fuel rsk1 rsk2 k hf hr
    obtain ⟨f, rfl⟩ : ∃ f, fuel = f + 1 := ⟨fuel - 1, by omega⟩
    unfold rss_key_loop
    split_ifs with hc
    · show (rss_key_loop rand f _ _ _).isSome = true
      apply ih f _ _ (k + 2) (by omega)
      have e : k + 2 + 2 * n = k + 2 * (n + 1) := by ring
      rw [e]
      exact hr
    · rfl

/-- C27: whenever the generation loop of `gatekeeper_init_network` exits, on
the pair of bytes `rsk1`, `rsk2`, the key is 40 bytes long, holds `rsk1` at
the even and `rsk2` at the odd positions, and is neither all 0x00 nor all
0xFF. -/
theorem gen_rss_key_not_trivial (rand : Nat → Nat) (fuel rsk1 rsk2 : Nat)
    (h : rss_key_loop rand fuel 0 0 0 = some (rsk1, rsk2)) :
    ∃ key, gen_rss_key rand fuel = some key ∧
      key.length = GATEKEEPER_RSS_KEY_LEN ∧
      (∀ i, i < GATEKEEPER_RSS_KEY_LEN →
        key.getD i 0 = if i % 2 = 0 then rsk1 else rsk2) ∧
      rsk1 < 256 ∧ rsk2 < 256 ∧
      key ≠ List.replicate GATEKEEPER_RSS_KEY_LEN 0x00 ∧
      key ≠ List.replicate GATEKEEPER_RSS_KEY_LEN 0xFF := by
  obtain ⟨hc, h1, h2⟩ := rss_key_loop_exit rand fuel 0 0 0 rsk1 rsk2 (by decide) (by decide) h
  refine ⟨fill_rss_key default_rss_key rsk1 rsk2, ?_, ?_, ?_, h1, h2, ?_, ?_⟩
  · simp only [gen_rss_key, h]
  · rw [fill_rss_key_eq]; rfl
  · intro i hi
    rw [fill_rss_key_eq]
    simp only [GATEKEEPER_RSS_KEY_LEN] at hi
    interval_cases i <;> rfl
  · rw [fill_rss_key_eq]
    intro he
    have e0 := congrArg (fun l => l.getD 0 0) he
    have e1 := congrArg (fun l => l.getD 1 0) he
    simp only [List.replicate, List.flatten, List.getD, GATEKEEPER_RSS_KEY_LEN] at e0 e1
    simp at e0 e1
    exact hc ⟨e0.trans e1.symm, Or.inl e0⟩
  · rw [fill_rss_key_eq]
    intro he
    have e0 := congrArg (fun l => l.getD 0 0) he
    have e1 := congrArg (fun l => l.getD 1 0) he
    simp only [List.replicate, List.flatten, List.getD, GATEKEEPER_RSS_KEY_LEN] at e0 e1
    simp at e0 e1
    exact hc ⟨e0.trans e1.symm, Or.inr e0⟩

/-- C27 at a random stream whose first pair (0xFF, 0xFF) is refused and whose
second pair gives the bytes 0xA2 and 0xFF. -/
theorem gen_rss_key_not_trivial_witness :
    rss_key_loop sample_rand 5 0 0 0 = some (0xA2, 0xFF) ∧
    ∃ key, gen_rss_key sample_rand 5 = some key ∧
      key.length = GATEKEEPER_RSS_KEY_LEN ∧
      (∀ i, i < GATEKEEPER_RSS_KEY_LEN →
        key.getD i 0 = if i % 2 = 0 then 0xA2 else 0xFF) ∧
      0xA2 < 256 ∧ 0xFF < 256 ∧
      key ≠ List.replicate GATEKEEPER_RSS_KEY_LEN 0x00 ∧
      key ≠ List.replicate GATEKEEPER_RSS_KEY_LEN 0xFF :=
  ⟨by decide, gen_rss_key_not_trivial sample_rand 5 0xA2 0xFF (by decide)⟩

/-! ## `process_egress` -/

/-- The test `pkt_is_nd`, written out. -/
theorem pkt_is_nd_iff (iface : gatekeeper_if) (pkt : rte_mbuf) :
    (ether_type_of pkt = ETHER_TYPE_IPv6 ∧
      pkt_is_nd iface pkt.buf pkt.data_off pkt.data_len = true) ↔ egress_is_nd iface pkt := by
  unfold egress_is_nd pkt_is_nd
  simp only [sizeof_ether_hdr, sizeof_ipv6_hdr, sizeof_pointer, ipv6_addrs_equal]
  by_cases hlen : pkt.data_len < 14 + 40 + 8
  · simp only [hlen, if_true, Bool.false_eq_true, and_false, false_iff]
    rintro ⟨-, h, -⟩
    omega
  · by_cases hp : load8 pkt.buf (pkt.data_off + 14 + 6) = IPPROTO_ICMPV6
    · simp only [hlen, if_false, hp, ne_eq, not_true_eq_false, Bool.and_eq_true,
        Bool.or_eq_true, beq_iff_eq, decide_eq_true_eq, true_and]
      constructor
      · rintro ⟨h1, h2, h3⟩
        exact ⟨h1, by omega, h2, by tauto⟩
      · rintro ⟨h1, -, h2, h3⟩
        exact ⟨h1, h2, by tauto⟩
    · simp only [hlen, if_false, ne_eq, hp, not_false_eq_true, if_true, Bool.false_eq_true,
        and_false, false_and, false_iff]

theorem egress_handler_calls_cons (iface : gatekeeper_if) (pkt : rte_mbuf)
    (bufs : List rte_mbuf) :
    egress_handler_calls iface (pkt :: bufs) =
      (if ether_type_of pkt = ETHER_TYPE_ARP then [egress_event.kni_process_arp pkt]
        else if egress_is_nd iface pkt then [egress_event.kni_process_nd pkt pkt.data_len]
        else []) ++ egress_handler_calls iface bufs := by
  unfold egress_handler_calls
  rw [List.filterMap_cons]
  split_ifs <;> rfl

theorem egress_forwarded_cons (iface : gatekeeper_if) (pkt : rte_mbuf)
    (bufs : List rte_mbuf) :
    egress_forwarded iface (pkt :: bufs) =
      (if ether_type_of pkt = ETHER_TYPE_ARP then []
        else if egress_is_nd iface pkt then [] else [pkt]) ++ egress_forwarded iface bufs := by
  unfold egress_forwarded
  rw [List.filter_cons]
  split_ifs <;> simp_all

/-- The loop of `process_egress`: handler calls in the burst's order, the
other packets appended to `forward_bufs` in the burst's order. -/
theorem process_egress_loop_eq (iface : gatekeeper_if) (bufs : List rte_mbuf) :
    ∀ forward_bufs, process_egress_loop iface bufs forward_bufs =
      (egress_handler_calls iface bufs, forward_bufs ++ egress_forwarded iface bufs) := by
  induction bufs with
  | nil => intro f; simp [process_egress_loop, egress_handler_calls, egress_forwarded]
  | cons pkt bufs ih =>
    intro f
    have hnd := pkt_is_nd_iff iface pkt
    rw [process_egress_loop, egress_handler_calls_cons, egress_forwarded_cons]
    simp only [ether_type_of] at hnd ⊢
    by_cases harp : rte_be_to_cpu_16 (load16 pkt.buf (pkt.data_off + 12)) = ETHER_TYPE_ARP
    · rw [if_pos harp, if_pos harp, if_pos harp]
      simp only [ih, List.singleton_append, List.nil_append]
    · rw [if_neg harp, if_neg harp, if_neg harp]
      by_cases hn : egress_is_nd iface pkt
      · rw [if_pos (hnd.mpr hn), if_pos hn, if_pos hn]
        simp only [ih, List.singleton_append, List.nil_append]
      · rw [if_neg (fun h => hn (hnd.mp h)), if_neg hn, if_neg hn]
        simp only [ih, List.append_assoc, List.nil_append]

/-- Dispatch in `process_egress`, for a burst that is not empty: the ARP
handler gets the packets with ethertype ARP, the ND handler those with
ethertype IPv6 that are at least 62 bytes long, have next header ICMPv6, type
Neighbor Solicitation or Advertisement and one of the interface's four
addresses as source; all in the burst's order. The other packets go to the TX
queue in the burst's order, and those that the NIC does not accept are freed. -/
theorem process_egress_dispatch (env : egress_env) (gatekeeper_max_pkt_burst : Nat)
    (iface : gatekeeper_if) (kni : kni_ptr) (tx_queue : Nat) (bufs : List rte_mbuf)
    (hrx : env.rte_kni_rx_burst kni gatekeeper_max_pkt_burst = bufs)
    (hlen : bufs.length ≤ gatekeeper_max_pkt_burst) (hne : bufs ≠ []) :
    process_egress env gatekeeper_max_pkt_burst iface kni tx_queue =
      egress_handler_calls iface bufs ++
      [egress_event.eth_tx_burst iface.id tx_queue (egress_forwarded iface bufs)] ++
      ((egress_forwarded iface bufs).drop
        (env.rte_eth_tx_burst iface.id tx_queue (egress_forwarded iface bufs))).map
          egress_event.pktmbuf_free := by
  have hlen0 : bufs.length ≠ 0 := fun h => hne (List.length_eq_zero.mp h)
  simp only [process_egress, hrx, List.take_of_length_le hlen, hlen0, if_false,
    process_egress_loop_eq, List.nil_append]
  split_ifs with h
  · rfl
  · rw [List.drop_of_length_le (by omega)]
    rfl

/-- C22 fails on the code: a Neighbor Solicitation of 60 bytes from the
interface's global address holds complete Ethernet, IPv6 and ICMPv6 headers
(60 ≥ 58), yet `process_egress` passes it to the NIC TX queue and not to the ND
handler, because `pkt_is_nd` asks for 14 + 40 + 8 = 62 bytes; with 62 bytes
the same packet goes to the ND handler. -/
theorem process_egress_short_nd_forwarded :
    (14 + 40 + 4 ≤ sample_short_ns.data_len ∧
      ether_type_of sample_short_ns = ETHER_TYPE_IPv6 ∧
      load8 sample_short_ns.buf (sample_short_ns.data_off + 14 + 6) = IPPROTO_ICMPV6 ∧
      load8 sample_short_ns.buf (sample_short_ns.data_off + 14 + 40) = ND_NEIGHBOR_SOLICITATION ∧
      loadBytes sample_short_ns.buf (sample_short_ns.data_off + 14 + 8) 16 =
        loadBytes sample_front_s2.ip6_addr 0 16) ∧
    (process_egress sample_egress_env 32 sample_front_s2 kni_ptr.front_kni 0).map
      egress_event.shape = [(2, [60])] ∧
    (process_egress { sample_egress_env with rte_kni_rx_burst := fun _ _ => [sample_ns_62] }
      32 sample_front_s2 kni_ptr.front_kni 0).map egress_event.shape = [(1, [62]), (2, [])] := by
  refine ⟨⟨by decide, by decide, by decide, by decide, by decide⟩, by decide, by decide⟩

/-! ## `submit_bgp` when `mb_send_entry` fails -/

theorem submit_event_freed_map (pkts : List rte_mbuf) :
    submit_event.freed (pkts.map submit_event.pktmbuf_free) = pkts := by
  induction pkts with
  | nil => rfl
  | cons p ps ih =>
    simp only [submit_event.freed, List.map_cons, List.filterMap_cons] at ih ⊢
    rw [ih]

/-- On the mailbox modelled from the spec, `submit_bgp` over a mailbox
implementation and `submit_bgp` on the CPS block are the same function: same
return value, same mailbox afterwards, same packets freed. -/
theorem submit_bgp_eq_on (max_burst : Nat) (cps_conf : cps_config)
    (pkts : List rte_mbuf) (iface : iface_ptr) :
    submit_bgp max_burst cps_conf pkts iface =
      (submit_bgp_on mailbox_of_spec max_burst cps_conf.mailbox pkts iface).map fun r =>
        (r.1, { cps_conf with mailbox := r.2.1 },
          (submit_event.freed r.2.2).map cps_event.pktmbuf_free) := by
  unfold submit_bgp submit_bgp_on
  by_cases hb : pkts.length ≤ max_burst % 65536
  · simp only [hb, not_true_eq_false, if_false, mailbox_of_spec]
    cases ha : mb_alloc_entry cps_conf.mailbox with
    | none =>
      simp only [Option.map_some', submit_event.freed, List.filterMap_cons]
      have := submit_event_freed_map pkts
      simp only [submit_event.freed] at this
      rw [this]
    | some mb =>
      simp only
      by_cases hr : (mb_send_entry mb (cps_request.CPS_REQ_BGP
          { pkts := pkts, num_pkts := pkts.length,
            kni := if iface = iface_ptr.front then kni_ptr.front_kni
              else kni_ptr.back_kni })).1 < 0
      · simp only [hr, if_true, Option.map_some', submit_event.freed, List.filterMap_cons]
        have := submit_event_freed_map pkts
        simp only [submit_event.freed] at this
        rw [this]
      · simp only [hr, if_false, Option.map_some', submit_event.freed, List.filterMap_cons,
          List.filterMap_nil, List.map_nil]
  · simp only [hb, not_false_eq_true, if_true, Option.map_none']

/-- C23 as stated fails: with a slot left and no room in the queue,
`submit_bgp` takes the slot, `mb_send_entry` fails, the two packets are freed
and the error is returned, and among the calls of `submit_bgp` there is no
`mb_free_entry`: one `mb_alloc_entry`, one `mb_send_entry`, two
`rte_pktmbuf_free`. On the mailbox modelled from the spec the slab is left
with 0 free slots where it had 1; the calls are the same on a mailbox whose
`mb_send_entry` gives the slot back itself. -/
theorem submit_bgp_no_mb_free_entry :
    sample_cps_conf_mb_no_room.mailbox.free_slots = 1 ∧
    (submit_bgp_on mailbox_of_spec 32 sample_cps_conf_mb_no_room.mailbox (sample_burst 80)
      iface_ptr.back).map (fun r => (r.1, r.2.1.free_slots, r.2.2.map submit_event.kind))
      = some (-105, 0, [0, 1, 3, 3]) ∧
    (submit_bgp_on mailbox_releasing 32 sample_cps_conf_mb_no_room.mailbox (sample_burst 80)
      iface_ptr.back).map (fun r => (r.1, r.2.1.free_slots, r.2.2.map submit_event.kind))
      = some (-105, 1, [0, 1, 3, 3]) ∧
    (submit_bgp 32 sample_cps_conf_mb_no_room (sample_burst 80) iface_ptr.back).map
      (fun r => (r.1, r.2.1.mailbox.free_slots, r.2.2.length)) = some (-105, 0, 2) := by
  refine ⟨rfl, rfl, rfl, rfl⟩

/-- C23, amended. Failed send: for every implementation of the mailbox, when
`submit_bgp` allocates a slot successfully (for a burst no longer than
`gatekeeper_max_pkt_burst`) but `mb_send_entry` then fails, `submit_bgp`
returns the negative value of `mb_send_entry`; after the failed call it makes
one `rte_pktmbuf_free` per packet of the burst, in order, and no call to the
mailbox, `mb_free_entry` included; the mailbox is left in the state in which
`mb_send_entry` left it. -/
theorem submit_bgp_send_failure {σ : Type} (mbi : mailbox_impl σ) (max_burst : Nat)
    (mailbox mb mb1 : σ) (pkts : List rte_mbuf) (iface : iface_ptr) (ret : Int)
    (hburst : pkts.length ≤ max_burst % 65536)
    (halloc : mbi.mb_alloc_entry mailbox = some mb)
    (hsend : mbi.mb_send_entry mb (cps_request.CPS_REQ_BGP
      ⟨pkts, pkts.length, if iface = iface_ptr.front then kni_ptr.front_kni
        else kni_ptr.back_kni⟩) = (ret, mb1))
    (hret : ret < 0) :
    ∃ events, submit_bgp_on mbi max_burst mailbox pkts iface = some (ret, mb1, events) ∧
      events = submit_event.mb_alloc_entry ::
        submit_event.mb_send_entry (cps_request.CPS_REQ_BGP
          ⟨pkts, pkts.length, if iface = iface_ptr.front then kni_ptr.front_kni
            else kni_ptr.back_kni⟩) :: pkts.map submit_event.pktmbuf_free ∧
      (∀ e ∈ events, e.kind ≠ 2) ∧
      submit_event.freed events = pkts := by
  refine ⟨_, ?_, rfl, ?_, ?_⟩
  · simp only [submit_bgp_on, halloc, hburst, not_true_eq_false, if_false, hsend, hret, if_true]
  · intro e he
    simp only [List.mem_cons, List.mem_map] at he
    rcases he with rfl | rfl | ⟨p, -, rfl⟩ <;> simp [submit_event.kind]
  · have := submit_event_freed_map pkts
    simp only [submit_event.freed, List.filterMap_cons] at this ⊢
    exact this

/-- C23, amended, on a mailbox with one slot left and a full queue, modelled
from the spec. -/
theorem submit_bgp_send_failure_witness :
    ∃ events, submit_bgp_on mailbox_of_spec 32 sample_cps_conf_mb_no_room.mailbox
        (sample_burst 80) iface_ptr.back
        = some (-105, ⟨0, 0, sample_cps_conf_mb_no_room.mailbox.queue⟩, events) ∧
      events = submit_event.mb_alloc_entry ::
        submit_event.mb_send_entry (cps_request.CPS_REQ_BGP
          ⟨sample_burst 80, (sample_burst 80).length,
            if iface_ptr.back = iface_ptr.front then kni_ptr.front_kni
            else kni_ptr.back_kni⟩) :: (sample_burst 80).map submit_event.pktmbuf_free ∧
      (∀ e ∈ events, e.kind ≠ 2) ∧
      submit_event.freed events = sample_burst 80 :=
  submit_bgp_send_failure mailbox_of_spec 32 sample_cps_conf_mb_no_room.mailbox
    ⟨0, 0, sample_cps_conf_mb_no_room.mailbox.queue⟩
    ⟨0, 0, sample_cps_conf_mb_no_room.mailbox.queue⟩ (sample_burst 80) iface_ptr.back (-105)
    (by decide) rfl rfl (by decide)

/-! ## Extension-header fallback in `process_ipv6_acl` -/

theorem ext_calls_append (a b : List acl_event) :
    ext_calls (a ++ b) = ext_calls a ++ ext_calls b := by
  simp [ext_calls, List.filterMap_append]

theorem ext_calls_drop (pkts : List rte_mbuf) :
    ext_calls (drop_unmatched_ipv6_pkts pkts).2 = [] := by
  induction pkts with
  | nil => rfl
  | cons p pkts ih =>
    simp only [drop_unmatched_ipv6_pkts] at ih ⊢
    simpa [ext_calls, List.flatMap_cons] using ih

/-- The first element of 1-step range that satisfies a test, and the elements
before it. -/
theorem find_range_first (p : Nat → Bool) :
    ∀ n s, 1 ≤ s →
      ((((List.range' s n).find? p).getD 0 ≠ 0 →
        s ≤ ((List.range' s n).find? p).getD 0 ∧
        ((List.range' s n).find? p).getD 0 < s + n ∧
        p (((List.range' s n).find? p).getD 0) = true ∧
        ∀ j, s ≤ j → j < ((List.range' s n).find? p).getD 0 → p j = false) ∧
      (((List.range' s n).find? p).getD 0 = 0 →
        ∀ j, s ≤ j → j < s + n → p j = false)) := by
  intro n
  induction n with
  | zero =>
    intro s hs
    simp only [List.range'_zero, List.find?_nil, Option.getD_none, ne_eq, not_true_eq_false,
      false_implies, true_and]
    intro _ j h1 h2
    omega
  | succ n ih =>
    intro s hs
    rw [List.range'_succ, List.find?_cons]
    cases hp : p s with
    | true =>
      simp only [Option.getD_some]
      refine ⟨fun _ => ⟨le_refl _, by omega, hp, fun j h1 h2 => by omega⟩, fun h => by omega⟩
    | false =>
      simp only
      obtain ⟨i1, i2⟩ := ih (s + 1) (by omega)
      refine ⟨fun h => ?_, fun h => ?_⟩
      · obtain ⟨a, b, c, d⟩ := i1 h
        refine ⟨by omega, by omega, c, fun j h1 h2 => ?_⟩
        rcases Nat.eq_or_lt_of_le h1 with rfl | hlt
        · exact hp
        · exact d j hlt h2
      · intro j h1 h2
        rcases Nat.eq_or_lt_of_le h1 with rfl | hlt
        · exact hp
        · exact i2 h j hlt (by omega)

/-- The calls that the loop over the extension-header callbacks makes: the
categories from the first one tried up to the one that claims the packet, all
of them when none does. -/
theorem try_ext_funcs_calls (env : acl_env) (iface : gatekeeper_if) (pkt : rte_mbuf) :
    ∀ n s c ev, 1 ≤ s → try_ext_funcs env iface pkt (List.range' s n) = some (c, ev) →
      (c ≠ 0 → s ≤ c) ∧
      c = ((List.range' s n).find? fun j =>
        match iface.ext_funcs j with
        | some f => decide (env.ext_cb f pkt = 0)
        | none => false).getD 0 ∧
      ext_calls ev = (if c = 0 then List.range' s n else List.range' s (c + 1 - s)).filterMap
        (fun j => (iface.ext_funcs j).map fun f => (j, f, pkt)) := by
  intro n
  induction n with
  | zero =>
    intro s c ev hs h
    simp only [List.range'_zero, try_ext_funcs, Option.some.injEq, Prod.mk.injEq] at h
    obtain ⟨rfl, rfl⟩ := h
    exact ⟨fun h => absurd rfl h, rfl, rfl⟩
  | succ n ih =>
    intro s c ev hs h
    rw [List.range'_succ] at h ⊢
    rw [try_ext_funcs] at h
    cases hf : iface.ext_funcs s with
    | none => rw [hf] at h; exact absurd h (by simp)
    | some f =>
      rw [hf] at h
      simp only at h
      by_cases h0 : env.ext_cb f pkt = 0
      · rw [if_pos h0] at h
        simp only [Option.some.injEq, Prod.mk.injEq] at h
        obtain ⟨rfl, rfl⟩ := h
        refine ⟨fun _ => le_refl _, ?_, ?_⟩
        · simp [List.find?_cons, hf, h0]
        · rw [if_neg (by omega), show s + 1 - s = 1 from by omega]
          simp [ext_calls, hf]
      · rw [if_neg h0] at h
        cases hr : try_ext_funcs env iface pkt (List.range' (s + 1) n) with
        | none => rw [hr] at h; exact absurd h (by simp)
        | some r =>
          obtain ⟨c1, ev1⟩ := r
          rw [hr] at h
          simp only [Option.some.injEq, Prod.mk.injEq] at h
          obtain ⟨rfl, rfl⟩ := h
          obtain ⟨i1, i3, i2⟩ := ih (s + 1) c1 ev1 (by omega) hr
          refine ⟨fun hc => by have := i1 hc; omega, ?_, ?_⟩
          · rw [List.find?_cons]
            simp only [hf, h0, decide_False]
            exact i3
          · have hcons : ext_calls (acl_event.ext_call s f pkt :: ev1) =
                (s, f, pkt) :: ext_calls ev1 := by
              simp [ext_calls]
            rw [hcons, i2]
            by_cases hc : c1 = 0
            · rw [if_pos hc, if_pos hc, List.filterMap_cons, hf]
              rfl
            · have hle := i1 hc
              rw [if_neg hc, if_neg hc, show c1 + 1 - s = (c1 + 1 - (s + 1)) + 1 from by omega,
                List.range'_succ, List.filterMap_cons, hf]
              rfl

/-- The splitting loop asks the extension-header callbacks packet by packet,
for each packet without a match the categories 1, 2, ... up to the one that
claims it. -/
theorem split_pkts_ext_calls (env : acl_env) (iface : gatekeeper_if) (res : Nat → Nat)
    (mbufs : List rte_mbuf) :
    ∀ (i : Nat) (pkts0 : Nat → List rte_mbuf) (r : (Nat → List rte_mbuf) × List acl_event),
      split_pkts env iface res i mbufs pkts0 = some r →
      ext_calls r.2 = ext_calls_of env iface res i mbufs := by
  induction mbufs with
  | nil =>
    intro i pkts0 r h
    simp only [split_pkts, Option.some.injEq] at h
    subst h
    rfl
  | cons mbuf mbufs ih =>
    intro i pkts0 r h
    rw [split_pkts] at h
    simp only at h
    obtain ⟨c, ev, hfound, hev⟩ : ∃ c ev,
        (if res i = RTE_ACL_INVALID_USERDATA then
          try_ext_funcs env iface mbuf (List.range' 1 (iface.acl_func_count - 1))
        else some (res i, [])) = some (c, ev) ∧
        ext_calls ev = (ext_tried env iface (res i) mbuf).filterMap
          (fun j => (iface.ext_funcs j).map fun f => (j, f, mbuf)) := by
      by_cases h0 : res i = RTE_ACL_INVALID_USERDATA
      · rw [if_pos h0] at h ⊢
        cases ht : try_ext_funcs env iface mbuf (List.range' 1 (iface.acl_func_count - 1)) with
        | none => rw [ht] at h; exact absurd h (by simp)
        | some t =>
          obtain ⟨c, ev⟩ := t
          obtain ⟨-, hc, hcalls⟩ := try_ext_funcs_calls env iface mbuf _ 1 c ev (le_refl _) ht
          refine ⟨c, ev, rfl, ?_⟩
          have hcat : category_of env iface (res i) mbuf = c := by
            rw [hc]
            simp only [category_of, h0, if_true]
          rw [hcalls, ext_tried, if_pos h0, hcat, Nat.add_sub_cancel]
      · rw [if_neg h0]
        refine ⟨res i, [], rfl, ?_⟩
        rw [ext_tried, if_neg h0]
        rfl
    rw [hfound] at h
    simp only at h
    split_ifs at h with hlt
    cases hrest : split_pkts env iface res (i + 1) mbufs
        (fun k => if k = c then pkts0 k ++ [mbuf] else pkts0 k) with
    | none => rw [hrest] at h; exact absurd h (by simp)
    | some r1 =>
      rw [hrest] at h
      simp only [Option.some.injEq] at h
      subst h
      simp only [ext_calls_append, hev, ih _ _ _ hrest, ext_calls_of]

/-- The loop over the match callbacks calls no extension-header callback. -/
theorem call_acl_funcs_no_ext (env : acl_env) (iface : gatekeeper_if)
    (pkts : Nat → List rte_mbuf) (is : List Nat) :
    ∀ ev, call_acl_funcs env iface pkts is = some ev → ext_calls ev = [] := by
  induction is with
  | nil =>
    intro ev h
    simp only [call_acl_funcs, Option.some.injEq] at h
    subst h
    rfl
  | cons i is ih =>
    intro ev h
    rw [call_acl_funcs] at h
    by_cases hlen : (pkts i).length = 0
    · rw [if_pos hlen] at h
      exact ih ev h
    · rw [if_neg hlen] at h
      cases hf : iface.acl_funcs i with
      | none => rw [hf] at h; exact absurd h (by simp)
      | some f =>
        rw [hf] at h
        simp only at h
        cases hrest : call_acl_funcs env iface pkts is with
        | none => rw [hrest] at h; exact absurd h (by simp)
        | some more =>
          rw [hrest] at h
          simp only [Option.some.injEq] at h
          subst h
          have hmore := ih more hrest
          by_cases hd : f = acl_cb_func.drop_unmatched_ipv6_pkts
          · simp only [hd, if_true]
            rw [ext_calls_append, hmore, List.append_nil, ← List.singleton_append,
              ext_calls_append, ext_calls_append, ext_calls_drop]
            split_ifs <;> rfl
          · simp only [hd, if_false]
            rw [ext_calls_append, hmore, List.append_nil]
            split_ifs <;> rfl

/-- C25. Extension-header fallback order: in `process_ipv6_acl` on an
IPv6-configured interface whose categories are installed (no NULL callback),
with a classifier that succeeds and returns installed categories, the
extension-header callbacks are called packet by packet in burst order; for a
packet whose classifier result is 0 the callbacks of the categories 1, 2, ...
are called in increasing order up to and including the first that returns 0,
which becomes the packet's category, and no later one is called (all of
1, ..., count - 1 are called when none returns 0, and the category is 0); for
a packet with a non-zero result no extension-header callback is called and the
category is that result; every packet goes to the match callback of its
category. -/
theorem process_ipv6_acl_ext_fallback (env : acl_env) (iface : gatekeeper_if)
    (lcore_id : Nat) (acl : acl_search)
    (hcfg : iface.configured_proto &&& GK_CONFIGURED_IPV6 ≠ 0)
    (hcls : 0 ≤ (env.rte_acl_classify
      (iface.ipv6_acls (env.rte_lcore_to_socket_id lcore_id)) acl.data).1)
    (hres : ∀ k, k < (acl.mbufs.take acl.num).length →
      (env.rte_acl_classify (iface.ipv6_acls (env.rte_lcore_to_socket_id lcore_id))
        acl.data).2 k < iface.acl_func_count)
    (hcount : 1 ≤ iface.acl_func_count)
    (hext : ∀ j, 1 ≤ j → j < iface.acl_func_count → iface.ext_funcs j ≠ none)
    (hacl : ∀ i, i < iface.acl_func_count → iface.acl_funcs i ≠ none) :
    ∃ (acl1 : acl_search) (events : List acl_event) (cats : List Nat),
      process_ipv6_acl env iface lcore_id acl = some (0, acl1, events) ∧
      cats = categories env iface (env.rte_acl_classify
        (iface.ipv6_acls (env.rte_lcore_to_socket_id lcore_id)) acl.data).2 0
        (acl.mbufs.take acl.num) ∧
      ext_calls events = ext_calls_of env iface (env.rte_acl_classify
        (iface.ipv6_acls (env.rte_lcore_to_socket_id lcore_id)) acl.data).2 0
        (acl.mbufs.take acl.num) ∧
      acl_calls events = (List.range iface.acl_func_count).filterMap (fun i =>
        if (category_pkts (acl.mbufs.take acl.num) cats i).length = 0 then none
        else (iface.acl_funcs i).map fun f =>
          (i, f, category_pkts (acl.mbufs.take acl.num) cats i)) ∧
      ∀ k pkt, (acl.mbufs.take acl.num).get? k = some pkt →
        ∃ c, cats.get? k = some c ∧
          ((env.rte_acl_classify (iface.ipv6_acls (env.rte_lcore_to_socket_id lcore_id))
              acl.data).2 k ≠ 0 →
            c = (env.rte_acl_classify (iface.ipv6_acls (env.rte_lcore_to_socket_id lcore_id))
              acl.data).2 k ∧
            ext_tried env iface ((env.rte_acl_classify
              (iface.ipv6_acls (env.rte_lcore_to_socket_id lcore_id)) acl.data).2 k) pkt = []) ∧
          ((env.rte_acl_classify (iface.ipv6_acls (env.rte_lcore_to_socket_id lcore_id))
              acl.data).2 k = 0 → c ≠ 0 →
            ext_tried env iface ((env.rte_acl_classify
              (iface.ipv6_acls (env.rte_lcore_to_socket_id lcore_id)) acl.data).2 k) pkt
              = List.range' 1 c ∧
            1 ≤ c ∧ c < iface.acl_func_count ∧
            (∃ f, iface.ext_funcs c = some f ∧ env.ext_cb f pkt = 0) ∧
            ∀ j f, 1 ≤ j → j < c → iface.ext_funcs j = some f → env.ext_cb f pkt ≠ 0) ∧
          ((env.rte_acl_classify (iface.ipv6_acls (env.rte_lcore_to_socket_id lcore_id))
              acl.data).2 k = 0 → c = 0 →
            ext_tried env iface ((env.rte_acl_classify
              (iface.ipv6_acls (env.rte_lcore_to_socket_id lcore_id)) acl.data).2 k) pkt
              = List.range' 1 (iface.acl_func_count - 1) ∧
            ∀ j f, 1 ≤ j → j < iface.acl_func_count → iface.ext_funcs j = some f →
              env.ext_cb f pkt ≠ 0) := by
  generalize hsock : env.rte_lcore_to_socket_id lcore_id = socket_id at hcls hres ⊢
  generalize hcl : env.rte_acl_classify (iface.ipv6_acls socket_id) acl.data = cl at hcls hres ⊢
  obtain ⟨ret, res⟩ := cl
  simp only at hcls hres
  generalize hm : acl.mbufs.take acl.num = mbufs at hres ⊢
  obtain ⟨ev1, hsplit, hall1⟩ := split_pkts_eq env iface res hcount hext mbufs 0 (fun _ => [])
    (fun k hk => by simpa using hres k hk)
  obtain ⟨e1, -, -⟩ := acl_events_of_ext ev1 hall1
  obtain ⟨ev2, hcall, c1, -, -⟩ := call_acl_funcs_eq env iface
    (fun k => [] ++ category_pkts mbufs (categories env iface res 0 mbufs) k)
    (List.range iface.acl_func_count) (fun i hi => hacl i (List.mem_range.mp hi))
  have x1 := split_pkts_ext_calls env iface res mbufs 0 _ _ hsplit
  have x2 := call_acl_funcs_no_ext env iface _ _ ev2 hcall
  simp only [List.nil_append] at hsplit hcall c1 x1
  dsimp only
  refine ⟨{ acl with res := res, num := 0 }, ev1 ++ ev2, _, ?_, rfl, ?_, ?_, ?_⟩
  · simp only [process_ipv6_acl, hsock, hcl, hm, if_neg hcfg, if_neg (not_lt.mpr hcls), hsplit,
      hcall]
  · rw [ext_calls_append, x1, x2, List.append_nil]
  · rw [acl_calls_append, e1, List.nil_append, c1]
  · intro k pkt hk
    refine ⟨category_of env iface (res k) pkt, ?_, ?_, ?_, ?_⟩
    · rw [categories_get, hk, Option.map_some', Nat.zero_add]
    · intro hne
      simp only [category_of, ext_tried, RTE_ACL_INVALID_USERDATA, hne, if_false, and_self]
    · intro h0 hc
      have hf := (find_range_first (fun j =>
        match iface.ext_funcs j with
        | some f => decide (env.ext_cb f pkt = 0)
        | none => false) (iface.acl_func_count - 1) 1 (le_refl _)).1
      have hcat : category_of env iface (res k) pkt =
          ((List.range' 1 (iface.acl_func_count - 1)).find? fun j =>
            match iface.ext_funcs j with
            | some f => decide (env.ext_cb f pkt = 0)
            | none => false).getD 0 := by
        simp only [category_of, RTE_ACL_INVALID_USERDATA, h0, if_true]
      rw [← hcat] at hf
      obtain ⟨a, b, c, d⟩ := hf hc
      refine ⟨?_, a, by omega, ?_, ?_⟩
      · unfold ext_tried
        rw [if_pos (show res k = RTE_ACL_INVALID_USERDATA from h0), if_neg hc]
      · cases hfc : iface.ext_funcs (category_of env iface (res k) pkt) with
        | none => rw [hfc] at c; exact absurd c (by simp)
        | some f =>
          rw [hfc] at c
          exact ⟨f, rfl, by simpa using c⟩
      · intro j f hj1 hj2 hfj hcb
        have := d j hj1 hj2
        simp [hfj, hcb] at this
    · intro h0 hc
      have hf := (find_range_first (fun j =>
        match iface.ext_funcs j with
        | some f => decide (env.ext_cb f pkt = 0)
        | none => false) (iface.acl_func_count - 1) 1 (le_refl _)).2
      have hcat : category_of env iface (res k) pkt =
          ((List.range' 1 (iface.acl_func_count - 1)).find? fun j =>
            match iface.ext_funcs j with
            | some f => decide (env.ext_cb f pkt = 0)
            | none => false).getD 0 := by
        simp only [category_of, RTE_ACL_INVALID_USERDATA, h0, if_true]
      rw [← hcat] at hf
      refine ⟨?_, ?_⟩
      · unfold ext_tried
        rw [if_pos (show res k = RTE_ACL_INVALID_USERDATA from h0), if_pos hc]
      · intro j f hj1 hj2 hfj hcb
        have := hf hc j hj1 (by omega)
        simp [hfj, hcb] at this

theorem sample_ext_iface_count : sample_ext_iface.acl_func_count = 3 := rfl

/-- The sample burst, evaluated: no callback claims the first packet, so both
extension-header callbacks are asked; the second is claimed by category 1
and category 2 is not asked; the third is claimed by category 2 after
category 1; the fourth has a match and no callback is asked. -/
theorem process_ipv6_acl_ext_sample :
    (process_ipv6_acl sample_ext_env sample_ext_iface 0 sample_ext_search).map
      (fun r => (r.1, (ext_calls r.2.2).map (fun x => (x.1, x.2.2.data_len)),
        (acl_calls r.2.2).map (fun x => (x.1, x.2.2.map (fun p => p.data_len))))) =
    some (0, [(1, 60), (2, 60), (1, 74), (1, 90), (2, 90)],
      [(0, [60]), (1, [74]), (2, [90, 100])]) := rfl

/-- C25 on a burst of four packets and an interface with two categories after
the drop category. -/
theorem process_ipv6_acl_ext_fallback_witness :
    ∃ (acl1 : acl_search) (events : List acl_event) (cats : List Nat),
      process_ipv6_acl sample_ext_env sample_ext_iface 0 sample_ext_search
        = some (0, acl1, events) ∧
      cats = categories sample_ext_env sample_ext_iface (sample_ext_env.rte_acl_classify
        (sample_ext_iface.ipv6_acls (sample_ext_env.rte_lcore_to_socket_id 0))
        sample_ext_search.data).2 0
        (sample_ext_search.mbufs.take sample_ext_search.num) ∧
      ext_calls events = ext_calls_of sample_ext_env sample_ext_iface
        (sample_ext_env.rte_acl_classify
          (sample_ext_iface.ipv6_acls (sample_ext_env.rte_lcore_to_socket_id 0))
          sample_ext_search.data).2 0
        (sample_ext_search.mbufs.take sample_ext_search.num) ∧
      acl_calls events = (List.range sample_ext_iface.acl_func_count).filterMap (fun i =>
        if (category_pkts (sample_ext_search.mbufs.take sample_ext_search.num) cats i).length
          = 0 then none
        else (sample_ext_iface.acl_funcs i).map fun f =>
          (i, f, category_pkts (sample_ext_search.mbufs.take sample_ext_search.num) cats i)) ∧
      ∀ k pkt, (sample_ext_search.mbufs.take sample_ext_search.num).get? k = some pkt →
        ∃ c, cats.get? k = some c ∧
          ((sample_ext_env.rte_acl_classify
              (sample_ext_iface.ipv6_acls (sample_ext_env.rte_lcore_to_socket_id 0))
              sample_ext_search.data).2 k ≠ 0 →
            c = (sample_ext_env.rte_acl_classify
              (sample_ext_iface.ipv6_acls (sample_ext_env.rte_lcore_to_socket_id 0))
              sample_ext_search.data).2 k ∧
            ext_tried sample_ext_env sample_ext_iface ((sample_ext_env.rte_acl_classify
              (sample_ext_iface.ipv6_acls (sample_ext_env.rte_lcore_to_socket_id 0))
              sample_ext_search.data).2 k) pkt = []) ∧
          ((sample_ext_env.rte_acl_classify
              (sample_ext_iface.ipv6_acls (sample_ext_env.rte_lcore_to_socket_id 0))
              sample_ext_search.data).2 k = 0 → c ≠ 0 →
            ext_tried sample_ext_env sample_ext_iface ((sample_ext_env.rte_acl_classify
              (sample_ext_iface.ipv6_acls (sample_ext_env.rte_lcore_to_socket_id 0))
              sample_ext_search.data).2 k) pkt = List.range' 1 c ∧
            1 ≤ c ∧ c < sample_ext_iface.acl_func_count ∧
            (∃ f, sample_ext_iface.ext_funcs c = some f ∧ sample_ext_env.ext_cb f pkt = 0) ∧
            ∀ j f, 1 ≤ j → j < c → sample_ext_iface.ext_funcs j = some f →
              sample_ext_env.ext_cb f pkt ≠ 0) ∧
          ((sample_ext_env.rte_acl_classify
              (sample_ext_iface.ipv6_acls (sample_ext_env.rte_lcore_to_socket_id 0))
              sample_ext_search.data).2 k = 0 → c = 0 →
            ext_tried sample_ext_env sample_ext_iface ((sample_ext_env.rte_acl_classify
              (sample_ext_iface.ipv6_acls (sample_ext_env.rte_lcore_to_socket_id 0))
              sample_ext_search.data).2 k) pkt
              = List.range' 1 (sample_ext_iface.acl_func_count - 1) ∧
            ∀ j f, 1 ≤ j → j < sample_ext_iface.acl_func_count →
              sample_ext_iface.ext_funcs j = some f → sample_ext_env.ext_cb f pkt ≠ 0) :=
  process_ipv6_acl_ext_fallback sample_ext_env sample_ext_iface 0 sample_ext_search
    (by decide) (by decide)
    (fun k _ => by
      show (if k = 3 then 2 else 0) < 3
      split_ifs <;> omega)
    (by decide)
    (fun j h1 h2 => by
      rw [sample_ext_iface_count] at h2
      interval_cases j <;> decide)
    (fun i h2 => by
      rw [sample_ext_iface_count] at h2
      interval_cases i <;> decide)

/-! ## The contexts of the NUMA nodes -/

/-- A loop of `register_ipv6_acl` that returns 0 has appended the rules to the
contexts of the nodes it ran over and has left the others alone. -/
theorem add_rules_loop_ok (env : acl_env) (rules : List ipv6_acl_rule) :
    ∀ (n i : Nat) (acls : Nat → Option rte_acl_ctx),
      (add_rules_loop env rules n i acls).1 = 0 →
      ∀ k, (add_rules_loop env rules n i acls).2 k =
        if i ≤ k ∧ k < i + n then
          (acls k).map fun ctx => { ctx with rules := ctx.rules ++ rules }
        else acls k := by
  intro n
  induction n with
  | zero =>
    intro i acls _ k
    simp only [add_rules_loop]
    rw [if_neg (by omega)]
  | succ n ih =>
    intro i acls h k
    rw [add_rules_loop] at h ⊢
    simp only at h ⊢
    by_cases hret : env.rte_acl_add_rules (acls i) rules < 0
    · rw [if_pos hret] at h
      simp only at h
      omega
    · rw [if_neg hret] at h ⊢
      rw [ih _ _ h k]
      by_cases hk : k = i
      · subst hk
        rw [if_neg (by omega), if_pos rfl, if_pos (by omega)]
      · rw [if_neg hk]
        by_cases hr : i + 1 ≤ k ∧ k < i + 1 + n
        · rw [if_pos hr, if_pos (by omega)]
        · rw [if_neg hr, if_neg (by omega)]

/-- The loop of `register_ipv6_acl` returns 0 or the negative value of the
first failure. -/
theorem add_rules_loop_ret (env : acl_env) (rules : List ipv6_acl_rule) :
    ∀ (n i : Nat) (acls : Nat → Option rte_acl_ctx),
      (add_rules_loop env rules n i acls).1 ≤ 0 := by
  intro n
  induction n with
  | zero => intro i acls; exact le_refl _
  | succ n ih =>
    intro i acls
    rw [add_rules_loop]
    simp only
    split_ifs with hret
    · exact le_of_lt hret
    · exact ih _ _

/-- A call of `register_ipv6_acl` that returns 0 has appended the rules, with
their userdata, to the context of every node. -/
theorem register_ipv6_acl_ok (env : acl_env) (rules : List ipv6_acl_rule)
    (cb_f : Option acl_cb_func) (ext_cb_f : Option ext_cb_func) (iface : gatekeeper_if)
    (h : (register_ipv6_acl env rules cb_f ext_cb_f iface).ret = 0) :
    ∀ k, k < env.numa_nodes →
      (register_ipv6_acl env rules cb_f ext_cb_f iface).iface.ipv6_acls k =
        (iface.ipv6_acls k).map fun ctx =>
          { ctx with rules := ctx.rules ++
            (register_ipv6_acl env rules cb_f ext_cb_f iface).ipv6_rules } := by
  intro k hk
  unfold register_ipv6_acl at h ⊢
  by_cases hfull : iface.acl_func_count = GATEKEEPER_IPV6_ACL_MAX
  · rw [if_pos hfull] at h
    simp at h
  · rw [if_neg hfull] at h ⊢
    simp only at h ⊢
    generalize hr : rules.map (fun r =>
      { r with data := { r.data with userdata := iface.acl_func_count } }) = rules1 at h ⊢
    have hloop := add_rules_loop_ok env rules1 env.numa_nodes 0 iface.ipv6_acls
    by_cases hret : (add_rules_loop env rules1 env.numa_nodes 0 iface.ipv6_acls).1 < 0
    · rw [if_pos hret] at h
      simp only at h
      omega
    · rw [if_neg hret] at h ⊢
      have h0 : (add_rules_loop env rules1 env.numa_nodes 0 iface.ipv6_acls).1 = 0 := by
        have := add_rules_loop_ret env rules1 env.numa_nodes 0 iface.ipv6_acls
        omega
      simp only
      rw [hloop h0 k, if_pos (by omega)]

/-- A loop of `init_ipv6_acls` that succeeds has given every node it ran over
an empty context. -/
theorem create_acls_loop_ok (env : acl_env) (name : List Char) :
    ∀ (n i : Nat) (acls acls1 : Nat → Option rte_acl_ctx),
      create_acls_loop env name n i acls = some (true, acls1) →
      ∀ k, acls1 k = if i ≤ k ∧ k < i + n then some ⟨[], false⟩ else acls k := by
  intro n
  induction n with
  | zero =>
    intro i acls acls1 h k
    simp only [create_acls_loop, Option.some.injEq, Prod.mk.injEq, true_and] at h
    subst h
    rw [if_neg (by omega)]
  | succ n ih =>
    intro i acls acls1 h k
    rw [create_acls_loop] at h
    by_cases hname : acl_name_len name i < 64
    · rw [if_pos hname] at h
      by_cases hc : env.rte_acl_create i = true
      · rw [if_pos hc] at h
        rw [ih _ _ _ h k]
        by_cases hk : k = i
        · subst hk
          rw [if_neg (by omega), if_pos rfl, if_pos (by omega)]
        · rw [if_neg hk]
          by_cases hr : i + 1 ≤ k ∧ k < i + 1 + n
          · rw [if_pos hr, if_pos (by omega)]
          · rw [if_neg hr, if_neg (by omega)]
      · rw [if_neg hc] at h
        simp at h
    · rw [if_neg hname] at h
      exact absurd h (by simp)

/-- After a successful `init_ipv6_acls` every node has an empty context that
is not built. -/
theorem init_ipv6_acls_contexts (env : acl_env) (iface iface1 : gatekeeper_if)
    (h : init_ipv6_acls env iface = some (0, iface1)) :
    ∀ k, k < env.numa_nodes → iface1.ipv6_acls k = some ⟨[], false⟩ := by
  intro k hk
  unfold init_ipv6_acls at h
  cases hn : iface.name with
  | none => rw [hn] at h; exact absurd h (by simp)
  | some name =>
    rw [hn] at h
    simp only at h
    cases hl : create_acls_loop env name env.numa_nodes 0 iface.ipv6_acls with
    | none => rw [hl] at h; exact absurd h (by simp)
    | some r =>
      obtain ⟨ok, acls1⟩ := r
      rw [hl] at h
      cases ok with
      | false =>
        simp only [Option.some.injEq, Prod.mk.injEq] at h
        exact absurd h.1 (by decide)
      | true =>
        simp only [Option.some.injEq, Prod.mk.injEq, true_and] at h
        subst h
        simp only
        rw [create_acls_loop_ok env name _ _ _ _ hl k, if_pos (by omega)]

/-- A loop of `build_ipv6_acls` that returns 0 has built the contexts of the
nodes it ran over and has left the others alone. -/
theorem build_acls_loop_ok (env : acl_env) :
    ∀ (n i : Nat) (acls : Nat → Option rte_acl_ctx),
      (build_acls_loop env n i acls).1 = 0 →
      ∀ k, (build_acls_loop env n i acls).2 k =
        if i ≤ k ∧ k < i + n then (acls k).map fun ctx => { ctx with built := true }
        else acls k := by
  intro n
  induction n with
  | zero =>
    intro i acls _ k
    simp only [build_acls_loop]
    rw [if_neg (by omega)]
  | succ n ih =>
    intro i acls h k
    rw [build_acls_loop] at h ⊢
    simp only at h ⊢
    by_cases hret : env.rte_acl_build (acls i) < 0
    · rw [if_pos hret] at h
      simp only at h
      omega
    · rw [if_neg hret] at h ⊢
      rw [ih _ _ h k]
      by_cases hk : k = i
      · subst hk
        rw [if_neg (by omega), if_pos rfl, if_pos (by omega)]
      · rw [if_neg hk]
        by_cases hr : i + 1 ≤ k ∧ k < i + 1 + n
        · rw [if_pos hr, if_pos (by omega)]
        · rw [if_neg hr, if_neg (by omega)]

theorem register_ipv6_acl_seq_length (env : acl_env) (calls : List register_call) :
    ∀ iface, (register_ipv6_acl_seq env iface calls).length = calls.length := by
  induction calls with
  | nil => intro iface; rfl
  | cons c cs ih => intro iface; simp [register_ipv6_acl_seq, ih]

/-- After a sequence of `register_ipv6_acl` calls that all return 0, the
context of every node holds the rules it held before followed by the rules of
the calls, in the order of the calls. -/
theorem register_ipv6_acl_seq_contexts (env : acl_env) (calls : List register_call) :
    ∀ (iface : gatekeeper_if),
      (∀ r ∈ register_ipv6_acl_seq env iface calls, r.ret = 0) →
      ∀ k, k < env.numa_nodes →
        (iface_before iface (register_ipv6_acl_seq env iface calls) calls.length).ipv6_acls k =
          (iface.ipv6_acls k).map fun ctx =>
            { ctx with rules := ctx.rules ++
              registered_rules (register_ipv6_acl_seq env iface calls) } := by
  induction calls with
  | nil =>
    intro iface _ k _
    simp only [register_ipv6_acl_seq, registered_rules, List.map_nil, List.flatten_nil,
      List.append_nil, List.length_nil, iface_before]
    cases iface.ipv6_acls k <;> rfl
  | cons c cs ih =>
    intro iface hok k hk
    simp only [register_ipv6_acl_seq] at hok ⊢
    have h1 := hok _ (List.mem_cons_self _ _)
    have hrest := ih (register_ipv6_acl env c.ipv6_rules c.cb_f c.ext_cb_f iface).iface
      (fun r hr => hok r (List.mem_cons_of_mem _ hr)) k hk
    have hstep := register_ipv6_acl_ok env c.ipv6_rules c.cb_f c.ext_cb_f iface h1 k hk
    have hb : iface_before iface
        (register_ipv6_acl env c.ipv6_rules c.cb_f c.ext_cb_f iface ::
          register_ipv6_acl_seq env
            (register_ipv6_acl env c.ipv6_rules c.cb_f c.ext_cb_f iface).iface cs)
        (c :: cs).length =
        iface_before (register_ipv6_acl env c.ipv6_rules c.cb_f c.ext_cb_f iface).iface
          (register_ipv6_acl_seq env
            (register_ipv6_acl env c.ipv6_rules c.cb_f c.ext_cb_f iface).iface cs)
          cs.length := by
      cases cs with
      | nil => rfl
      | cons c2 cs2 =>
        have hlen := register_ipv6_acl_seq_length env (c2 :: cs2)
          (register_ipv6_acl env c.ipv6_rules c.cb_f c.ext_cb_f iface).iface
        cases hg : (register_ipv6_acl_seq env
            (register_ipv6_acl env c.ipv6_rules c.cb_f c.ext_cb_f iface).iface
            (c2 :: cs2)).get? cs2.length with
        | none =>
          rw [List.get?_eq_none] at hg
          rw [hlen, List.length_cons] at hg
          omega
        | some x =>
          simp only [iface_before, List.length_cons, List.get?_cons_succ, hg, Option.map_some',
            Option.getD_some]
    rw [hb, hrest, hstep]
    cases iface.ipv6_acls k with
    | none => rfl
    | some ctx =>
      simp only [Option.map_some', registered_rules, List.map_cons, List.flatten_cons,
        List.append_assoc]

theorem successes_before_all (results : List register_result)
    (hok : ∀ r ∈ results, r.ret = 0) (i : Nat) (hi : i ≤ results.length) :
    successes_before results i = i := by
  unfold successes_before
  rw [List.filter_eq_self.mpr (fun r hr => by
    simpa using hok r (List.mem_of_mem_take hr))]
  simp [hi]

/-- C26. ACL contexts of the NUMA nodes: after a successful `init_ipv6_acls`
and any sequence of `register_ipv6_acl` calls that all return 0, the rules of
the i-th call carry the category id 1 + i, and the context of every NUMA node
of the interface holds the same rules, in the same order, with these ids; the
same holds after a `build_ipv6_acls` that returns 0, which builds every
context. The contexts of any two nodes being equal, `rte_acl_classify` returns
the same value and the same categories for the same packet data on each of
them. -/
theorem ipv6_acls_same_on_all_nodes (env : acl_env) (iface0 iface1 : gatekeeper_if)
    (calls : List register_call)
    (hinit : init_ipv6_acls env iface0 = some (0, iface1))
    (hok : ∀ r ∈ register_ipv6_acl_seq env iface1 calls, r.ret = 0)
    (hbuild : (build_ipv6_acls env
      (iface_before iface1 (register_ipv6_acl_seq env iface1 calls) calls.length)).1 = 0) :
    (∀ i r, (register_ipv6_acl_seq env iface1 calls).get? i = some r →
      ∀ rule ∈ r.ipv6_rules, rule.data.userdata = 1 + i) ∧
    (∀ k, k < env.numa_nodes →
      (iface_before iface1 (register_ipv6_acl_seq env iface1 calls) calls.length).ipv6_acls k =
        some ⟨registered_rules (register_ipv6_acl_seq env iface1 calls), false⟩) ∧
    (∀ k, k < env.numa_nodes →
      (build_ipv6_acls env (iface_before iface1 (register_ipv6_acl_seq env iface1 calls)
        calls.length)).2.ipv6_acls k =
        some ⟨registered_rules (register_ipv6_acl_seq env iface1 calls), true⟩) ∧
    (∀ a b, a < env.numa_nodes → b < env.numa_nodes → ∀ data,
      env.rte_acl_classify ((build_ipv6_acls env (iface_before iface1
        (register_ipv6_acl_seq env iface1 calls) calls.length)).2.ipv6_acls a) data =
      env.rte_acl_classify ((build_ipv6_acls env (iface_before iface1
        (register_ipv6_acl_seq env iface1 calls) calls.length)).2.ipv6_acls b) data) := by
  have hctx : ∀ k, k < env.numa_nodes →
      (iface_before iface1 (register_ipv6_acl_seq env iface1 calls) calls.length).ipv6_acls k =
        some ⟨registered_rules (register_ipv6_acl_seq env iface1 calls), false⟩ := by
    intro k hk
    rw [register_ipv6_acl_seq_contexts env calls iface1 hok k hk,
      init_ipv6_acls_contexts env iface0 iface1 hinit k hk]
    simp
  have hbuilt : ∀ k, k < env.numa_nodes →
      (build_ipv6_acls env (iface_before iface1 (register_ipv6_acl_seq env iface1 calls)
        calls.length)).2.ipv6_acls k =
        some ⟨registered_rules (register_ipv6_acl_seq env iface1 calls), true⟩ := by
    intro k hk
    simp only [build_ipv6_acls] at hbuild ⊢
    rw [build_acls_loop_ok env _ _ _ hbuild k, if_pos (by omega), hctx k hk]
    rfl
  refine ⟨?_, hctx, hbuilt, ?_⟩
  · intro i r hr rule hrule
    have hlen := register_ipv6_acl_seq_length env calls iface1
    have hi : i < (register_ipv6_acl_seq env iface1 calls).length := by
      by_contra hge
      rw [List.get?_eq_none.mpr (by omega)] at hr
      exact absurd hr (by simp)
    cases hc : calls.get? i with
    | none =>
      rw [List.get?_eq_none] at hc
      omega
    | some c =>
      have hstep := register_ipv6_acl_seq_step env calls iface1 1
        (init_ipv6_acls_ok env iface0 iface1 hinit).2.2 (by omega) i r c hr hc
        (hok r (List.get?_mem hr))
      rw [successes_before_all _ hok i (le_of_lt hi)] at hstep
      exact hstep.2.1 rule hrule
  · intro a b ha hb data
    rw [hbuilt a ha, hbuilt b hb]

theorem sample_register_calls_ok :
    ∀ r ∈ register_ipv6_acl_seq sample_acl_env_two sample_acl_iface_two sample_register_calls,
      r.ret = 0 := by
  intro r hr
  simp only [sample_register_calls, register_ipv6_acl_seq, List.mem_cons, List.mem_singleton,
    List.not_mem_nil, or_false] at hr
  rcases hr with rfl | rfl <;> rfl

/-- C26 on a host with two NUMA nodes and two registrations. -/
theorem ipv6_acls_same_on_all_nodes_witness :
    (∀ i r, (register_ipv6_acl_seq sample_acl_env_two sample_acl_iface_two
        sample_register_calls).get? i = some r →
      ∀ rule ∈ r.ipv6_rules, rule.data.userdata = 1 + i) ∧
    (∀ k, k < sample_acl_env_two.numa_nodes →
      (iface_before sample_acl_iface_two (register_ipv6_acl_seq sample_acl_env_two
        sample_acl_iface_two sample_register_calls) sample_register_calls.length).ipv6_acls k =
        some ⟨registered_rules (register_ipv6_acl_seq sample_acl_env_two sample_acl_iface_two
          sample_register_calls), false⟩) ∧
    (∀ k, k < sample_acl_env_two.numa_nodes →
      (build_ipv6_acls sample_acl_env_two (iface_before sample_acl_iface_two
        (register_ipv6_acl_seq sample_acl_env_two sample_acl_iface_two sample_register_calls)
        sample_register_calls.length)).2.ipv6_acls k =
        some ⟨registered_rules (register_ipv6_acl_seq sample_acl_env_two sample_acl_iface_two
          sample_register_calls), true⟩) ∧
    (∀ a b, a < sample_acl_env_two.numa_nodes → b < sample_acl_env_two.numa_nodes → ∀ data,
      sample_acl_env_two.rte_acl_classify ((build_ipv6_acls sample_acl_env_two
        (iface_before sample_acl_iface_two (register_ipv6_acl_seq sample_acl_env_two
          sample_acl_iface_two sample_register_calls)
          sample_register_calls.length)).2.ipv6_acls a) data =
      sample_acl_env_two.rte_acl_classify ((build_ipv6_acls sample_acl_env_two
        (iface_before sample_acl_iface_two (register_ipv6_acl_seq sample_acl_env_two
          sample_acl_iface_two sample_register_calls)
          sample_register_calls.length)).2.ipv6_acls b) data) :=
  ipv6_acls_same_on_all_nodes sample_acl_env_two sample_named_iface sample_acl_iface_two
    sample_register_calls rfl sample_register_calls_ok rfl

/-- The sample host, evaluated: after the two registrations and the build,
both nodes hold the two BGP rules with category id 1 followed by the third
rule with category id 2, and the classifier gives the same category on
both. -/
theorem ipv6_acls_sample :
    (List.range 2).map (fun k =>
      (((build_ipv6_acls sample_acl_env_two (iface_before sample_acl_iface_two
        (register_ipv6_acl_seq sample_acl_env_two sample_acl_iface_two sample_register_calls)
        sample_register_calls.length)).2.ipv6_acls k).map fun ctx =>
          (ctx.rules.map (fun r => r.data.userdata), ctx.built),
       (sample_acl_env_two.rte_acl_classify ((build_ipv6_acls sample_acl_env_two
          (iface_before sample_acl_iface_two (register_ipv6_acl_seq sample_acl_env_two
            sample_acl_iface_two sample_register_calls)
            sample_register_calls.length)).2.ipv6_acls k) []).2 0)) =
    [(some ([1, 1, 2], true), 1), (some ([1, 1, 2], true), 1)] := by
  decide

end Gatekeeper
